import Mathlib

/-!
Box collections and mesh pairs of Chaste: index arithmetic, stencils, containing boxes, node
pairs, halo boxes, load balancing and the point locator of a fine and a coarse mesh

A shallow embedding of `mesh/src/utilities/DistributedBoxCollection.cpp` and of
`pde/src/common/FineCoarseMeshPair.cpp`, and the properties proved about them. Unsigned 32-bit
arithmetic is modelled on `Nat` with explicit wrap-around, `int` on `Int` with two-complement
wrap-around, `double` by exact rationals and, where rounding decides the outcome, by rationals
rounded to binary64 after every operation (the definitions named `Double`).
-/

set_option linter.all false

namespace Chaste

/-- Sum of two C++ `unsigned` (32-bit) values, wrapping modulo 2^32. -/
def uadd (a b : Nat) : Nat := (a + b) % 4294967296

/-- Difference of two C++ `unsigned` (32-bit) values, wrapping modulo 2^32. -/
def usub (a b : Nat) : Nat := (a + 4294967296 - b % 4294967296) % 4294967296

/-- Product of two C++ `unsigned` (32-bit) values, wrapping modulo 2^32. -/
def umul (a b : Nat) : Nat := (a * b) % 4294967296

/-- The template parameter `DIM`; the class is explicitly instantiated for 1, 2 and 3 only. -/
inductive Dim where
  | one
  | two
  | three
deriving DecidableEq, Repr

/-- Numeric value of the template parameter. -/
def Dim.toNat : Dim → Nat
  | .one => 1
  | .two => 2
  | .three => 3

/-- The member function `DistributedBoxCollection::CalculateGlobalIndex`; `N` is `mNumBoxesEachDirection`. -/
def CalculateGlobalIndex (DIM : Dim) (N : List Nat) (coordinateIndices : List Nat) : Nat :=
  (List.range DIM.toNat).foldl
    (fun containing_box_index i =>
      let temp := (List.range i).foldl (fun temp j => umul temp (N.getD j 0)) 1
      uadd containing_box_index (umul temp (coordinateIndices.getD i 0)))
    0

/-- The member function `DistributedBoxCollection::CalculateCoordinateIndices`; `N` is `mNumBoxesEachDirection`. -/
def CalculateCoordinateIndices (DIM : Dim) (N : List Nat) (globalIndex : Nat) : List Nat :=
  match DIM with
  | .one => [globalIndex]
  | .two =>
    let remainder := globalIndex % N.getD 0 0
    [remainder, globalIndex / N.getD 0 0]
  | .three =>
    let remainder1 := globalIndex % umul (N.getD 0 0) (N.getD 1 0)
    let remainder2 := remainder1 % N.getD 0 0
    let i0 := remainder2
    let i1 := (usub globalIndex i0 / N.getD 0 0) % N.getD 1 0
    let i2 := usub (usub globalIndex i0) (umul (N.getD 0 0) i1) / umul (N.getD 0 0) (N.getD 1 0)
    [i0, i1, i2]

/-- The guarded statement `if (c) { local_boxes.insert(v); }`. -/
def condInsert (c : Bool) (v : Nat) (local_boxes : Finset Nat) : Finset Nat :=
  if c then insert v local_boxes else local_boxes

/-- Loop body of `SetupLocalBoxesHalfOnly`, `case 1`: the `std::set` built for `global_index`.
`low` is `mpDistributedBoxStackFactory->GetLow()`. -/
def SetupLocalBoxesHalfOnly.case1 (N : List Nat) (low : Nat) (global_index : Nat) : Finset Nat :=
  let local_boxes : Finset Nat := ∅
  let local_boxes := insert global_index local_boxes
  let right : Bool := global_index == usub (N.getD 0 0) 1
  let left : Bool := global_index == 0
  let proc_left : Bool := global_index == low
  let local_boxes := condInsert (!right) (uadd global_index 1) local_boxes
  let local_boxes := condInsert (proc_left && !left) (usub global_index 1) local_boxes
  local_boxes

/-- Loop body of `SetupLocalBoxesHalfOnly`, `case 2`. `numLocalBoxes` is `mBoxes.size()`;
the comparison against `mBoxes.size() - N0` is carried out in `size_t` (64 bits). -/
def SetupLocalBoxesHalfOnly.case2 (N : List Nat) (low : Nat) (mIsPeriodicInX : Bool)
    (numLocalBoxes : Nat) (global_index : Nat) : Finset Nat :=
  let N0 := N.getD 0 0
  let N1 := N.getD 1 0
  let local_boxes : Finset Nat := ∅
  let left : Bool := global_index % N0 == 0
  let right : Bool := global_index % N0 == usub N0 1
  let top : Bool := !(decide (global_index < usub (umul N0 N1) N0))
  let bottom : Bool := decide (global_index < N0)
  let bottom_proc : Bool := (CalculateCoordinateIndices .two N global_index).getD 1 0 == low
  let local_boxes := insert global_index local_boxes
  let local_boxes :=
    if !bottom && bottom_proc then
      let local_boxes := insert (usub global_index N0) local_boxes
      let local_boxes := condInsert (!left) (usub (usub global_index N0) 1) local_boxes
      let local_boxes := condInsert (!right) (uadd (usub global_index N0) 1) local_boxes
      local_boxes
    else local_boxes
  let local_boxes :=
    if !top then
      let local_boxes := insert (uadd global_index N0) local_boxes
      let local_boxes := condInsert (!right) (uadd (uadd global_index N0) 1) local_boxes
      let local_boxes :=
        if !left then insert (usub (uadd global_index N0) 1) local_boxes
        else
          condInsert ((global_index % N0 == 0) && mIsPeriodicInX)
            (usub (uadd global_index (umul 2 N0)) 1) local_boxes
      local_boxes
    else local_boxes
  let local_boxes :=
    if !right then insert (uadd global_index 1) local_boxes
    else if (global_index % N0 == usub N0 1) && mIsPeriodicInX then
      let local_boxes := insert (uadd (usub global_index N0) 1) local_boxes
      let local_boxes :=
        condInsert
          (decide (global_index
            < (numLocalBoxes + 18446744073709551616 - N0) % 18446744073709551616))
          (uadd global_index 1) local_boxes
      local_boxes
    else local_boxes
  local_boxes

/-- Loop body of `SetupLocalBoxesHalfOnly`, `case 3`. `low` and `high` are the row range of the
process (`GetLow()`, `GetHigh()`). -/
def SetupLocalBoxesHalfOnly.case3 (N : List Nat) (low high : Nat) (global_index : Nat) :
    Finset Nat :=
  let N0 := N.getD 0 0
  let N1 := N.getD 1 0
  let N2 := N.getD 2 0
  let num_boxes_xy := umul N0 N1
  let local_boxes : Finset Nat := ∅
  let top : Bool := !(decide (global_index % num_boxes_xy < usub num_boxes_xy N0))
  let bottom : Bool := decide (global_index % num_boxes_xy < N0)
  let left : Bool := global_index % N0 == 0
  let right : Bool := global_index % N0 == usub N0 1
  let front : Bool := decide (global_index < num_boxes_xy)
  let back : Bool := !(decide (global_index < usub (umul num_boxes_xy N2) num_boxes_xy))
  let proc_front : Bool := (CalculateCoordinateIndices .three N global_index).getD 2 0 == low
  let proc_back : Bool :=
    (CalculateCoordinateIndices .three N global_index).getD 2 0 == usub high 1
  let local_boxes := insert global_index local_boxes
  let local_boxes :=
    if !front then
      let local_boxes :=
        if !top then
          let local_boxes := insert (uadd (usub global_index num_boxes_xy) N0) local_boxes
          let local_boxes :=
            condInsert (!left) (usub (uadd (usub global_index num_boxes_xy) N0) 1) local_boxes
          let local_boxes :=
            condInsert (!right) (uadd (uadd (usub global_index num_boxes_xy) N0) 1) local_boxes
          local_boxes
        else local_boxes
      let local_boxes :=
        condInsert (!right) (uadd (usub global_index num_boxes_xy) 1) local_boxes
      let local_boxes :=
        if proc_front then
          let local_boxes := insert (usub global_index num_boxes_xy) local_boxes
          let local_boxes :=
            condInsert (!left) (usub (usub global_index num_boxes_xy) 1) local_boxes
          let local_boxes :=
            if !bottom then
              let local_boxes := insert (usub (usub global_index num_boxes_xy) N0) local_boxes
              let local_boxes :=
                condInsert (!left) (usub (usub (usub global_index num_boxes_xy) N0) 1)
                  local_boxes
              let local_boxes :=
                condInsert (!right) (uadd (usub (usub global_index num_boxes_xy) N0) 1)
                  local_boxes
              local_boxes
            else local_boxes
          local_boxes
        else local_boxes
      local_boxes
    else local_boxes
  let local_boxes := condInsert (!right) (uadd global_index 1) local_boxes
  let local_boxes :=
    if !top then
      let local_boxes := insert (uadd global_index N0) local_boxes
      let local_boxes := condInsert (!right) (uadd (uadd global_index N0) 1) local_boxes
      let local_boxes := condInsert (!left) (usub (uadd global_index N0) 1) local_boxes
      local_boxes
    else local_boxes
  let local_boxes :=
    if !back then
      let local_boxes := insert (uadd global_index num_boxes_xy) local_boxes
      let local_boxes :=
        condInsert (!right) (uadd (uadd global_index num_boxes_xy) 1) local_boxes
      let local_boxes :=
        if !top then
          let local_boxes := insert (uadd (uadd global_index num_boxes_xy) N0) local_boxes
          let local_boxes :=
            condInsert (!right) (uadd (uadd (uadd global_index num_boxes_xy) N0) 1) local_boxes
          let local_boxes :=
            condInsert (!left) (usub (uadd (uadd global_index num_boxes_xy) N0) 1) local_boxes
          local_boxes
        else local_boxes
      let local_boxes :=
        if proc_back then
          let local_boxes :=
            condInsert (!left) (usub (uadd global_index num_boxes_xy) 1) local_boxes
          let local_boxes :=
            if !bottom then
              let local_boxes := insert (usub (uadd global_index num_boxes_xy) N0) local_boxes
              let local_boxes :=
                condInsert (!left) (usub (usub (uadd global_index num_boxes_xy) N0) 1)
                  local_boxes
              let local_boxes :=
                condInsert (!right) (uadd (usub (uadd global_index num_boxes_xy) N0) 1)
                  local_boxes
              local_boxes
            else local_boxes
          local_boxes
        else local_boxes
      local_boxes
    else local_boxes
  local_boxes

/-- Loop body of `SetupAllLocalBoxes`, `case 1`. -/
def SetupAllLocalBoxes.case1 (N : List Nat) (i : Nat) : Finset Nat :=
  let local_boxes : Finset Nat := ∅
  let local_boxes := insert i local_boxes
  let local_boxes := condInsert (i != 0) (usub i 1) local_boxes
  let local_boxes := condInsert (uadd i 1 != N.getD 0 0) (uadd i 1) local_boxes
  local_boxes

/-- Loop body of `SetupAllLocalBoxes`, `case 2`; the entries of the `is_xmin`, `is_xmax`,
`is_ymin`, `is_ymax` vectors at index `i` are computed in place. -/
def SetupAllLocalBoxes.case2 (N : List Nat) (mIsPeriodicInX : Bool) (i : Nat) : Finset Nat :=
  let M := N.getD 0 0
  let N := N.getD 1 0
  let is_xmin : Bool := i % M == 0
  let is_xmax : Bool := uadd i 1 % M == 0
  let is_ymin : Bool := decide (i % umul M N < M)
  let is_ymax : Bool := decide (i % umul M N ≥ umul (usub N 1) M)
  let local_boxes : Finset Nat := ∅
  let local_boxes := insert i local_boxes
  let local_boxes :=
    if !is_xmin then insert (usub i 1) local_boxes
    else condInsert mIsPeriodicInX (usub (uadd i M) 1) local_boxes
  let local_boxes :=
    if !is_xmax then insert (uadd i 1) local_boxes
    else condInsert mIsPeriodicInX (uadd (usub i M) 1) local_boxes
  let local_boxes := condInsert (!is_ymin) (usub i M) local_boxes
  let local_boxes := condInsert (!is_ymax) (uadd i M) local_boxes
  let local_boxes := condInsert (!is_xmin && !is_ymin) (usub (usub i 1) M) local_boxes
  let local_boxes := condInsert (!is_xmin && !is_ymax) (uadd (usub i 1) M) local_boxes
  let local_boxes := condInsert (!is_xmax && !is_ymin) (usub (uadd i 1) M) local_boxes
  let local_boxes := condInsert (!is_xmax && !is_ymax) (uadd (uadd i 1) M) local_boxes
  let local_boxes :=
    if mIsPeriodicInX then
      let local_boxes := condInsert (is_xmin && !is_ymin) (usub i 1) local_boxes
      let local_boxes :=
        condInsert (is_xmin && !is_ymax) (uadd (usub i 1) (umul 2 M)) local_boxes
      let local_boxes :=
        condInsert (is_xmax && !is_ymin) (usub (uadd i 1) (umul 2 M)) local_boxes
      let local_boxes := condInsert (is_xmax && !is_ymax) (uadd i 1) local_boxes
      local_boxes
    else local_boxes
  local_boxes

/-- Loop body of `SetupAllLocalBoxes`, `case 3`; the entries of the six `is_*` vectors at
index `i` are computed in place. -/
def SetupAllLocalBoxes.case3 (N : List Nat) (i : Nat) : Finset Nat :=
  let M := N.getD 0 0
  let P := N.getD 2 0
  let N := N.getD 1 0
  let is_xmin : Bool := i % M == 0
  let is_xmax : Bool := uadd i 1 % M == 0
  let is_ymin : Bool := decide (i % umul M N < M)
  let is_ymax : Bool := decide (i % umul M N ≥ umul (usub N 1) M)
  let is_zmin : Bool := decide (i < umul M N)
  let is_zmax : Bool := decide (i ≥ umul (umul M N) (usub P 1))
  let local_boxes : Finset Nat := ∅
  let local_boxes := insert i local_boxes
  let local_boxes :=
    if !is_xmin then
      let local_boxes := insert (usub i 1) local_boxes
      let local_boxes := condInsert (!is_ymin) (usub (usub i 1) M) local_boxes
      let local_boxes := condInsert (!is_ymax) (uadd (usub i 1) M) local_boxes
      let local_boxes := condInsert (!is_zmin) (usub (usub i 1) (umul M N)) local_boxes
      let local_boxes := condInsert (!is_zmax) (uadd (usub i 1) (umul M N)) local_boxes
      local_boxes
    else local_boxes
  let local_boxes :=
    if !is_xmax then
      let local_boxes := insert (uadd i 1) local_boxes
      let local_boxes := condInsert (!is_ymin) (usub (uadd i 1) M) local_boxes
      let local_boxes := condInsert (!is_ymax) (uadd (uadd i 1) M) local_boxes
      let local_boxes := condInsert (!is_zmin) (usub (uadd i 1) (umul M N)) local_boxes
      let local_boxes := condInsert (!is_zmax) (uadd (uadd i 1) (umul M N)) local_boxes
      local_boxes
    else local_boxes
  let local_boxes :=
    if !is_ymin then
      let local_boxes := insert (usub i M) local_boxes
      let local_boxes := condInsert (!is_zmin) (usub (usub i M) (umul M N)) local_boxes
      let local_boxes := condInsert (!is_zmax) (uadd (usub i M) (umul M N)) local_boxes
      local_boxes
    else local_boxes
  let local_boxes :=
    if !is_ymax then
      let local_boxes := insert (uadd i M) local_boxes
      let local_boxes := condInsert (!is_zmin) (usub (uadd i M) (umul M N)) local_boxes
      let local_boxes := condInsert (!is_zmax) (uadd (uadd i M) (umul M N)) local_boxes
      local_boxes
    else local_boxes
  let local_boxes := condInsert (!is_zmin) (usub i (umul N M)) local_boxes
  let local_boxes := condInsert (!is_zmax) (uadd i (umul N M)) local_boxes
  let local_boxes :=
    condInsert (!is_xmin && !is_ymin && !is_zmin) (usub (usub (usub i 1) M) (umul M N))
      local_boxes
  let local_boxes :=
    condInsert (!is_xmin && !is_ymin && !is_zmax) (uadd (usub (usub i 1) M) (umul M N))
      local_boxes
  let local_boxes :=
    condInsert (!is_xmin && !is_ymax && !is_zmin) (usub (uadd (usub i 1) M) (umul M N))
      local_boxes
  let local_boxes :=
    condInsert (!is_xmin && !is_ymax && !is_zmax) (uadd (uadd (usub i 1) M) (umul M N))
      local_boxes
  let local_boxes :=
    condInsert (!is_xmax && !is_ymin && !is_zmin) (usub (usub (uadd i 1) M) (umul M N))
      local_boxes
  let local_boxes :=
    condInsert (!is_xmax && !is_ymin && !is_zmax) (uadd (usub (uadd i 1) M) (umul M N))
      local_boxes
  let local_boxes :=
    condInsert (!is_xmax && !is_ymax && !is_zmin) (usub (uadd (uadd i 1) M) (umul M N))
      local_boxes
  let local_boxes :=
    condInsert (!is_xmax && !is_ymax && !is_zmax) (uadd (uadd (uadd i 1) M) (umul M N))
      local_boxes
  local_boxes

/-- Ways in which a member function can fail to return. -/
inductive Failure where
  /-- An `EXCEPTION(...)` with the given message. -/
  | exception (msg : String)
  /-- A failed `assert` (or `NEVER_REACHED`). -/
  | assertion
  /-- An access outside a `std::vector`, or `operator[]` on a map key that is not present. -/
  | badAccess
  /-- The iteration budget of the model of a `while` loop is exhausted. -/
  | outOfFuel
deriving DecidableEq, Repr

/-- A `Node<DIM>`: its index and its location; `double` is modelled by exact rationals. -/
structure Node where
  index : Nat
  location : List ℚ
deriving DecidableEq

/-- A `Box<DIM>`: the nodes it contains, in the iteration order of the `std::set`. -/
structure Box where
  mNodesContained : List Node := []
deriving DecidableEq

/-- The member `mFudge`, set to `5e-14` by the constructor. -/
def mFudge : ℚ := 5 / 100000000000000

/-- State of a `DistributedBoxCollection<DIM>`. `low`/`high` are `GetLow()`/`GetHigh()` of
`mpDistributedBoxStackFactory`; `numProcs`/`rank` are what `PetscTools` reports. The maps
`mBoxesMapping` and `mHaloBoxesMapping` are association lists in key order. -/
structure DistributedBoxCollection where
  DIM : Dim
  mBoxWidth : ℚ := 1
  mDomainSize : List ℚ := []
  mIsPeriodicInX : Bool := false
  mAreLocalBoxesSet : Bool := false
  mCalculateNodeNeighbours : Bool := true
  mNumBoxesEachDirection : List Nat := []
  low : Nat := 0
  high : Nat := 0
  numProcs : Nat := 1
  rank : Nat := 0
  mNumBoxesInAFace : Nat := 1
  mMinBoxIndex : Nat := 0
  mMaxBoxIndex : Nat := 0
  mNumBoxes : Nat := 0
  mBoxes : List Box := []
  mBoxesMapping : List (Nat × Nat) := []
  mHaloBoxes : List Box := []
  mHaloBoxesMapping : List (Nat × Nat) := []
  mLocalBoxes : List (Finset Nat) := []
  mHalosRight : List Nat := []
  mHalosLeft : List Nat := []
  mHaloNodesRight : List Nat := []
  mHaloNodesLeft : List Nat := []

/-- The member function `DistributedBoxCollection::GetBoxOwnership`. -/
def GetBoxOwnership (s : DistributedBoxCollection) (globalIndex : Nat) : Bool :=
  !(decide (globalIndex < s.mMinBoxIndex)) && !(decide (s.mMaxBoxIndex < globalIndex))

/-- The global indices visited by `for (g = mMinBoxIndex; g < mMaxBoxIndex+1; g++)`. -/
def ownedIndexLoop (s : DistributedBoxCollection) : List Nat :=
  List.range' s.mMinBoxIndex (uadd s.mMaxBoxIndex 1 - s.mMinBoxIndex)

/-- The member function `DistributedBoxCollection::SetupLocalBoxesHalfOnly`. -/
def SetupLocalBoxesHalfOnly (s : DistributedBoxCollection) :
    Except Failure DistributedBoxCollection :=
  if s.mAreLocalBoxesSet then
    .error (.exception "Local Boxes Are Already Set")
  else
    match s.DIM with
    | .one =>
      .ok { s with
        mLocalBoxes := (ownedIndexLoop s).map
          (SetupLocalBoxesHalfOnly.case1 s.mNumBoxesEachDirection s.low)
        mAreLocalBoxesSet := true }
    | .two =>
      .ok { s with
        mLocalBoxes := (ownedIndexLoop s).map
          (SetupLocalBoxesHalfOnly.case2 s.mNumBoxesEachDirection s.low s.mIsPeriodicInX
            s.mBoxes.length)
        mAreLocalBoxesSet := true }
    | .three =>
      .ok { s with
        mLocalBoxes := (ownedIndexLoop s).map
          (SetupLocalBoxesHalfOnly.case3 s.mNumBoxesEachDirection s.low s.high)
        mAreLocalBoxesSet := true }

/-- The member function `DistributedBoxCollection::SetupAllLocalBoxes`; `case 1` does not clear `mLocalBoxes`
before appending. -/
def SetupAllLocalBoxes (s : DistributedBoxCollection) : DistributedBoxCollection :=
  match s.DIM with
  | .one =>
    { s with
      mAreLocalBoxesSet := true
      mLocalBoxes := s.mLocalBoxes
        ++ (ownedIndexLoop s).map (SetupAllLocalBoxes.case1 s.mNumBoxesEachDirection) }
  | .two =>
    { s with
      mAreLocalBoxesSet := true
      mLocalBoxes := (ownedIndexLoop s).map
        (SetupAllLocalBoxes.case2 s.mNumBoxesEachDirection s.mIsPeriodicInX) }
  | .three =>
    { s with
      mAreLocalBoxesSet := true
      mLocalBoxes := (ownedIndexLoop s).map (SetupAllLocalBoxes.case3 s.mNumBoxesEachDirection) }

/-- The member function `DistributedBoxCollection::GetLocalBoxes`. -/
def GetLocalBoxes (s : DistributedBoxCollection) (boxIndex : Nat) : Except Failure (Finset Nat) :=
  if !(decide (boxIndex < s.mMinBoxIndex)) && !(decide (s.mMaxBoxIndex < boxIndex)) then
    match s.mLocalBoxes.get? (boxIndex - s.mMinBoxIndex) with
    | some local_boxes => .ok local_boxes
    | none => .error .badAccess
  else .error .assertion

/-- The member function `DistributedBoxCollection::rGetBox`. -/
def rGetBox (s : DistributedBoxCollection) (boxIndex : Nat) : Except Failure Box :=
  if !(decide (boxIndex < s.mMinBoxIndex)) && !(decide (s.mMaxBoxIndex < boxIndex)) then
    match s.mBoxes.get? (boxIndex - s.mMinBoxIndex) with
    | some box => .ok box
    | none => .error .badAccess
  else .error .assertion

/-- The loop `while (!((box_counter + mBoxWidth) > rLocation[i] + mFudge))` of
`CalculateContainingBox` for one axis in exact arithmetic, with an iteration budget. -/
def scanAxis (fuel : Nat) (mBoxWidth x : ℚ) (box_counter : ℚ) (containing_box_index : Nat) :
    Option Nat :=
  match fuel with
  | 0 => none
  | fuel + 1 =>
    if !(decide (box_counter + mBoxWidth > x + mFudge)) then
      scanAxis fuel mBoxWidth x (box_counter + mBoxWidth) (uadd containing_box_index 1)
    else some containing_box_index

/-- The member function `DistributedBoxCollection::CalculateContainingBox(c_vector<double, DIM>&)` in exact
arithmetic. The index computation at its end is the loop of `CalculateGlobalIndex`, which the
source repeats inline. -/
def CalculateContainingBox (s : DistributedBoxCollection) (fuel : Nat) (rLocation : List ℚ) :
    Except Failure Nat :=
  if (List.range s.DIM.toNat).any (fun i =>
      decide (rLocation.getD i 0 < s.mDomainSize.getD (2 * i) 0)
        || !(decide (rLocation.getD i 0 < s.mDomainSize.getD (2 * i + 1) 0))) then
    .error (.exception "The point provided is outside all of the boxes")
  else
    match (List.range s.DIM.toNat).mapM (fun i =>
        scanAxis fuel s.mBoxWidth (rLocation.getD i 0) (s.mDomainSize.getD (2 * i) 0) 0) with
    | none => .error .outOfFuel
    | some containing_box_indices =>
      let containing_box_index :=
        CalculateGlobalIndex s.DIM s.mNumBoxesEachDirection containing_box_indices
      if containing_box_index < s.mNumBoxes then .ok containing_box_index
      else .error .assertion

/-- The output container `rNodeNeighbours`, a `std::map<unsigned, std::set<unsigned>>`. -/
abbrev NodeNeighbours := Nat → Option (Finset Nat)

/-- The statement `rNodeNeighbours[i].insert(j)`. -/
def NodeNeighbours.insertAt (m : NodeNeighbours) (i j : Nat) : NodeNeighbours :=
  Function.update m i (some (insert j ((m i).getD ∅)))

/-- The body executed for an accepted pair in `AddPairsFromBox`: `push_back` of the pair and,
when `mCalculateNodeNeighbours` is set, the two neighbour insertions. -/
def emitPair (s : DistributedBoxCollection) (out : List (Node × Node) × NodeNeighbours)
    (node neighbour_node : Node) : List (Node × Node) × NodeNeighbours :=
  (out.1 ++ [(node, neighbour_node)],
    if s.mCalculateNodeNeighbours then
      (out.2.insertAt node.index neighbour_node.index).insertAt neighbour_node.index node.index
    else out.2)

/-- The expression `boxes[mapping[key]]`. A key that is absent from the map, or a stored
position outside the vector, is reported as `Failure.badAccess`. -/
def lookupBox (boxes : List Box) (mapping : List (Nat × Nat)) (key : Nat) : Except Failure Box :=
  match mapping.lookup key with
  | none => .error .badAccess
  | some i =>
    match boxes.get? i with
    | some box => .ok box
    | none => .error .badAccess

/-- The member function `DistributedBoxCollection::AddPairsFromBox`. -/
def AddPairsFromBox (s : DistributedBoxCollection) (boxIndex : Nat)
    (out : List (Node × Node) × NodeNeighbours) :
    Except Failure (List (Node × Node) × NodeNeighbours) := do
  let box ← rGetBox s boxIndex
  let local_boxes_indices ← GetLocalBoxes s boxIndex
  (local_boxes_indices.sort (· ≤ ·)).foldlM
    (fun out box_iter => do
      let p_neighbour_box ←
        if GetBoxOwnership s box_iter then lookupBox s.mBoxes s.mBoxesMapping box_iter
        else lookupBox s.mHaloBoxes s.mHaloBoxesMapping box_iter
      pure (p_neighbour_box.mNodesContained.foldl
        (fun out neighbour_node =>
          box.mNodesContained.foldl
            (fun out node =>
              if box_iter == boxIndex then
                if neighbour_node.index > node.index then emitPair s out node neighbour_node
                else out
              else emitPair s out node neighbour_node)
            out)
        out))
    out

/-- The member function `DistributedBoxCollection::CalculateNodePairs`; the result is the final content of the two
output containers. -/
def CalculateNodePairs (s : DistributedBoxCollection) (fuel : Nat) (rNodes : List Node) :
    Except Failure (List (Node × Node) × NodeNeighbours) := do
  let rNodeNeighbours ← rNodes.foldlM
    (fun (m : NodeNeighbours) node => do
      let box_index ← CalculateContainingBox s fuel node.location
      pure (if GetBoxOwnership s box_index then Function.update m node.index (some ∅) else m))
    (fun _ => none)
  s.mBoxesMapping.foldlM (fun out entry => AddPairsFromBox s entry.1 out) ([], rNodeNeighbours)

/-- What the constructor establishes when there is one process: the process owns every row,
`mBoxes` has one box per global index and `mBoxesMapping` maps each index to itself. -/
def SingleProcessGrid (s : DistributedBoxCollection) : Prop :=
  s.numProcs = 1 ∧ s.rank = 0
    ∧ s.mNumBoxesEachDirection.length = s.DIM.toNat
    ∧ (∀ i, i < s.DIM.toNat → 1 ≤ s.mNumBoxesEachDirection.getD i 0)
    ∧ s.mNumBoxes = s.mNumBoxesEachDirection.prod
    ∧ s.mNumBoxes < 4294967296
    ∧ s.low = 0
    ∧ s.high = s.mNumBoxesEachDirection.getD (s.DIM.toNat - 1) 0
    ∧ s.mMinBoxIndex = 0
    ∧ s.mMaxBoxIndex = s.mNumBoxes - 1
    ∧ s.mBoxes.length = s.mNumBoxes
    ∧ s.mBoxesMapping = (List.range s.mNumBoxes).map (fun i => (i, i))

/-- Coordinate adjacency of two boxes: on every axis the coordinates computed by
`CalculateCoordinateIndices` differ by at most one. -/
def boxesAdjacent (DIM : Dim) (N : List Nat) (A B : Nat) : Prop :=
  ∀ i, i < DIM.toNat →
    (CalculateCoordinateIndices DIM N A).getD i 0
        ≤ (CalculateCoordinateIndices DIM N B).getD i 0 + 1
      ∧ (CalculateCoordinateIndices DIM N B).getD i 0
        ≤ (CalculateCoordinateIndices DIM N A).getD i 0 + 1

instance (DIM : Dim) (N : List Nat) (A B : Nat) : Decidable (boxesAdjacent DIM N A B) := by
  unfold boxesAdjacent; infer_instance

instance (s : DistributedBoxCollection) : Decidable (SingleProcessGrid s) := by
  unfold SingleProcessGrid; infer_instance

/-- The set the specification describes for the full stencil of box `g`: the box indices below
the number of boxes whose coordinates differ from those of `g` by at most one on every axis. -/
def referenceStencil (DIM : Dim) (N : List Nat) (g : Nat) : Finset Nat :=
  (Finset.range N.prod).filter (fun g' => boxesAdjacent DIM N g' g)

/-- The per-axis coordinate the specification gives for a point: the floor of the distance from
the lower domain bound, shifted by the fudge, in units of the box width. -/
def floorIndex (s : DistributedBoxCollection) (rLocation : List ℚ) (i : Nat) : Nat :=
  ⌊(rLocation.getD i 0 - s.mDomainSize.getD (2 * i) 0 + mFudge) / s.mBoxWidth⌋.toNat

/-- A one-dimensional collection of two unit boxes on the domain `[0, 2]`, as the constructor
builds it on one process. -/
def twoUnitBoxes : DistributedBoxCollection :=
  { DIM := .one, mBoxWidth := 1, mDomainSize := [0, 2], mNumBoxesEachDirection := [2],
    high := 2, mMaxBoxIndex := 1, mNumBoxes := 2, mBoxes := [{}, {}],
    mBoxesMapping := [(0, 0), (1, 1)] }

/-- A point of the first box of `twoUnitBoxes` that is closer to the second box than the
fudge. -/
def nearBoundary : List ℚ := [999999999999975 / 1000000000000000]

/-- The box stored at position `b` of `mBoxes`, an empty box when there is none. -/
def boxAt (s : DistributedBoxCollection) (b : Nat) : Box :=
  (s.mBoxes.get? b).getD {}

/-- The pairs that `AddPairsFromBox` appends for box `boxIndex` while it visits the
neighbouring box `box_iter`, in the order of the two nested loops. -/
def pairsOfBoxes (boxIndex box_iter : Nat) (box nb : Box) : List (Node × Node) :=
  nb.mNodesContained.flatMap fun q => box.mNodesContained.flatMap fun p =>
    if box_iter == boxIndex then (if q.index > p.index then [(p, q)] else []) else [(p, q)]

/-- The effect of the loop over the neighbouring boxes in `AddPairsFromBox`, once every lookup
is known to succeed. -/
def visitBoxes (s : DistributedBoxCollection) (boxIndex : Nat) (box : Box)
    (out : List (Node × Node) × NodeNeighbours) (box_iter : Nat) :
    List (Node × Node) × NodeNeighbours :=
  (boxAt s box_iter).mNodesContained.foldl
    (fun out neighbour_node =>
      box.mNodesContained.foldl
        (fun out node =>
          if box_iter == boxIndex then
            if neighbour_node.index > node.index then emitPair s out node neighbour_node
            else out
          else emitPair s out node neighbour_node)
        out)
    out

/-- The list of pairs `CalculateNodePairs` emits on one process, written with the stencil
`st A` of each box: boxes in index order, neighbouring boxes in increasing order. -/
def allPairs (s : DistributedBoxCollection) (st : Nat → Finset Nat) (n : Nat) :
    List (Node × Node) :=
  (List.range n).flatMap fun A =>
    ((st A).sort (· ≤ ·)).flatMap fun b => pairsOfBoxes A b (boxAt s A) (boxAt s b)

/-- The four nodes of the worked example: one at the centre of each box of `exampleGrid`. -/
def exampleNodes : List Node :=
  [⟨0, [1 / 2, 1 / 2]⟩, ⟨1, [1 / 2, 3 / 2]⟩, ⟨2, [3 / 2, 1 / 2]⟩, ⟨3, [3 / 2, 3 / 2]⟩]

/-- A two-dimensional collection of 2 by 2 unit boxes on `[0, 2] x [0, 2]` on one process,
holding `exampleNodes` in the boxes that contain them. -/
def exampleGrid : DistributedBoxCollection :=
  { DIM := .two, mBoxWidth := 1, mDomainSize := [0, 2, 0, 2], mNumBoxesEachDirection := [2, 2],
    high := 2, mNumBoxesInAFace := 2, mMaxBoxIndex := 3, mNumBoxes := 4,
    mBoxes := [⟨[⟨0, [1 / 2, 1 / 2]⟩]⟩, ⟨[⟨2, [3 / 2, 1 / 2]⟩]⟩, ⟨[⟨1, [1 / 2, 3 / 2]⟩]⟩,
      ⟨[⟨3, [3 / 2, 3 / 2]⟩]⟩],
    mBoxesMapping := [(0, 0), (1, 1), (2, 2), (3, 3)] }

/-- A three-dimensional collection of 3 by 3 by 3 empty unit boxes on one process. -/
def exampleGrid3 : DistributedBoxCollection :=
  { DIM := .three, mBoxWidth := 1, mDomainSize := [0, 3, 0, 3, 0, 3],
    mNumBoxesEachDirection := [3, 3, 3], high := 3, mNumBoxesInAFace := 9, mMaxBoxIndex := 26,
    mNumBoxes := 27, mBoxes := List.replicate 27 {},
    mBoxesMapping := (List.range 27).map (fun i => (i, i)) }

/-- A two-dimensional collection of 2 by 1 unit boxes that is periodic in x, on one process. -/
def periodicTwoColumns : DistributedBoxCollection :=
  { DIM := .two, mDomainSize := [0, 2, 0, 1], mIsPeriodicInX := true,
    mNumBoxesEachDirection := [2, 1], high := 1, mNumBoxesInAFace := 2, mMaxBoxIndex := 1,
    mNumBoxes := 2, mBoxes := [{}, {}], mBoxesMapping := [(0, 0), (1, 1)] }

/-- The member function `DistributedBoxCollection::IsInteriorBox`; `PetscTools::IsSequential()`
is `numProcs == 1`. -/
def IsInteriorBox (s : DistributedBoxCollection) (globalIndex : Nat) : Bool :=
  let is_on_boundary :=
    !(decide (globalIndex < usub s.mMaxBoxIndex s.mNumBoxesInAFace))
      || decide (globalIndex < uadd s.mMinBoxIndex s.mNumBoxesInAFace)
  (s.numProcs == 1) || !is_on_boundary

/-- The member function `DistributedBoxCollection::CalculateInteriorNodePairs`. The containers
passed in are cleared first, so their content `_cleared` is not used. -/
def CalculateInteriorNodePairs (s : DistributedBoxCollection) (fuel : Nat) (rNodes : List Node)
    (_cleared : List (Node × Node) × NodeNeighbours) :
    Except Failure (List (Node × Node) × NodeNeighbours) := do
  let rNodeNeighbours ← rNodes.foldlM
    (fun (m : NodeNeighbours) node => do
      let box_index ← CalculateContainingBox s fuel node.location
      pure (if GetBoxOwnership s box_index then Function.update m node.index (some ∅) else m))
    (fun _ => none)
  s.mBoxesMapping.foldlM
    (fun out entry =>
      if IsInteriorBox s entry.1 then AddPairsFromBox s entry.1 out else pure out)
    ([], rNodeNeighbours)

/-- The member function `DistributedBoxCollection::CalculateBoundaryNodePairs`; it appends to
the containers passed in and does not use `rNodes`. -/
def CalculateBoundaryNodePairs (s : DistributedBoxCollection) (rNodes : List Node)
    (out : List (Node × Node) × NodeNeighbours) :
    Except Failure (List (Node × Node) × NodeNeighbours) :=
  s.mBoxesMapping.foldlM
    (fun out entry =>
      if !IsInteriorBox s entry.1 then AddPairsFromBox s entry.1 out else pure out)
    out

/-- The box `AddPairsFromBox` reads for the stencil entry `box_iter`: an owned box, or else a
halo box. -/
def neighbourBox (s : DistributedBoxCollection) (box_iter : Nat) : Except Failure Box :=
  if GetBoxOwnership s box_iter then lookupBox s.mBoxes s.mBoxesMapping box_iter
  else lookupBox s.mHaloBoxes s.mHaloBoxesMapping box_iter

/-- The effect on the two output containers of emitting the pairs of `L` in order. -/
def recordPairs (s : DistributedBoxCollection) (out : List (Node × Node) × NodeNeighbours)
    (L : List (Node × Node)) : List (Node × Node) × NodeNeighbours :=
  L.foldl (fun out pr => emitPair s out pr.1 pr.2) out

/-- The two neighbour insertions made for an emitted pair. -/
def recordNeighbours (m : NodeNeighbours) (pr : Node × Node) : NodeNeighbours :=
  (m.insertAt pr.1.index pr.2.index).insertAt pr.2.index pr.1.index

/-- The body of the loop over the stencil in `AddPairsFromBox`, for the stencil entry
`box_iter`. -/
def visitBoxM (s : DistributedBoxCollection) (boxIndex : Nat) (box : Box)
    (out : List (Node × Node) × NodeNeighbours) (box_iter : Nat) :
    Except Failure (List (Node × Node) × NodeNeighbours) := do
  let p_neighbour_box ←
    if GetBoxOwnership s box_iter then lookupBox s.mBoxes s.mBoxesMapping box_iter
    else lookupBox s.mHaloBoxes s.mHaloBoxesMapping box_iter
  pure (p_neighbour_box.mNodesContained.foldl
    (fun out neighbour_node =>
      box.mNodesContained.foldl
        (fun out node =>
          if box_iter == boxIndex then
            if neighbour_node.index > node.index then emitPair s out node neighbour_node
            else out
          else emitPair s out node neighbour_node)
        out)
    out)

/-- The pairs `AddPairsFromBox` emits for the box `boxIndex`, or the failure it stops with. -/
def boxPairs (s : DistributedBoxCollection) (boxIndex : Nat) :
    Except Failure (List (Node × Node)) :=
  match rGetBox s boxIndex with
  | .error e => .error e
  | .ok box =>
    match GetLocalBoxes s boxIndex with
    | .error e => .error e
    | .ok local_boxes_indices =>
      match (local_boxes_indices.sort (· ≤ ·)).mapM (fun box_iter =>
          match neighbourBox s box_iter with
          | .ok nb => Except.ok (pairsOfBoxes boxIndex box_iter box nb)
          | .error e => .error e) with
      | .error e => .error e
      | .ok Ls => .ok Ls.flatten

/-- The pairs of a box when `boxPairs` succeeds, no pair otherwise. -/
def boxPairsOr (s : DistributedBoxCollection) (boxIndex : Nat) : List (Node × Node) :=
  match boxPairs s boxIndex with
  | .ok L => L
  | .error _ => []

/-- The first loop of `CalculateNodePairs` and of `CalculateInteriorNodePairs`: an empty
neighbour set for every node whose containing box is owned. -/
def initNeighbours (s : DistributedBoxCollection) (fuel : Nat) (rNodes : List Node) :
    Except Failure NodeNeighbours :=
  rNodes.foldlM
    (fun (m : NodeNeighbours) node => do
      let box_index ← CalculateContainingBox s fuel node.location
      pure (if GetBoxOwnership s box_index then Function.update m node.index (some ∅) else m))
    (fun _ => none)

/-- The global indices of the owned boxes, in the order of `mBoxesMapping`. -/
def ownedBoxes (s : DistributedBoxCollection) : List Nat :=
  s.mBoxesMapping.map Prod.fst

/-- The four nodes of the 1D worked example, at 0.1, 0.5, 1.2 and 2.7. -/
def lineNodes : List Node := [⟨0, [1 / 10]⟩, ⟨1, [1 / 2]⟩, ⟨2, [6 / 5]⟩, ⟨3, [27 / 10]⟩]

/-- A one-dimensional collection of three unit boxes on `[0, 3]` on one process, holding
`lineNodes` in the boxes that contain them. -/
def lineGrid : DistributedBoxCollection :=
  { DIM := .one, mBoxWidth := 1, mDomainSize := [0, 3], mNumBoxesEachDirection := [3],
    high := 3, mMaxBoxIndex := 2, mNumBoxes := 3,
    mBoxes := [⟨[⟨0, [1 / 10]⟩, ⟨1, [1 / 2]⟩]⟩, ⟨[⟨2, [6 / 5]⟩]⟩, ⟨[⟨3, [27 / 10]⟩]⟩],
    mBoxesMapping := [(0, 0), (1, 1), (2, 2)] }

/-- The collection `lineGrid` after `SetupLocalBoxesHalfOnly`. -/
def lineGridHalf : DistributedBoxCollection :=
  { lineGrid with
    mLocalBoxes := (ownedIndexLoop lineGrid).map
      (SetupLocalBoxesHalfOnly.case1 lineGrid.mNumBoxesEachDirection lineGrid.low)
    mAreLocalBoxesSet := true }

/-- The two nodes of the periodic worked example, at (0.5, 0.5) and (2.5, 0.5). -/
def wideNodes : List Node := [⟨0, [1 / 2, 1 / 2]⟩, ⟨1, [5 / 2, 1 / 2]⟩]

/-- A two-dimensional collection of 3 by 2 unit boxes on `[0, 3] x [0, 2]` on one process,
periodic in x or not, holding `wideNodes` in the boxes 0 and 2 that contain them. -/
def wideGrid (isPeriodicInX : Bool) : DistributedBoxCollection :=
  { DIM := .two, mBoxWidth := 1, mDomainSize := [0, 3, 0, 2], mIsPeriodicInX := isPeriodicInX,
    mNumBoxesEachDirection := [3, 2], high := 2, mNumBoxesInAFace := 3, mMaxBoxIndex := 5,
    mNumBoxes := 6,
    mBoxes := [⟨[⟨0, [1 / 2, 1 / 2]⟩]⟩, {}, ⟨[⟨1, [5 / 2, 1 / 2]⟩]⟩, {}, {}, {}],
    mBoxesMapping := [(0, 0), (1, 1), (2, 2), (3, 3), (4, 4), (5, 5)] }

/-- The collection `wideGrid` after `SetupLocalBoxesHalfOnly`. -/
def wideGridHalf (isPeriodicInX : Bool) : DistributedBoxCollection :=
  { wideGrid isPeriodicInX with
    mLocalBoxes := (ownedIndexLoop (wideGrid isPeriodicInX)).map
      (SetupLocalBoxesHalfOnly.case2 (wideGrid isPeriodicInX).mNumBoxesEachDirection
        (wideGrid isPeriodicInX).low (wideGrid isPeriodicInX).mIsPeriodicInX
        (wideGrid isPeriodicInX).mBoxes.length)
    mAreLocalBoxesSet := true }

/-- The point `2 - 2.5e-14`, inside the domain `[0, 2)` of `twoUnitBoxes` and closer to its
upper end than the fudge. -/
def nearUpperEnd : List ℚ := [1999999999999975 / 1000000000000000]

/-- The state of rank 0 of two processes for a one-dimensional collection of six unit boxes on
`[0, 6]`, when the rank owns the rows `[0, 3)`. -/
def threeRows : DistributedBoxCollection :=
  { DIM := .one, mBoxWidth := 1, mDomainSize := [0, 6], mNumBoxesEachDirection := [6],
    low := 0, high := 3, numProcs := 2, rank := 0, mNumBoxesInAFace := 1,
    mMinBoxIndex := 0, mMaxBoxIndex := 2, mNumBoxes := 6, mBoxes := [{}, {}, {}],
    mBoxesMapping := [(0, 0), (1, 1), (2, 2)], mHaloBoxes := [{}],
    mHaloBoxesMapping := [(3, 0)] }

/-- A two-dimensional collection of 3 by 3 unit boxes on `[0, 3] x [0, 3]` on one process,
not periodic. -/
def squareGrid : DistributedBoxCollection :=
  { DIM := .two, mBoxWidth := 1, mDomainSize := [0, 3, 0, 3], mNumBoxesEachDirection := [3, 3],
    high := 3, mNumBoxesInAFace := 3, mMaxBoxIndex := 8, mNumBoxes := 9,
    mBoxes := [{}, {}, {}, {}, {}, {}, {}, {}, {}],
    mBoxesMapping := [(0, 0), (1, 1), (2, 2), (3, 3), (4, 4), (5, 5), (6, 6), (7, 7), (8, 8)] }

/-- Two nodes at `(3 - 2.5e-14, 0.5)` and `(0.5, 1.5)`. -/
def edgeNodes : List Node :=
  [⟨0, [2999999999999975 / 1000000000000000, 1 / 2]⟩, ⟨1, [1 / 2, 3 / 2]⟩]

/-- A two-dimensional collection of 3 by 2 unit boxes on `[0, 3] x [0, 2]` on one process, not
periodic, holding both `edgeNodes` in box 3, the box that `CalculateContainingBox` returns for
each of them. -/
def edgeGrid : DistributedBoxCollection :=
  { DIM := .two, mBoxWidth := 1, mDomainSize := [0, 3, 0, 2],
    mNumBoxesEachDirection := [3, 2], high := 2, mNumBoxesInAFace := 3, mMaxBoxIndex := 5,
    mNumBoxes := 6,
    mBoxes := [{}, {}, {},
      ⟨[⟨0, [2999999999999975 / 1000000000000000, 1 / 2]⟩, ⟨1, [1 / 2, 3 / 2]⟩]⟩, {}, {}],
    mBoxesMapping := [(0, 0), (1, 1), (2, 2), (3, 3), (4, 4), (5, 5)] }

/-- The collection `edgeGrid` after `SetupLocalBoxesHalfOnly`. -/
def edgeGridHalf : DistributedBoxCollection :=
  { edgeGrid with
    mLocalBoxes := (ownedIndexLoop edgeGrid).map
      (SetupLocalBoxesHalfOnly.case2 edgeGrid.mNumBoxesEachDirection edgeGrid.low
        edgeGrid.mIsPeriodicInX edgeGrid.mBoxes.length)
    mAreLocalBoxesSet := true }

/-- Two nodes at 0.25 and 0.75. -/
def lowerNodes : List Node := [⟨0, [1 / 4]⟩, ⟨1, [3 / 4]⟩]

/-- The state of rank 0 of two processes for a one-dimensional collection of two unit boxes on
`[0, 2]`: the rank owns box 0, which holds `lowerNodes`, and has box 1 as a halo box. -/
def lowerRank : DistributedBoxCollection :=
  { DIM := .one, mBoxWidth := 1, mDomainSize := [0, 2], mNumBoxesEachDirection := [2],
    low := 0, high := 1, numProcs := 2, rank := 0, mNumBoxesInAFace := 1,
    mMinBoxIndex := 0, mMaxBoxIndex := 0, mNumBoxes := 2,
    mBoxes := [⟨[⟨0, [1 / 4]⟩, ⟨1, [3 / 4]⟩]⟩], mBoxesMapping := [(0, 0)],
    mHaloBoxes := [{}], mHaloBoxesMapping := [(1, 0)] }

/-- The state `lowerRank` after `SetupLocalBoxesHalfOnly`. -/
def lowerRankHalf : DistributedBoxCollection :=
  { lowerRank with
    mLocalBoxes := (ownedIndexLoop lowerRank).map
      (SetupLocalBoxesHalfOnly.case1 lowerRank.mNumBoxesEachDirection lowerRank.low)
    mAreLocalBoxesSet := true }

/-- The member function `SetCalculateNodeNeighbours`. -/
def SetCalculateNodeNeighbours (s : DistributedBoxCollection) (calculateNodeNeighbours : Bool) :
    DistributedBoxCollection :=
  { s with mCalculateNodeNeighbours := calculateNodeNeighbours }

/-- The member function `GetHaloBoxOwnership`; `PetscTools::IsParallel()` is
`numProcs > 1`. -/
def GetHaloBoxOwnership (s : DistributedBoxCollection) (globalIndex : Nat) : Bool :=
  let is_halo_right := decide (globalIndex > s.mMaxBoxIndex)
    && !(decide (globalIndex > uadd s.mMaxBoxIndex s.mNumBoxesInAFace))
  let is_halo_left := decide (globalIndex < s.mMinBoxIndex)
    && !(decide (globalIndex < usub s.mMinBoxIndex s.mNumBoxesInAFace))
  decide (1 < s.numProcs) && (is_halo_right || is_halo_left)

/-- The test `PetscTools::AmTopMost()`: the rank is the last one. -/
def AmTopMost (s : DistributedBoxCollection) : Bool := s.rank == usub s.numProcs 1

/-- The test `PetscTools::AmMaster()`: the rank is 0. -/
def AmMaster (s : DistributedBoxCollection) : Bool := s.rank == 0

/-- The statement `m[key] = value` on a `std::map<unsigned, unsigned>` kept in key order. -/
def mapAssign : List (Nat × Nat) → Nat → Nat → List (Nat × Nat)
  | [], key, value => [(key, value)]
  | (k, v) :: m, key, value =>
    if key < k then (key, value) :: (k, v) :: m
    else if key = k then (key, value) :: m
    else (k, v) :: mapAssign m key value

/-- The statements of `SetupHaloBoxes` shared by its two loops: a new empty box is appended to
`mHaloBoxes` and `global_index` is mapped to its position. -/
def SetupHaloBoxes.addHaloBox (s : DistributedBoxCollection) (global_index : Nat) :
    DistributedBoxCollection :=
  let mHaloBoxes := s.mHaloBoxes ++ [({} : Box)]
  { s with
    mHaloBoxes := mHaloBoxes
    mHaloBoxesMapping := mapAssign s.mHaloBoxesMapping global_index (mHaloBoxes.length - 1) }

/-- Body of the first loop of `SetupHaloBoxes`, for the halo boxes above the top owned row. -/
def SetupHaloBoxes.right (Hi : Nat) (s : DistributedBoxCollection) (i : Nat) :
    DistributedBoxCollection :=
  let global_index := uadd (umul Hi s.mNumBoxesInAFace) i
  let s := SetupHaloBoxes.addHaloBox s global_index
  { s with mHalosRight := s.mHalosRight ++ [usub global_index s.mNumBoxesInAFace] }

/-- Body of the second loop of `SetupHaloBoxes`, for the halo boxes below the bottom owned
row. -/
def SetupHaloBoxes.left (Lo : Nat) (s : DistributedBoxCollection) (i : Nat) :
    DistributedBoxCollection :=
  let global_index := uadd (umul (usub Lo 1) s.mNumBoxesInAFace) i
  let s := SetupHaloBoxes.addHaloBox s global_index
  { s with mHalosLeft := s.mHalosLeft ++ [uadd global_index s.mNumBoxesInAFace] }

/-- The member function `SetupHaloBoxes`. -/
def SetupHaloBoxes (s : DistributedBoxCollection) : DistributedBoxCollection :=
  let Hi := s.high
  let Lo := s.low
  let s :=
    if !(AmTopMost s) then
      (List.range s.mNumBoxesInAFace).foldl (SetupHaloBoxes.right Hi) s
    else s
  if !(AmMaster s) then
    (List.range s.mNumBoxesInAFace).foldl (SetupHaloBoxes.left Lo) s
  else s

/-- Rank 1 of three processes for a two-dimensional collection of 3 by 6 unit boxes, when the
rank owns the rows `[2, 4)`, as the constructor leaves it. -/
def middleRank : DistributedBoxCollection :=
  { DIM := .two, mBoxWidth := 1, mDomainSize := [0, 3, 0, 6], mNumBoxesEachDirection := [3, 6],
    low := 2, high := 4, numProcs := 3, rank := 1, mNumBoxesInAFace := 3,
    mMinBoxIndex := 6, mMaxBoxIndex := 11, mNumBoxes := 18,
    mBoxes := [{}, {}, {}, {}, {}, {}],
    mBoxesMapping := [(6, 0), (7, 1), (8, 2), (9, 3), (10, 4), (11, 5)] }

/-- What the constructor establishes on any rank that owns at least one row, together with
what the row distribution guarantees when every rank owns a row: exactly rank 0 starts at row 0
and exactly the last rank ends at the last row. Periodicity is only accepted on one process in 2D. -/
def RankGrid (s : DistributedBoxCollection) : Prop :=
  s.mNumBoxesEachDirection.length = s.DIM.toNat
    ∧ (∀ i, i < s.DIM.toNat → 1 ≤ s.mNumBoxesEachDirection.getD i 0)
    ∧ s.mNumBoxes = s.mNumBoxesEachDirection.prod
    ∧ s.mNumBoxes < 4294967296
    ∧ s.low < s.high
    ∧ s.high ≤ s.mNumBoxesEachDirection.getD (s.DIM.toNat - 1) 0
    ∧ s.mNumBoxesInAFace = (s.mNumBoxesEachDirection.take (s.DIM.toNat - 1)).prod
    ∧ s.mMinBoxIndex = s.low * s.mNumBoxesInAFace
    ∧ s.mMaxBoxIndex = s.high * s.mNumBoxesInAFace - 1
    ∧ s.mBoxes.length = s.mNumBoxesInAFace * (s.high - s.low)
    ∧ s.rank < s.numProcs ∧ s.numProcs < 4294967296
    ∧ (s.rank = 0 ↔ s.low = 0)
    ∧ (s.rank + 1 = s.numProcs ↔
        s.high = s.mNumBoxesEachDirection.getD (s.DIM.toNat - 1) 0)
    ∧ (s.mIsPeriodicInX = true → s.DIM = .two ∧ s.numProcs = 1)

instance (s : DistributedBoxCollection) : Decidable (RankGrid s) := by
  unfold RankGrid; infer_instance

/-- The facts of `RankGrid` for a grid whose rows hold `a` boxes each, `nlast` rows in all. -/
def RankRows (s : DistributedBoxCollection) (a nlast : Nat) : Prop :=
  s.mNumBoxesInAFace = a ∧ 1 ≤ a ∧ s.mNumBoxes = a * nlast ∧ s.mNumBoxes < 4294967296
    ∧ s.low < s.high ∧ s.high ≤ nlast
    ∧ s.mMinBoxIndex = s.low * a ∧ s.mMaxBoxIndex = s.high * a - 1
    ∧ s.mBoxes.length = a * (s.high - s.low)
    ∧ s.rank < s.numProcs ∧ s.numProcs < 4294967296
    ∧ (s.rank = 0 ↔ s.low = 0) ∧ (s.rank + 1 = s.numProcs ↔ s.high = nlast)

/-- Body of the outer loops of `UpdateHaloBoxes`: the indices of the nodes of the listed box
`g` are appended; `rGetBox` asserts that the box is owned. -/
def UpdateHaloBoxes.step (s : DistributedBoxCollection) (mHaloNodes : List Nat) (g : Nat) :
    Except Failure (List Nat) := do
  let box ← rGetBox s g
  pure (mHaloNodes ++ box.mNodesContained.map (fun node => node.index))

/-- One of the two loops of `UpdateHaloBoxes`, starting from the cleared vector. -/
def UpdateHaloBoxes.collect (s : DistributedBoxCollection) (halos : List Nat) :
    Except Failure (List Nat) :=
  halos.foldlM (UpdateHaloBoxes.step s) []

/-- The member function `UpdateHaloBoxes`. -/
def UpdateHaloBoxes (s : DistributedBoxCollection) : Except Failure DistributedBoxCollection :=
  match UpdateHaloBoxes.collect s s.mHalosLeft with
  | .error e => .error e
  | .ok mHaloNodesLeft =>
    match UpdateHaloBoxes.collect s s.mHalosRight with
    | .error e => .error e
    | .ok mHaloNodesRight =>
      .ok { s with mHaloNodesLeft := mHaloNodesLeft, mHaloNodesRight := mHaloNodesRight }

/-- The indices of the nodes held by the owned box `g`, in the iteration order of the box. -/
def nodeIndicesOfBox (s : DistributedBoxCollection) (g : Nat) : List Nat :=
  match rGetBox s g with
  | .ok box => box.mNodesContained.map (fun node => node.index)
  | .error _ => []

/-- The C library function `fmod` in exact arithmetic: `x - trunc(x / y) * y`. The result
`none` is the NaN that `fmod` returns for a zero divisor. -/
def fmod (x y : ℚ) : Option ℚ :=
  if y = 0 then none
  else some (x - ((if 0 ≤ x / y then ⌊x / y⌋ else ⌈x / y⌉ : ℤ) : ℚ) * y)

/-- The first loop of the constructor in exact arithmetic: an axis whose extent is not a
multiple of the box width has its upper end raised to the next multiple. The test `r > 0.0` is
false when `r` is NaN. -/
def swellDomain (DIM : Dim) (boxWidth : ℚ) (domainSize : List ℚ) : List ℚ :=
  (List.range DIM.toNat).foldl
    (fun domainSize i =>
      match fmod (domainSize.getD (2 * i + 1) 0 - domainSize.getD (2 * i) 0) boxWidth with
      | some r =>
        if r > 0 then
          domainSize.set (2 * i + 1) (domainSize.getD (2 * i + 1) 0 + (boxWidth - r))
        else domainSize
      | none => domainSize)
    domainSize

/-- The loop `while (counter + mFudge < mDomainSize(2*i+1))` of the constructor for one axis
in exact arithmetic, with an iteration budget. -/
def countBoxes (fuel : Nat) (mBoxWidth upper : ℚ) (counter : ℚ) (num : Nat) : Option Nat :=
  match fuel with
  | 0 => none
  | fuel + 1 =>
    if counter + mFudge < upper then
      countBoxes fuel mBoxWidth upper (counter + mBoxWidth) (uadd num 1)
    else some num

/-- The constructor of `DistributedBoxCollection<DIM>` from the point where the boxes of each
axis have been counted: the last axis is grown to one row per process if it has fewer, the rows
are distributed and the boxes are allocated. -/
def newDistributedBoxCollection.allocate (DIM : Dim) (boxWidth : ℚ) (mDomainSize : List ℚ)
    (counted : List Nat) (isPeriodicInX : Bool) (numProcs rank : Nat)
    (rows : Nat → Nat × Nat) : DistributedBoxCollection :=
  let last := DIM.toNat - 1
  let grow : Bool := decide (counted.getD last 0 < numProcs)
  let mDomainSize :=
    if grow then
      mDomainSize.set (2 * DIM.toNat - 1)
        (mDomainSize.getD (2 * DIM.toNat - 1) 0
          + ((usub numProcs (counted.getD last 0) : Nat) : ℚ) * boxWidth)
    else mDomainSize
  let mNumBoxesEachDirection := if grow then counted.set last numProcs else counted
  let low := (rows (mNumBoxesEachDirection.getD last 0)).1
  let high := (rows (mNumBoxesEachDirection.getD last 0)).2
  let mNumBoxesInAFace :=
    (List.range last).foldl (fun f i => umul f (mNumBoxesEachDirection.getD i 0)) 1
  let num_boxes := umul mNumBoxesInAFace (usub high low)
  let mMinBoxIndex := umul low mNumBoxesInAFace
  let mMaxBoxIndex := usub (umul high mNumBoxesInAFace) 1
  { DIM := DIM, mBoxWidth := boxWidth, mDomainSize := mDomainSize,
    mIsPeriodicInX := isPeriodicInX, mAreLocalBoxesSet := false,
    mCalculateNodeNeighbours := true,
    mNumBoxesEachDirection := mNumBoxesEachDirection, low := low, high := high,
    numProcs := numProcs, rank := rank, mNumBoxesInAFace := mNumBoxesInAFace,
    mMinBoxIndex := mMinBoxIndex, mMaxBoxIndex := mMaxBoxIndex,
    mNumBoxes := umul mNumBoxesInAFace (mNumBoxesEachDirection.getD last 0),
    mBoxes := List.replicate num_boxes {},
    mBoxesMapping := (List.range num_boxes).map (fun i => (uadd mMinBoxIndex i, i)) }

/-- The constructor of `DistributedBoxCollection<DIM>` in exact arithmetic. `numProcs` and
`rank` are what `PetscTools` reports, and `rows n` is the pair `GetLow()`, `GetHigh()` of the
`DistributedVectorFactory` made for `n` rows. -/
def newDistributedBoxCollection (DIM : Dim) (fuel : Nat) (boxWidth : ℚ) (domainSize : List ℚ)
    (isPeriodicInX : Bool) (numProcs rank : Nat) (rows : Nat → Nat × Nat) :
    Except Failure DistributedBoxCollection :=
  if isPeriodicInX && !(DIM == .two && numProcs == 1) then .error .assertion
  else
    let mDomainSize := swellDomain DIM boxWidth domainSize
    match (List.range DIM.toNat).mapM (fun i =>
        countBoxes fuel boxWidth (mDomainSize.getD (2 * i + 1) 0)
          (mDomainSize.getD (2 * i) 0) 0) with
    | none => .error .outOfFuel
    | some counted =>
      .ok (newDistributedBoxCollection.allocate DIM boxWidth mDomainSize counted isPeriodicInX
        numProcs rank rows)

/-- The number of boxes that cover an axis of extent `a`: the least `k` with `a ≤ k * w`. -/
def boxesAlong (a w : ℚ) : Nat := ⌈a / w⌉.toNat

/-- The value a C++ `int` (32 bits, two's complement) holds after a result `x` of exact
arithmetic is stored in it. -/
def wrapInt (x : Int) : Int := (x + 2147483648) % 4294967296 - 2147483648

/-- Sum of two `int` values. -/
def iadd (a b : Int) : Int := wrapInt (a + b)

/-- Difference of two `int` values. -/
def isub (a b : Int) : Int := wrapInt (a - b)

/-- Product of two `int` values. -/
def imul (a b : Int) : Int := wrapInt (a * b)

/-- The block `if (!PetscTools::AmMaster())` of `LoadBalance`: the value of `local_change`
computed from the distribution of the nodes over the local rows and over the rows of the left
process. Reading the last row of the left process or the first local row fails when there is
none. -/
def LoadBalance.localChange (localDistribution node_distr_on_left_process : List Int) :
    Except Failure Int :=
  let local_load := localDistribution.foldl iadd 0
  let load_on_left_proc := node_distr_on_left_process.foldl iadd 0
  match node_distr_on_left_process.get? (node_distr_on_left_process.length - 1),
      localDistribution.get? 0 with
  | some last_left, some first_local =>
    let local_to_left_sq :=
      imul (isub local_load load_on_left_proc) (isub local_load load_on_left_proc)
    let delta_left := isub (iadd local_load last_left) (isub load_on_left_proc last_left)
    let delta_left := isub (imul delta_left delta_left) local_to_left_sq
    let delta_right := isub (isub local_load first_local) (iadd load_on_left_proc first_local)
    let delta_right := isub (imul delta_right delta_right) local_to_left_sq
    .ok ((if !(decide (delta_left > 0)) && decide (node_distr_on_left_process.length > 1)
          then 1 else 0)
        - (if !(decide (delta_right > 0)) && decide (localDistribution.length > 2)
          then 1 else 0))
  | _, _ => .error .badAccess

/-- The member function `LoadBalance` on one rank. `node_distr_on_left_process` is what the
rank receives from its left neighbour and `received_change` what the right neighbour sends; a
receive from `MPI_PROC_NULL` leaves the buffer as initialised. The result is the returned number
of rows and the `local_change` sent to the left neighbour, if any. -/
def LoadBalance (amMaster amTopMost : Bool) (localDistribution : List Int)
    (node_distr_on_left_process : List Int) (received_change : Int) :
    Except Failure (Int × Option Int) :=
  let new_rows : Int := wrapInt localDistribution.length
  let node_distr_on_left_process := if amMaster then [] else node_distr_on_left_process
  let remote_change : Int := if amTopMost then 0 else received_change
  if !amMaster then
    match LoadBalance.localChange localDistribution node_distr_on_left_process with
    | .error e => .error e
    | .ok local_change =>
      let new_rows := iadd new_rows local_change
      .ok (isub new_rows remote_change, some local_change)
  else
    .ok (isub new_rows remote_change, none)

/-- One collective call of `LoadBalance` on the ranks `0, ..., n-1`, where rank `r` passes the
distribution `distributions[r]`: the number of rows returned on rank `r`. The rank receives
the distribution of rank `r-1` and the `local_change` of rank `r+1`. -/
def LoadBalance.pass (distributions : List (List Int)) (r : Nat) : Except Failure Int :=
  let received : Except Failure Int :=
    if r + 1 < distributions.length then
      LoadBalance.localChange (distributions.getD (r + 1) []) (distributions.getD r [])
    else .ok 0
  match received with
  | .error e => .error e
  | .ok received_change =>
    match LoadBalance (r == 0) (r + 1 == distributions.length) (distributions.getD r [])
        (if r == 0 then [] else distributions.getD (r - 1) []) received_change with
    | .error e => .error e
    | .ok result => .ok result.1

/-- The decision of rank `r` about its bottom boundary in a collective call of `LoadBalance`:
0 on the master and outside the ranks. -/
def LoadBalance.decision (distributions : List (List Int)) (r : Nat) : Int :=
  if 0 < r ∧ r < distributions.length then
    match LoadBalance.localChange (distributions.getD r []) (distributions.getD (r - 1) []) with
    | .ok local_change => local_change
    | .error _ => 0
  else 0

/-- The numbers of rows returned on the ranks `0, ..., n-1` by one collective call of
`LoadBalance`. -/
def LoadBalance.passAll (distributions : List (List Int)) : Except Failure (List Int) :=
  (List.range distributions.length).mapM (LoadBalance.pass distributions)

/-- Modelled from the spec: the mesh classes (`AbstractTetrahedralMesh`, `Element`,
`ChasteCuboid`) are not among the sources. This is the MeshProvider capability of the spec, with
the member functions that `FineCoarseMeshPair` calls as fields: `nodes` are the locations of
`GetNode(i)`, `elements` the vertex locations `GetElement(i)->GetNode(j)` of each element,
element `i` having index `i`; `GetContainingElementIndex` is `none` where the mesh raises an
exception. -/
structure Mesh where
  nodes : List (List ℚ) := []
  elements : List (List (List ℚ)) := []
  /-- The lower and the upper corner of `CalculateBoundingBox()`. -/
  CalculateBoundingBox : List ℚ × List ℚ := ([], [])
  CalculateMinMaxEdgeLengths : ℚ × ℚ := (0, 0)
  /-- Arguments: the point, `strict`, `testElements`, `onlyTryWithTestElements`. -/
  GetContainingElementIndex : List ℚ → Bool → Finset Nat → Bool → Option Nat :=
    fun _ _ _ _ => none
  GetNearestElementIndexFromTestElements : List ℚ → Finset Nat → Nat := fun _ _ => 0
  /-- The weights `GetElement(i)->CalculateInterpolationWeights(point)`. -/
  CalculateInterpolationWeights : Nat → List ℚ → List ℚ := fun _ _ => []
  /-- The centroid `GetElement(i)->CalculateCentroid()`. -/
  CalculateCentroid : Nat → List ℚ := fun _ => []

/-- Modelled from the spec: the class `BoxCollection` is not among the sources. The spec makes
the grid of a mesh pair a single-process box grid, so it is a `DistributedBoxCollection` on one
process; the element set of each box (`Box::rGetElementsContained`, as element indices) is kept
beside it, position by position of `mBoxes`. -/
structure BoxCollection where
  grid : DistributedBoxCollection
  mElementsContained : List (Finset Nat) := []

/-- Modelled from the spec: the constructor `BoxCollection(boxWidth, domainSize)`, the
constructor of the grid on one process, not periodic, with every box empty. -/
def newBoxCollection (DIM : Dim) (fuel : Nat) (boxWidth : ℚ) (domainSize : List ℚ) :
    Except Failure BoxCollection :=
  match newDistributedBoxCollection DIM fuel boxWidth domainSize false 1 0 (fun n => (0, n)) with
  | .error e => .error e
  | .ok grid => .ok { grid := grid, mElementsContained := List.replicate grid.mBoxes.length ∅ }

/-- Modelled from the spec: `rGetBox(boxIndex).rGetElementsContained()`, with the precondition
of `rGetBox`. -/
def BoxCollection.rGetElementsContained (bc : BoxCollection) (boxIndex : Nat) :
    Except Failure (Finset Nat) :=
  if GetBoxOwnership bc.grid boxIndex then
    match bc.mElementsContained.get? (boxIndex - bc.grid.mMinBoxIndex) with
    | some elements => .ok elements
    | none => .error .badAccess
  else .error .assertion

/-- Modelled from the spec: `rGetBox(boxIndex).AddElement(pElement)` for the element of index
`element`. -/
def BoxCollection.AddElement (bc : BoxCollection) (boxIndex element : Nat) :
    Except Failure BoxCollection :=
  if GetBoxOwnership bc.grid boxIndex then
    match bc.mElementsContained.get? (boxIndex - bc.grid.mMinBoxIndex) with
    | some elements =>
      .ok { bc with mElementsContained :=
        bc.mElementsContained.set (boxIndex - bc.grid.mMinBoxIndex) (insert element elements) }
    | none => .error .badAccess
  else .error .assertion

/-- The vector `extended_min_and_max` of `SetUpBoxes`: the bounding box of the mesh, extended by
5% of its width on both sides of every axis. -/
def SetUpBoxes.extended (DIM : Dim) (rMesh : Mesh) : List ℚ :=
  (List.range DIM.toNat).flatMap fun i =>
    let width := rMesh.CalculateBoundingBox.2.getD i 0 - rMesh.CalculateBoundingBox.1.getD i 0
    [rMesh.CalculateBoundingBox.1.getD i 0 - 5 / 100 * width,
      rMesh.CalculateBoundingBox.2.getD i 0 + 5 / 100 * width]

/-- The box width that `SetUpBoxes` passes to the constructor of the box collection. -/
def SetUpBoxes.boxWidth (DIM : Dim) (rMesh : Mesh) (boxWidth : ℚ) : ℚ :=
  let extended_min_and_max := SetUpBoxes.extended DIM rMesh
  if boxWidth < 0 then
    let boxWidth :=
      (extended_min_and_max.getD 1 0 - extended_min_and_max.getD 0 0)
        / (19000000001 / 1000000000)
    let min_max_edge_length := rMesh.CalculateMinMaxEdgeLengths
    if boxWidth < min_max_edge_length.2 then 11 / 10 * min_max_edge_length.2 else boxWidth
  else boxWidth

/-- The set `box_indices_each_node_this_elem` that `SetUpBoxes` collects for one element: the
containing boxes of its `DIM+1` vertices. -/
def SetUpBoxes.boxIndices (grid : DistributedBoxCollection) (fuel : Nat)
    (vertices : List (List ℚ)) : Except Failure (Finset Nat) :=
  (List.range (grid.DIM.toNat + 1)).foldlM
    (fun box_indices_each_node_this_elem j =>
      match vertices.get? j with
      | none => .error .badAccess
      | some location =>
        match CalculateContainingBox grid fuel location with
        | .error e => .error e
        | .ok box_index => .ok (insert box_index box_indices_each_node_this_elem))
    ∅

/-- The body of the loop over the elements in `SetUpBoxes`, for element `i`. -/
def SetUpBoxes.element (fuel : Nat) (rMesh : Mesh) (bc : BoxCollection) (i : Nat) :
    Except Failure BoxCollection :=
  match rMesh.elements.get? i with
  | none => .error .badAccess
  | some vertices =>
    match SetUpBoxes.boxIndices bc.grid fuel vertices with
    | .error e => .error e
    | .ok box_indices_each_node_this_elem =>
      (box_indices_each_node_this_elem.sort (· ≤ ·)).foldlM
        (fun bc box_index => bc.AddElement box_index i) bc

/-- The member function `FineCoarseMeshPair::SetUpBoxes`: the box collection it leaves in
`rpBoxCollection`. -/
def SetUpBoxes (DIM : Dim) (fuel : Nat) (rMesh : Mesh) (boxWidth : ℚ) :
    Except Failure BoxCollection :=
  match newBoxCollection DIM fuel (SetUpBoxes.boxWidth DIM rMesh boxWidth)
      (SetUpBoxes.extended DIM rMesh) with
  | .error e => .error e
  | .ok bc =>
    (List.range rMesh.elements.length).foldlM (SetUpBoxes.element fuel rMesh)
      { bc with grid := SetupAllLocalBoxes bc.grid }

/-- An entry of `mFineMeshElementsAndWeights`. -/
structure ElementAndWeights where
  ElementNum : Nat := 0
  Weights : List ℚ := []
deriving DecidableEq

/-- State of a `FineCoarseMeshPair<DIM>`; `none` is the `NULL` pointer. -/
structure FineCoarseMeshPair where
  DIM : Dim
  mrFineMesh : Mesh
  mrCoarseMesh : Mesh
  mpFineMeshBoxCollection : Option BoxCollection := none
  mpCoarseMeshBoxCollection : Option BoxCollection := none
  mFineMeshElementsAndWeights : List ElementAndWeights := []
  mNotInMesh : List Nat := []
  mNotInMeshNearestElementWeights : List (List ℚ) := []
  mStatisticsCounters : List Nat := []
  mCoarseElementsForFineNodes : List Nat := []
  mCoarseElementsForFineElementCentroids : List Nat := []

/-- The call `v.resize(n, val)` of a `std::vector`: entries beyond `n` are dropped, missing
entries are filled with `val`, and the entries already there are kept. -/
def vectorResize {α : Type} (v : List α) (n : Nat) (val : α) : List α :=
  v.take n ++ List.replicate (n - v.length) val

/-- The member function `FineCoarseMeshPair::ResetStatisticsVariables`. -/
def ResetStatisticsVariables (s : FineCoarseMeshPair) : FineCoarseMeshPair :=
  { s with
    mNotInMesh := []
    mNotInMeshNearestElementWeights := []
    mStatisticsCounters := vectorResize s.mStatisticsCounters 2 0 }

/-- The constructor of `FineCoarseMeshPair<DIM>`. -/
def newFineCoarseMeshPair (DIM : Dim) (rFineMesh rCoarseMesh : Mesh) : FineCoarseMeshPair :=
  ResetStatisticsVariables { DIM := DIM, mrFineMesh := rFineMesh, mrCoarseMesh := rCoarseMesh }

/-- The member function `FineCoarseMeshPair::DeleteFineBoxCollection`. -/
def DeleteFineBoxCollection (s : FineCoarseMeshPair) : FineCoarseMeshPair :=
  { s with mpFineMeshBoxCollection := none }

/-- The member function `FineCoarseMeshPair::DeleteCoarseBoxCollection`. -/
def DeleteCoarseBoxCollection (s : FineCoarseMeshPair) : FineCoarseMeshPair :=
  { s with mpCoarseMeshBoxCollection := none }

/-- The member function `FineCoarseMeshPair::SetUpBoxesOnFineMesh`. -/
def SetUpBoxesOnFineMesh (s : FineCoarseMeshPair) (fuel : Nat) (boxWidth : ℚ) :
    Except Failure FineCoarseMeshPair :=
  match SetUpBoxes s.DIM fuel s.mrFineMesh boxWidth with
  | .error e => .error e
  | .ok bc => .ok { s with mpFineMeshBoxCollection := some bc }

/-- The member function `FineCoarseMeshPair::SetUpBoxesOnCoarseMesh`. -/
def SetUpBoxesOnCoarseMesh (s : FineCoarseMeshPair) (fuel : Nat) (boxWidth : ℚ) :
    Except Failure FineCoarseMeshPair :=
  match SetUpBoxes s.DIM fuel s.mrCoarseMesh boxWidth with
  | .error e => .error e
  | .ok bc => .ok { s with mpCoarseMeshBoxCollection := some bc }

/-- The member function `FineCoarseMeshPair::CollectElementsInContainingBox`; the loop inserts
the index of every element of the box into `rElementIndices`. -/
def CollectElementsInContainingBox (rpBoxCollection : Option BoxCollection) (boxIndex : Nat)
    (rElementIndices : Finset Nat) : Except Failure (Finset Nat) :=
  match rpBoxCollection with
  | none => .error .badAccess
  | some bc =>
    match bc.rGetElementsContained boxIndex with
    | .error e => .error e
    | .ok elements => .ok (rElementIndices ∪ elements)

/-- The member function `FineCoarseMeshPair::CollectElementsInLocalBoxes`. -/
def CollectElementsInLocalBoxes (rpBoxCollection : Option BoxCollection) (boxIndex : Nat)
    (rElementIndices : Finset Nat) : Except Failure (Finset Nat) :=
  match rpBoxCollection with
  | none => .error .badAccess
  | some bc =>
    match GetLocalBoxes bc.grid boxIndex with
    | .error e => .error e
    | .ok local_boxes =>
      (local_boxes.sort (· ≤ ·)).foldlM
        (fun rElementIndices local_box =>
          match bc.rGetElementsContained local_box with
          | .error e => .error e
          | .ok elements => .ok (rElementIndices ∪ elements))
        rElementIndices

/-- The statement `mStatisticsCounters[k]++`. -/
def incrementCounter (s : FineCoarseMeshPair) (k : Nat) : FineCoarseMeshPair :=
  { s with mStatisticsCounters :=
      s.mStatisticsCounters.set k (uadd (s.mStatisticsCounters.getD k 0) 1) }

/-- The two assignments to `mFineMeshElementsAndWeights[index]` at the end of
`ComputeFineElementAndWeightForGivenPoint`. -/
def storeElementAndWeight (s : FineCoarseMeshPair) (rPoint : List ℚ) (index elem_index : Nat) :
    Except Failure FineCoarseMeshPair :=
  if index < s.mFineMeshElementsAndWeights.length then
    .ok { s with
      mFineMeshElementsAndWeights := s.mFineMeshElementsAndWeights.set index
        ({ ElementNum := elem_index,
           Weights := s.mrFineMesh.CalculateInterpolationWeights elem_index rPoint } :
          ElementAndWeights) }
  else .error .badAccess

/-- The three statements of the branches of `ComputeFineElementAndWeightForGivenPoint` in which
no containing element was found. -/
def recordNotInMesh (s : FineCoarseMeshPair) (rPoint : List ℚ) (index elem_index : Nat) :
    FineCoarseMeshPair :=
  incrementCounter
    { s with
      mNotInMesh := s.mNotInMesh ++ [index]
      mNotInMeshNearestElementWeights := s.mNotInMeshNearestElementWeights
        ++ [s.mrFineMesh.CalculateInterpolationWeights elem_index rPoint] } 1

/-- The member function `FineCoarseMeshPair::ComputeFineElementAndWeightForGivenPoint`. -/
def ComputeFineElementAndWeightForGivenPoint (s : FineCoarseMeshPair) (rPoint : List ℚ)
    (safeMode : Bool) (boxForThisPoint index : Nat) : Except Failure FineCoarseMeshPair :=
  match CollectElementsInContainingBox s.mpFineMeshBoxCollection boxForThisPoint ∅ with
  | .error e => .error e
  | .ok test_element_indices =>
    match s.mrFineMesh.GetContainingElementIndex rPoint false test_element_indices true with
    | some elem_index => storeElementAndWeight (incrementCounter s 0) rPoint index elem_index
    | none =>
      match CollectElementsInLocalBoxes s.mpFineMeshBoxCollection boxForThisPoint ∅ with
      | .error e => .error e
      | .ok test_element_indices =>
        match s.mrFineMesh.GetContainingElementIndex rPoint false test_element_indices true with
        | some elem_index =>
          storeElementAndWeight (incrementCounter s 0) rPoint index elem_index
        | none =>
          if safeMode then
            match s.mrFineMesh.GetContainingElementIndex rPoint false ∅ false with
            | some elem_index =>
              storeElementAndWeight (incrementCounter s 0) rPoint index elem_index
            | none =>
              let elem_index :=
                s.mrFineMesh.GetNearestElementIndexFromTestElements rPoint test_element_indices
              storeElementAndWeight (recordNotInMesh s rPoint index elem_index) rPoint index
                elem_index
          else if test_element_indices.card > 0 then
            let elem_index :=
              s.mrFineMesh.GetNearestElementIndexFromTestElements rPoint test_element_indices
            storeElementAndWeight (recordNotInMesh s rPoint index elem_index) rPoint index
              elem_index
          else .error .assertion

/-- The member function `FineCoarseMeshPair::ComputeCoarseElementForGivenPoint`: the returned
element and the state it leaves. -/
def ComputeCoarseElementForGivenPoint (s : FineCoarseMeshPair) (rPoint : List ℚ)
    (safeMode : Bool) (boxForThisPoint : Nat) : Except Failure (Nat × FineCoarseMeshPair) :=
  match CollectElementsInContainingBox s.mpCoarseMeshBoxCollection boxForThisPoint ∅ with
  | .error e => .error e
  | .ok test_element_indices =>
    match s.mrCoarseMesh.GetContainingElementIndex rPoint false test_element_indices true with
    | some elem_index => .ok (elem_index, incrementCounter s 0)
    | none =>
      match CollectElementsInLocalBoxes s.mpCoarseMeshBoxCollection boxForThisPoint ∅ with
      | .error e => .error e
      | .ok test_element_indices =>
        match s.mrCoarseMesh.GetContainingElementIndex rPoint false test_element_indices true
        with
        | some elem_index => .ok (elem_index, incrementCounter s 0)
        | none =>
          if safeMode then
            match s.mrCoarseMesh.GetContainingElementIndex rPoint false ∅ false with
            | some elem_index => .ok (elem_index, incrementCounter s 0)
            | none =>
              .ok (s.mrCoarseMesh.GetNearestElementIndexFromTestElements rPoint
                test_element_indices, incrementCounter s 1)
          else if test_element_indices.card > 0 then
            .ok (s.mrCoarseMesh.GetNearestElementIndexFromTestElements rPoint
              test_element_indices, incrementCounter s 1)
          else .error .assertion

/-- What a bulk operation leaves behind: the state of the mesh pair, and the failure that ended
the operation early, if any. An exception leaves the state as it was when it was raised. -/
structure Outcome where
  state : FineCoarseMeshPair
  failure : Option Failure := none

/-- The loop over the query points shared by `ComputeFineElementsAndWeightsForCoarseQuadPoints`
and `ComputeFineElementsAndWeightsForCoarseNodes`; `points` holds the remaining points with
their indices. -/
def ComputeFineElementsAndWeights.loop (fuel : Nat) (safeMode : Bool) :
    FineCoarseMeshPair → List (Nat × List ℚ) → Outcome
  | s, [] => { state := s }
  | s, (i, point) :: points =>
    match s.mpFineMeshBoxCollection with
    | none => { state := s, failure := some .badAccess }
    | some bc =>
      match CalculateContainingBox bc.grid fuel point with
      | .error e => { state := s, failure := some e }
      | .ok box_for_this_point =>
        match ComputeFineElementAndWeightForGivenPoint s point safeMode box_for_this_point i
        with
        | .error e => { state := s, failure := some e }
        | .ok s' => ComputeFineElementsAndWeights.loop fuel safeMode s' points

/-- The member function `FineCoarseMeshPair::ComputeFineElementsAndWeightsForCoarseQuadPoints`;
`quad_point_posns` are the positions of the `QuadraturePointsGroup` made from the coarse mesh
and the quadrature rule. -/
def ComputeFineElementsAndWeightsForCoarseQuadPoints (s : FineCoarseMeshPair) (fuel : Nat)
    (quad_point_posns : List (List ℚ)) (safeMode : Bool) : Outcome :=
  if s.mpFineMeshBoxCollection.isNone then
    { state := s
      failure := some (.exception
        "Call SetUpBoxesOnFineMesh() before ComputeFineElementsAndWeightsForCoarseQuadPoints()") }
  else
    ComputeFineElementsAndWeights.loop fuel safeMode
      (ResetStatisticsVariables { s with
        mFineMeshElementsAndWeights :=
          vectorResize s.mFineMeshElementsAndWeights quad_point_posns.length {} })
      quad_point_posns.enum

/-- The member function `FineCoarseMeshPair::ComputeFineElementsAndWeightsForCoarseNodes`. -/
def ComputeFineElementsAndWeightsForCoarseNodes (s : FineCoarseMeshPair) (fuel : Nat)
    (safeMode : Bool) : Outcome :=
  if s.mpFineMeshBoxCollection.isNone then
    { state := s
      failure := some (.exception
        "Call SetUpBoxesOnFineMesh() before ComputeFineElementsAndWeightsForCoarseNodes()") }
  else
    ComputeFineElementsAndWeights.loop fuel safeMode
      (ResetStatisticsVariables { s with
        mFineMeshElementsAndWeights :=
          vectorResize s.mFineMeshElementsAndWeights s.mrCoarseMesh.nodes.length {} })
      s.mrCoarseMesh.nodes.enum

/-- The loop over the query points shared by `ComputeCoarseElementsForFineNodes` and
`ComputeCoarseElementsForFineElementCentroids`; `assign s i e` is the assignment of the
element `e` to entry `i` of the result vector. -/
def ComputeCoarseElements.loop (fuel : Nat) (safeMode : Bool)
    (assign : FineCoarseMeshPair → Nat → Nat → FineCoarseMeshPair) :
    FineCoarseMeshPair → List (Nat × List ℚ) → Outcome
  | s, [] => { state := s }
  | s, (i, point) :: points =>
    match s.mpCoarseMeshBoxCollection with
    | none => { state := s, failure := some .badAccess }
    | some bc =>
      match CalculateContainingBox bc.grid fuel point with
      | .error e => { state := s, failure := some e }
      | .ok box_for_this_point =>
        match ComputeCoarseElementForGivenPoint s point safeMode box_for_this_point with
        | .error e => { state := s, failure := some e }
        | .ok (elem_index, s') =>
          ComputeCoarseElements.loop fuel safeMode assign (assign s' i elem_index) points

/-- The member function `FineCoarseMeshPair::ComputeCoarseElementsForFineNodes`. -/
def ComputeCoarseElementsForFineNodes (s : FineCoarseMeshPair) (fuel : Nat) (safeMode : Bool) :
    Outcome :=
  if s.mpCoarseMeshBoxCollection.isNone then
    { state := s
      failure := some (.exception
        "Call SetUpBoxesOnCoarseMesh() before ComputeCoarseElementsForFineNodes()") }
  else
    ComputeCoarseElements.loop fuel safeMode
      (fun s i elem_index => { s with
        mCoarseElementsForFineNodes := s.mCoarseElementsForFineNodes.set i elem_index })
      (ResetStatisticsVariables { s with
        mCoarseElementsForFineNodes :=
          vectorResize s.mCoarseElementsForFineNodes s.mrFineMesh.nodes.length 0 })
      s.mrFineMesh.nodes.enum

/-- The member function `FineCoarseMeshPair::ComputeCoarseElementsForFineElementCentroids`. -/
def ComputeCoarseElementsForFineElementCentroids (s : FineCoarseMeshPair) (fuel : Nat)
    (safeMode : Bool) : Outcome :=
  if s.mpCoarseMeshBoxCollection.isNone then
    { state := s
      failure := some (.exception
        "Call SetUpBoxesOnCoarseMesh() before ComputeCoarseElementsForFineElementCentroids()") }
  else
    ComputeCoarseElements.loop fuel safeMode
      (fun s i elem_index => { s with
        mCoarseElementsForFineElementCentroids :=
          s.mCoarseElementsForFineElementCentroids.set i elem_index })
      (ResetStatisticsVariables { s with
        mCoarseElementsForFineElementCentroids :=
          vectorResize s.mCoarseElementsForFineElementCentroids s.mrFineMesh.elements.length
            0 })
      ((List.range s.mrFineMesh.elements.length).map s.mrFineMesh.CalculateCentroid).enum

/-- Equality of results of fallible functions is decidable. -/
instance instDecidableEqExcept {ε α : Type} [DecidableEq ε] [DecidableEq α] :
    DecidableEq (Except ε α)
  | .ok a, .ok b => if h : a = b then isTrue (by rw [h]) else isFalse (by intro h'; cases h'; exact h rfl)
  | .error a, .error b =>
    if h : a = b then isTrue (by rw [h]) else isFalse (by intro h'; cases h'; exact h rfl)
  | .ok _, .error _ => isFalse (by intro h; cases h)
  | .error _, .ok _ => isFalse (by intro h; cases h)

/-- Modelled from the spec: whether a point lies in a line element, as the mesh library decides
it for `containing_element` with `strict = false`. -/
def lineElementContains (vertices : List (List ℚ)) (point : List ℚ) : Bool :=
  decide ((vertices.getD 0 []).getD 0 0 ≤ point.getD 0 0)
    && decide (point.getD 0 0 ≤ (vertices.getD 1 []).getD 0 0)

/-- Modelled from the spec: `containing_element(point, restrict_to_set, quit_if_not_in_set)` of
the MeshProvider for a mesh of line elements: the test elements are tried first, in ascending
order, then every element unless told to quit. -/
def lineMeshContaining (elements : List (List (List ℚ))) (point : List ℚ) ( strict : Bool)
    (testElements : Finset Nat) (onlyTryWithTestElements : Bool) : Option Nat :=
  match (testElements.sort (· ≤ ·)).find?
      (fun e => lineElementContains (elements.getD e []) point) with
  | some e => some e
  | none =>
    if onlyTryWithTestElements then none
    else (List.range elements.length).find?
      (fun e => lineElementContains (elements.getD e []) point)

/-- Modelled from the spec: `interpolation_weights(point)` of a line element. -/
def lineElementWeights (elements : List (List (List ℚ))) (e : Nat) (point : List ℚ) : List ℚ :=
  let a := ((elements.getD e []).getD 0 []).getD 0 0
  let b := ((elements.getD e []).getD 1 []).getD 0 0
  [(b - point.getD 0 0) / (b - a), (point.getD 0 0 - a) / (b - a)]

/-- A mesh of the two line elements `[0, 1]` and `[1, 10]`. `nearest_element_from` is taken to
return the least candidate. -/
def twoLineElements : Mesh :=
  { nodes := [[0], [1], [10]]
    elements := [[[0], [1]], [[1], [10]]]
    CalculateBoundingBox := ([0], [10])
    CalculateMinMaxEdgeLengths := (1, 9)
    GetContainingElementIndex := lineMeshContaining [[[0], [1]], [[1], [10]]]
    GetNearestElementIndexFromTestElements := fun _ testElements =>
      ((testElements.sort (· ≤ ·)).head?).getD 0
    CalculateInterpolationWeights := lineElementWeights [[[0], [1]], [[1], [10]]]
    CalculateCentroid := fun e => [([1 / 2, 11 / 2] : List ℚ).getD e 0] }

/-- A mesh pair of dimension one whose fine mesh is `twoLineElements` and whose coarse mesh
has the given nodes and no element. -/
def linePair (coarseNodes : List (List ℚ)) : FineCoarseMeshPair :=
  newFineCoarseMeshPair .one twoLineElements { nodes := coarseNodes }

/-- The mesh pair `linePair coarseNodes` after `SetUpBoxesOnFineMesh(2.0)`. -/
def linePairWithBoxes (coarseNodes : List (List ℚ)) : FineCoarseMeshPair :=
  match SetUpBoxesOnFineMesh (linePair coarseNodes) 20 2 with
  | .ok s => s
  | .error _ => linePair coarseNodes

/-- The failures that the grid and the point locator can produce: every exception among them
carries the message of `CalculateContainingBox`. -/
def Failure.fromLocator (e : Failure) : Prop :=
  ∀ msg, e = .exception msg → msg = "The point provided is outside all of the boxes"

/-- Element `e` is in the element set of box `b` of the collection. -/
def BoxCollection.holds (bc : BoxCollection) (b e : Nat) : Prop :=
  ∃ elements, bc.rGetElementsContained b = .ok elements ∧ e ∈ elements

/-- The box collection that `SetUpBoxes` builds over `twoLineElements` with box width 2. -/
def lineBoxes : BoxCollection :=
  match SetUpBoxes .one 20 twoLineElements 2 with
  | .ok bc => bc
  | .error _ => { grid := { DIM := .one } }

/-- The box width as the specification words it for `SetUpBoxes`: "If `box_width ≤ 0`, use
`max(max_edge_length · 1.1, (width_x / 19.000000001))`", where `width_x` is the x-extent of the
extended bounding box; a positive width is used unchanged. -/
def SetUpBoxes.specifiedWidth (DIM : Dim) (rMesh : Mesh) (boxWidth : ℚ) : ℚ :=
  if boxWidth ≤ 0 then
    max (rMesh.CalculateMinMaxEdgeLengths.2 * (11 / 10))
      (((SetUpBoxes.extended DIM rMesh).getD 1 0 - (SetUpBoxes.extended DIM rMesh).getD 0 0)
        / (19000000001 / 1000000000))
  else boxWidth

/-- A mesh of eighteen line elements of length 1 on the nodes `0, 1, ..., 18`. -/
def eighteenLineElements : Mesh :=
  { nodes := (List.range 19).map (fun i => [(i : ℚ)])
    elements := (List.range 18).map (fun i => [[(i : ℚ)], [(i : ℚ) + 1]])
    CalculateBoundingBox := ([0], [18])
    CalculateMinMaxEdgeLengths := (1, 1)
    GetContainingElementIndex :=
      lineMeshContaining ((List.range 18).map (fun i => [[(i : ℚ)], [(i : ℚ) + 1]]))
    GetNearestElementIndexFromTestElements := fun _ testElements =>
      ((testElements.sort (· ≤ ·)).head?).getD 0
    CalculateInterpolationWeights :=
      lineElementWeights ((List.range 18).map (fun i => [[(i : ℚ)], [(i : ℚ) + 1]]))
    CalculateCentroid := fun e => [(e : ℚ) + 1 / 2] }

/-- The state `s'` differs from `s` as the specification describes for a query point `index`
whose containing element `elem_index` was found: the found-counter is incremented, the element
and its weights are stored for the point, and nothing is recorded as not in the mesh. -/
def RecordsFound (s s' : FineCoarseMeshPair) (rPoint : List ℚ) (index elem_index : Nat) :
    Prop :=
  s'.mNotInMesh = s.mNotInMesh
    ∧ s'.mNotInMeshNearestElementWeights = s.mNotInMeshNearestElementWeights
    ∧ s'.mStatisticsCounters
      = s.mStatisticsCounters.set 0 (uadd (s.mStatisticsCounters.getD 0 0) 1)
    ∧ s'.mFineMeshElementsAndWeights
      = s.mFineMeshElementsAndWeights.set index
          { ElementNum := elem_index,
            Weights := s.mrFineMesh.CalculateInterpolationWeights elem_index rPoint }

/-- The state `s'` differs from `s` as the specification describes for a query point `index`
that was found in no element: the index and the weights in the element `elem_index` are
appended to the not-in-mesh vectors, the not-found counter is incremented, and that element
and its weights are stored for the point. -/
def RecordsNotInMesh (s s' : FineCoarseMeshPair) (rPoint : List ℚ) (index elem_index : Nat) :
    Prop :=
  s'.mNotInMesh = s.mNotInMesh ++ [index]
    ∧ s'.mNotInMeshNearestElementWeights = s.mNotInMeshNearestElementWeights
        ++ [s.mrFineMesh.CalculateInterpolationWeights elem_index rPoint]
    ∧ s'.mStatisticsCounters
      = s.mStatisticsCounters.set 1 (uadd (s.mStatisticsCounters.getD 1 0) 1)
    ∧ s'.mFineMeshElementsAndWeights
      = s.mFineMeshElementsAndWeights.set index
          { ElementNum := elem_index,
            Weights := s.mrFineMesh.CalculateInterpolationWeights elem_index rPoint }

/-- The mesh pair `linePairWithBoxes` for the single coarse node 10.5, with the result vector
resized to one entry as the bulk operations do before their loop. -/
def lineQuery : FineCoarseMeshPair :=
  { linePairWithBoxes [[21 / 2]] with mFineMeshElementsAndWeights := [{}] }

/-- The mesh pair `linePairWithBoxes` for the single coarse node 0.5, with the result vector
resized to one entry. -/
def lineQueryInside : FineCoarseMeshPair :=
  { linePairWithBoxes [[1 / 2]] with mFineMeshElementsAndWeights := [{}] }

/-- The number of halvings that bring `n` below 2, found in at most `fuel` steps: with
`fuel = n` this is the integer part of the binary logarithm of `n`. -/
def binaryLog (fuel n : Nat) : Nat :=
  match fuel with
  | 0 => 0
  | fuel + 1 => if n < 2 then 0 else binaryLog fuel (n / 2) + 1

/-- The power `2 ^ k` of two with an integer exponent, computed on natural numbers. -/
def twoPow (k : ℤ) : ℚ :=
  if 0 ≤ k then ((2 ^ k.toNat : Nat) : ℚ) else 1 / ((2 ^ (-k).toNat : Nat) : ℚ)

/-- The value of type `double` (IEEE 754 binary64, round to nearest, ties to even) that holds
the exact result `q` of an operation: with `2^e ≤ |q| < 2^(e+1)` it is the multiple of
`2^(e-52)` nearest to `q`, of `2^(-1074)` for a subnormal result. An infinite result is
represented by `2^1024` with the sign of `q`. -/
def roundDouble (q : ℚ) : ℚ :=
  if q = 0 then 0
  else
    let k : ℤ := (binaryLog q.num.natAbs q.num.natAbs : ℤ) - (binaryLog q.den q.den : ℤ)
    let e : ℤ := if twoPow k ≤ |q| then k else k - 1
    let quantum : ℚ := twoPow (max e (-1022) - 52)
    let t : ℚ := q / quantum
    let m : ℤ := ⌊t⌋
    let n : ℤ :=
      if t - m < 1 / 2 then m
      else if 1 / 2 < t - m then m + 1
      else if m % 2 = 0 then m else m + 1
    let r : ℚ := n * quantum
    if twoPow 1024 ≤ |r| then (if 0 < q then twoPow 1024 else -twoPow 1024)
    else r

/-- Sum of two finite values of type `double`. -/
def dadd (a b : ℚ) : ℚ := roundDouble (a + b)

/-- Difference of two finite values of type `double`. -/
def dsub (a b : ℚ) : ℚ := roundDouble (a - b)

/-- Product of two finite values of type `double`. -/
def dmul (a b : ℚ) : ℚ := roundDouble (a * b)

/-- The member `mFudge` as the `double` it is: the literal `5e-14` rounded. -/
def mFudgeDouble : ℚ := roundDouble (5 / 100000000000000)

/-- The loop `while (!((box_counter + mBoxWidth) > rLocation[i] + mFudge))` of
`CalculateContainingBox` for one axis in `double` arithmetic, with an iteration budget. -/
def scanAxisDouble (fuel : Nat) (mBoxWidth x : ℚ) (box_counter : ℚ)
    (containing_box_index : Nat) : Option Nat :=
  match fuel with
  | 0 => none
  | fuel + 1 =>
    if !(decide (dadd box_counter mBoxWidth > dadd x mFudgeDouble)) then
      scanAxisDouble fuel mBoxWidth x (dadd box_counter mBoxWidth) (uadd containing_box_index 1)
    else some containing_box_index

/-- The member function
`DistributedBoxCollection::CalculateContainingBox(c_vector<double, DIM>&)` in `double`
arithmetic: every sum of the scan is rounded. The fields `mBoxWidth` and `mDomainSize` and the
location hold finite values of type `double`. -/
def CalculateContainingBoxDouble (s : DistributedBoxCollection) (fuel : Nat)
    (rLocation : List ℚ) : Except Failure Nat :=
  if (List.range s.DIM.toNat).any (fun i =>
      decide (rLocation.getD i 0 < s.mDomainSize.getD (2 * i) 0)
        || !(decide (rLocation.getD i 0 < s.mDomainSize.getD (2 * i + 1) 0))) then
    .error (.exception "The point provided is outside all of the boxes")
  else
    match (List.range s.DIM.toNat).mapM (fun i =>
        scanAxisDouble fuel s.mBoxWidth (rLocation.getD i 0) (s.mDomainSize.getD (2 * i) 0) 0)
    with
    | none => .error .outOfFuel
    | some containing_box_indices =>
      let containing_box_index :=
        CalculateGlobalIndex s.DIM s.mNumBoxesEachDirection containing_box_indices
      if containing_box_index < s.mNumBoxes then .ok containing_box_index
      else .error .assertion

/-- The C library function `fmod` on values of type `double`: the result of `fmod` in exact
arithmetic, which a `double` holds without rounding; NaN (`none`) also for an infinite `x`. -/
def fmodDouble (x y : ℚ) : Option ℚ :=
  if twoPow 1024 ≤ |x| then none else fmod x y

/-- The first loop of the constructor in `double` arithmetic. The test `r > 0.0` is false when
`r` is NaN. -/
def swellDomainDouble (DIM : Dim) (boxWidth : ℚ) (domainSize : List ℚ) : List ℚ :=
  (List.range DIM.toNat).foldl
    (fun domainSize i =>
      match fmodDouble (dsub (domainSize.getD (2 * i + 1) 0) (domainSize.getD (2 * i) 0))
          boxWidth with
      | some r =>
        if r > 0 then
          domainSize.set (2 * i + 1) (dadd (domainSize.getD (2 * i + 1) 0) (dsub boxWidth r))
        else domainSize
      | none => domainSize)
    domainSize

/-- The loop `while (counter + mFudge < mDomainSize(2*i+1))` of the constructor for one axis
in `double` arithmetic, with an iteration budget. -/
def countBoxesDouble (fuel : Nat) (mBoxWidth upper : ℚ) (counter : ℚ) (num : Nat) :
    Option Nat :=
  match fuel with
  | 0 => none
  | fuel + 1 =>
    if dadd counter mFudgeDouble < upper then
      countBoxesDouble fuel mBoxWidth upper (dadd counter mBoxWidth) (uadd num 1)
    else some num

/-- The constructor of `DistributedBoxCollection<DIM>` in `double` arithmetic from the point
where the boxes of each axis have been counted: as `newDistributedBoxCollection.allocate`, with
the product and the sum that grow the last axis rounded. -/
def newDistributedBoxCollectionDouble.allocate (DIM : Dim) (boxWidth : ℚ)
    (mDomainSize : List ℚ) (counted : List Nat) (isPeriodicInX : Bool) (numProcs rank : Nat)
    (rows : Nat → Nat × Nat) : DistributedBoxCollection :=
  let last := DIM.toNat - 1
  let grow : Bool := decide (counted.getD last 0 < numProcs)
  let mDomainSize :=
    if grow then
      mDomainSize.set (2 * DIM.toNat - 1)
        (dadd (mDomainSize.getD (2 * DIM.toNat - 1) 0)
          (dmul ((usub numProcs (counted.getD last 0) : Nat) : ℚ) boxWidth))
    else mDomainSize
  let mNumBoxesEachDirection := if grow then counted.set last numProcs else counted
  let low := (rows (mNumBoxesEachDirection.getD last 0)).1
  let high := (rows (mNumBoxesEachDirection.getD last 0)).2
  let mNumBoxesInAFace :=
    (List.range last).foldl (fun f i => umul f (mNumBoxesEachDirection.getD i 0)) 1
  let num_boxes := umul mNumBoxesInAFace (usub high low)
  let mMinBoxIndex := umul low mNumBoxesInAFace
  let mMaxBoxIndex := usub (umul high mNumBoxesInAFace) 1
  { DIM := DIM, mBoxWidth := boxWidth, mDomainSize := mDomainSize,
    mIsPeriodicInX := isPeriodicInX, mAreLocalBoxesSet := false,
    mCalculateNodeNeighbours := true,
    mNumBoxesEachDirection := mNumBoxesEachDirection, low := low, high := high,
    numProcs := numProcs, rank := rank, mNumBoxesInAFace := mNumBoxesInAFace,
    mMinBoxIndex := mMinBoxIndex, mMaxBoxIndex := mMaxBoxIndex,
    mNumBoxes := umul mNumBoxesInAFace (mNumBoxesEachDirection.getD last 0),
    mBoxes := List.replicate num_boxes {},
    mBoxesMapping := (List.range num_boxes).map (fun i => (uadd mMinBoxIndex i, i)) }

/-- The constructor of `DistributedBoxCollection<DIM>` in `double` arithmetic: every
difference, sum and product of values of type `double` is rounded. The box width and the
domain bounds are finite values of type `double`; `numProcs`, `rank` and `rows` are as in
`newDistributedBoxCollection`. -/
def newDistributedBoxCollectionDouble (DIM : Dim) (fuel : Nat) (boxWidth : ℚ)
    (domainSize : List ℚ) (isPeriodicInX : Bool) (numProcs rank : Nat)
    (rows : Nat → Nat × Nat) : Except Failure DistributedBoxCollection :=
  if isPeriodicInX && !(DIM == .two && numProcs == 1) then .error .assertion
  else
    let mDomainSize := swellDomainDouble DIM boxWidth domainSize
    match (List.range DIM.toNat).mapM (fun i =>
        countBoxesDouble fuel boxWidth (mDomainSize.getD (2 * i + 1) 0)
          (mDomainSize.getD (2 * i) 0) 0) with
    | none => .error .outOfFuel
    | some counted =>
      .ok (newDistributedBoxCollectionDouble.allocate DIM boxWidth mDomainSize counted
        isPeriodicInX numProcs rank rows)

/-- The per-axis coordinate of a point in `double` arithmetic: the floor of the distance of the
rounded sum `rLocation[i] + mFudge` from the lower domain bound, in units of the box width. -/
def floorIndexDouble (s : DistributedBoxCollection) (rLocation : List ℚ) (i : Nat) : Nat :=
  ⌊(dadd (rLocation.getD i 0) mFudgeDouble - s.mDomainSize.getD (2 * i) 0) / s.mBoxWidth⌋.toNat

/-- A one-dimensional collection of two unit boxes on the domain `[256, 258]`, as the
constructor builds it on one process. -/
def unitBoxesFrom256 : DistributedBoxCollection :=
  { DIM := .one, mBoxWidth := 1, mDomainSize := [256, 258], mNumBoxesEachDirection := [2],
    high := 2, mMaxBoxIndex := 1, mNumBoxes := 2, mBoxes := [{}, {}],
    mBoxesMapping := [(0, 0), (1, 1)] }

/-- A one-dimensional collection of 250 boxes of width `0.1` on the domain `[0, 25]`, as the
constructor builds it on one process. -/
def tenthBoxes : DistributedBoxCollection :=
  { DIM := .one, mBoxWidth := roundDouble (1 / 10), mDomainSize := [0, 25],
    mNumBoxesEachDirection := [250], high := 250, mMaxBoxIndex := 249, mNumBoxes := 250,
    mBoxes := List.replicate 250 {}, mBoxesMapping := (List.range 250).map (fun i => (i, i)) }

/-- The largest `double` below 257: `257 - 2^(-44)`. -/
def belowBoundary : List ℚ := [257 - 1 / 17592186044416]

theorem uadd_eq (a b : Nat) (h : a + b < 4294967296) : uadd a b = a + b := by
  unfold uadd; omega

theorem usub_eq (a b : Nat) (ha : a < 4294967296) (h : b ≤ a) : usub a b = a - b := by
  unfold usub; omega

theorem umul_eq (a b : Nat) (h : a * b < 4294967296) : umul a b = a * b := by
  unfold umul; omega

theorem CalculateGlobalIndex_one (N c : List Nat) :
    CalculateGlobalIndex .one N c = uadd 0 (umul 1 (c.getD 0 0)) := by
  simp [CalculateGlobalIndex, Dim.toNat, List.range_succ]

theorem CalculateGlobalIndex_two (N c : List Nat) :
    CalculateGlobalIndex .two N c
      = uadd (uadd 0 (umul 1 (c.getD 0 0))) (umul (umul 1 (N.getD 0 0)) (c.getD 1 0)) := by
  simp [CalculateGlobalIndex, Dim.toNat, List.range_succ]

theorem CalculateGlobalIndex_three (N c : List Nat) :
    CalculateGlobalIndex .three N c
      = uadd (uadd (uadd 0 (umul 1 (c.getD 0 0))) (umul (umul 1 (N.getD 0 0)) (c.getD 1 0)))
          (umul (umul (umul 1 (N.getD 0 0)) (N.getD 1 0)) (c.getD 2 0)) := by
  simp [CalculateGlobalIndex, Dim.toNat, List.range_succ]

theorem radix2_lt (a b n0 n1 : Nat) (ha : a < n0) (hb : b < n1) : a + b * n0 < n0 * n1 := by
  calc a + b * n0 < n0 + b * n0 := by omega
    _ = (b + 1) * n0 := by ring
    _ ≤ n1 * n0 := Nat.mul_le_mul_right _ hb
    _ = n0 * n1 := by ring

theorem radix3_lt (a b d n0 n1 n2 : Nat) (ha : a < n0) (hb : b < n1) (hd : d < n2) :
    a + b * n0 + d * (n0 * n1) < n0 * n1 * n2 := by
  have h2 := radix2_lt a b n0 n1 ha hb
  calc a + b * n0 + d * (n0 * n1) < n0 * n1 + d * (n0 * n1) := by omega
    _ = (d + 1) * (n0 * n1) := by ring
    _ ≤ n2 * (n0 * n1) := Nat.mul_le_mul_right _ hd
    _ = n0 * n1 * n2 := by ring

theorem CalculateGlobalIndex_radix (DIM : Dim) (N c : List Nat)
    (hN : N.length = DIM.toNat) (hc : c.length = DIM.toNat)
    (hlt : ∀ i, i < DIM.toNat → c.getD i 0 < N.getD i 0)
    (hfit : N.prod < 4294967296) :
    CalculateGlobalIndex DIM N c
      = c.getD 0 0 + c.getD 1 0 * N.getD 0 0 + c.getD 2 0 * N.getD 0 0 * N.getD 1 0 := by
  cases DIM
  · match N, c, hN, hc with
    | [n0], [a], _, _ =>
      have ha := hlt 0 (by decide)
      simp at ha hfit
      rw [CalculateGlobalIndex_one]
      simp [uadd, umul]
      omega
  · match N, c, hN, hc with
    | [n0, n1], [a, b], _, _ =>
      have ha := hlt 0 (by decide)
      have hb := hlt 1 (by decide)
      simp at ha hb hfit
      have h2 := radix2_lt a b n0 n1 ha hb
      have hb0 : n0 * b = b * n0 := Nat.mul_comm _ _
      rw [CalculateGlobalIndex_two]
      simp [uadd, umul]
      omega
  · match N, c, hN, hc with
    | [n0, n1, n2], [a, b, d], _, _ =>
      have ha := hlt 0 (by decide)
      have hb := hlt 1 (by decide)
      have hd := hlt 2 (by decide)
      simp at ha hb hd hfit
      have h2 := radix2_lt a b n0 n1 ha hb
      have h3 := radix3_lt a b d n0 n1 n2 ha hb hd
      have hn2 : 0 < n2 := by omega
      have h01 : n0 * n1 ≤ n0 * (n1 * n2) := by
        rw [← Nat.mul_assoc]; exact Nat.le_mul_of_pos_right _ hn2
      have e3 : n0 * n1 * n2 = n0 * (n1 * n2) := Nat.mul_assoc _ _ _
      have hb0 : n0 * b = b * n0 := Nat.mul_comm _ _
      have hd0 : n0 * n1 * d = d * (n0 * n1) := Nat.mul_comm _ _
      have hd1 : d * n0 * n1 = d * (n0 * n1) := Nat.mul_assoc _ _ _
      rw [CalculateGlobalIndex_three]
      simp only [uadd, umul, List.getD_cons_zero, List.getD_cons_succ, Nat.one_mul, Nat.zero_add]
      have m1 : n0 % 4294967296 = n0 := by
        have : n0 ≤ n0 * n1 := Nat.le_mul_of_pos_right _ (by omega)
        omega
      rw [Nat.mod_eq_of_lt (by omega : a < 4294967296), m1]
      have m2 : n0 * b % 4294967296 = n0 * b := by omega
      have m3 : n0 * n1 % 4294967296 = n0 * n1 := by omega
      rw [m2, m3]
      have m4 : n0 * n1 * d % 4294967296 = n0 * n1 * d := by omega
      rw [m4]
      omega

theorem coords_three (n0 n1 n2 g : Nat) (h0 : 0 < n0) (h1 : 0 < n1)
    (hfit : n0 * n1 < 4294967296) (hg : g < 4294967296) :
    CalculateCoordinateIndices .three [n0, n1, n2] g = [g % n0, g / n0 % n1, g / (n0 * n1)] := by
  have hm : umul n0 n1 = n0 * n1 := umul_eq _ _ hfit
  have e0 : g % (n0 * n1) % n0 = g % n0 := Nat.mod_mul_right_mod g n0 n1
  have hle : g % n0 ≤ g := Nat.mod_le _ _
  have hs : usub g (g % n0) = n0 * (g / n0) := by
    rw [usub_eq _ _ hg hle]
    have := Nat.div_add_mod g n0
    omega
  have hq : n0 * (g / n0) / n0 = g / n0 := Nat.mul_div_cancel_left _ h0
  have hle2 : n0 * (g / n0 % n1) ≤ n0 * (g / n0) := Nat.mul_le_mul_left _ (Nat.mod_le _ _)
  have hle3 : n0 * (g / n0) ≤ g := Nat.mul_div_le g n0
  have hm2 : umul n0 (g / n0 % n1) = n0 * (g / n0 % n1) := umul_eq _ _ (by omega)
  have hs2 : usub (n0 * (g / n0)) (n0 * (g / n0 % n1)) = n0 * n1 * (g / n0 / n1) := by
    rw [usub_eq _ _ (by omega) hle2]
    have := Nat.div_add_mod (g / n0) n1
    have e : n0 * (g / n0) = n0 * n1 * (g / n0 / n1) + n0 * (g / n0 % n1) := by
      conv_lhs => rw [← this]
      ring
    omega
  have hq2 : n0 * n1 * (g / n0 / n1) / (n0 * n1) = g / (n0 * n1) := by
    rw [Nat.mul_div_cancel_left _ (Nat.mul_pos h0 h1), Nat.div_div_eq_div_mul]
  simp only [CalculateCoordinateIndices, List.getD_cons_zero, List.getD_cons_succ, hm, e0, hs, hq,
    hm2, hs2, hq2]

theorem coords_radix (n0 n1 g : Nat) :
    g % n0 + g / n0 % n1 * n0 + g / (n0 * n1) * n0 * n1 = g := by
  have a := Nat.div_add_mod g n0
  have b := Nat.div_add_mod (g / n0) n1
  have c : g / (n0 * n1) = g / n0 / n1 := (Nat.div_div_eq_div_mul g n0 n1).symm
  rw [c]
  have e : n0 * (g / n0) = g / n0 / n1 * n0 * n1 + g / n0 % n1 * n0 := by
    conv_lhs => rw [← b]
    ring
  omega

/-- For a coordinate tuple below the box counts the global index is the mixed-radix form and
`CalculateCoordinateIndices` maps it back to the tuple. -/
theorem coords_of_global_index (DIM : Dim) (N c : List Nat)
    (hN : N.length = DIM.toNat) (hc : c.length = DIM.toNat)
    (hlt : ∀ i, i < DIM.toNat → c.getD i 0 < N.getD i 0)
    (hfit : N.prod < 4294967296) :
    CalculateGlobalIndex DIM N c
        = c.getD 0 0 + c.getD 1 0 * N.getD 0 0 + c.getD 2 0 * N.getD 0 0 * N.getD 1 0
      ∧ CalculateCoordinateIndices DIM N (CalculateGlobalIndex DIM N c) = c := by
  refine ⟨CalculateGlobalIndex_radix DIM N c hN hc hlt hfit, ?_⟩
  rw [CalculateGlobalIndex_radix DIM N c hN hc hlt hfit]
  cases DIM
  · match N, c, hN, hc with
    | [n0], [a], _, _ => simp [CalculateCoordinateIndices]
  · match N, c, hN, hc with
    | [n0, n1], [a, b], _, _ =>
      have ha := hlt 0 (by decide)
      simp at ha
      have hpos : 0 < n0 := by omega
      simp [CalculateCoordinateIndices, Nat.add_mul_mod_self_right, Nat.mod_eq_of_lt ha,
        Nat.add_mul_div_right _ _ hpos, Nat.div_eq_of_lt ha]
  · match N, c, hN, hc with
    | [n0, n1, n2], [a, b, d], _, _ =>
      have ha := hlt 0 (by decide)
      have hb := hlt 1 (by decide)
      have hd := hlt 2 (by decide)
      simp at ha hb hd hfit
      have h0 : 0 < n0 := by omega
      have h1 : 0 < n1 := by omega
      have hn2 : 0 < n2 := by omega
      have h2 := radix2_lt a b n0 n1 ha hb
      have h3 := radix3_lt a b d n0 n1 n2 ha hb hd
      have e3 : n0 * n1 * n2 = n0 * (n1 * n2) := Nat.mul_assoc _ _ _
      have h01 : n0 * n1 ≤ n0 * n1 * n2 := Nat.le_mul_of_pos_right _ hn2
      have hd1 : d * n0 * n1 = d * (n0 * n1) := Nat.mul_assoc _ _ _
      simp only [List.getD_cons_zero, List.getD_cons_succ]
      rw [coords_three n0 n1 n2 _ h0 h1 (by omega) (by omega), hd1]
      have x0 : (a + b * n0 + d * (n0 * n1)) % n0 = a := by
        have : a + b * n0 + d * (n0 * n1) = a + (b + d * n1) * n0 := by ring
        rw [this, Nat.add_mul_mod_self_right, Nat.mod_eq_of_lt ha]
      have x1 : (a + b * n0 + d * (n0 * n1)) / n0 % n1 = b := by
        have : a + b * n0 + d * (n0 * n1) = a + (b + d * n1) * n0 := by ring
        rw [this, Nat.add_mul_div_right _ _ h0, Nat.div_eq_of_lt ha, Nat.zero_add,
          Nat.add_mul_mod_self_right, Nat.mod_eq_of_lt hb]
      have x2 : (a + b * n0 + d * (n0 * n1)) / (n0 * n1) = d := by
        rw [Nat.add_mul_div_right _ _ (Nat.mul_pos h0 h1), Nat.div_eq_of_lt h2, Nat.zero_add]
      rw [x0, x1, x2]

/-- For a global index below the number of boxes `CalculateCoordinateIndices` returns an
in-range tuple whose `CalculateGlobalIndex` is the index again. -/
theorem global_of_coords_index (DIM : Dim) (N : List Nat) (g : Nat)
    (hN : N.length = DIM.toNat)
    (hpos : ∀ i, i < DIM.toNat → 1 ≤ N.getD i 0)
    (hg : g < N.prod) (hfit : N.prod < 4294967296) :
    (CalculateCoordinateIndices DIM N g).length = DIM.toNat
      ∧ (∀ i, i < DIM.toNat → (CalculateCoordinateIndices DIM N g).getD i 0 < N.getD i 0)
      ∧ CalculateGlobalIndex DIM N (CalculateCoordinateIndices DIM N g) = g := by
  have key : (CalculateCoordinateIndices DIM N g).length = DIM.toNat
      ∧ (∀ i, i < DIM.toNat → (CalculateCoordinateIndices DIM N g).getD i 0 < N.getD i 0)
      ∧ (CalculateCoordinateIndices DIM N g).getD 0 0
          + (CalculateCoordinateIndices DIM N g).getD 1 0 * N.getD 0 0
          + (CalculateCoordinateIndices DIM N g).getD 2 0 * N.getD 0 0 * N.getD 1 0 = g := by
    cases DIM
    · match N, hN with
      | [n0], _ =>
        simp at hg
        refine ⟨rfl, ?_, by simp [CalculateCoordinateIndices]⟩
        intro i hi
        have : i = 0 := by simp [Dim.toNat] at hi; omega
        subst this
        simpa [CalculateCoordinateIndices] using hg
    · match N, hN with
      | [n0, n1], _ =>
        have p0 := hpos 0 (by decide)
        simp at hg p0
        have hq : g / n0 < n1 := by
          rw [Nat.div_lt_iff_lt_mul (by omega)]; rw [Nat.mul_comm]; exact hg
        refine ⟨rfl, ?_, ?_⟩
        · intro i hi
          have : i = 0 ∨ i = 1 := by simp [Dim.toNat] at hi; omega
          rcases this with rfl | rfl
          · simpa [CalculateCoordinateIndices] using Nat.mod_lt g (by omega : n0 > 0)
          · simpa [CalculateCoordinateIndices] using hq
        · simp only [CalculateCoordinateIndices, List.getD_cons_zero, List.getD_cons_succ,
            List.getD_nil, Nat.zero_mul, Nat.add_zero]
          have := Nat.div_add_mod g n0
          have e : g / n0 * n0 = n0 * (g / n0) := Nat.mul_comm _ _
          omega
    · match N, hN with
      | [n0, n1, n2], _ =>
        have p0 := hpos 0 (by decide)
        have p1 := hpos 1 (by decide)
        simp at hg hfit p0 p1
        have e3 : n0 * (n1 * n2) = n0 * n1 * n2 := (Nat.mul_assoc _ _ _).symm
        have hle : n0 * n1 ≤ n0 * n1 * n2 := by
          rcases Nat.eq_zero_or_pos n2 with h | h
          · subst h; simp at hg
          · exact Nat.le_mul_of_pos_right _ h
        rw [coords_three n0 n1 n2 g (by omega) (by omega) (by omega) (by omega)]
        have hq : g / (n0 * n1) < n2 := by
          rw [Nat.div_lt_iff_lt_mul (Nat.mul_pos (by omega) (by omega))]
          rw [Nat.mul_comm]; omega
        refine ⟨rfl, ?_, ?_⟩
        · intro i hi
          have : i = 0 ∨ i = 1 ∨ i = 2 := by simp [Dim.toNat] at hi; omega
          rcases this with rfl | rfl | rfl
          · simpa using Nat.mod_lt g (by omega : n0 > 0)
          · simpa using Nat.mod_lt (g / n0) (by omega : n1 > 0)
          · simpa using hq
        · simpa using coords_radix n0 n1 g
  refine ⟨key.1, key.2.1, ?_⟩
  rw [CalculateGlobalIndex_radix DIM N _ hN key.1 key.2.1 hfit]
  exact key.2.2

theorem uadd_usub_eq (a b c : Nat) (ha : a < 4294967296) (hb : b < 4294967296)
    (h1 : b ≤ a + c) (h2 : a + c < b + 4294967296) : uadd (usub a b) c = a + c - b := by
  unfold uadd usub; omega

theorem usub_uadd_eq (a b c : Nat) (ha : a < 4294967296) (hb : b < 4294967296)
    (hc : c < 4294967296) (h1 : c ≤ a + b) (h2 : a + b < c + 4294967296) :
    usub (uadd a b) c = a + b - c := by
  unfold uadd usub; omega

theorem or_dead {a b c : Prop} (h1 : ¬ a) (h2 : b ↔ c) : (a ∨ b ↔ c) := by
  rw [← h2]; exact or_iff_right h1

theorem mem_condInsert (c : Bool) (v b : Nat) (s : Finset Nat) :
    b ∈ condInsert c v s ↔ (c = true ∧ b = v) ∨ b ∈ s := by
  cases c <;> simp [condInsert]

theorem condInsert_true (v : Nat) (s : Finset Nat) : condInsert true v s = insert v s := by
  simp [condInsert]

theorem condInsert_false (v : Nat) (s : Finset Nat) : condInsert false v s = s := by
  simp [condInsert]

theorem mul_add_mod_lt (n y x : Nat) (hx : x < n) : (n * y + x) % n = x := by
  rw [Nat.mul_add_mod, Nat.mod_eq_of_lt hx]

theorem mul_add_div_lt (n y x : Nat) (hx : x < n) : (n * y + x) / n = y := by
  have hn : 0 < n := by omega
  rw [Nat.mul_add_div hn, Nat.div_eq_of_lt hx, Nat.add_zero]

theorem mul_succ_le (n y m : Nat) (hy : y < m) : n * y + n ≤ n * m := by
  calc n * y + n = n * (y + 1) := by ring
    _ ≤ n * m := Nat.mul_le_mul_left _ hy

theorem mul_cmp (n y z : Nat) :
    (z = y → n * z = n * y) ∧ (z = y + 1 → n * z = n * y + n) ∧ (z + 1 = y → n * z + n = n * y)
      ∧ (y + 2 ≤ z → n * y + 2 * n ≤ n * z) ∧ (z + 2 ≤ y → n * z + 2 * n ≤ n * y) := by
  refine ⟨?_, ?_, ?_, ?_, ?_⟩
  · rintro rfl; rfl
  · rintro rfl; exact Nat.mul_succ _ _
  · rintro rfl; exact (Nat.mul_succ _ _).symm
  · intro h
    calc n * y + 2 * n = n * (y + 2) := by ring
      _ ≤ n * z := Nat.mul_le_mul_left _ h
  · intro h
    calc n * z + 2 * n = n * (z + 2) := by ring
      _ ≤ n * y := Nat.mul_le_mul_left _ h

theorem row_facts (n y m : Nat) (hy : y < m) :
    n * y + n ≤ n * m ∧ (y + 1 = m → n * y + n = n * m) ∧ (y + 1 < m → n * y + 2 * n ≤ n * m)
      ∧ (y = 0 → n * y = 0) ∧ (0 < y → n ≤ n * y) := by
  refine ⟨mul_succ_le n y m hy, ?_, ?_, ?_, ?_⟩
  · rintro rfl; exact (Nat.mul_succ _ _).symm
  · intro h
    calc n * y + 2 * n = n * (y + 2) := by ring
      _ ≤ n * m := Nat.mul_le_mul_left _ h
  · rintro rfl; rfl
  · intro h; exact Nat.le_mul_of_pos_right _ h

theorem flag_top (n m x y : Nat) (hx : x < n) (hy : y < m) :
    n * y + x < n * m - n ↔ y + 1 < m := by
  obtain ⟨r1, r2, r3, r4, r5⟩ := row_facts n y m hy
  omega

theorem flag_top_ge (n m x y : Nat) (hx : x < n) (hy : y < m) :
    n * y + x ≥ n * m - n ↔ ¬ y + 1 < m := by
  rw [← flag_top n m x y hx hy]; omega

theorem flag_bottom (n x y : Nat) (hx : x < n) : n * y + x < n ↔ ¬ 0 < y := by
  rcases Nat.eq_zero_or_pos y with h | h
  · subst h; simp; exact hx
  · have := Nat.le_mul_of_pos_right n h
    omega

theorem flag_xmax (n x y : Nat) (hx : x < n) : (n * y + x + 1) % n = 0 ↔ ¬ x + 1 < n := by
  rcases Nat.lt_or_ge (x + 1) n with h | h
  · rw [Nat.add_assoc, mul_add_mod_lt n y (x + 1) h]; omega
  · have e : x + 1 = n := by omega
    rw [Nat.add_assoc, e, Nat.mul_add_mod, Nat.mod_self]; omega

theorem pred_mul (n m : Nat) : (m - 1) * n = n * m - n := by
  rw [Nat.sub_mul, Nat.one_mul, Nat.mul_comm]

theorem radix2_unique (n a a' b b' : Nat) (ha : a < n) (ha' : a' < n) :
    n * b + a = n * b' + a' ↔ b = b' ∧ a = a' := by
  constructor
  · intro h
    have h1 := congrArg (· % n) h
    have h2 := congrArg (· / n) h
    simp only [mul_add_mod_lt n _ _ ha, mul_add_mod_lt n _ _ ha', mul_add_div_lt n _ _ ha,
      mul_add_div_lt n _ _ ha'] at h1 h2
    exact ⟨h2, h1⟩
  · rintro ⟨rfl, rfl⟩; rfl

theorem radix3_unique (N0 N1 a a' b b' c c' : Nat) (ha : a < N0) (ha' : a' < N0)
    (hb : b < N1) (hb' : b' < N1) :
    N0 * N1 * c + (N0 * b + a) = N0 * N1 * c' + (N0 * b' + a') ↔ c = c' ∧ b = b' ∧ a = a' := by
  have h1 : N0 * b + a < N0 * N1 := by
    have := mul_succ_le N0 b N1 hb
    omega
  have h2 : N0 * b' + a' < N0 * N1 := by
    have := mul_succ_le N0 b' N1 hb'
    omega
  rw [radix2_unique (N0 * N1) _ _ c c' h1 h2, radix2_unique N0 a a' b b' ha ha']

theorem radix_lt2 (N0 N1 x y : Nat) (hx : x < N0) (hy : y < N1) : N0 * y + x < N0 * N1 := by
  have := mul_succ_le N0 y N1 hy
  omega

theorem radix_lt3 (N0 N1 N2 x y z : Nat) (hx : x < N0) (hy : y < N1) (hz : z < N2) :
    N0 * N1 * z + (N0 * y + x) < N0 * N1 * N2 := by
  have h1 := radix_lt2 N0 N1 x y hx hy
  have := mul_succ_le (N0 * N1) z N2 hz
  omega

theorem half1_struct (N : List Nat) (low g : Nat) :
    SetupLocalBoxesHalfOnly.case1 N low g =
      (condInsert ((g == low) && !(g == 0))
        (usub g 1)
      (condInsert (!(g == usub (N.getD 0 0) 1))
        (uadd g 1)
      (insert g ∅))) := by
  rfl

theorem half1_flat (N0 x b : Nat) (hx : x < N0) (hfit : N0 < 4294967296) :
    b ∈ SetupLocalBoxesHalfOnly.case1 [N0] 0 x ↔
      ((x + 1 < N0 ∧ b = x + 1)
        ∨ b = x) := by
  have e1 : usub N0 1 = N0 - 1 := usub_eq _ _ (by omega) (by omega)
  have e8 : uadd x 1 = x + 1 := uadd_eq _ _ (by omega)
  have hl : x = 0 ↔ ¬ 0 < x := by omega
  have hr : x = N0 - 1 ↔ ¬ x + 1 < N0 := by omega
  have hx1 : x + 1 = N0 ↔ ¬ x + 1 < N0 := by omega
  rw [half1_struct]
  simp only [mem_condInsert, Finset.mem_insert, Finset.not_mem_empty, or_false,
    List.getD_cons_zero, e1, e8, Bool.and_eq_true, Bool.not_eq_true', and_assoc, beq_iff_eq,
    beq_eq_false_iff_ne, bne_iff_ne, ne_eq, hl, hr, hx1, not_not]
  clear e1 e8 hl hr hx1
  refine or_dead ?_ (or_congr ?_ ?_)
  all_goals
    first
    | (intro h; have := h.1; have := h.2.1; clear h; omega)
    | ((repeat (refine and_congr_right (fun _ => ?_)));
       (first
        | with_reducible rfl
        | (simp (disch := omega) only [uadd_usub_eq, usub_uadd_eq, uadd_eq, usub_eq, umul_eq]; done)
        | (refine Iff.of_eq (congrArg _ ?_); simp only [uadd, usub, umul]; omega)))

theorem half1_coord (N0 x bx : Nat) (hx : x < N0) (hbx : bx < N0) (hfit : N0 < 4294967296) :
    bx
        ∈ SetupLocalBoxesHalfOnly.case1 [N0] 0 x ↔
      ((bx = x + 1)
        ∨ (bx = x)) := by
  rw [half1_flat N0 x _ hx hfit]
  refine or_congr ?_ ?_
  · omega
  · exact Iff.rfl

theorem half1_lt (N0 x b : Nat) (hx : x < N0) (hfit : N0 < 4294967296) :
    b ∈ SetupLocalBoxesHalfOnly.case1 [N0] 0 x → b < N0 := by
  rw [half1_flat N0 x _ hx hfit]
  rintro (h | h)
  · omega
  · omega

theorem full1_struct (N : List Nat) (g : Nat) :
    SetupAllLocalBoxes.case1 N g =
      (condInsert ((uadd g 1 != N.getD 0 0))
        (uadd g 1)
      (condInsert ((g != 0))
        (usub g 1)
      (insert g ∅))) := by
  rfl

theorem full1_flat (N0 x b : Nat) (hx : x < N0) (hfit : N0 < 4294967296) :
    b ∈ SetupAllLocalBoxes.case1 [N0] x ↔
      ((x + 1 < N0 ∧ b = x + 1)
        ∨ (0 < x ∧ b = x - 1)
        ∨ b = x) := by
  have e1 : usub N0 1 = N0 - 1 := usub_eq _ _ (by omega) (by omega)
  have e8 : uadd x 1 = x + 1 := uadd_eq _ _ (by omega)
  have hl : x = 0 ↔ ¬ 0 < x := by omega
  have hr : x = N0 - 1 ↔ ¬ x + 1 < N0 := by omega
  have hx1 : x + 1 = N0 ↔ ¬ x + 1 < N0 := by omega
  rw [full1_struct]
  simp only [mem_condInsert, Finset.mem_insert, Finset.not_mem_empty, or_false,
    List.getD_cons_zero, e1, e8, Bool.and_eq_true, Bool.not_eq_true', and_assoc, beq_iff_eq,
    beq_eq_false_iff_ne, bne_iff_ne, ne_eq, hl, hr, hx1, not_not]
  clear e1 e8 hl hr hx1
  refine or_congr ?_ (or_congr ?_ ?_)
  all_goals
    first
    | (intro h; have := h.1; have := h.2.1; clear h; omega)
    | ((repeat (refine and_congr_right (fun _ => ?_)));
       (first
        | with_reducible rfl
        | (simp (disch := omega) only [uadd_usub_eq, usub_uadd_eq, uadd_eq, usub_eq, umul_eq]; done)
        | (refine Iff.of_eq (congrArg _ ?_); simp only [uadd, usub, umul]; omega)))

theorem full1_coord (N0 x bx : Nat) (hx : x < N0) (hbx : bx < N0) (hfit : N0 < 4294967296) :
    bx
        ∈ SetupAllLocalBoxes.case1 [N0] x ↔
      ((bx = x + 1)
        ∨ (bx + 1 = x)
        ∨ (bx = x)) := by
  rw [full1_flat N0 x _ hx hfit]
  refine or_congr ?_ (or_congr ?_ ?_)
  · omega
  · omega
  · exact Iff.rfl

theorem full1_lt (N0 x b : Nat) (hx : x < N0) (hfit : N0 < 4294967296) :
    b ∈ SetupAllLocalBoxes.case1 [N0] x → b < N0 := by
  rw [full1_flat N0 x _ hx hfit]
  rintro (h | h | h)
  · omega
  · omega
  · omega

theorem full1_card_interior (N0 x : Nat) (hx : x < N0) (hfit : N0 < 4294967296)
    (h0x : 0 < x) (h1x : x + 1 < N0) :
    (SetupAllLocalBoxes.case1 [N0] x).card = 3 := by
  have hs : SetupAllLocalBoxes.case1 [N0] x =
      insert (x + 1)
        (insert (x - 1)
        ({x})) := by
    ext b
    rw [full1_flat N0 x _ hx hfit]
    simp only [h0x, h1x, true_and, not_true_eq_false, false_and, false_or,
      Bool.false_eq_true, Finset.mem_insert, Finset.mem_singleton]
  rw [hs]
  repeat rw [Finset.card_insert_of_not_mem]
  · rfl
  all_goals (simp only [Finset.mem_insert, Finset.mem_singleton, not_or]; omega)

theorem half2_struct (N : List Nat) (low : Nat) (p : Bool) (nl g : Nat) :
    SetupLocalBoxesHalfOnly.case2 N low p nl g =
      (condInsert (!(g % N.getD 0 0 == usub (N.getD 0 0) 1))
        (uadd g 1)
      (condInsert ((g % N.getD 0 0 == usub (N.getD 0 0) 1) && p && decide (g < (nl + 18446744073709551616 - N.getD 0 0) % 18446744073709551616))
        (uadd g 1)
      (condInsert ((g % N.getD 0 0 == usub (N.getD 0 0) 1) && p)
        (uadd (usub g (N.getD 0 0)) 1)
      (condInsert (decide (g < usub (umul (N.getD 0 0) (N.getD 1 0)) (N.getD 0 0)) && !(g % N.getD 0 0 == 0))
        (usub (uadd g (N.getD 0 0)) 1)
      (condInsert (decide (g < usub (umul (N.getD 0 0) (N.getD 1 0)) (N.getD 0 0)) && (g % N.getD 0 0 == 0) && p)
        (usub (uadd g (umul 2 (N.getD 0 0))) 1)
      (condInsert (decide (g < usub (umul (N.getD 0 0) (N.getD 1 0)) (N.getD 0 0)) && !(g % N.getD 0 0 == usub (N.getD 0 0) 1))
        (uadd (uadd g (N.getD 0 0)) 1)
      (condInsert (decide (g < usub (umul (N.getD 0 0) (N.getD 1 0)) (N.getD 0 0)))
        (uadd g (N.getD 0 0))
      (condInsert (!decide (g < N.getD 0 0) && ((CalculateCoordinateIndices .two N g).getD 1 0 == low) && !(g % N.getD 0 0 == usub (N.getD 0 0) 1))
        (uadd (usub g (N.getD 0 0)) 1)
      (condInsert (!decide (g < N.getD 0 0) && ((CalculateCoordinateIndices .two N g).getD 1 0 == low) && !(g % N.getD 0 0 == 0))
        (usub (usub g (N.getD 0 0)) 1)
      (condInsert (!decide (g < N.getD 0 0) && ((CalculateCoordinateIndices .two N g).getD 1 0 == low))
        (usub g (N.getD 0 0))
      (insert g ∅))))))))))) := by
  simp only [SetupLocalBoxesHalfOnly.case2]
  generalize (g % N.getD 0 0 == usub (N.getD 0 0) 1) = right
  generalize (g % N.getD 0 0 == 0) = left
  generalize decide (g < usub (umul (N.getD 0 0) (N.getD 1 0)) (N.getD 0 0)) = ntop
  generalize decide (g < N.getD 0 0) = bottom
  generalize ((CalculateCoordinateIndices .two N g).getD 1 0 == low) = bp
  generalize decide (g < (nl + 18446744073709551616 - N.getD 0 0) % 18446744073709551616) = below
  cases ntop <;> cases left <;> cases right <;> cases p <;> cases bottom <;> cases bp <;>
    simp only [condInsert_true, condInsert_false, Bool.not_true, Bool.not_false,
      Bool.and_true, Bool.and_false, Bool.true_and, Bool.false_and, if_true,
      if_false, Bool.false_eq_true]

theorem half2_flat (p : Bool) (N0 N1 x y b : Nat) (hx : x < N0) (hy : y < N1)
    (hfit : N0 * N1 < 4294967296) :
    b ∈ SetupLocalBoxesHalfOnly.case2 [N0, N1] 0 p (N0 * N1) (N0 * y + x) ↔
      ((x + 1 < N0 ∧ b = N0 * y + x + 1)
        ∨ (¬ x + 1 < N0 ∧ p = true ∧ y + 1 < N1 ∧ b = N0 * y + x + 1)
        ∨ (¬ x + 1 < N0 ∧ p = true ∧ b = N0 * y + x + 1 - N0)
        ∨ (y + 1 < N1 ∧ 0 < x ∧ b = N0 * y + x + N0 - 1)
        ∨ (y + 1 < N1 ∧ ¬ 0 < x ∧ p = true ∧ b = N0 * y + x + (2 * N0) - 1)
        ∨ (y + 1 < N1 ∧ x + 1 < N0 ∧ b = N0 * y + x + N0 + 1)
        ∨ (y + 1 < N1 ∧ b = N0 * y + x + N0)
        ∨ b = N0 * y + x) := by
  have hG : N0 * y + x < N0 * N1 := by
    have := mul_succ_le N0 y N1 hy
    omega
  have hN0 : N0 ≤ N0 * N1 := by
    have := mul_succ_le N0 y N1 hy
    omega
  have hN1 : N1 ≤ N0 * N1 := Nat.le_mul_of_pos_left _ (by omega)
  have hm := mul_add_mod_lt N0 y x hx
  have hd := mul_add_div_lt N0 y x hx
  have hmm : (N0 * y + x) % (N0 * N1) = N0 * y + x := Nat.mod_eq_of_lt hG
  have e1 : usub N0 1 = N0 - 1 := usub_eq _ _ (by omega) (by omega)
  have e2 : umul N0 N1 = N0 * N1 := umul_eq _ _ hfit
  have e3 : usub (N0 * N1) N0 = N0 * N1 - N0 := usub_eq _ _ hfit hN0
  have e4 : (N0 * N1 + 18446744073709551616 - N0) % 18446744073709551616 = N0 * N1 - N0 := by
    omega
  have e7 : usub N1 1 = N1 - 1 := usub_eq _ _ (by omega) (by omega)
  have e8 : uadd (N0 * y + x) 1 = N0 * y + x + 1 := uadd_eq _ _ (by omega)
  have e9 : umul (N1 - 1) N0 = N0 * N1 - N0 := by
    rw [umul_eq _ _ (by rw [pred_mul]; omega), pred_mul]
  have hl : x = 0 ↔ ¬ 0 < x := by omega
  have hr : x = N0 - 1 ↔ ¬ x + 1 < N0 := by omega
  have ht := flag_top N0 N1 x y hx hy
  have htg := flag_top_ge N0 N1 x y hx hy
  have hb := flag_bottom N0 x y hx
  have hbp : y = 0 ↔ ¬ 0 < y := by omega
  have hxm := flag_xmax N0 x y hx
  obtain ⟨r1, -, r3, -, r5⟩ := row_facts N0 y N1 hy
  rw [half2_struct]
  simp only [mem_condInsert, Finset.mem_insert, Finset.not_mem_empty, or_false,
    List.getD_cons_zero, List.getD_cons_succ, CalculateCoordinateIndices, e1, e2, e3, e4, e7, e8,
    e9, hm, hd, hmm, Bool.and_eq_true, Bool.not_eq_true', and_assoc, beq_iff_eq,
    beq_eq_false_iff_ne, ne_eq, ge_iff_le, decide_eq_true_eq, decide_eq_false_iff_not, hl, hr, ht,
    htg, hb, hbp, hxm, not_not]
  clear e1 e2 e3 e4 e7 e8 e9 hm hd hmm hl hr ht htg hb hbp hxm
  refine or_congr ?_ (or_congr ?_ (or_congr ?_ (or_congr ?_ (or_congr ?_ (or_congr ?_ (or_congr ?_ (or_dead ?_ (or_dead ?_ (or_dead ?_ ?_)))))))))
  all_goals
    first
    | (intro h; have := h.1; have := h.2.1; clear h; omega)
    | ((repeat (refine and_congr_right (fun _ => ?_)));
       (first
        | with_reducible rfl
        | (simp (disch := omega) only [uadd_usub_eq, usub_uadd_eq, uadd_eq, usub_eq, umul_eq]; done)
        | (refine Iff.of_eq (congrArg _ ?_); simp only [uadd, usub, umul]; omega)))

theorem half2_coord (p : Bool) (N0 N1 x y bx by_ : Nat) (hx : x < N0) (hy : y < N1)
    (hbx : bx < N0) (hby : by_ < N1) (hfit : N0 * N1 < 4294967296) :
    N0 * by_ + bx
        ∈ SetupLocalBoxesHalfOnly.case2 [N0, N1] 0 p (N0 * N1) (N0 * y + x) ↔
      ((by_ = y ∧ bx = x + 1)
        ∨ (p = true ∧ x + 1 = N0 ∧ by_ = y + 1 ∧ bx = 0)
        ∨ (p = true ∧ x + 1 = N0 ∧ by_ = y ∧ bx = 0)
        ∨ (by_ = y + 1 ∧ bx + 1 = x)
        ∨ (p = true ∧ x = 0 ∧ by_ = y + 1 ∧ bx + 1 = N0)
        ∨ (by_ = y + 1 ∧ bx = x + 1)
        ∨ (by_ = y + 1 ∧ bx = x)
        ∨ (by_ = y ∧ bx = x)) := by
  obtain ⟨r1, -, r3, -, r5⟩ := row_facts N0 y N1 hy
  rw [half2_flat p N0 N1 x y _ hx hy hfit]
  refine or_congr ?_ (or_congr ?_ (or_congr ?_ (or_congr ?_ (or_congr ?_ (or_congr ?_ (or_congr ?_ ?_))))))
  · have e : x + 1 < N0 →
        N0 * y + x + 1 = N0 * y + (x + 1) := by
      intros
      try simp only [Nat.mul_add, Nat.mul_one, Nat.mul_sub_one, Nat.mul_zero]
      omega
    constructor
    · rintro ⟨c0, h⟩
      have key := (radix2_unique N0 bx (x + 1) by_ y hbx (by omega)).1 (h.trans (e c0))
      exact ⟨by omega, by omega⟩
    · rintro ⟨h1, h2⟩
      have key := (radix2_unique N0 bx (x + 1) by_ y hbx (by omega)).2
        ⟨by omega, by omega⟩
      exact ⟨by omega, key.trans (e (by omega)).symm⟩
  · have e : ¬ x + 1 < N0 → p = true → y + 1 < N1 →
        N0 * y + x + 1 = N0 * (y + 1) + 0 := by
      intros
      try simp only [Nat.mul_add, Nat.mul_one, Nat.mul_sub_one, Nat.mul_zero]
      omega
    constructor
    · rintro ⟨c0, c1, c2, h⟩
      have key := (radix2_unique N0 bx 0 by_ (y + 1) hbx (by omega)).1 (h.trans (e c0 c1 c2))
      exact ⟨c1, by omega, by omega, by omega⟩
    · rintro ⟨hp, h1, h2, h3⟩
      have key := (radix2_unique N0 bx 0 by_ (y + 1) hbx (by omega)).2
        ⟨by omega, by omega⟩
      exact ⟨by omega, hp, by omega, key.trans (e (by omega) hp (by omega)).symm⟩
  · have e : ¬ x + 1 < N0 → p = true →
        N0 * y + x + 1 - N0 = N0 * y + 0 := by
      intros
      try simp only [Nat.mul_add, Nat.mul_one, Nat.mul_sub_one, Nat.mul_zero]
      omega
    constructor
    · rintro ⟨c0, c1, h⟩
      have key := (radix2_unique N0 bx 0 by_ y hbx (by omega)).1 (h.trans (e c0 c1))
      exact ⟨c1, by omega, by omega, by omega⟩
    · rintro ⟨hp, h1, h2, h3⟩
      have key := (radix2_unique N0 bx 0 by_ y hbx (by omega)).2
        ⟨by omega, by omega⟩
      exact ⟨by omega, hp, key.trans (e (by omega) hp).symm⟩
  · have e : y + 1 < N1 → 0 < x →
        N0 * y + x + N0 - 1 = N0 * (y + 1) + (x - 1) := by
      intros
      try simp only [Nat.mul_add, Nat.mul_one, Nat.mul_sub_one, Nat.mul_zero]
      omega
    constructor
    · rintro ⟨c0, c1, h⟩
      have key := (radix2_unique N0 bx (x - 1) by_ (y + 1) hbx (by omega)).1 (h.trans (e c0 c1))
      exact ⟨by omega, by omega⟩
    · rintro ⟨h1, h2⟩
      have key := (radix2_unique N0 bx (x - 1) by_ (y + 1) hbx (by omega)).2
        ⟨by omega, by omega⟩
      exact ⟨by omega, by omega, key.trans (e (by omega) (by omega)).symm⟩
  · have e : y + 1 < N1 → ¬ 0 < x → p = true →
        N0 * y + x + (2 * N0) - 1 = N0 * (y + 1) + (N0 - 1) := by
      intros
      try simp only [Nat.mul_add, Nat.mul_one, Nat.mul_sub_one, Nat.mul_zero]
      omega
    constructor
    · rintro ⟨c0, c1, c2, h⟩
      have key := (radix2_unique N0 bx (N0 - 1) by_ (y + 1) hbx (by omega)).1 (h.trans (e c0 c1 c2))
      exact ⟨c2, by omega, by omega, by omega⟩
    · rintro ⟨hp, h1, h2, h3⟩
      have key := (radix2_unique N0 bx (N0 - 1) by_ (y + 1) hbx (by omega)).2
        ⟨by omega, by omega⟩
      exact ⟨by omega, by omega, hp, key.trans (e (by omega) (by omega) hp).symm⟩
  · have e : y + 1 < N1 → x + 1 < N0 →
        N0 * y + x + N0 + 1 = N0 * (y + 1) + (x + 1) := by
      intros
      try simp only [Nat.mul_add, Nat.mul_one, Nat.mul_sub_one, Nat.mul_zero]
      omega
    constructor
    · rintro ⟨c0, c1, h⟩
      have key := (radix2_unique N0 bx (x + 1) by_ (y + 1) hbx (by omega)).1 (h.trans (e c0 c1))
      exact ⟨by omega, by omega⟩
    · rintro ⟨h1, h2⟩
      have key := (radix2_unique N0 bx (x + 1) by_ (y + 1) hbx (by omega)).2
        ⟨by omega, by omega⟩
      exact ⟨by omega, by omega, key.trans (e (by omega) (by omega)).symm⟩
  · have e : y + 1 < N1 →
        N0 * y + x + N0 = N0 * (y + 1) + x := by
      intros
      try simp only [Nat.mul_add, Nat.mul_one, Nat.mul_sub_one, Nat.mul_zero]
      omega
    constructor
    · rintro ⟨c0, h⟩
      have key := (radix2_unique N0 bx x by_ (y + 1) hbx (by omega)).1 (h.trans (e c0))
      exact ⟨by omega, by omega⟩
    · rintro ⟨h1, h2⟩
      have key := (radix2_unique N0 bx x by_ (y + 1) hbx (by omega)).2
        ⟨by omega, by omega⟩
      exact ⟨by omega, key.trans (e (by omega)).symm⟩
  · exact radix2_unique N0 bx x by_ y hbx hx

theorem half2_lt (p : Bool) (N0 N1 x y b : Nat) (hx : x < N0) (hy : y < N1)
    (hfit : N0 * N1 < 4294967296) :
    b ∈ SetupLocalBoxesHalfOnly.case2 [N0, N1] 0 p (N0 * N1) (N0 * y + x) → b < N0 * N1 := by
  obtain ⟨r1, -, r3, -, r5⟩ := row_facts N0 y N1 hy
  rw [half2_flat p N0 N1 x y _ hx hy hfit]
  rintro (h | h | h | h | h | h | h | h)
  · obtain ⟨c0, h⟩ := h
    have e : N0 * y + x + 1 = N0 * y + (x + 1) := by
      try simp only [Nat.mul_add, Nat.mul_one, Nat.mul_sub_one, Nat.mul_zero]
      omega
    rw [h, e]
    exact radix_lt2 N0 N1 (x + 1) y (by omega) (by omega)
  · obtain ⟨c0, c1, c2, h⟩ := h
    have e : N0 * y + x + 1 = N0 * (y + 1) + 0 := by
      try simp only [Nat.mul_add, Nat.mul_one, Nat.mul_sub_one, Nat.mul_zero]
      omega
    rw [h, e]
    exact radix_lt2 N0 N1 0 (y + 1) (by omega) (by omega)
  · obtain ⟨c0, c1, h⟩ := h
    have e : N0 * y + x + 1 - N0 = N0 * y + 0 := by
      try simp only [Nat.mul_add, Nat.mul_one, Nat.mul_sub_one, Nat.mul_zero]
      omega
    rw [h, e]
    exact radix_lt2 N0 N1 0 y (by omega) (by omega)
  · obtain ⟨c0, c1, h⟩ := h
    have e : N0 * y + x + N0 - 1 = N0 * (y + 1) + (x - 1) := by
      try simp only [Nat.mul_add, Nat.mul_one, Nat.mul_sub_one, Nat.mul_zero]
      omega
    rw [h, e]
    exact radix_lt2 N0 N1 (x - 1) (y + 1) (by omega) (by omega)
  · obtain ⟨c0, c1, c2, h⟩ := h
    have e : N0 * y + x + (2 * N0) - 1 = N0 * (y + 1) + (N0 - 1) := by
      try simp only [Nat.mul_add, Nat.mul_one, Nat.mul_sub_one, Nat.mul_zero]
      omega
    rw [h, e]
    exact radix_lt2 N0 N1 (N0 - 1) (y + 1) (by omega) (by omega)
  · obtain ⟨c0, c1, h⟩ := h
    have e : N0 * y + x + N0 + 1 = N0 * (y + 1) + (x + 1) := by
      try simp only [Nat.mul_add, Nat.mul_one, Nat.mul_sub_one, Nat.mul_zero]
      omega
    rw [h, e]
    exact radix_lt2 N0 N1 (x + 1) (y + 1) (by omega) (by omega)
  · obtain ⟨c0, h⟩ := h
    have e : N0 * y + x + N0 = N0 * (y + 1) + x := by
      try simp only [Nat.mul_add, Nat.mul_one, Nat.mul_sub_one, Nat.mul_zero]
      omega
    rw [h, e]
    exact radix_lt2 N0 N1 x (y + 1) (by omega) (by omega)
  · rw [h]; exact radix_lt2 N0 N1 x y hx hy

theorem full2_struct (N : List Nat) (p : Bool) (g : Nat) :
    SetupAllLocalBoxes.case2 N p g =
      (condInsert (p && (uadd g 1 % N.getD 0 0 == 0) && !decide (g % umul (N.getD 0 0) (N.getD 1 0) ≥ umul (usub (N.getD 1 0) 1) (N.getD 0 0)))
        (uadd g 1)
      (condInsert (p && (uadd g 1 % N.getD 0 0 == 0) && !decide (g % umul (N.getD 0 0) (N.getD 1 0) < N.getD 0 0))
        (usub (uadd g 1) (umul 2 (N.getD 0 0)))
      (condInsert (p && (g % N.getD 0 0 == 0) && !decide (g % umul (N.getD 0 0) (N.getD 1 0) ≥ umul (usub (N.getD 1 0) 1) (N.getD 0 0)))
        (uadd (usub g 1) (umul 2 (N.getD 0 0)))
      (condInsert (p && (g % N.getD 0 0 == 0) && !decide (g % umul (N.getD 0 0) (N.getD 1 0) < N.getD 0 0))
        (usub g 1)
      (condInsert (!(uadd g 1 % N.getD 0 0 == 0) && !decide (g % umul (N.getD 0 0) (N.getD 1 0) ≥ umul (usub (N.getD 1 0) 1) (N.getD 0 0)))
        (uadd (uadd g 1) (N.getD 0 0))
      (condInsert (!(uadd g 1 % N.getD 0 0 == 0) && !decide (g % umul (N.getD 0 0) (N.getD 1 0) < N.getD 0 0))
        (usub (uadd g 1) (N.getD 0 0))
      (condInsert (!(g % N.getD 0 0 == 0) && !decide (g % umul (N.getD 0 0) (N.getD 1 0) ≥ umul (usub (N.getD 1 0) 1) (N.getD 0 0)))
        (uadd (usub g 1) (N.getD 0 0))
      (condInsert (!(g % N.getD 0 0 == 0) && !decide (g % umul (N.getD 0 0) (N.getD 1 0) < N.getD 0 0))
        (usub (usub g 1) (N.getD 0 0))
      (condInsert (!decide (g % umul (N.getD 0 0) (N.getD 1 0) ≥ umul (usub (N.getD 1 0) 1) (N.getD 0 0)))
        (uadd g (N.getD 0 0))
      (condInsert (!decide (g % umul (N.getD 0 0) (N.getD 1 0) < N.getD 0 0))
        (usub g (N.getD 0 0))
      (condInsert ((uadd g 1 % N.getD 0 0 == 0) && p)
        (uadd (usub g (N.getD 0 0)) 1)
      (condInsert (!(uadd g 1 % N.getD 0 0 == 0))
        (uadd g 1)
      (condInsert ((g % N.getD 0 0 == 0) && p)
        (usub (uadd g (N.getD 0 0)) 1)
      (condInsert (!(g % N.getD 0 0 == 0))
        (usub g 1)
      (insert g ∅))))))))))))))) := by
  simp only [SetupAllLocalBoxes.case2]
  generalize (g % N.getD 0 0 == 0) = xmin
  generalize (uadd g 1 % N.getD 0 0 == 0) = xmax
  generalize decide (g % umul (N.getD 0 0) (N.getD 1 0) < N.getD 0 0) = ymin
  generalize decide (g % umul (N.getD 0 0) (N.getD 1 0) ≥ umul (usub (N.getD 1 0) 1) (N.getD 0 0)) = ymax
  cases xmin <;> cases xmax <;> cases p <;>
    simp only [condInsert_true, condInsert_false, Bool.not_true, Bool.not_false,
      Bool.and_true, Bool.and_false, Bool.true_and, Bool.false_and, if_true,
      if_false, Bool.false_eq_true]

theorem full2_flat (p : Bool) (N0 N1 x y b : Nat) (hx : x < N0) (hy : y < N1)
    (hfit : N0 * N1 < 4294967296) :
    b ∈ SetupAllLocalBoxes.case2 [N0, N1] p (N0 * y + x) ↔
      ((p = true ∧ ¬ x + 1 < N0 ∧ y + 1 < N1 ∧ b = N0 * y + x + 1)
        ∨ (p = true ∧ ¬ x + 1 < N0 ∧ 0 < y ∧ b = N0 * y + x + 1 - (2 * N0))
        ∨ (p = true ∧ ¬ 0 < x ∧ y + 1 < N1 ∧ b = N0 * y + x + 2 * N0 - 1)
        ∨ (p = true ∧ ¬ 0 < x ∧ 0 < y ∧ b = N0 * y + x - 1)
        ∨ (x + 1 < N0 ∧ y + 1 < N1 ∧ b = N0 * y + x + 1 + N0)
        ∨ (x + 1 < N0 ∧ 0 < y ∧ b = N0 * y + x + 1 - N0)
        ∨ (0 < x ∧ y + 1 < N1 ∧ b = N0 * y + x - 1 + N0)
        ∨ (0 < x ∧ 0 < y ∧ b = N0 * y + x - 1 - N0)
        ∨ (y + 1 < N1 ∧ b = N0 * y + x + N0)
        ∨ (0 < y ∧ b = N0 * y + x - N0)
        ∨ (¬ x + 1 < N0 ∧ p = true ∧ b = N0 * y + x + 1 - N0)
        ∨ (x + 1 < N0 ∧ b = N0 * y + x + 1)
        ∨ (¬ 0 < x ∧ p = true ∧ b = N0 * y + x + N0 - 1)
        ∨ (0 < x ∧ b = N0 * y + x - 1)
        ∨ b = N0 * y + x) := by
  have hG : N0 * y + x < N0 * N1 := by
    have := mul_succ_le N0 y N1 hy
    omega
  have hN0 : N0 ≤ N0 * N1 := by
    have := mul_succ_le N0 y N1 hy
    omega
  have hN1 : N1 ≤ N0 * N1 := Nat.le_mul_of_pos_left _ (by omega)
  have hm := mul_add_mod_lt N0 y x hx
  have hd := mul_add_div_lt N0 y x hx
  have hmm : (N0 * y + x) % (N0 * N1) = N0 * y + x := Nat.mod_eq_of_lt hG
  have e1 : usub N0 1 = N0 - 1 := usub_eq _ _ (by omega) (by omega)
  have e2 : umul N0 N1 = N0 * N1 := umul_eq _ _ hfit
  have e3 : usub (N0 * N1) N0 = N0 * N1 - N0 := usub_eq _ _ hfit hN0
  have e4 : (N0 * N1 + 18446744073709551616 - N0) % 18446744073709551616 = N0 * N1 - N0 := by
    omega
  have e7 : usub N1 1 = N1 - 1 := usub_eq _ _ (by omega) (by omega)
  have e8 : uadd (N0 * y + x) 1 = N0 * y + x + 1 := uadd_eq _ _ (by omega)
  have e9 : umul (N1 - 1) N0 = N0 * N1 - N0 := by
    rw [umul_eq _ _ (by rw [pred_mul]; omega), pred_mul]
  have hl : x = 0 ↔ ¬ 0 < x := by omega
  have hr : x = N0 - 1 ↔ ¬ x + 1 < N0 := by omega
  have ht := flag_top N0 N1 x y hx hy
  have htg := flag_top_ge N0 N1 x y hx hy
  have hb := flag_bottom N0 x y hx
  have hbp : y = 0 ↔ ¬ 0 < y := by omega
  have hxm := flag_xmax N0 x y hx
  obtain ⟨r1, -, r3, -, r5⟩ := row_facts N0 y N1 hy
  rw [full2_struct]
  simp only [mem_condInsert, Finset.mem_insert, Finset.not_mem_empty, or_false,
    List.getD_cons_zero, List.getD_cons_succ, CalculateCoordinateIndices, e1, e2, e3, e4, e7, e8,
    e9, hm, hd, hmm, Bool.and_eq_true, Bool.not_eq_true', and_assoc, beq_iff_eq,
    beq_eq_false_iff_ne, ne_eq, ge_iff_le, decide_eq_true_eq, decide_eq_false_iff_not, hl, hr, ht,
    htg, hb, hbp, hxm, not_not]
  clear e1 e2 e3 e4 e7 e8 e9 hm hd hmm hl hr ht htg hb hbp hxm
  refine or_congr ?_ (or_congr ?_ (or_congr ?_ (or_congr ?_ (or_congr ?_ (or_congr ?_ (or_congr ?_ (or_congr ?_ (or_congr ?_ (or_congr ?_ (or_congr ?_ (or_congr ?_ (or_congr ?_ (or_congr ?_ ?_)))))))))))))
  all_goals
    first
    | (intro h; have := h.1; have := h.2.1; clear h; omega)
    | ((repeat (refine and_congr_right (fun _ => ?_)));
       (first
        | with_reducible rfl
        | (simp (disch := omega) only [uadd_usub_eq, usub_uadd_eq, uadd_eq, usub_eq, umul_eq]; done)
        | (refine Iff.of_eq (congrArg _ ?_); simp only [uadd, usub, umul]; omega)))

theorem full2_coord (p : Bool) (N0 N1 x y bx by_ : Nat) (hx : x < N0) (hy : y < N1)
    (hbx : bx < N0) (hby : by_ < N1) (hfit : N0 * N1 < 4294967296) :
    N0 * by_ + bx
        ∈ SetupAllLocalBoxes.case2 [N0, N1] p (N0 * y + x) ↔
      ((p = true ∧ x + 1 = N0 ∧ by_ = y + 1 ∧ bx = 0)
        ∨ (p = true ∧ x + 1 = N0 ∧ by_ + 1 = y ∧ bx = 0)
        ∨ (p = true ∧ x = 0 ∧ by_ = y + 1 ∧ bx + 1 = N0)
        ∨ (p = true ∧ x = 0 ∧ by_ + 1 = y ∧ bx + 1 = N0)
        ∨ (by_ = y + 1 ∧ bx = x + 1)
        ∨ (by_ + 1 = y ∧ bx = x + 1)
        ∨ (by_ = y + 1 ∧ bx + 1 = x)
        ∨ (by_ + 1 = y ∧ bx + 1 = x)
        ∨ (by_ = y + 1 ∧ bx = x)
        ∨ (by_ + 1 = y ∧ bx = x)
        ∨ (p = true ∧ x + 1 = N0 ∧ by_ = y ∧ bx = 0)
        ∨ (by_ = y ∧ bx = x + 1)
        ∨ (p = true ∧ x = 0 ∧ by_ = y ∧ bx + 1 = N0)
        ∨ (by_ = y ∧ bx + 1 = x)
        ∨ (by_ = y ∧ bx = x)) := by
  obtain ⟨r1, -, r3, -, r5⟩ := row_facts N0 y N1 hy
  rw [full2_flat p N0 N1 x y _ hx hy hfit]
  refine or_congr ?_ (or_congr ?_ (or_congr ?_ (or_congr ?_ (or_congr ?_ (or_congr ?_ (or_congr ?_ (or_congr ?_ (or_congr ?_ (or_congr ?_ (or_congr ?_ (or_congr ?_ (or_congr ?_ (or_congr ?_ ?_)))))))))))))
  · have e : p = true → ¬ x + 1 < N0 → y + 1 < N1 →
        N0 * y + x + 1 = N0 * (y + 1) + 0 := by
      intros
      try simp only [Nat.mul_add, Nat.mul_one, Nat.mul_sub_one, Nat.mul_zero]
      omega
    constructor
    · rintro ⟨c0, c1, c2, h⟩
      have key := (radix2_unique N0 bx 0 by_ (y + 1) hbx (by omega)).1 (h.trans (e c0 c1 c2))
      exact ⟨c0, by omega, by omega, by omega⟩
    · rintro ⟨hp, h1, h2, h3⟩
      have key := (radix2_unique N0 bx 0 by_ (y + 1) hbx (by omega)).2
        ⟨by omega, by omega⟩
      exact ⟨hp, by omega, by omega, key.trans (e hp (by omega) (by omega)).symm⟩
  · have e : p = true → ¬ x + 1 < N0 → 0 < y →
        N0 * y + x + 1 - (2 * N0) = N0 * (y - 1) + 0 := by
      intros
      try simp only [Nat.mul_add, Nat.mul_one, Nat.mul_sub_one, Nat.mul_zero]
      omega
    constructor
    · rintro ⟨c0, c1, c2, h⟩
      have key := (radix2_unique N0 bx 0 by_ (y - 1) hbx (by omega)).1 (h.trans (e c0 c1 c2))
      exact ⟨c0, by omega, by omega, by omega⟩
    · rintro ⟨hp, h1, h2, h3⟩
      have key := (radix2_unique N0 bx 0 by_ (y - 1) hbx (by omega)).2
        ⟨by omega, by omega⟩
      exact ⟨hp, by omega, by omega, key.trans (e hp (by omega) (by omega)).symm⟩
  · have e : p = true → ¬ 0 < x → y + 1 < N1 →
        N0 * y + x + 2 * N0 - 1 = N0 * (y + 1) + (N0 - 1) := by
      intros
      try simp only [Nat.mul_add, Nat.mul_one, Nat.mul_sub_one, Nat.mul_zero]
      omega
    constructor
    · rintro ⟨c0, c1, c2, h⟩
      have key := (radix2_unique N0 bx (N0 - 1) by_ (y + 1) hbx (by omega)).1 (h.trans (e c0 c1 c2))
      exact ⟨c0, by omega, by omega, by omega⟩
    · rintro ⟨hp, h1, h2, h3⟩
      have key := (radix2_unique N0 bx (N0 - 1) by_ (y + 1) hbx (by omega)).2
        ⟨by omega, by omega⟩
      exact ⟨hp, by omega, by omega, key.trans (e hp (by omega) (by omega)).symm⟩
  · have e : p = true → ¬ 0 < x → 0 < y →
        N0 * y + x - 1 = N0 * (y - 1) + (N0 - 1) := by
      intros
      try simp only [Nat.mul_add, Nat.mul_one, Nat.mul_sub_one, Nat.mul_zero]
      omega
    constructor
    · rintro ⟨c0, c1, c2, h⟩
      have key := (radix2_unique N0 bx (N0 - 1) by_ (y - 1) hbx (by omega)).1 (h.trans (e c0 c1 c2))
      exact ⟨c0, by omega, by omega, by omega⟩
    · rintro ⟨hp, h1, h2, h3⟩
      have key := (radix2_unique N0 bx (N0 - 1) by_ (y - 1) hbx (by omega)).2
        ⟨by omega, by omega⟩
      exact ⟨hp, by omega, by omega, key.trans (e hp (by omega) (by omega)).symm⟩
  · have e : x + 1 < N0 → y + 1 < N1 →
        N0 * y + x + 1 + N0 = N0 * (y + 1) + (x + 1) := by
      intros
      try simp only [Nat.mul_add, Nat.mul_one, Nat.mul_sub_one, Nat.mul_zero]
      omega
    constructor
    · rintro ⟨c0, c1, h⟩
      have key := (radix2_unique N0 bx (x + 1) by_ (y + 1) hbx (by omega)).1 (h.trans (e c0 c1))
      exact ⟨by omega, by omega⟩
    · rintro ⟨h1, h2⟩
      have key := (radix2_unique N0 bx (x + 1) by_ (y + 1) hbx (by omega)).2
        ⟨by omega, by omega⟩
      exact ⟨by omega, by omega, key.trans (e (by omega) (by omega)).symm⟩
  · have e : x + 1 < N0 → 0 < y →
        N0 * y + x + 1 - N0 = N0 * (y - 1) + (x + 1) := by
      intros
      try simp only [Nat.mul_add, Nat.mul_one, Nat.mul_sub_one, Nat.mul_zero]
      omega
    constructor
    · rintro ⟨c0, c1, h⟩
      have key := (radix2_unique N0 bx (x + 1) by_ (y - 1) hbx (by omega)).1 (h.trans (e c0 c1))
      exact ⟨by omega, by omega⟩
    · rintro ⟨h1, h2⟩
      have key := (radix2_unique N0 bx (x + 1) by_ (y - 1) hbx (by omega)).2
        ⟨by omega, by omega⟩
      exact ⟨by omega, by omega, key.trans (e (by omega) (by omega)).symm⟩
  · have e : 0 < x → y + 1 < N1 →
        N0 * y + x - 1 + N0 = N0 * (y + 1) + (x - 1) := by
      intros
      try simp only [Nat.mul_add, Nat.mul_one, Nat.mul_sub_one, Nat.mul_zero]
      omega
    constructor
    · rintro ⟨c0, c1, h⟩
      have key := (radix2_unique N0 bx (x - 1) by_ (y + 1) hbx (by omega)).1 (h.trans (e c0 c1))
      exact ⟨by omega, by omega⟩
    · rintro ⟨h1, h2⟩
      have key := (radix2_unique N0 bx (x - 1) by_ (y + 1) hbx (by omega)).2
        ⟨by omega, by omega⟩
      exact ⟨by omega, by omega, key.trans (e (by omega) (by omega)).symm⟩
  · have e : 0 < x → 0 < y →
        N0 * y + x - 1 - N0 = N0 * (y - 1) + (x - 1) := by
      intros
      try simp only [Nat.mul_add, Nat.mul_one, Nat.mul_sub_one, Nat.mul_zero]
      omega
    constructor
    · rintro ⟨c0, c1, h⟩
      have key := (radix2_unique N0 bx (x - 1) by_ (y - 1) hbx (by omega)).1 (h.trans (e c0 c1))
      exact ⟨by omega, by omega⟩
    · rintro ⟨h1, h2⟩
      have key := (radix2_unique N0 bx (x - 1) by_ (y - 1) hbx (by omega)).2
        ⟨by omega, by omega⟩
      exact ⟨by omega, by omega, key.trans (e (by omega) (by omega)).symm⟩
  · have e : y + 1 < N1 →
        N0 * y + x + N0 = N0 * (y + 1) + x := by
      intros
      try simp only [Nat.mul_add, Nat.mul_one, Nat.mul_sub_one, Nat.mul_zero]
      omega
    constructor
    · rintro ⟨c0, h⟩
      have key := (radix2_unique N0 bx x by_ (y + 1) hbx (by omega)).1 (h.trans (e c0))
      exact ⟨by omega, by omega⟩
    · rintro ⟨h1, h2⟩
      have key := (radix2_unique N0 bx x by_ (y + 1) hbx (by omega)).2
        ⟨by omega, by omega⟩
      exact ⟨by omega, key.trans (e (by omega)).symm⟩
  · have e : 0 < y →
        N0 * y + x - N0 = N0 * (y - 1) + x := by
      intros
      try simp only [Nat.mul_add, Nat.mul_one, Nat.mul_sub_one, Nat.mul_zero]
      omega
    constructor
    · rintro ⟨c0, h⟩
      have key := (radix2_unique N0 bx x by_ (y - 1) hbx (by omega)).1 (h.trans (e c0))
      exact ⟨by omega, by omega⟩
    · rintro ⟨h1, h2⟩
      have key := (radix2_unique N0 bx x by_ (y - 1) hbx (by omega)).2
        ⟨by omega, by omega⟩
      exact ⟨by omega, key.trans (e (by omega)).symm⟩
  · have e : ¬ x + 1 < N0 → p = true →
        N0 * y + x + 1 - N0 = N0 * y + 0 := by
      intros
      try simp only [Nat.mul_add, Nat.mul_one, Nat.mul_sub_one, Nat.mul_zero]
      omega
    constructor
    · rintro ⟨c0, c1, h⟩
      have key := (radix2_unique N0 bx 0 by_ y hbx (by omega)).1 (h.trans (e c0 c1))
      exact ⟨c1, by omega, by omega, by omega⟩
    · rintro ⟨hp, h1, h2, h3⟩
      have key := (radix2_unique N0 bx 0 by_ y hbx (by omega)).2
        ⟨by omega, by omega⟩
      exact ⟨by omega, hp, key.trans (e (by omega) hp).symm⟩
  · have e : x + 1 < N0 →
        N0 * y + x + 1 = N0 * y + (x + 1) := by
      intros
      try simp only [Nat.mul_add, Nat.mul_one, Nat.mul_sub_one, Nat.mul_zero]
      omega
    constructor
    · rintro ⟨c0, h⟩
      have key := (radix2_unique N0 bx (x + 1) by_ y hbx (by omega)).1 (h.trans (e c0))
      exact ⟨by omega, by omega⟩
    · rintro ⟨h1, h2⟩
      have key := (radix2_unique N0 bx (x + 1) by_ y hbx (by omega)).2
        ⟨by omega, by omega⟩
      exact ⟨by omega, key.trans (e (by omega)).symm⟩
  · have e : ¬ 0 < x → p = true →
        N0 * y + x + N0 - 1 = N0 * y + (N0 - 1) := by
      intros
      try simp only [Nat.mul_add, Nat.mul_one, Nat.mul_sub_one, Nat.mul_zero]
      omega
    constructor
    · rintro ⟨c0, c1, h⟩
      have key := (radix2_unique N0 bx (N0 - 1) by_ y hbx (by omega)).1 (h.trans (e c0 c1))
      exact ⟨c1, by omega, by omega, by omega⟩
    · rintro ⟨hp, h1, h2, h3⟩
      have key := (radix2_unique N0 bx (N0 - 1) by_ y hbx (by omega)).2
        ⟨by omega, by omega⟩
      exact ⟨by omega, hp, key.trans (e (by omega) hp).symm⟩
  · have e : 0 < x →
        N0 * y + x - 1 = N0 * y + (x - 1) := by
      intros
      try simp only [Nat.mul_add, Nat.mul_one, Nat.mul_sub_one, Nat.mul_zero]
      omega
    constructor
    · rintro ⟨c0, h⟩
      have key := (radix2_unique N0 bx (x - 1) by_ y hbx (by omega)).1 (h.trans (e c0))
      exact ⟨by omega, by omega⟩
    · rintro ⟨h1, h2⟩
      have key := (radix2_unique N0 bx (x - 1) by_ y hbx (by omega)).2
        ⟨by omega, by omega⟩
      exact ⟨by omega, key.trans (e (by omega)).symm⟩
  · exact radix2_unique N0 bx x by_ y hbx hx

theorem full2_lt (p : Bool) (N0 N1 x y b : Nat) (hx : x < N0) (hy : y < N1)
    (hfit : N0 * N1 < 4294967296) :
    b ∈ SetupAllLocalBoxes.case2 [N0, N1] p (N0 * y + x) → b < N0 * N1 := by
  obtain ⟨r1, -, r3, -, r5⟩ := row_facts N0 y N1 hy
  rw [full2_flat p N0 N1 x y _ hx hy hfit]
  rintro (h | h | h | h | h | h | h | h | h | h | h | h | h | h | h)
  · obtain ⟨c0, c1, c2, h⟩ := h
    have e : N0 * y + x + 1 = N0 * (y + 1) + 0 := by
      try simp only [Nat.mul_add, Nat.mul_one, Nat.mul_sub_one, Nat.mul_zero]
      omega
    rw [h, e]
    exact radix_lt2 N0 N1 0 (y + 1) (by omega) (by omega)
  · obtain ⟨c0, c1, c2, h⟩ := h
    have e : N0 * y + x + 1 - (2 * N0) = N0 * (y - 1) + 0 := by
      try simp only [Nat.mul_add, Nat.mul_one, Nat.mul_sub_one, Nat.mul_zero]
      omega
    rw [h, e]
    exact radix_lt2 N0 N1 0 (y - 1) (by omega) (by omega)
  · obtain ⟨c0, c1, c2, h⟩ := h
    have e : N0 * y + x + 2 * N0 - 1 = N0 * (y + 1) + (N0 - 1) := by
      try simp only [Nat.mul_add, Nat.mul_one, Nat.mul_sub_one, Nat.mul_zero]
      omega
    rw [h, e]
    exact radix_lt2 N0 N1 (N0 - 1) (y + 1) (by omega) (by omega)
  · obtain ⟨c0, c1, c2, h⟩ := h
    have e : N0 * y + x - 1 = N0 * (y - 1) + (N0 - 1) := by
      try simp only [Nat.mul_add, Nat.mul_one, Nat.mul_sub_one, Nat.mul_zero]
      omega
    rw [h, e]
    exact radix_lt2 N0 N1 (N0 - 1) (y - 1) (by omega) (by omega)
  · obtain ⟨c0, c1, h⟩ := h
    have e : N0 * y + x + 1 + N0 = N0 * (y + 1) + (x + 1) := by
      try simp only [Nat.mul_add, Nat.mul_one, Nat.mul_sub_one, Nat.mul_zero]
      omega
    rw [h, e]
    exact radix_lt2 N0 N1 (x + 1) (y + 1) (by omega) (by omega)
  · obtain ⟨c0, c1, h⟩ := h
    have e : N0 * y + x + 1 - N0 = N0 * (y - 1) + (x + 1) := by
      try simp only [Nat.mul_add, Nat.mul_one, Nat.mul_sub_one, Nat.mul_zero]
      omega
    rw [h, e]
    exact radix_lt2 N0 N1 (x + 1) (y - 1) (by omega) (by omega)
  · obtain ⟨c0, c1, h⟩ := h
    have e : N0 * y + x - 1 + N0 = N0 * (y + 1) + (x - 1) := by
      try simp only [Nat.mul_add, Nat.mul_one, Nat.mul_sub_one, Nat.mul_zero]
      omega
    rw [h, e]
    exact radix_lt2 N0 N1 (x - 1) (y + 1) (by omega) (by omega)
  · obtain ⟨c0, c1, h⟩ := h
    have e : N0 * y + x - 1 - N0 = N0 * (y - 1) + (x - 1) := by
      try simp only [Nat.mul_add, Nat.mul_one, Nat.mul_sub_one, Nat.mul_zero]
      omega
    rw [h, e]
    exact radix_lt2 N0 N1 (x - 1) (y - 1) (by omega) (by omega)
  · obtain ⟨c0, h⟩ := h
    have e : N0 * y + x + N0 = N0 * (y + 1) + x := by
      try simp only [Nat.mul_add, Nat.mul_one, Nat.mul_sub_one, Nat.mul_zero]
      omega
    rw [h, e]
    exact radix_lt2 N0 N1 x (y + 1) (by omega) (by omega)
  · obtain ⟨c0, h⟩ := h
    have e : N0 * y + x - N0 = N0 * (y - 1) + x := by
      try simp only [Nat.mul_add, Nat.mul_one, Nat.mul_sub_one, Nat.mul_zero]
      omega
    rw [h, e]
    exact radix_lt2 N0 N1 x (y - 1) (by omega) (by omega)
  · obtain ⟨c0, c1, h⟩ := h
    have e : N0 * y + x + 1 - N0 = N0 * y + 0 := by
      try simp only [Nat.mul_add, Nat.mul_one, Nat.mul_sub_one, Nat.mul_zero]
      omega
    rw [h, e]
    exact radix_lt2 N0 N1 0 y (by omega) (by omega)
  · obtain ⟨c0, h⟩ := h
    have e : N0 * y + x + 1 = N0 * y + (x + 1) := by
      try simp only [Nat.mul_add, Nat.mul_one, Nat.mul_sub_one, Nat.mul_zero]
      omega
    rw [h, e]
    exact radix_lt2 N0 N1 (x + 1) y (by omega) (by omega)
  · obtain ⟨c0, c1, h⟩ := h
    have e : N0 * y + x + N0 - 1 = N0 * y + (N0 - 1) := by
      try simp only [Nat.mul_add, Nat.mul_one, Nat.mul_sub_one, Nat.mul_zero]
      omega
    rw [h, e]
    exact radix_lt2 N0 N1 (N0 - 1) y (by omega) (by omega)
  · obtain ⟨c0, h⟩ := h
    have e : N0 * y + x - 1 = N0 * y + (x - 1) := by
      try simp only [Nat.mul_add, Nat.mul_one, Nat.mul_sub_one, Nat.mul_zero]
      omega
    rw [h, e]
    exact radix_lt2 N0 N1 (x - 1) y (by omega) (by omega)
  · rw [h]; exact radix_lt2 N0 N1 x y hx hy

theorem full2_card_interior (N0 N1 x y : Nat) (hx : x < N0) (hy : y < N1) (hfit : N0 * N1 < 4294967296)
    (h0x : 0 < x) (h1x : x + 1 < N0) (h0y : 0 < y) (h1y : y + 1 < N1) :
    (SetupAllLocalBoxes.case2 [N0, N1] false (N0 * y + x)).card = 9 := by
  have hs : SetupAllLocalBoxes.case2 [N0, N1] false (N0 * y + x) =
      insert (N0 * y + x + 1 + N0)
        (insert (N0 * y + x + 1 - N0)
        (insert (N0 * y + x - 1 + N0)
        (insert (N0 * y + x - 1 - N0)
        (insert (N0 * y + x + N0)
        (insert (N0 * y + x - N0)
        (insert (N0 * y + x + 1)
        (insert (N0 * y + x - 1)
        ({N0 * y + x})))))))) := by
    ext b
    rw [full2_flat false N0 N1 x y _ hx hy hfit]
    simp only [h0x, h1x, h0y, h1y, true_and, not_true_eq_false, false_and, false_or,
      Bool.false_eq_true, Finset.mem_insert, Finset.mem_singleton]
  rw [hs]
  have r3 := (row_facts N0 y N1 hy).2.2.1 h1y
  have r5 := (row_facts N0 y N1 hy).2.2.2.2 h0y
  repeat rw [Finset.card_insert_of_not_mem]
  · rfl
  all_goals (simp only [Finset.mem_insert, Finset.mem_singleton, not_or]; omega)

theorem half3_struct (N : List Nat) (low high g : Nat) :
    SetupLocalBoxesHalfOnly.case3 N low high g =
      (condInsert (decide (g < usub (umul (umul (N.getD 0 0) (N.getD 1 0)) (N.getD 2 0)) (umul (N.getD 0 0) (N.getD 1 0))) && ((CalculateCoordinateIndices .three N g).getD 2 0 == usub high 1) && !decide (g % umul (N.getD 0 0) (N.getD 1 0) < N.getD 0 0) && !(g % N.getD 0 0 == usub (N.getD 0 0) 1))
        (uadd (usub (uadd g (umul (N.getD 0 0) (N.getD 1 0))) (N.getD 0 0)) 1)
      (condInsert (decide (g < usub (umul (umul (N.getD 0 0) (N.getD 1 0)) (N.getD 2 0)) (umul (N.getD 0 0) (N.getD 1 0))) && ((CalculateCoordinateIndices .three N g).getD 2 0 == usub high 1) && !decide (g % umul (N.getD 0 0) (N.getD 1 0) < N.getD 0 0) && !(g % N.getD 0 0 == 0))
        (usub (usub (uadd g (umul (N.getD 0 0) (N.getD 1 0))) (N.getD 0 0)) 1)
      (condInsert (decide (g < usub (umul (umul (N.getD 0 0) (N.getD 1 0)) (N.getD 2 0)) (umul (N.getD 0 0) (N.getD 1 0))) && ((CalculateCoordinateIndices .three N g).getD 2 0 == usub high 1) && !decide (g % umul (N.getD 0 0) (N.getD 1 0) < N.getD 0 0))
        (usub (uadd g (umul (N.getD 0 0) (N.getD 1 0))) (N.getD 0 0))
      (condInsert (decide (g < usub (umul (umul (N.getD 0 0) (N.getD 1 0)) (N.getD 2 0)) (umul (N.getD 0 0) (N.getD 1 0))) && ((CalculateCoordinateIndices .three N g).getD 2 0 == usub high 1) && !(g % N.getD 0 0 == 0))
        (usub (uadd g (umul (N.getD 0 0) (N.getD 1 0))) 1)
      (condInsert (decide (g < usub (umul (umul (N.getD 0 0) (N.getD 1 0)) (N.getD 2 0)) (umul (N.getD 0 0) (N.getD 1 0))) && decide (g % umul (N.getD 0 0) (N.getD 1 0) < usub (umul (N.getD 0 0) (N.getD 1 0)) (N.getD 0 0)) && !(g % N.getD 0 0 == 0))
        (usub (uadd (uadd g (umul (N.getD 0 0) (N.getD 1 0))) (N.getD 0 0)) 1)
      (condInsert (decide (g < usub (umul (umul (N.getD 0 0) (N.getD 1 0)) (N.getD 2 0)) (umul (N.getD 0 0) (N.getD 1 0))) && decide (g % umul (N.getD 0 0) (N.getD 1 0) < usub (umul (N.getD 0 0) (N.getD 1 0)) (N.getD 0 0)) && !(g % N.getD 0 0 == usub (N.getD 0 0) 1))
        (uadd (uadd (uadd g (umul (N.getD 0 0) (N.getD 1 0))) (N.getD 0 0)) 1)
      (condInsert (decide (g < usub (umul (umul (N.getD 0 0) (N.getD 1 0)) (N.getD 2 0)) (umul (N.getD 0 0) (N.getD 1 0))) && decide (g % umul (N.getD 0 0) (N.getD 1 0) < usub (umul (N.getD 0 0) (N.getD 1 0)) (N.getD 0 0)))
        (uadd (uadd g (umul (N.getD 0 0) (N.getD 1 0))) (N.getD 0 0))
      (condInsert (decide (g < usub (umul (umul (N.getD 0 0) (N.getD 1 0)) (N.getD 2 0)) (umul (N.getD 0 0) (N.getD 1 0))) && !(g % N.getD 0 0 == usub (N.getD 0 0) 1))
        (uadd (uadd g (umul (N.getD 0 0) (N.getD 1 0))) 1)
      (condInsert (decide (g < usub (umul (umul (N.getD 0 0) (N.getD 1 0)) (N.getD 2 0)) (umul (N.getD 0 0) (N.getD 1 0))))
        (uadd g (umul (N.getD 0 0) (N.getD 1 0)))
      (condInsert (decide (g % umul (N.getD 0 0) (N.getD 1 0) < usub (umul (N.getD 0 0) (N.getD 1 0)) (N.getD 0 0)) && !(g % N.getD 0 0 == 0))
        (usub (uadd g (N.getD 0 0)) 1)
      (condInsert (decide (g % umul (N.getD 0 0) (N.getD 1 0) < usub (umul (N.getD 0 0) (N.getD 1 0)) (N.getD 0 0)) && !(g % N.getD 0 0 == usub (N.getD 0 0) 1))
        (uadd (uadd g (N.getD 0 0)) 1)
      (condInsert (decide (g % umul (N.getD 0 0) (N.getD 1 0) < usub (umul (N.getD 0 0) (N.getD 1 0)) (N.getD 0 0)))
        (uadd g (N.getD 0 0))
      (condInsert (!(g % N.getD 0 0 == usub (N.getD 0 0) 1))
        (uadd g 1)
      (condInsert (!decide (g < umul (N.getD 0 0) (N.getD 1 0)) && ((CalculateCoordinateIndices .three N g).getD 2 0 == low) && !decide (g % umul (N.getD 0 0) (N.getD 1 0) < N.getD 0 0) && !(g % N.getD 0 0 == usub (N.getD 0 0) 1))
        (uadd (usub (usub g (umul (N.getD 0 0) (N.getD 1 0))) (N.getD 0 0)) 1)
      (condInsert (!decide (g < umul (N.getD 0 0) (N.getD 1 0)) && ((CalculateCoordinateIndices .three N g).getD 2 0 == low) && !decide (g % umul (N.getD 0 0) (N.getD 1 0) < N.getD 0 0) && !(g % N.getD 0 0 == 0))
        (usub (usub (usub g (umul (N.getD 0 0) (N.getD 1 0))) (N.getD 0 0)) 1)
      (condInsert (!decide (g < umul (N.getD 0 0) (N.getD 1 0)) && ((CalculateCoordinateIndices .three N g).getD 2 0 == low) && !decide (g % umul (N.getD 0 0) (N.getD 1 0) < N.getD 0 0))
        (usub (usub g (umul (N.getD 0 0) (N.getD 1 0))) (N.getD 0 0))
      (condInsert (!decide (g < umul (N.getD 0 0) (N.getD 1 0)) && ((CalculateCoordinateIndices .three N g).getD 2 0 == low) && !(g % N.getD 0 0 == 0))
        (usub (usub g (umul (N.getD 0 0) (N.getD 1 0))) 1)
      (condInsert (!decide (g < umul (N.getD 0 0) (N.getD 1 0)) && ((CalculateCoordinateIndices .three N g).getD 2 0 == low))
        (usub g (umul (N.getD 0 0) (N.getD 1 0)))
      (condInsert (!decide (g < umul (N.getD 0 0) (N.getD 1 0)) && !(g % N.getD 0 0 == usub (N.getD 0 0) 1))
        (uadd (usub g (umul (N.getD 0 0) (N.getD 1 0))) 1)
      (condInsert (!decide (g < umul (N.getD 0 0) (N.getD 1 0)) && decide (g % umul (N.getD 0 0) (N.getD 1 0) < usub (umul (N.getD 0 0) (N.getD 1 0)) (N.getD 0 0)) && !(g % N.getD 0 0 == usub (N.getD 0 0) 1))
        (uadd (uadd (usub g (umul (N.getD 0 0) (N.getD 1 0))) (N.getD 0 0)) 1)
      (condInsert (!decide (g < umul (N.getD 0 0) (N.getD 1 0)) && decide (g % umul (N.getD 0 0) (N.getD 1 0) < usub (umul (N.getD 0 0) (N.getD 1 0)) (N.getD 0 0)) && !(g % N.getD 0 0 == 0))
        (usub (uadd (usub g (umul (N.getD 0 0) (N.getD 1 0))) (N.getD 0 0)) 1)
      (condInsert (!decide (g < umul (N.getD 0 0) (N.getD 1 0)) && decide (g % umul (N.getD 0 0) (N.getD 1 0) < usub (umul (N.getD 0 0) (N.getD 1 0)) (N.getD 0 0)))
        (uadd (usub g (umul (N.getD 0 0) (N.getD 1 0))) (N.getD 0 0))
      (insert g ∅))))))))))))))))))))))) := by
  simp only [SetupLocalBoxesHalfOnly.case3]
  generalize decide (g % umul (N.getD 0 0) (N.getD 1 0) < usub (umul (N.getD 0 0) (N.getD 1 0)) (N.getD 0 0)) = ntop
  generalize decide (g % umul (N.getD 0 0) (N.getD 1 0) < N.getD 0 0) = bottom
  generalize (g % N.getD 0 0 == 0) = left
  generalize (g % N.getD 0 0 == usub (N.getD 0 0) 1) = right
  generalize decide (g < umul (N.getD 0 0) (N.getD 1 0)) = front
  generalize decide (g < usub (umul (umul (N.getD 0 0) (N.getD 1 0)) (N.getD 2 0)) (umul (N.getD 0 0) (N.getD 1 0))) = nback
  generalize ((CalculateCoordinateIndices .three N g).getD 2 0 == low) = pf
  generalize ((CalculateCoordinateIndices .three N g).getD 2 0 == usub high 1) = pb
  cases ntop <;> cases bottom <;> cases front <;> cases nback <;> cases pf <;> cases pb <;>
    simp only [condInsert_true, condInsert_false, Bool.not_true, Bool.not_false,
      Bool.and_true, Bool.and_false, Bool.true_and, Bool.false_and, if_true,
      if_false, Bool.false_eq_true]

theorem half3_flat (N0 N1 N2 x y z b : Nat) (hx : x < N0) (hy : y < N1) (hz : z < N2)
    (hfit : N0 * N1 * N2 < 4294967296) :
    b ∈ SetupLocalBoxesHalfOnly.case3 [N0, N1, N2] 0 N2 (N0 * N1 * z + (N0 * y + x)) ↔
      ((z + 1 < N2 ∧ y + 1 < N1 ∧ 0 < x ∧ b = N0 * N1 * z + (N0 * y + x) + (N0 * N1) + N0 - 1)
        ∨ (z + 1 < N2 ∧ y + 1 < N1 ∧ x + 1 < N0 ∧ b = N0 * N1 * z + (N0 * y + x) + (N0 * N1) + N0 + 1)
        ∨ (z + 1 < N2 ∧ y + 1 < N1 ∧ b = N0 * N1 * z + (N0 * y + x) + (N0 * N1) + N0)
        ∨ (z + 1 < N2 ∧ x + 1 < N0 ∧ b = N0 * N1 * z + (N0 * y + x) + (N0 * N1) + 1)
        ∨ (z + 1 < N2 ∧ b = N0 * N1 * z + (N0 * y + x) + (N0 * N1))
        ∨ (y + 1 < N1 ∧ 0 < x ∧ b = N0 * N1 * z + (N0 * y + x) + N0 - 1)
        ∨ (y + 1 < N1 ∧ x + 1 < N0 ∧ b = N0 * N1 * z + (N0 * y + x) + N0 + 1)
        ∨ (y + 1 < N1 ∧ b = N0 * N1 * z + (N0 * y + x) + N0)
        ∨ (x + 1 < N0 ∧ b = N0 * N1 * z + (N0 * y + x) + 1)
        ∨ (0 < z ∧ x + 1 < N0 ∧ b = N0 * N1 * z + (N0 * y + x) - (N0 * N1) + 1)
        ∨ (0 < z ∧ y + 1 < N1 ∧ x + 1 < N0 ∧ b = N0 * N1 * z + (N0 * y + x) - (N0 * N1) + N0 + 1)
        ∨ (0 < z ∧ y + 1 < N1 ∧ 0 < x ∧ b = N0 * N1 * z + (N0 * y + x) - (N0 * N1) + N0 - 1)
        ∨ (0 < z ∧ y + 1 < N1 ∧ b = N0 * N1 * z + (N0 * y + x) - (N0 * N1) + N0)
        ∨ b = N0 * N1 * z + (N0 * y + x)) := by
  have hxy : N0 * y + x < N0 * N1 := by
    have := mul_succ_le N0 y N1 hy
    omega
  have hG : N0 * N1 * z + (N0 * y + x) < N0 * N1 * N2 := by
    have := mul_succ_le (N0 * N1) z N2 hz
    omega
  have hN0 : N0 ≤ N0 * N1 := by
    have := mul_succ_le N0 y N1 hy
    omega
  have hN01 : N0 * N1 ≤ N0 * N1 * N2 := by
    have := mul_succ_le (N0 * N1) z N2 hz
    omega
  have hN1 : N1 ≤ N0 * N1 := Nat.le_mul_of_pos_left _ (by omega)
  have hN2 : N2 ≤ N0 * N1 * N2 := Nat.le_mul_of_pos_left _ (by omega)
  have hm : (N0 * N1 * z + (N0 * y + x)) % N0 = x := by
    rw [Nat.mul_assoc, ← Nat.add_assoc, ← Nat.mul_add, mul_add_mod_lt _ _ _ hx]
  have hmxy : (N0 * N1 * z + (N0 * y + x)) % (N0 * N1) = N0 * y + x :=
    mul_add_mod_lt _ _ _ hxy
  have hdz : (N0 * N1 * z + (N0 * y + x)) / (N0 * N1) = z := mul_add_div_lt _ _ _ hxy
  have hc := coords_three N0 N1 N2 (N0 * N1 * z + (N0 * y + x)) (by omega) (by omega)
    (by omega) (by omega)
  have e1 : usub N0 1 = N0 - 1 := usub_eq _ _ (by omega) (by omega)
  have e2 : umul N0 N1 = N0 * N1 := umul_eq _ _ (by omega)
  have e2' : umul N1 N0 = N0 * N1 := by
    rw [Nat.mul_comm N0 N1]; exact umul_eq _ _ (by rw [Nat.mul_comm]; omega)
  have e3 : usub (N0 * N1) N0 = N0 * N1 - N0 := usub_eq _ _ (by omega) hN0
  have e4 : umul (N0 * N1) N2 = N0 * N1 * N2 := umul_eq _ _ hfit
  have e5 : usub (N0 * N1 * N2) (N0 * N1) = N0 * N1 * N2 - N0 * N1 := usub_eq _ _ hfit hN01
  have e6 : usub N2 1 = N2 - 1 := usub_eq _ _ (by omega) (by omega)
  have e7 : usub N1 1 = N1 - 1 := usub_eq _ _ (by omega) (by omega)
  have e8 : uadd (N0 * N1 * z + (N0 * y + x)) 1 = N0 * N1 * z + (N0 * y + x) + 1 :=
    uadd_eq _ _ (by omega)
  have e9 : umul (N1 - 1) N0 = N0 * N1 - N0 := by
    rw [umul_eq _ _ (by rw [pred_mul]; omega), pred_mul]
  have e10 : umul (N0 * N1) (N2 - 1) = N0 * N1 * N2 - N0 * N1 := by
    rw [umul_eq _ _ (by rw [Nat.mul_sub_one]; omega), Nat.mul_sub_one]
  have hl : x = 0 ↔ ¬ 0 < x := by omega
  have hr : x = N0 - 1 ↔ ¬ x + 1 < N0 := by omega
  have ht := flag_top N0 N1 x y hx hy
  have htg := flag_top_ge N0 N1 x y hx hy
  have hb := flag_bottom N0 x y hx
  have hf := flag_bottom (N0 * N1) (N0 * y + x) z hxy
  have hk := flag_top (N0 * N1) N2 (N0 * y + x) z hxy hz
  have hkg := flag_top_ge (N0 * N1) N2 (N0 * y + x) z hxy hz
  have hxm : (N0 * N1 * z + (N0 * y + x) + 1) % N0 = 0 ↔ ¬ x + 1 < N0 := by
    have := flag_xmax N0 x (N1 * z + y) hx
    rw [show N0 * N1 * z + (N0 * y + x) + 1 = N0 * (N1 * z + y) + x + 1 by ring]
    exact this
  have hpf : z = 0 ↔ ¬ 0 < z := by omega
  have hpb : z = N2 - 1 ↔ ¬ z + 1 < N2 := by omega
  obtain ⟨r1, -, r3, -, r5⟩ := row_facts N0 y N1 hy
  obtain ⟨s1, -, s3, -, s5⟩ := row_facts (N0 * N1) z N2 hz
  rw [half3_struct]
  simp only [mem_condInsert, Finset.mem_insert, Finset.not_mem_empty, or_false,
    List.getD_cons_zero, List.getD_cons_succ, hc, e1, e2, e2', e3, e4, e5, e6, e7, e8, e9, e10,
    hm, hmxy, hdz, Bool.and_eq_true, Bool.not_eq_true', and_assoc, beq_iff_eq,
    beq_eq_false_iff_ne, ne_eq, ge_iff_le, decide_eq_true_eq, decide_eq_false_iff_not, hl, hr, ht,
    htg, hb, hf, hk, hkg, hxm, hpf, hpb, not_not]
  clear hc e1 e2 e2' e3 e4 e5 e6 e7 e8 e9 e10 hm hmxy hdz hl hr ht htg hb hf hk hkg hxm hpf hpb
  refine or_dead ?_ (or_dead ?_ (or_dead ?_ (or_dead ?_ (or_congr ?_ (or_congr ?_ (or_congr ?_ (or_congr ?_ (or_congr ?_ (or_congr ?_ (or_congr ?_ (or_congr ?_ (or_congr ?_ (or_dead ?_ (or_dead ?_ (or_dead ?_ (or_dead ?_ (or_dead ?_ (or_congr ?_ (or_congr ?_ (or_congr ?_ (or_congr ?_ ?_)))))))))))))))))))))
  all_goals
    first
    | (intro h; have := h.1; have := h.2.1; clear h; omega)
    | ((repeat (refine and_congr_right (fun _ => ?_)));
       (first
        | with_reducible rfl
        | (simp (disch := omega) only [uadd_usub_eq, usub_uadd_eq, uadd_eq, usub_eq, umul_eq]; done)
        | (refine Iff.of_eq (congrArg _ ?_); simp only [uadd, usub, umul]; omega)))

theorem half3_coord (N0 N1 N2 x y z bx by_ bz : Nat) (hx : x < N0) (hy : y < N1)
    (hz : z < N2) (hbx : bx < N0) (hby : by_ < N1) (hbz : bz < N2)
    (hfit : N0 * N1 * N2 < 4294967296) :
    N0 * N1 * bz + (N0 * by_ + bx)
        ∈ SetupLocalBoxesHalfOnly.case3 [N0, N1, N2] 0 N2 (N0 * N1 * z + (N0 * y + x)) ↔
      ((bz = z + 1 ∧ by_ = y + 1 ∧ bx + 1 = x)
        ∨ (bz = z + 1 ∧ by_ = y + 1 ∧ bx = x + 1)
        ∨ (bz = z + 1 ∧ by_ = y + 1 ∧ bx = x)
        ∨ (bz = z + 1 ∧ by_ = y ∧ bx = x + 1)
        ∨ (bz = z + 1 ∧ by_ = y ∧ bx = x)
        ∨ (bz = z ∧ by_ = y + 1 ∧ bx + 1 = x)
        ∨ (bz = z ∧ by_ = y + 1 ∧ bx = x + 1)
        ∨ (bz = z ∧ by_ = y + 1 ∧ bx = x)
        ∨ (bz = z ∧ by_ = y ∧ bx = x + 1)
        ∨ (bz + 1 = z ∧ by_ = y ∧ bx = x + 1)
        ∨ (bz + 1 = z ∧ by_ = y + 1 ∧ bx = x + 1)
        ∨ (bz + 1 = z ∧ by_ = y + 1 ∧ bx + 1 = x)
        ∨ (bz + 1 = z ∧ by_ = y + 1 ∧ bx = x)
        ∨ (bz = z ∧ by_ = y ∧ bx = x)) := by
  obtain ⟨r1, -, r3, -, r5⟩ := row_facts N0 y N1 hy
  obtain ⟨s1, -, s3, -, s5⟩ := row_facts (N0 * N1) z N2 hz
  rw [half3_flat N0 N1 N2 x y z _ hx hy hz hfit]
  refine or_congr ?_ (or_congr ?_ (or_congr ?_ (or_congr ?_ (or_congr ?_ (or_congr ?_ (or_congr ?_ (or_congr ?_ (or_congr ?_ (or_congr ?_ (or_congr ?_ (or_congr ?_ (or_congr ?_ ?_))))))))))))
  · have e : z + 1 < N2 → y + 1 < N1 → 0 < x →
        N0 * N1 * z + (N0 * y + x) + (N0 * N1) + N0 - 1 = N0 * N1 * (z + 1) + (N0 * (y + 1) + (x - 1)) := by
      intros
      try simp only [Nat.mul_add, Nat.mul_one, Nat.mul_sub_one, Nat.mul_zero]
      omega
    constructor
    · rintro ⟨c0, c1, c2, h⟩
      have key := (radix3_unique N0 N1 bx (x - 1) by_ (y + 1) bz (z + 1) hbx (by omega) hby
        (by omega)).1 (h.trans (e c0 c1 c2))
      exact ⟨by omega, by omega, by omega⟩
    · rintro ⟨h1, h2, h3⟩
      have key := (radix3_unique N0 N1 bx (x - 1) by_ (y + 1) bz (z + 1) hbx (by omega) hby
        (by omega)).2
        ⟨by omega, by omega, by omega⟩
      exact ⟨by omega, by omega, by omega, key.trans (e (by omega) (by omega) (by omega)).symm⟩
  · have e : z + 1 < N2 → y + 1 < N1 → x + 1 < N0 →
        N0 * N1 * z + (N0 * y + x) + (N0 * N1) + N0 + 1 = N0 * N1 * (z + 1) + (N0 * (y + 1) + (x + 1)) := by
      intros
      try simp only [Nat.mul_add, Nat.mul_one, Nat.mul_sub_one, Nat.mul_zero]
      omega
    constructor
    · rintro ⟨c0, c1, c2, h⟩
      have key := (radix3_unique N0 N1 bx (x + 1) by_ (y + 1) bz (z + 1) hbx (by omega) hby
        (by omega)).1 (h.trans (e c0 c1 c2))
      exact ⟨by omega, by omega, by omega⟩
    · rintro ⟨h1, h2, h3⟩
      have key := (radix3_unique N0 N1 bx (x + 1) by_ (y + 1) bz (z + 1) hbx (by omega) hby
        (by omega)).2
        ⟨by omega, by omega, by omega⟩
      exact ⟨by omega, by omega, by omega, key.trans (e (by omega) (by omega) (by omega)).symm⟩
  · have e : z + 1 < N2 → y + 1 < N1 →
        N0 * N1 * z + (N0 * y + x) + (N0 * N1) + N0 = N0 * N1 * (z + 1) + (N0 * (y + 1) + x) := by
      intros
      try simp only [Nat.mul_add, Nat.mul_one, Nat.mul_sub_one, Nat.mul_zero]
      omega
    constructor
    · rintro ⟨c0, c1, h⟩
      have key := (radix3_unique N0 N1 bx x by_ (y + 1) bz (z + 1) hbx (by omega) hby
        (by omega)).1 (h.trans (e c0 c1))
      exact ⟨by omega, by omega, by omega⟩
    · rintro ⟨h1, h2, h3⟩
      have key := (radix3_unique N0 N1 bx x by_ (y + 1) bz (z + 1) hbx (by omega) hby
        (by omega)).2
        ⟨by omega, by omega, by omega⟩
      exact ⟨by omega, by omega, key.trans (e (by omega) (by omega)).symm⟩
  · have e : z + 1 < N2 → x + 1 < N0 →
        N0 * N1 * z + (N0 * y + x) + (N0 * N1) + 1 = N0 * N1 * (z + 1) + (N0 * y + (x + 1)) := by
      intros
      try simp only [Nat.mul_add, Nat.mul_one, Nat.mul_sub_one, Nat.mul_zero]
      omega
    constructor
    · rintro ⟨c0, c1, h⟩
      have key := (radix3_unique N0 N1 bx (x + 1) by_ y bz (z + 1) hbx (by omega) hby
        (by omega)).1 (h.trans (e c0 c1))
      exact ⟨by omega, by omega, by omega⟩
    · rintro ⟨h1, h2, h3⟩
      have key := (radix3_unique N0 N1 bx (x + 1) by_ y bz (z + 1) hbx (by omega) hby
        (by omega)).2
        ⟨by omega, by omega, by omega⟩
      exact ⟨by omega, by omega, key.trans (e (by omega) (by omega)).symm⟩
  · have e : z + 1 < N2 →
        N0 * N1 * z + (N0 * y + x) + (N0 * N1) = N0 * N1 * (z + 1) + (N0 * y + x) := by
      intros
      try simp only [Nat.mul_add, Nat.mul_one, Nat.mul_sub_one, Nat.mul_zero]
      omega
    constructor
    · rintro ⟨c0, h⟩
      have key := (radix3_unique N0 N1 bx x by_ y bz (z + 1) hbx (by omega) hby
        (by omega)).1 (h.trans (e c0))
      exact ⟨by omega, by omega, by omega⟩
    · rintro ⟨h1, h2, h3⟩
      have key := (radix3_unique N0 N1 bx x by_ y bz (z + 1) hbx (by omega) hby
        (by omega)).2
        ⟨by omega, by omega, by omega⟩
      exact ⟨by omega, key.trans (e (by omega)).symm⟩
  · have e : y + 1 < N1 → 0 < x →
        N0 * N1 * z + (N0 * y + x) + N0 - 1 = N0 * N1 * z + (N0 * (y + 1) + (x - 1)) := by
      intros
      try simp only [Nat.mul_add, Nat.mul_one, Nat.mul_sub_one, Nat.mul_zero]
      omega
    constructor
    · rintro ⟨c0, c1, h⟩
      have key := (radix3_unique N0 N1 bx (x - 1) by_ (y + 1) bz z hbx (by omega) hby
        (by omega)).1 (h.trans (e c0 c1))
      exact ⟨by omega, by omega, by omega⟩
    · rintro ⟨h1, h2, h3⟩
      have key := (radix3_unique N0 N1 bx (x - 1) by_ (y + 1) bz z hbx (by omega) hby
        (by omega)).2
        ⟨by omega, by omega, by omega⟩
      exact ⟨by omega, by omega, key.trans (e (by omega) (by omega)).symm⟩
  · have e : y + 1 < N1 → x + 1 < N0 →
        N0 * N1 * z + (N0 * y + x) + N0 + 1 = N0 * N1 * z + (N0 * (y + 1) + (x + 1)) := by
      intros
      try simp only [Nat.mul_add, Nat.mul_one, Nat.mul_sub_one, Nat.mul_zero]
      omega
    constructor
    · rintro ⟨c0, c1, h⟩
      have key := (radix3_unique N0 N1 bx (x + 1) by_ (y + 1) bz z hbx (by omega) hby
        (by omega)).1 (h.trans (e c0 c1))
      exact ⟨by omega, by omega, by omega⟩
    · rintro ⟨h1, h2, h3⟩
      have key := (radix3_unique N0 N1 bx (x + 1) by_ (y + 1) bz z hbx (by omega) hby
        (by omega)).2
        ⟨by omega, by omega, by omega⟩
      exact ⟨by omega, by omega, key.trans (e (by omega) (by omega)).symm⟩
  · have e : y + 1 < N1 →
        N0 * N1 * z + (N0 * y + x) + N0 = N0 * N1 * z + (N0 * (y + 1) + x) := by
      intros
      try simp only [Nat.mul_add, Nat.mul_one, Nat.mul_sub_one, Nat.mul_zero]
      omega
    constructor
    · rintro ⟨c0, h⟩
      have key := (radix3_unique N0 N1 bx x by_ (y + 1) bz z hbx (by omega) hby
        (by omega)).1 (h.trans (e c0))
      exact ⟨by omega, by omega, by omega⟩
    · rintro ⟨h1, h2, h3⟩
      have key := (radix3_unique N0 N1 bx x by_ (y + 1) bz z hbx (by omega) hby
        (by omega)).2
        ⟨by omega, by omega, by omega⟩
      exact ⟨by omega, key.trans (e (by omega)).symm⟩
  · have e : x + 1 < N0 →
        N0 * N1 * z + (N0 * y + x) + 1 = N0 * N1 * z + (N0 * y + (x + 1)) := by
      intros
      try simp only [Nat.mul_add, Nat.mul_one, Nat.mul_sub_one, Nat.mul_zero]
      omega
    constructor
    · rintro ⟨c0, h⟩
      have key := (radix3_unique N0 N1 bx (x + 1) by_ y bz z hbx (by omega) hby
        (by omega)).1 (h.trans (e c0))
      exact ⟨by omega, by omega, by omega⟩
    · rintro ⟨h1, h2, h3⟩
      have key := (radix3_unique N0 N1 bx (x + 1) by_ y bz z hbx (by omega) hby
        (by omega)).2
        ⟨by omega, by omega, by omega⟩
      exact ⟨by omega, key.trans (e (by omega)).symm⟩
  · have e : 0 < z → x + 1 < N0 →
        N0 * N1 * z + (N0 * y + x) - (N0 * N1) + 1 = N0 * N1 * (z - 1) + (N0 * y + (x + 1)) := by
      intros
      try simp only [Nat.mul_add, Nat.mul_one, Nat.mul_sub_one, Nat.mul_zero]
      omega
    constructor
    · rintro ⟨c0, c1, h⟩
      have key := (radix3_unique N0 N1 bx (x + 1) by_ y bz (z - 1) hbx (by omega) hby
        (by omega)).1 (h.trans (e c0 c1))
      exact ⟨by omega, by omega, by omega⟩
    · rintro ⟨h1, h2, h3⟩
      have key := (radix3_unique N0 N1 bx (x + 1) by_ y bz (z - 1) hbx (by omega) hby
        (by omega)).2
        ⟨by omega, by omega, by omega⟩
      exact ⟨by omega, by omega, key.trans (e (by omega) (by omega)).symm⟩
  · have e : 0 < z → y + 1 < N1 → x + 1 < N0 →
        N0 * N1 * z + (N0 * y + x) - (N0 * N1) + N0 + 1 = N0 * N1 * (z - 1) + (N0 * (y + 1) + (x + 1)) := by
      intros
      try simp only [Nat.mul_add, Nat.mul_one, Nat.mul_sub_one, Nat.mul_zero]
      omega
    constructor
    · rintro ⟨c0, c1, c2, h⟩
      have key := (radix3_unique N0 N1 bx (x + 1) by_ (y + 1) bz (z - 1) hbx (by omega) hby
        (by omega)).1 (h.trans (e c0 c1 c2))
      exact ⟨by omega, by omega, by omega⟩
    · rintro ⟨h1, h2, h3⟩
      have key := (radix3_unique N0 N1 bx (x + 1) by_ (y + 1) bz (z - 1) hbx (by omega) hby
        (by omega)).2
        ⟨by omega, by omega, by omega⟩
      exact ⟨by omega, by omega, by omega, key.trans (e (by omega) (by omega) (by omega)).symm⟩
  · have e : 0 < z → y + 1 < N1 → 0 < x →
        N0 * N1 * z + (N0 * y + x) - (N0 * N1) + N0 - 1 = N0 * N1 * (z - 1) + (N0 * (y + 1) + (x - 1)) := by
      intros
      try simp only [Nat.mul_add, Nat.mul_one, Nat.mul_sub_one, Nat.mul_zero]
      omega
    constructor
    · rintro ⟨c0, c1, c2, h⟩
      have key := (radix3_unique N0 N1 bx (x - 1) by_ (y + 1) bz (z - 1) hbx (by omega) hby
        (by omega)).1 (h.trans (e c0 c1 c2))
      exact ⟨by omega, by omega, by omega⟩
    · rintro ⟨h1, h2, h3⟩
      have key := (radix3_unique N0 N1 bx (x - 1) by_ (y + 1) bz (z - 1) hbx (by omega) hby
        (by omega)).2
        ⟨by omega, by omega, by omega⟩
      exact ⟨by omega, by omega, by omega, key.trans (e (by omega) (by omega) (by omega)).symm⟩
  · have e : 0 < z → y + 1 < N1 →
        N0 * N1 * z + (N0 * y + x) - (N0 * N1) + N0 = N0 * N1 * (z - 1) + (N0 * (y + 1) + x) := by
      intros
      try simp only [Nat.mul_add, Nat.mul_one, Nat.mul_sub_one, Nat.mul_zero]
      omega
    constructor
    · rintro ⟨c0, c1, h⟩
      have key := (radix3_unique N0 N1 bx x by_ (y + 1) bz (z - 1) hbx (by omega) hby
        (by omega)).1 (h.trans (e c0 c1))
      exact ⟨by omega, by omega, by omega⟩
    · rintro ⟨h1, h2, h3⟩
      have key := (radix3_unique N0 N1 bx x by_ (y + 1) bz (z - 1) hbx (by omega) hby
        (by omega)).2
        ⟨by omega, by omega, by omega⟩
      exact ⟨by omega, by omega, key.trans (e (by omega) (by omega)).symm⟩
  · exact radix3_unique N0 N1 bx x by_ y bz z hbx hx hby hy

theorem half3_lt (N0 N1 N2 x y z b : Nat) (hx : x < N0) (hy : y < N1) (hz : z < N2)
    (hfit : N0 * N1 * N2 < 4294967296) :
    b ∈ SetupLocalBoxesHalfOnly.case3 [N0, N1, N2] 0 N2 (N0 * N1 * z + (N0 * y + x)) → b < N0 * N1 * N2 := by
  obtain ⟨r1, -, r3, -, r5⟩ := row_facts N0 y N1 hy
  obtain ⟨s1, -, s3, -, s5⟩ := row_facts (N0 * N1) z N2 hz
  rw [half3_flat N0 N1 N2 x y z _ hx hy hz hfit]
  rintro (h | h | h | h | h | h | h | h | h | h | h | h | h | h)
  · obtain ⟨c0, c1, c2, h⟩ := h
    have e : N0 * N1 * z + (N0 * y + x) + (N0 * N1) + N0 - 1 = N0 * N1 * (z + 1) + (N0 * (y + 1) + (x - 1)) := by
      try simp only [Nat.mul_add, Nat.mul_one, Nat.mul_sub_one, Nat.mul_zero]
      omega
    rw [h, e]
    exact radix_lt3 N0 N1 N2 (x - 1) (y + 1) (z + 1) (by omega) (by omega) (by omega)
  · obtain ⟨c0, c1, c2, h⟩ := h
    have e : N0 * N1 * z + (N0 * y + x) + (N0 * N1) + N0 + 1 = N0 * N1 * (z + 1) + (N0 * (y + 1) + (x + 1)) := by
      try simp only [Nat.mul_add, Nat.mul_one, Nat.mul_sub_one, Nat.mul_zero]
      omega
    rw [h, e]
    exact radix_lt3 N0 N1 N2 (x + 1) (y + 1) (z + 1) (by omega) (by omega) (by omega)
  · obtain ⟨c0, c1, h⟩ := h
    have e : N0 * N1 * z + (N0 * y + x) + (N0 * N1) + N0 = N0 * N1 * (z + 1) + (N0 * (y + 1) + x) := by
      try simp only [Nat.mul_add, Nat.mul_one, Nat.mul_sub_one, Nat.mul_zero]
      omega
    rw [h, e]
    exact radix_lt3 N0 N1 N2 x (y + 1) (z + 1) (by omega) (by omega) (by omega)
  · obtain ⟨c0, c1, h⟩ := h
    have e : N0 * N1 * z + (N0 * y + x) + (N0 * N1) + 1 = N0 * N1 * (z + 1) + (N0 * y + (x + 1)) := by
      try simp only [Nat.mul_add, Nat.mul_one, Nat.mul_sub_one, Nat.mul_zero]
      omega
    rw [h, e]
    exact radix_lt3 N0 N1 N2 (x + 1) y (z + 1) (by omega) (by omega) (by omega)
  · obtain ⟨c0, h⟩ := h
    have e : N0 * N1 * z + (N0 * y + x) + (N0 * N1) = N0 * N1 * (z + 1) + (N0 * y + x) := by
      try simp only [Nat.mul_add, Nat.mul_one, Nat.mul_sub_one, Nat.mul_zero]
      omega
    rw [h, e]
    exact radix_lt3 N0 N1 N2 x y (z + 1) (by omega) (by omega) (by omega)
  · obtain ⟨c0, c1, h⟩ := h
    have e : N0 * N1 * z + (N0 * y + x) + N0 - 1 = N0 * N1 * z + (N0 * (y + 1) + (x - 1)) := by
      try simp only [Nat.mul_add, Nat.mul_one, Nat.mul_sub_one, Nat.mul_zero]
      omega
    rw [h, e]
    exact radix_lt3 N0 N1 N2 (x - 1) (y + 1) z (by omega) (by omega) (by omega)
  · obtain ⟨c0, c1, h⟩ := h
    have e : N0 * N1 * z + (N0 * y + x) + N0 + 1 = N0 * N1 * z + (N0 * (y + 1) + (x + 1)) := by
      try simp only [Nat.mul_add, Nat.mul_one, Nat.mul_sub_one, Nat.mul_zero]
      omega
    rw [h, e]
    exact radix_lt3 N0 N1 N2 (x + 1) (y + 1) z (by omega) (by omega) (by omega)
  · obtain ⟨c0, h⟩ := h
    have e : N0 * N1 * z + (N0 * y + x) + N0 = N0 * N1 * z + (N0 * (y + 1) + x) := by
      try simp only [Nat.mul_add, Nat.mul_one, Nat.mul_sub_one, Nat.mul_zero]
      omega
    rw [h, e]
    exact radix_lt3 N0 N1 N2 x (y + 1) z (by omega) (by omega) (by omega)
  · obtain ⟨c0, h⟩ := h
    have e : N0 * N1 * z + (N0 * y + x) + 1 = N0 * N1 * z + (N0 * y + (x + 1)) := by
      try simp only [Nat.mul_add, Nat.mul_one, Nat.mul_sub_one, Nat.mul_zero]
      omega
    rw [h, e]
    exact radix_lt3 N0 N1 N2 (x + 1) y z (by omega) (by omega) (by omega)
  · obtain ⟨c0, c1, h⟩ := h
    have e : N0 * N1 * z + (N0 * y + x) - (N0 * N1) + 1 = N0 * N1 * (z - 1) + (N0 * y + (x + 1)) := by
      try simp only [Nat.mul_add, Nat.mul_one, Nat.mul_sub_one, Nat.mul_zero]
      omega
    rw [h, e]
    exact radix_lt3 N0 N1 N2 (x + 1) y (z - 1) (by omega) (by omega) (by omega)
  · obtain ⟨c0, c1, c2, h⟩ := h
    have e : N0 * N1 * z + (N0 * y + x) - (N0 * N1) + N0 + 1 = N0 * N1 * (z - 1) + (N0 * (y + 1) + (x + 1)) := by
      try simp only [Nat.mul_add, Nat.mul_one, Nat.mul_sub_one, Nat.mul_zero]
      omega
    rw [h, e]
    exact radix_lt3 N0 N1 N2 (x + 1) (y + 1) (z - 1) (by omega) (by omega) (by omega)
  · obtain ⟨c0, c1, c2, h⟩ := h
    have e : N0 * N1 * z + (N0 * y + x) - (N0 * N1) + N0 - 1 = N0 * N1 * (z - 1) + (N0 * (y + 1) + (x - 1)) := by
      try simp only [Nat.mul_add, Nat.mul_one, Nat.mul_sub_one, Nat.mul_zero]
      omega
    rw [h, e]
    exact radix_lt3 N0 N1 N2 (x - 1) (y + 1) (z - 1) (by omega) (by omega) (by omega)
  · obtain ⟨c0, c1, h⟩ := h
    have e : N0 * N1 * z + (N0 * y + x) - (N0 * N1) + N0 = N0 * N1 * (z - 1) + (N0 * (y + 1) + x) := by
      try simp only [Nat.mul_add, Nat.mul_one, Nat.mul_sub_one, Nat.mul_zero]
      omega
    rw [h, e]
    exact radix_lt3 N0 N1 N2 x (y + 1) (z - 1) (by omega) (by omega) (by omega)
  · rw [h]; exact radix_lt3 N0 N1 N2 x y z hx hy hz

theorem half3_card_interior (N0 N1 N2 x y z : Nat) (hx : x < N0) (hy : y < N1) (hz : z < N2)
    (hfit : N0 * N1 * N2 < 4294967296) (h0x : 0 < x) (h1x : x + 1 < N0) (h0y : 0 < y)
    (h1y : y + 1 < N1) (h0z : 0 < z) (h1z : z + 1 < N2) :
    (SetupLocalBoxesHalfOnly.case3 [N0, N1, N2] 0 N2 (N0 * N1 * z + (N0 * y + x))).card = 14 := by
  have hs : SetupLocalBoxesHalfOnly.case3 [N0, N1, N2] 0 N2 (N0 * N1 * z + (N0 * y + x)) =
      insert (N0 * N1 * z + (N0 * y + x) + (N0 * N1) + N0 - 1)
        (insert (N0 * N1 * z + (N0 * y + x) + (N0 * N1) + N0 + 1)
        (insert (N0 * N1 * z + (N0 * y + x) + (N0 * N1) + N0)
        (insert (N0 * N1 * z + (N0 * y + x) + (N0 * N1) + 1)
        (insert (N0 * N1 * z + (N0 * y + x) + (N0 * N1))
        (insert (N0 * N1 * z + (N0 * y + x) + N0 - 1)
        (insert (N0 * N1 * z + (N0 * y + x) + N0 + 1)
        (insert (N0 * N1 * z + (N0 * y + x) + N0)
        (insert (N0 * N1 * z + (N0 * y + x) + 1)
        (insert (N0 * N1 * z + (N0 * y + x) - (N0 * N1) + 1)
        (insert (N0 * N1 * z + (N0 * y + x) - (N0 * N1) + N0 + 1)
        (insert (N0 * N1 * z + (N0 * y + x) - (N0 * N1) + N0 - 1)
        (insert (N0 * N1 * z + (N0 * y + x) - (N0 * N1) + N0)
        ({N0 * N1 * z + (N0 * y + x)}))))))))))))) := by
    ext b
    rw [half3_flat N0 N1 N2 x y z _ hx hy hz hfit]
    simp only [h0x, h1x, h0y, h1y, h0z, h1z, true_and, not_true_eq_false, false_and, false_or,
      Bool.false_eq_true, Finset.mem_insert, Finset.mem_singleton]
  rw [hs]
  have r3 := (row_facts N0 y N1 hy).2.2.1 h1y
  have r5 := (row_facts N0 y N1 hy).2.2.2.2 h0y
  have s3 := (row_facts (N0 * N1) z N2 hz).2.2.1 h1z
  have s5 := (row_facts (N0 * N1) z N2 hz).2.2.2.2 h0z
  repeat rw [Finset.card_insert_of_not_mem]
  · rfl
  all_goals (simp only [Finset.mem_insert, Finset.mem_singleton, not_or]; omega)

theorem full3_struct (N : List Nat) (g : Nat) :
    SetupAllLocalBoxes.case3 N g =
      (condInsert (!(uadd g 1 % N.getD 0 0 == 0) && !decide (g % umul (N.getD 0 0) (N.getD 1 0) ≥ umul (usub (N.getD 1 0) 1) (N.getD 0 0)) && !decide (g ≥ umul (umul (N.getD 0 0) (N.getD 1 0)) (usub (N.getD 2 0) 1)))
        (uadd (uadd (uadd g 1) (N.getD 0 0)) (umul (N.getD 0 0) (N.getD 1 0)))
      (condInsert (!(uadd g 1 % N.getD 0 0 == 0) && !decide (g % umul (N.getD 0 0) (N.getD 1 0) ≥ umul (usub (N.getD 1 0) 1) (N.getD 0 0)) && !decide (g < umul (N.getD 0 0) (N.getD 1 0)))
        (usub (uadd (uadd g 1) (N.getD 0 0)) (umul (N.getD 0 0) (N.getD 1 0)))
      (condInsert (!(uadd g 1 % N.getD 0 0 == 0) && !decide (g % umul (N.getD 0 0) (N.getD 1 0) < N.getD 0 0) && !decide (g ≥ umul (umul (N.getD 0 0) (N.getD 1 0)) (usub (N.getD 2 0) 1)))
        (uadd (usub (uadd g 1) (N.getD 0 0)) (umul (N.getD 0 0) (N.getD 1 0)))
      (condInsert (!(uadd g 1 % N.getD 0 0 == 0) && !decide (g % umul (N.getD 0 0) (N.getD 1 0) < N.getD 0 0) && !decide (g < umul (N.getD 0 0) (N.getD 1 0)))
        (usub (usub (uadd g 1) (N.getD 0 0)) (umul (N.getD 0 0) (N.getD 1 0)))
      (condInsert (!(g % N.getD 0 0 == 0) && !decide (g % umul (N.getD 0 0) (N.getD 1 0) ≥ umul (usub (N.getD 1 0) 1) (N.getD 0 0)) && !decide (g ≥ umul (umul (N.getD 0 0) (N.getD 1 0)) (usub (N.getD 2 0) 1)))
        (uadd (uadd (usub g 1) (N.getD 0 0)) (umul (N.getD 0 0) (N.getD 1 0)))
      (condInsert (!(g % N.getD 0 0 == 0) && !decide (g % umul (N.getD 0 0) (N.getD 1 0) ≥ umul (usub (N.getD 1 0) 1) (N.getD 0 0)) && !decide (g < umul (N.getD 0 0) (N.getD 1 0)))
        (usub (uadd (usub g 1) (N.getD 0 0)) (umul (N.getD 0 0) (N.getD 1 0)))
      (condInsert (!(g % N.getD 0 0 == 0) && !decide (g % umul (N.getD 0 0) (N.getD 1 0) < N.getD 0 0) && !decide (g ≥ umul (umul (N.getD 0 0) (N.getD 1 0)) (usub (N.getD 2 0) 1)))
        (uadd (usub (usub g 1) (N.getD 0 0)) (umul (N.getD 0 0) (N.getD 1 0)))
      (condInsert (!(g % N.getD 0 0 == 0) && !decide (g % umul (N.getD 0 0) (N.getD 1 0) < N.getD 0 0) && !decide (g < umul (N.getD 0 0) (N.getD 1 0)))
        (usub (usub (usub g 1) (N.getD 0 0)) (umul (N.getD 0 0) (N.getD 1 0)))
      (condInsert (!decide (g ≥ umul (umul (N.getD 0 0) (N.getD 1 0)) (usub (N.getD 2 0) 1)))
        (uadd g (umul (N.getD 1 0) (N.getD 0 0)))
      (condInsert (!decide (g < umul (N.getD 0 0) (N.getD 1 0)))
        (usub g (umul (N.getD 1 0) (N.getD 0 0)))
      (condInsert (!decide (g % umul (N.getD 0 0) (N.getD 1 0) ≥ umul (usub (N.getD 1 0) 1) (N.getD 0 0)) && !decide (g ≥ umul (umul (N.getD 0 0) (N.getD 1 0)) (usub (N.getD 2 0) 1)))
        (uadd (uadd g (N.getD 0 0)) (umul (N.getD 0 0) (N.getD 1 0)))
      (condInsert (!decide (g % umul (N.getD 0 0) (N.getD 1 0) ≥ umul (usub (N.getD 1 0) 1) (N.getD 0 0)) && !decide (g < umul (N.getD 0 0) (N.getD 1 0)))
        (usub (uadd g (N.getD 0 0)) (umul (N.getD 0 0) (N.getD 1 0)))
      (condInsert (!decide (g % umul (N.getD 0 0) (N.getD 1 0) ≥ umul (usub (N.getD 1 0) 1) (N.getD 0 0)))
        (uadd g (N.getD 0 0))
      (condInsert (!decide (g % umul (N.getD 0 0) (N.getD 1 0) < N.getD 0 0) && !decide (g ≥ umul (umul (N.getD 0 0) (N.getD 1 0)) (usub (N.getD 2 0) 1)))
        (uadd (usub g (N.getD 0 0)) (umul (N.getD 0 0) (N.getD 1 0)))
      (condInsert (!decide (g % umul (N.getD 0 0) (N.getD 1 0) < N.getD 0 0) && !decide (g < umul (N.getD 0 0) (N.getD 1 0)))
        (usub (usub g (N.getD 0 0)) (umul (N.getD 0 0) (N.getD 1 0)))
      (condInsert (!decide (g % umul (N.getD 0 0) (N.getD 1 0) < N.getD 0 0))
        (usub g (N.getD 0 0))
      (condInsert (!(uadd g 1 % N.getD 0 0 == 0) && !decide (g ≥ umul (umul (N.getD 0 0) (N.getD 1 0)) (usub (N.getD 2 0) 1)))
        (uadd (uadd g 1) (umul (N.getD 0 0) (N.getD 1 0)))
      (condInsert (!(uadd g 1 % N.getD 0 0 == 0) && !decide (g < umul (N.getD 0 0) (N.getD 1 0)))
        (usub (uadd g 1) (umul (N.getD 0 0) (N.getD 1 0)))
      (condInsert (!(uadd g 1 % N.getD 0 0 == 0) && !decide (g % umul (N.getD 0 0) (N.getD 1 0) ≥ umul (usub (N.getD 1 0) 1) (N.getD 0 0)))
        (uadd (uadd g 1) (N.getD 0 0))
      (condInsert (!(uadd g 1 % N.getD 0 0 == 0) && !decide (g % umul (N.getD 0 0) (N.getD 1 0) < N.getD 0 0))
        (usub (uadd g 1) (N.getD 0 0))
      (condInsert (!(uadd g 1 % N.getD 0 0 == 0))
        (uadd g 1)
      (condInsert (!(g % N.getD 0 0 == 0) && !decide (g ≥ umul (umul (N.getD 0 0) (N.getD 1 0)) (usub (N.getD 2 0) 1)))
        (uadd (usub g 1) (umul (N.getD 0 0) (N.getD 1 0)))
      (condInsert (!(g % N.getD 0 0 == 0) && !decide (g < umul (N.getD 0 0) (N.getD 1 0)))
        (usub (usub g 1) (umul (N.getD 0 0) (N.getD 1 0)))
      (condInsert (!(g % N.getD 0 0 == 0) && !decide (g % umul (N.getD 0 0) (N.getD 1 0) ≥ umul (usub (N.getD 1 0) 1) (N.getD 0 0)))
        (uadd (usub g 1) (N.getD 0 0))
      (condInsert (!(g % N.getD 0 0 == 0) && !decide (g % umul (N.getD 0 0) (N.getD 1 0) < N.getD 0 0))
        (usub (usub g 1) (N.getD 0 0))
      (condInsert (!(g % N.getD 0 0 == 0))
        (usub g 1)
      (insert g ∅))))))))))))))))))))))))))) := by
  simp only [SetupAllLocalBoxes.case3]
  generalize (g % N.getD 0 0 == 0) = xmin
  generalize (uadd g 1 % N.getD 0 0 == 0) = xmax
  generalize decide (g % umul (N.getD 0 0) (N.getD 1 0) < N.getD 0 0) = ymin
  generalize decide (g % umul (N.getD 0 0) (N.getD 1 0) ≥ umul (usub (N.getD 1 0) 1) (N.getD 0 0)) = ymax
  generalize decide (g < umul (N.getD 0 0) (N.getD 1 0)) = zmin
  generalize decide (g ≥ umul (umul (N.getD 0 0) (N.getD 1 0)) (usub (N.getD 2 0) 1)) = zmax
  cases xmin <;> cases xmax <;> cases ymin <;> cases ymax <;>
    simp only [condInsert_true, condInsert_false, Bool.not_true, Bool.not_false,
      Bool.and_true, Bool.and_false, Bool.true_and, Bool.false_and, if_true,
      if_false, Bool.false_eq_true]

theorem full3_flat (N0 N1 N2 x y z b : Nat) (hx : x < N0) (hy : y < N1) (hz : z < N2)
    (hfit : N0 * N1 * N2 < 4294967296) :
    b ∈ SetupAllLocalBoxes.case3 [N0, N1, N2] (N0 * N1 * z + (N0 * y + x)) ↔
      ((x + 1 < N0 ∧ y + 1 < N1 ∧ z + 1 < N2 ∧ b = N0 * N1 * z + (N0 * y + x) + 1 + N0 + (N0 * N1))
        ∨ (x + 1 < N0 ∧ y + 1 < N1 ∧ 0 < z ∧ b = N0 * N1 * z + (N0 * y + x) + 1 + N0 - (N0 * N1))
        ∨ (x + 1 < N0 ∧ 0 < y ∧ z + 1 < N2 ∧ b = N0 * N1 * z + (N0 * y + x) + 1 - N0 + (N0 * N1))
        ∨ (x + 1 < N0 ∧ 0 < y ∧ 0 < z ∧ b = N0 * N1 * z + (N0 * y + x) + 1 - N0 - (N0 * N1))
        ∨ (0 < x ∧ y + 1 < N1 ∧ z + 1 < N2 ∧ b = N0 * N1 * z + (N0 * y + x) - 1 + N0 + (N0 * N1))
        ∨ (0 < x ∧ y + 1 < N1 ∧ 0 < z ∧ b = N0 * N1 * z + (N0 * y + x) - 1 + N0 - (N0 * N1))
        ∨ (0 < x ∧ 0 < y ∧ z + 1 < N2 ∧ b = N0 * N1 * z + (N0 * y + x) - 1 - N0 + (N0 * N1))
        ∨ (0 < x ∧ 0 < y ∧ 0 < z ∧ b = N0 * N1 * z + (N0 * y + x) - 1 - N0 - (N0 * N1))
        ∨ (z + 1 < N2 ∧ b = N0 * N1 * z + (N0 * y + x) + (N0 * N1))
        ∨ (0 < z ∧ b = N0 * N1 * z + (N0 * y + x) - (N0 * N1))
        ∨ (y + 1 < N1 ∧ z + 1 < N2 ∧ b = N0 * N1 * z + (N0 * y + x) + N0 + (N0 * N1))
        ∨ (y + 1 < N1 ∧ 0 < z ∧ b = N0 * N1 * z + (N0 * y + x) + N0 - (N0 * N1))
        ∨ (y + 1 < N1 ∧ b = N0 * N1 * z + (N0 * y + x) + N0)
        ∨ (0 < y ∧ z + 1 < N2 ∧ b = N0 * N1 * z + (N0 * y + x) - N0 + (N0 * N1))
        ∨ (0 < y ∧ 0 < z ∧ b = N0 * N1 * z + (N0 * y + x) - N0 - (N0 * N1))
        ∨ (0 < y ∧ b = N0 * N1 * z + (N0 * y + x) - N0)
        ∨ (x + 1 < N0 ∧ z + 1 < N2 ∧ b = N0 * N1 * z + (N0 * y + x) + 1 + (N0 * N1))
        ∨ (x + 1 < N0 ∧ 0 < z ∧ b = N0 * N1 * z + (N0 * y + x) + 1 - (N0 * N1))
        ∨ (x + 1 < N0 ∧ y + 1 < N1 ∧ b = N0 * N1 * z + (N0 * y + x) + 1 + N0)
        ∨ (x + 1 < N0 ∧ 0 < y ∧ b = N0 * N1 * z + (N0 * y + x) + 1 - N0)
        ∨ (x + 1 < N0 ∧ b = N0 * N1 * z + (N0 * y + x) + 1)
        ∨ (0 < x ∧ z + 1 < N2 ∧ b = N0 * N1 * z + (N0 * y + x) - 1 + (N0 * N1))
        ∨ (0 < x ∧ 0 < z ∧ b = N0 * N1 * z + (N0 * y + x) - 1 - (N0 * N1))
        ∨ (0 < x ∧ y + 1 < N1 ∧ b = N0 * N1 * z + (N0 * y + x) - 1 + N0)
        ∨ (0 < x ∧ 0 < y ∧ b = N0 * N1 * z + (N0 * y + x) - 1 - N0)
        ∨ (0 < x ∧ b = N0 * N1 * z + (N0 * y + x) - 1)
        ∨ b = N0 * N1 * z + (N0 * y + x)) := by
  have hxy : N0 * y + x < N0 * N1 := by
    have := mul_succ_le N0 y N1 hy
    omega
  have hG : N0 * N1 * z + (N0 * y + x) < N0 * N1 * N2 := by
    have := mul_succ_le (N0 * N1) z N2 hz
    omega
  have hN0 : N0 ≤ N0 * N1 := by
    have := mul_succ_le N0 y N1 hy
    omega
  have hN01 : N0 * N1 ≤ N0 * N1 * N2 := by
    have := mul_succ_le (N0 * N1) z N2 hz
    omega
  have hN1 : N1 ≤ N0 * N1 := Nat.le_mul_of_pos_left _ (by omega)
  have hN2 : N2 ≤ N0 * N1 * N2 := Nat.le_mul_of_pos_left _ (by omega)
  have hm : (N0 * N1 * z + (N0 * y + x)) % N0 = x := by
    rw [Nat.mul_assoc, ← Nat.add_assoc, ← Nat.mul_add, mul_add_mod_lt _ _ _ hx]
  have hmxy : (N0 * N1 * z + (N0 * y + x)) % (N0 * N1) = N0 * y + x :=
    mul_add_mod_lt _ _ _ hxy
  have hdz : (N0 * N1 * z + (N0 * y + x)) / (N0 * N1) = z := mul_add_div_lt _ _ _ hxy
  have hc := coords_three N0 N1 N2 (N0 * N1 * z + (N0 * y + x)) (by omega) (by omega)
    (by omega) (by omega)
  have e1 : usub N0 1 = N0 - 1 := usub_eq _ _ (by omega) (by omega)
  have e2 : umul N0 N1 = N0 * N1 := umul_eq _ _ (by omega)
  have e2' : umul N1 N0 = N0 * N1 := by
    rw [Nat.mul_comm N0 N1]; exact umul_eq _ _ (by rw [Nat.mul_comm]; omega)
  have e3 : usub (N0 * N1) N0 = N0 * N1 - N0 := usub_eq _ _ (by omega) hN0
  have e4 : umul (N0 * N1) N2 = N0 * N1 * N2 := umul_eq _ _ hfit
  have e5 : usub (N0 * N1 * N2) (N0 * N1) = N0 * N1 * N2 - N0 * N1 := usub_eq _ _ hfit hN01
  have e6 : usub N2 1 = N2 - 1 := usub_eq _ _ (by omega) (by omega)
  have e7 : usub N1 1 = N1 - 1 := usub_eq _ _ (by omega) (by omega)
  have e8 : uadd (N0 * N1 * z + (N0 * y + x)) 1 = N0 * N1 * z + (N0 * y + x) + 1 :=
    uadd_eq _ _ (by omega)
  have e9 : umul (N1 - 1) N0 = N0 * N1 - N0 := by
    rw [umul_eq _ _ (by rw [pred_mul]; omega), pred_mul]
  have e10 : umul (N0 * N1) (N2 - 1) = N0 * N1 * N2 - N0 * N1 := by
    rw [umul_eq _ _ (by rw [Nat.mul_sub_one]; omega), Nat.mul_sub_one]
  have hl : x = 0 ↔ ¬ 0 < x := by omega
  have hr : x = N0 - 1 ↔ ¬ x + 1 < N0 := by omega
  have ht := flag_top N0 N1 x y hx hy
  have htg := flag_top_ge N0 N1 x y hx hy
  have hb := flag_bottom N0 x y hx
  have hf := flag_bottom (N0 * N1) (N0 * y + x) z hxy
  have hk := flag_top (N0 * N1) N2 (N0 * y + x) z hxy hz
  have hkg := flag_top_ge (N0 * N1) N2 (N0 * y + x) z hxy hz
  have hxm : (N0 * N1 * z + (N0 * y + x) + 1) % N0 = 0 ↔ ¬ x + 1 < N0 := by
    have := flag_xmax N0 x (N1 * z + y) hx
    rw [show N0 * N1 * z + (N0 * y + x) + 1 = N0 * (N1 * z + y) + x + 1 by ring]
    exact this
  have hpf : z = 0 ↔ ¬ 0 < z := by omega
  have hpb : z = N2 - 1 ↔ ¬ z + 1 < N2 := by omega
  obtain ⟨r1, -, r3, -, r5⟩ := row_facts N0 y N1 hy
  obtain ⟨s1, -, s3, -, s5⟩ := row_facts (N0 * N1) z N2 hz
  rw [full3_struct]
  simp only [mem_condInsert, Finset.mem_insert, Finset.not_mem_empty, or_false,
    List.getD_cons_zero, List.getD_cons_succ, hc, e1, e2, e2', e3, e4, e5, e6, e7, e8, e9, e10,
    hm, hmxy, hdz, Bool.and_eq_true, Bool.not_eq_true', and_assoc, beq_iff_eq,
    beq_eq_false_iff_ne, ne_eq, ge_iff_le, decide_eq_true_eq, decide_eq_false_iff_not, hl, hr, ht,
    htg, hb, hf, hk, hkg, hxm, hpf, hpb, not_not]
  clear hc e1 e2 e2' e3 e4 e5 e6 e7 e8 e9 e10 hm hmxy hdz hl hr ht htg hb hf hk hkg hxm hpf hpb
  refine or_congr ?_ (or_congr ?_ (or_congr ?_ (or_congr ?_ (or_congr ?_ (or_congr ?_ (or_congr ?_ (or_congr ?_ (or_congr ?_ (or_congr ?_ (or_congr ?_ (or_congr ?_ (or_congr ?_ (or_congr ?_ (or_congr ?_ (or_congr ?_ (or_congr ?_ (or_congr ?_ (or_congr ?_ (or_congr ?_ (or_congr ?_ (or_congr ?_ (or_congr ?_ (or_congr ?_ (or_congr ?_ (or_congr ?_ ?_)))))))))))))))))))))))))
  all_goals
    first
    | (intro h; have := h.1; have := h.2.1; clear h; omega)
    | ((repeat (refine and_congr_right (fun _ => ?_)));
       (first
        | with_reducible rfl
        | (simp (disch := omega) only [uadd_usub_eq, usub_uadd_eq, uadd_eq, usub_eq, umul_eq]; done)
        | (refine Iff.of_eq (congrArg _ ?_); simp only [uadd, usub, umul]; omega)))

theorem full3_coord (N0 N1 N2 x y z bx by_ bz : Nat) (hx : x < N0) (hy : y < N1)
    (hz : z < N2) (hbx : bx < N0) (hby : by_ < N1) (hbz : bz < N2)
    (hfit : N0 * N1 * N2 < 4294967296) :
    N0 * N1 * bz + (N0 * by_ + bx)
        ∈ SetupAllLocalBoxes.case3 [N0, N1, N2] (N0 * N1 * z + (N0 * y + x)) ↔
      ((bz = z + 1 ∧ by_ = y + 1 ∧ bx = x + 1)
        ∨ (bz + 1 = z ∧ by_ = y + 1 ∧ bx = x + 1)
        ∨ (bz = z + 1 ∧ by_ + 1 = y ∧ bx = x + 1)
        ∨ (bz + 1 = z ∧ by_ + 1 = y ∧ bx = x + 1)
        ∨ (bz = z + 1 ∧ by_ = y + 1 ∧ bx + 1 = x)
        ∨ (bz + 1 = z ∧ by_ = y + 1 ∧ bx + 1 = x)
        ∨ (bz = z + 1 ∧ by_ + 1 = y ∧ bx + 1 = x)
        ∨ (bz + 1 = z ∧ by_ + 1 = y ∧ bx + 1 = x)
        ∨ (bz = z + 1 ∧ by_ = y ∧ bx = x)
        ∨ (bz + 1 = z ∧ by_ = y ∧ bx = x)
        ∨ (bz = z + 1 ∧ by_ = y + 1 ∧ bx = x)
        ∨ (bz + 1 = z ∧ by_ = y + 1 ∧ bx = x)
        ∨ (bz = z ∧ by_ = y + 1 ∧ bx = x)
        ∨ (bz = z + 1 ∧ by_ + 1 = y ∧ bx = x)
        ∨ (bz + 1 = z ∧ by_ + 1 = y ∧ bx = x)
        ∨ (bz = z ∧ by_ + 1 = y ∧ bx = x)
        ∨ (bz = z + 1 ∧ by_ = y ∧ bx = x + 1)
        ∨ (bz + 1 = z ∧ by_ = y ∧ bx = x + 1)
        ∨ (bz = z ∧ by_ = y + 1 ∧ bx = x + 1)
        ∨ (bz = z ∧ by_ + 1 = y ∧ bx = x + 1)
        ∨ (bz = z ∧ by_ = y ∧ bx = x + 1)
        ∨ (bz = z + 1 ∧ by_ = y ∧ bx + 1 = x)
        ∨ (bz + 1 = z ∧ by_ = y ∧ bx + 1 = x)
        ∨ (bz = z ∧ by_ = y + 1 ∧ bx + 1 = x)
        ∨ (bz = z ∧ by_ + 1 = y ∧ bx + 1 = x)
        ∨ (bz = z ∧ by_ = y ∧ bx + 1 = x)
        ∨ (bz = z ∧ by_ = y ∧ bx = x)) := by
  obtain ⟨r1, -, r3, -, r5⟩ := row_facts N0 y N1 hy
  obtain ⟨s1, -, s3, -, s5⟩ := row_facts (N0 * N1) z N2 hz
  rw [full3_flat N0 N1 N2 x y z _ hx hy hz hfit]
  refine or_congr ?_ (or_congr ?_ (or_congr ?_ (or_congr ?_ (or_congr ?_ (or_congr ?_ (or_congr ?_ (or_congr ?_ (or_congr ?_ (or_congr ?_ (or_congr ?_ (or_congr ?_ (or_congr ?_ (or_congr ?_ (or_congr ?_ (or_congr ?_ (or_congr ?_ (or_congr ?_ (or_congr ?_ (or_congr ?_ (or_congr ?_ (or_congr ?_ (or_congr ?_ (or_congr ?_ (or_congr ?_ (or_congr ?_ ?_)))))))))))))))))))))))))
  · have e : x + 1 < N0 → y + 1 < N1 → z + 1 < N2 →
        N0 * N1 * z + (N0 * y + x) + 1 + N0 + (N0 * N1) = N0 * N1 * (z + 1) + (N0 * (y + 1) + (x + 1)) := by
      intros
      try simp only [Nat.mul_add, Nat.mul_one, Nat.mul_sub_one, Nat.mul_zero]
      omega
    constructor
    · rintro ⟨c0, c1, c2, h⟩
      have key := (radix3_unique N0 N1 bx (x + 1) by_ (y + 1) bz (z + 1) hbx (by omega) hby
        (by omega)).1 (h.trans (e c0 c1 c2))
      exact ⟨by omega, by omega, by omega⟩
    · rintro ⟨h1, h2, h3⟩
      have key := (radix3_unique N0 N1 bx (x + 1) by_ (y + 1) bz (z + 1) hbx (by omega) hby
        (by omega)).2
        ⟨by omega, by omega, by omega⟩
      exact ⟨by omega, by omega, by omega, key.trans (e (by omega) (by omega) (by omega)).symm⟩
  · have e : x + 1 < N0 → y + 1 < N1 → 0 < z →
        N0 * N1 * z + (N0 * y + x) + 1 + N0 - (N0 * N1) = N0 * N1 * (z - 1) + (N0 * (y + 1) + (x + 1)) := by
      intros
      try simp only [Nat.mul_add, Nat.mul_one, Nat.mul_sub_one, Nat.mul_zero]
      omega
    constructor
    · rintro ⟨c0, c1, c2, h⟩
      have key := (radix3_unique N0 N1 bx (x + 1) by_ (y + 1) bz (z - 1) hbx (by omega) hby
        (by omega)).1 (h.trans (e c0 c1 c2))
      exact ⟨by omega, by omega, by omega⟩
    · rintro ⟨h1, h2, h3⟩
      have key := (radix3_unique N0 N1 bx (x + 1) by_ (y + 1) bz (z - 1) hbx (by omega) hby
        (by omega)).2
        ⟨by omega, by omega, by omega⟩
      exact ⟨by omega, by omega, by omega, key.trans (e (by omega) (by omega) (by omega)).symm⟩
  · have e : x + 1 < N0 → 0 < y → z + 1 < N2 →
        N0 * N1 * z + (N0 * y + x) + 1 - N0 + (N0 * N1) = N0 * N1 * (z + 1) + (N0 * (y - 1) + (x + 1)) := by
      intros
      try simp only [Nat.mul_add, Nat.mul_one, Nat.mul_sub_one, Nat.mul_zero]
      omega
    constructor
    · rintro ⟨c0, c1, c2, h⟩
      have key := (radix3_unique N0 N1 bx (x + 1) by_ (y - 1) bz (z + 1) hbx (by omega) hby
        (by omega)).1 (h.trans (e c0 c1 c2))
      exact ⟨by omega, by omega, by omega⟩
    · rintro ⟨h1, h2, h3⟩
      have key := (radix3_unique N0 N1 bx (x + 1) by_ (y - 1) bz (z + 1) hbx (by omega) hby
        (by omega)).2
        ⟨by omega, by omega, by omega⟩
      exact ⟨by omega, by omega, by omega, key.trans (e (by omega) (by omega) (by omega)).symm⟩
  · have e : x + 1 < N0 → 0 < y → 0 < z →
        N0 * N1 * z + (N0 * y + x) + 1 - N0 - (N0 * N1) = N0 * N1 * (z - 1) + (N0 * (y - 1) + (x + 1)) := by
      intros
      try simp only [Nat.mul_add, Nat.mul_one, Nat.mul_sub_one, Nat.mul_zero]
      omega
    constructor
    · rintro ⟨c0, c1, c2, h⟩
      have key := (radix3_unique N0 N1 bx (x + 1) by_ (y - 1) bz (z - 1) hbx (by omega) hby
        (by omega)).1 (h.trans (e c0 c1 c2))
      exact ⟨by omega, by omega, by omega⟩
    · rintro ⟨h1, h2, h3⟩
      have key := (radix3_unique N0 N1 bx (x + 1) by_ (y - 1) bz (z - 1) hbx (by omega) hby
        (by omega)).2
        ⟨by omega, by omega, by omega⟩
      exact ⟨by omega, by omega, by omega, key.trans (e (by omega) (by omega) (by omega)).symm⟩
  · have e : 0 < x → y + 1 < N1 → z + 1 < N2 →
        N0 * N1 * z + (N0 * y + x) - 1 + N0 + (N0 * N1) = N0 * N1 * (z + 1) + (N0 * (y + 1) + (x - 1)) := by
      intros
      try simp only [Nat.mul_add, Nat.mul_one, Nat.mul_sub_one, Nat.mul_zero]
      omega
    constructor
    · rintro ⟨c0, c1, c2, h⟩
      have key := (radix3_unique N0 N1 bx (x - 1) by_ (y + 1) bz (z + 1) hbx (by omega) hby
        (by omega)).1 (h.trans (e c0 c1 c2))
      exact ⟨by omega, by omega, by omega⟩
    · rintro ⟨h1, h2, h3⟩
      have key := (radix3_unique N0 N1 bx (x - 1) by_ (y + 1) bz (z + 1) hbx (by omega) hby
        (by omega)).2
        ⟨by omega, by omega, by omega⟩
      exact ⟨by omega, by omega, by omega, key.trans (e (by omega) (by omega) (by omega)).symm⟩
  · have e : 0 < x → y + 1 < N1 → 0 < z →
        N0 * N1 * z + (N0 * y + x) - 1 + N0 - (N0 * N1) = N0 * N1 * (z - 1) + (N0 * (y + 1) + (x - 1)) := by
      intros
      try simp only [Nat.mul_add, Nat.mul_one, Nat.mul_sub_one, Nat.mul_zero]
      omega
    constructor
    · rintro ⟨c0, c1, c2, h⟩
      have key := (radix3_unique N0 N1 bx (x - 1) by_ (y + 1) bz (z - 1) hbx (by omega) hby
        (by omega)).1 (h.trans (e c0 c1 c2))
      exact ⟨by omega, by omega, by omega⟩
    · rintro ⟨h1, h2, h3⟩
      have key := (radix3_unique N0 N1 bx (x - 1) by_ (y + 1) bz (z - 1) hbx (by omega) hby
        (by omega)).2
        ⟨by omega, by omega, by omega⟩
      exact ⟨by omega, by omega, by omega, key.trans (e (by omega) (by omega) (by omega)).symm⟩
  · have e : 0 < x → 0 < y → z + 1 < N2 →
        N0 * N1 * z + (N0 * y + x) - 1 - N0 + (N0 * N1) = N0 * N1 * (z + 1) + (N0 * (y - 1) + (x - 1)) := by
      intros
      try simp only [Nat.mul_add, Nat.mul_one, Nat.mul_sub_one, Nat.mul_zero]
      omega
    constructor
    · rintro ⟨c0, c1, c2, h⟩
      have key := (radix3_unique N0 N1 bx (x - 1) by_ (y - 1) bz (z + 1) hbx (by omega) hby
        (by omega)).1 (h.trans (e c0 c1 c2))
      exact ⟨by omega, by omega, by omega⟩
    · rintro ⟨h1, h2, h3⟩
      have key := (radix3_unique N0 N1 bx (x - 1) by_ (y - 1) bz (z + 1) hbx (by omega) hby
        (by omega)).2
        ⟨by omega, by omega, by omega⟩
      exact ⟨by omega, by omega, by omega, key.trans (e (by omega) (by omega) (by omega)).symm⟩
  · have e : 0 < x → 0 < y → 0 < z →
        N0 * N1 * z + (N0 * y + x) - 1 - N0 - (N0 * N1) = N0 * N1 * (z - 1) + (N0 * (y - 1) + (x - 1)) := by
      intros
      try simp only [Nat.mul_add, Nat.mul_one, Nat.mul_sub_one, Nat.mul_zero]
      omega
    constructor
    · rintro ⟨c0, c1, c2, h⟩
      have key := (radix3_unique N0 N1 bx (x - 1) by_ (y - 1) bz (z - 1) hbx (by omega) hby
        (by omega)).1 (h.trans (e c0 c1 c2))
      exact ⟨by omega, by omega, by omega⟩
    · rintro ⟨h1, h2, h3⟩
      have key := (radix3_unique N0 N1 bx (x - 1) by_ (y - 1) bz (z - 1) hbx (by omega) hby
        (by omega)).2
        ⟨by omega, by omega, by omega⟩
      exact ⟨by omega, by omega, by omega, key.trans (e (by omega) (by omega) (by omega)).symm⟩
  · have e : z + 1 < N2 →
        N0 * N1 * z + (N0 * y + x) + (N0 * N1) = N0 * N1 * (z + 1) + (N0 * y + x) := by
      intros
      try simp only [Nat.mul_add, Nat.mul_one, Nat.mul_sub_one, Nat.mul_zero]
      omega
    constructor
    · rintro ⟨c0, h⟩
      have key := (radix3_unique N0 N1 bx x by_ y bz (z + 1) hbx (by omega) hby
        (by omega)).1 (h.trans (e c0))
      exact ⟨by omega, by omega, by omega⟩
    · rintro ⟨h1, h2, h3⟩
      have key := (radix3_unique N0 N1 bx x by_ y bz (z + 1) hbx (by omega) hby
        (by omega)).2
        ⟨by omega, by omega, by omega⟩
      exact ⟨by omega, key.trans (e (by omega)).symm⟩
  · have e : 0 < z →
        N0 * N1 * z + (N0 * y + x) - (N0 * N1) = N0 * N1 * (z - 1) + (N0 * y + x) := by
      intros
      try simp only [Nat.mul_add, Nat.mul_one, Nat.mul_sub_one, Nat.mul_zero]
      omega
    constructor
    · rintro ⟨c0, h⟩
      have key := (radix3_unique N0 N1 bx x by_ y bz (z - 1) hbx (by omega) hby
        (by omega)).1 (h.trans (e c0))
      exact ⟨by omega, by omega, by omega⟩
    · rintro ⟨h1, h2, h3⟩
      have key := (radix3_unique N0 N1 bx x by_ y bz (z - 1) hbx (by omega) hby
        (by omega)).2
        ⟨by omega, by omega, by omega⟩
      exact ⟨by omega, key.trans (e (by omega)).symm⟩
  · have e : y + 1 < N1 → z + 1 < N2 →
        N0 * N1 * z + (N0 * y + x) + N0 + (N0 * N1) = N0 * N1 * (z + 1) + (N0 * (y + 1) + x) := by
      intros
      try simp only [Nat.mul_add, Nat.mul_one, Nat.mul_sub_one, Nat.mul_zero]
      omega
    constructor
    · rintro ⟨c0, c1, h⟩
      have key := (radix3_unique N0 N1 bx x by_ (y + 1) bz (z + 1) hbx (by omega) hby
        (by omega)).1 (h.trans (e c0 c1))
      exact ⟨by omega, by omega, by omega⟩
    · rintro ⟨h1, h2, h3⟩
      have key := (radix3_unique N0 N1 bx x by_ (y + 1) bz (z + 1) hbx (by omega) hby
        (by omega)).2
        ⟨by omega, by omega, by omega⟩
      exact ⟨by omega, by omega, key.trans (e (by omega) (by omega)).symm⟩
  · have e : y + 1 < N1 → 0 < z →
        N0 * N1 * z + (N0 * y + x) + N0 - (N0 * N1) = N0 * N1 * (z - 1) + (N0 * (y + 1) + x) := by
      intros
      try simp only [Nat.mul_add, Nat.mul_one, Nat.mul_sub_one, Nat.mul_zero]
      omega
    constructor
    · rintro ⟨c0, c1, h⟩
      have key := (radix3_unique N0 N1 bx x by_ (y + 1) bz (z - 1) hbx (by omega) hby
        (by omega)).1 (h.trans (e c0 c1))
      exact ⟨by omega, by omega, by omega⟩
    · rintro ⟨h1, h2, h3⟩
      have key := (radix3_unique N0 N1 bx x by_ (y + 1) bz (z - 1) hbx (by omega) hby
        (by omega)).2
        ⟨by omega, by omega, by omega⟩
      exact ⟨by omega, by omega, key.trans (e (by omega) (by omega)).symm⟩
  · have e : y + 1 < N1 →
        N0 * N1 * z + (N0 * y + x) + N0 = N0 * N1 * z + (N0 * (y + 1) + x) := by
      intros
      try simp only [Nat.mul_add, Nat.mul_one, Nat.mul_sub_one, Nat.mul_zero]
      omega
    constructor
    · rintro ⟨c0, h⟩
      have key := (radix3_unique N0 N1 bx x by_ (y + 1) bz z hbx (by omega) hby
        (by omega)).1 (h.trans (e c0))
      exact ⟨by omega, by omega, by omega⟩
    · rintro ⟨h1, h2, h3⟩
      have key := (radix3_unique N0 N1 bx x by_ (y + 1) bz z hbx (by omega) hby
        (by omega)).2
        ⟨by omega, by omega, by omega⟩
      exact ⟨by omega, key.trans (e (by omega)).symm⟩
  · have e : 0 < y → z + 1 < N2 →
        N0 * N1 * z + (N0 * y + x) - N0 + (N0 * N1) = N0 * N1 * (z + 1) + (N0 * (y - 1) + x) := by
      intros
      try simp only [Nat.mul_add, Nat.mul_one, Nat.mul_sub_one, Nat.mul_zero]
      omega
    constructor
    · rintro ⟨c0, c1, h⟩
      have key := (radix3_unique N0 N1 bx x by_ (y - 1) bz (z + 1) hbx (by omega) hby
        (by omega)).1 (h.trans (e c0 c1))
      exact ⟨by omega, by omega, by omega⟩
    · rintro ⟨h1, h2, h3⟩
      have key := (radix3_unique N0 N1 bx x by_ (y - 1) bz (z + 1) hbx (by omega) hby
        (by omega)).2
        ⟨by omega, by omega, by omega⟩
      exact ⟨by omega, by omega, key.trans (e (by omega) (by omega)).symm⟩
  · have e : 0 < y → 0 < z →
        N0 * N1 * z + (N0 * y + x) - N0 - (N0 * N1) = N0 * N1 * (z - 1) + (N0 * (y - 1) + x) := by
      intros
      try simp only [Nat.mul_add, Nat.mul_one, Nat.mul_sub_one, Nat.mul_zero]
      omega
    constructor
    · rintro ⟨c0, c1, h⟩
      have key := (radix3_unique N0 N1 bx x by_ (y - 1) bz (z - 1) hbx (by omega) hby
        (by omega)).1 (h.trans (e c0 c1))
      exact ⟨by omega, by omega, by omega⟩
    · rintro ⟨h1, h2, h3⟩
      have key := (radix3_unique N0 N1 bx x by_ (y - 1) bz (z - 1) hbx (by omega) hby
        (by omega)).2
        ⟨by omega, by omega, by omega⟩
      exact ⟨by omega, by omega, key.trans (e (by omega) (by omega)).symm⟩
  · have e : 0 < y →
        N0 * N1 * z + (N0 * y + x) - N0 = N0 * N1 * z + (N0 * (y - 1) + x) := by
      intros
      try simp only [Nat.mul_add, Nat.mul_one, Nat.mul_sub_one, Nat.mul_zero]
      omega
    constructor
    · rintro ⟨c0, h⟩
      have key := (radix3_unique N0 N1 bx x by_ (y - 1) bz z hbx (by omega) hby
        (by omega)).1 (h.trans (e c0))
      exact ⟨by omega, by omega, by omega⟩
    · rintro ⟨h1, h2, h3⟩
      have key := (radix3_unique N0 N1 bx x by_ (y - 1) bz z hbx (by omega) hby
        (by omega)).2
        ⟨by omega, by omega, by omega⟩
      exact ⟨by omega, key.trans (e (by omega)).symm⟩
  · have e : x + 1 < N0 → z + 1 < N2 →
        N0 * N1 * z + (N0 * y + x) + 1 + (N0 * N1) = N0 * N1 * (z + 1) + (N0 * y + (x + 1)) := by
      intros
      try simp only [Nat.mul_add, Nat.mul_one, Nat.mul_sub_one, Nat.mul_zero]
      omega
    constructor
    · rintro ⟨c0, c1, h⟩
      have key := (radix3_unique N0 N1 bx (x + 1) by_ y bz (z + 1) hbx (by omega) hby
        (by omega)).1 (h.trans (e c0 c1))
      exact ⟨by omega, by omega, by omega⟩
    · rintro ⟨h1, h2, h3⟩
      have key := (radix3_unique N0 N1 bx (x + 1) by_ y bz (z + 1) hbx (by omega) hby
        (by omega)).2
        ⟨by omega, by omega, by omega⟩
      exact ⟨by omega, by omega, key.trans (e (by omega) (by omega)).symm⟩
  · have e : x + 1 < N0 → 0 < z →
        N0 * N1 * z + (N0 * y + x) + 1 - (N0 * N1) = N0 * N1 * (z - 1) + (N0 * y + (x + 1)) := by
      intros
      try simp only [Nat.mul_add, Nat.mul_one, Nat.mul_sub_one, Nat.mul_zero]
      omega
    constructor
    · rintro ⟨c0, c1, h⟩
      have key := (radix3_unique N0 N1 bx (x + 1) by_ y bz (z - 1) hbx (by omega) hby
        (by omega)).1 (h.trans (e c0 c1))
      exact ⟨by omega, by omega, by omega⟩
    · rintro ⟨h1, h2, h3⟩
      have key := (radix3_unique N0 N1 bx (x + 1) by_ y bz (z - 1) hbx (by omega) hby
        (by omega)).2
        ⟨by omega, by omega, by omega⟩
      exact ⟨by omega, by omega, key.trans (e (by omega) (by omega)).symm⟩
  · have e : x + 1 < N0 → y + 1 < N1 →
        N0 * N1 * z + (N0 * y + x) + 1 + N0 = N0 * N1 * z + (N0 * (y + 1) + (x + 1)) := by
      intros
      try simp only [Nat.mul_add, Nat.mul_one, Nat.mul_sub_one, Nat.mul_zero]
      omega
    constructor
    · rintro ⟨c0, c1, h⟩
      have key := (radix3_unique N0 N1 bx (x + 1) by_ (y + 1) bz z hbx (by omega) hby
        (by omega)).1 (h.trans (e c0 c1))
      exact ⟨by omega, by omega, by omega⟩
    · rintro ⟨h1, h2, h3⟩
      have key := (radix3_unique N0 N1 bx (x + 1) by_ (y + 1) bz z hbx (by omega) hby
        (by omega)).2
        ⟨by omega, by omega, by omega⟩
      exact ⟨by omega, by omega, key.trans (e (by omega) (by omega)).symm⟩
  · have e : x + 1 < N0 → 0 < y →
        N0 * N1 * z + (N0 * y + x) + 1 - N0 = N0 * N1 * z + (N0 * (y - 1) + (x + 1)) := by
      intros
      try simp only [Nat.mul_add, Nat.mul_one, Nat.mul_sub_one, Nat.mul_zero]
      omega
    constructor
    · rintro ⟨c0, c1, h⟩
      have key := (radix3_unique N0 N1 bx (x + 1) by_ (y - 1) bz z hbx (by omega) hby
        (by omega)).1 (h.trans (e c0 c1))
      exact ⟨by omega, by omega, by omega⟩
    · rintro ⟨h1, h2, h3⟩
      have key := (radix3_unique N0 N1 bx (x + 1) by_ (y - 1) bz z hbx (by omega) hby
        (by omega)).2
        ⟨by omega, by omega, by omega⟩
      exact ⟨by omega, by omega, key.trans (e (by omega) (by omega)).symm⟩
  · have e : x + 1 < N0 →
        N0 * N1 * z + (N0 * y + x) + 1 = N0 * N1 * z + (N0 * y + (x + 1)) := by
      intros
      try simp only [Nat.mul_add, Nat.mul_one, Nat.mul_sub_one, Nat.mul_zero]
      omega
    constructor
    · rintro ⟨c0, h⟩
      have key := (radix3_unique N0 N1 bx (x + 1) by_ y bz z hbx (by omega) hby
        (by omega)).1 (h.trans (e c0))
      exact ⟨by omega, by omega, by omega⟩
    · rintro ⟨h1, h2, h3⟩
      have key := (radix3_unique N0 N1 bx (x + 1) by_ y bz z hbx (by omega) hby
        (by omega)).2
        ⟨by omega, by omega, by omega⟩
      exact ⟨by omega, key.trans (e (by omega)).symm⟩
  · have e : 0 < x → z + 1 < N2 →
        N0 * N1 * z + (N0 * y + x) - 1 + (N0 * N1) = N0 * N1 * (z + 1) + (N0 * y + (x - 1)) := by
      intros
      try simp only [Nat.mul_add, Nat.mul_one, Nat.mul_sub_one, Nat.mul_zero]
      omega
    constructor
    · rintro ⟨c0, c1, h⟩
      have key := (radix3_unique N0 N1 bx (x - 1) by_ y bz (z + 1) hbx (by omega) hby
        (by omega)).1 (h.trans (e c0 c1))
      exact ⟨by omega, by omega, by omega⟩
    · rintro ⟨h1, h2, h3⟩
      have key := (radix3_unique N0 N1 bx (x - 1) by_ y bz (z + 1) hbx (by omega) hby
        (by omega)).2
        ⟨by omega, by omega, by omega⟩
      exact ⟨by omega, by omega, key.trans (e (by omega) (by omega)).symm⟩
  · have e : 0 < x → 0 < z →
        N0 * N1 * z + (N0 * y + x) - 1 - (N0 * N1) = N0 * N1 * (z - 1) + (N0 * y + (x - 1)) := by
      intros
      try simp only [Nat.mul_add, Nat.mul_one, Nat.mul_sub_one, Nat.mul_zero]
      omega
    constructor
    · rintro ⟨c0, c1, h⟩
      have key := (radix3_unique N0 N1 bx (x - 1) by_ y bz (z - 1) hbx (by omega) hby
        (by omega)).1 (h.trans (e c0 c1))
      exact ⟨by omega, by omega, by omega⟩
    · rintro ⟨h1, h2, h3⟩
      have key := (radix3_unique N0 N1 bx (x - 1) by_ y bz (z - 1) hbx (by omega) hby
        (by omega)).2
        ⟨by omega, by omega, by omega⟩
      exact ⟨by omega, by omega, key.trans (e (by omega) (by omega)).symm⟩
  · have e : 0 < x → y + 1 < N1 →
        N0 * N1 * z + (N0 * y + x) - 1 + N0 = N0 * N1 * z + (N0 * (y + 1) + (x - 1)) := by
      intros
      try simp only [Nat.mul_add, Nat.mul_one, Nat.mul_sub_one, Nat.mul_zero]
      omega
    constructor
    · rintro ⟨c0, c1, h⟩
      have key := (radix3_unique N0 N1 bx (x - 1) by_ (y + 1) bz z hbx (by omega) hby
        (by omega)).1 (h.trans (e c0 c1))
      exact ⟨by omega, by omega, by omega⟩
    · rintro ⟨h1, h2, h3⟩
      have key := (radix3_unique N0 N1 bx (x - 1) by_ (y + 1) bz z hbx (by omega) hby
        (by omega)).2
        ⟨by omega, by omega, by omega⟩
      exact ⟨by omega, by omega, key.trans (e (by omega) (by omega)).symm⟩
  · have e : 0 < x → 0 < y →
        N0 * N1 * z + (N0 * y + x) - 1 - N0 = N0 * N1 * z + (N0 * (y - 1) + (x - 1)) := by
      intros
      try simp only [Nat.mul_add, Nat.mul_one, Nat.mul_sub_one, Nat.mul_zero]
      omega
    constructor
    · rintro ⟨c0, c1, h⟩
      have key := (radix3_unique N0 N1 bx (x - 1) by_ (y - 1) bz z hbx (by omega) hby
        (by omega)).1 (h.trans (e c0 c1))
      exact ⟨by omega, by omega, by omega⟩
    · rintro ⟨h1, h2, h3⟩
      have key := (radix3_unique N0 N1 bx (x - 1) by_ (y - 1) bz z hbx (by omega) hby
        (by omega)).2
        ⟨by omega, by omega, by omega⟩
      exact ⟨by omega, by omega, key.trans (e (by omega) (by omega)).symm⟩
  · have e : 0 < x →
        N0 * N1 * z + (N0 * y + x) - 1 = N0 * N1 * z + (N0 * y + (x - 1)) := by
      intros
      try simp only [Nat.mul_add, Nat.mul_one, Nat.mul_sub_one, Nat.mul_zero]
      omega
    constructor
    · rintro ⟨c0, h⟩
      have key := (radix3_unique N0 N1 bx (x - 1) by_ y bz z hbx (by omega) hby
        (by omega)).1 (h.trans (e c0))
      exact ⟨by omega, by omega, by omega⟩
    · rintro ⟨h1, h2, h3⟩
      have key := (radix3_unique N0 N1 bx (x - 1) by_ y bz z hbx (by omega) hby
        (by omega)).2
        ⟨by omega, by omega, by omega⟩
      exact ⟨by omega, key.trans (e (by omega)).symm⟩
  · exact radix3_unique N0 N1 bx x by_ y bz z hbx hx hby hy

theorem full3_lt (N0 N1 N2 x y z b : Nat) (hx : x < N0) (hy : y < N1) (hz : z < N2)
    (hfit : N0 * N1 * N2 < 4294967296) :
    b ∈ SetupAllLocalBoxes.case3 [N0, N1, N2] (N0 * N1 * z + (N0 * y + x)) → b < N0 * N1 * N2 := by
  obtain ⟨r1, -, r3, -, r5⟩ := row_facts N0 y N1 hy
  obtain ⟨s1, -, s3, -, s5⟩ := row_facts (N0 * N1) z N2 hz
  rw [full3_flat N0 N1 N2 x y z _ hx hy hz hfit]
  rintro (h | h | h | h | h | h | h | h | h | h | h | h | h | h | h | h | h | h | h | h | h | h | h | h | h | h | h)
  · obtain ⟨c0, c1, c2, h⟩ := h
    have e : N0 * N1 * z + (N0 * y + x) + 1 + N0 + (N0 * N1) = N0 * N1 * (z + 1) + (N0 * (y + 1) + (x + 1)) := by
      try simp only [Nat.mul_add, Nat.mul_one, Nat.mul_sub_one, Nat.mul_zero]
      omega
    rw [h, e]
    exact radix_lt3 N0 N1 N2 (x + 1) (y + 1) (z + 1) (by omega) (by omega) (by omega)
  · obtain ⟨c0, c1, c2, h⟩ := h
    have e : N0 * N1 * z + (N0 * y + x) + 1 + N0 - (N0 * N1) = N0 * N1 * (z - 1) + (N0 * (y + 1) + (x + 1)) := by
      try simp only [Nat.mul_add, Nat.mul_one, Nat.mul_sub_one, Nat.mul_zero]
      omega
    rw [h, e]
    exact radix_lt3 N0 N1 N2 (x + 1) (y + 1) (z - 1) (by omega) (by omega) (by omega)
  · obtain ⟨c0, c1, c2, h⟩ := h
    have e : N0 * N1 * z + (N0 * y + x) + 1 - N0 + (N0 * N1) = N0 * N1 * (z + 1) + (N0 * (y - 1) + (x + 1)) := by
      try simp only [Nat.mul_add, Nat.mul_one, Nat.mul_sub_one, Nat.mul_zero]
      omega
    rw [h, e]
    exact radix_lt3 N0 N1 N2 (x + 1) (y - 1) (z + 1) (by omega) (by omega) (by omega)
  · obtain ⟨c0, c1, c2, h⟩ := h
    have e : N0 * N1 * z + (N0 * y + x) + 1 - N0 - (N0 * N1) = N0 * N1 * (z - 1) + (N0 * (y - 1) + (x + 1)) := by
      try simp only [Nat.mul_add, Nat.mul_one, Nat.mul_sub_one, Nat.mul_zero]
      omega
    rw [h, e]
    exact radix_lt3 N0 N1 N2 (x + 1) (y - 1) (z - 1) (by omega) (by omega) (by omega)
  · obtain ⟨c0, c1, c2, h⟩ := h
    have e : N0 * N1 * z + (N0 * y + x) - 1 + N0 + (N0 * N1) = N0 * N1 * (z + 1) + (N0 * (y + 1) + (x - 1)) := by
      try simp only [Nat.mul_add, Nat.mul_one, Nat.mul_sub_one, Nat.mul_zero]
      omega
    rw [h, e]
    exact radix_lt3 N0 N1 N2 (x - 1) (y + 1) (z + 1) (by omega) (by omega) (by omega)
  · obtain ⟨c0, c1, c2, h⟩ := h
    have e : N0 * N1 * z + (N0 * y + x) - 1 + N0 - (N0 * N1) = N0 * N1 * (z - 1) + (N0 * (y + 1) + (x - 1)) := by
      try simp only [Nat.mul_add, Nat.mul_one, Nat.mul_sub_one, Nat.mul_zero]
      omega
    rw [h, e]
    exact radix_lt3 N0 N1 N2 (x - 1) (y + 1) (z - 1) (by omega) (by omega) (by omega)
  · obtain ⟨c0, c1, c2, h⟩ := h
    have e : N0 * N1 * z + (N0 * y + x) - 1 - N0 + (N0 * N1) = N0 * N1 * (z + 1) + (N0 * (y - 1) + (x - 1)) := by
      try simp only [Nat.mul_add, Nat.mul_one, Nat.mul_sub_one, Nat.mul_zero]
      omega
    rw [h, e]
    exact radix_lt3 N0 N1 N2 (x - 1) (y - 1) (z + 1) (by omega) (by omega) (by omega)
  · obtain ⟨c0, c1, c2, h⟩ := h
    have e : N0 * N1 * z + (N0 * y + x) - 1 - N0 - (N0 * N1) = N0 * N1 * (z - 1) + (N0 * (y - 1) + (x - 1)) := by
      try simp only [Nat.mul_add, Nat.mul_one, Nat.mul_sub_one, Nat.mul_zero]
      omega
    rw [h, e]
    exact radix_lt3 N0 N1 N2 (x - 1) (y - 1) (z - 1) (by omega) (by omega) (by omega)
  · obtain ⟨c0, h⟩ := h
    have e : N0 * N1 * z + (N0 * y + x) + (N0 * N1) = N0 * N1 * (z + 1) + (N0 * y + x) := by
      try simp only [Nat.mul_add, Nat.mul_one, Nat.mul_sub_one, Nat.mul_zero]
      omega
    rw [h, e]
    exact radix_lt3 N0 N1 N2 x y (z + 1) (by omega) (by omega) (by omega)
  · obtain ⟨c0, h⟩ := h
    have e : N0 * N1 * z + (N0 * y + x) - (N0 * N1) = N0 * N1 * (z - 1) + (N0 * y + x) := by
      try simp only [Nat.mul_add, Nat.mul_one, Nat.mul_sub_one, Nat.mul_zero]
      omega
    rw [h, e]
    exact radix_lt3 N0 N1 N2 x y (z - 1) (by omega) (by omega) (by omega)
  · obtain ⟨c0, c1, h⟩ := h
    have e : N0 * N1 * z + (N0 * y + x) + N0 + (N0 * N1) = N0 * N1 * (z + 1) + (N0 * (y + 1) + x) := by
      try simp only [Nat.mul_add, Nat.mul_one, Nat.mul_sub_one, Nat.mul_zero]
      omega
    rw [h, e]
    exact radix_lt3 N0 N1 N2 x (y + 1) (z + 1) (by omega) (by omega) (by omega)
  · obtain ⟨c0, c1, h⟩ := h
    have e : N0 * N1 * z + (N0 * y + x) + N0 - (N0 * N1) = N0 * N1 * (z - 1) + (N0 * (y + 1) + x) := by
      try simp only [Nat.mul_add, Nat.mul_one, Nat.mul_sub_one, Nat.mul_zero]
      omega
    rw [h, e]
    exact radix_lt3 N0 N1 N2 x (y + 1) (z - 1) (by omega) (by omega) (by omega)
  · obtain ⟨c0, h⟩ := h
    have e : N0 * N1 * z + (N0 * y + x) + N0 = N0 * N1 * z + (N0 * (y + 1) + x) := by
      try simp only [Nat.mul_add, Nat.mul_one, Nat.mul_sub_one, Nat.mul_zero]
      omega
    rw [h, e]
    exact radix_lt3 N0 N1 N2 x (y + 1) z (by omega) (by omega) (by omega)
  · obtain ⟨c0, c1, h⟩ := h
    have e : N0 * N1 * z + (N0 * y + x) - N0 + (N0 * N1) = N0 * N1 * (z + 1) + (N0 * (y - 1) + x) := by
      try simp only [Nat.mul_add, Nat.mul_one, Nat.mul_sub_one, Nat.mul_zero]
      omega
    rw [h, e]
    exact radix_lt3 N0 N1 N2 x (y - 1) (z + 1) (by omega) (by omega) (by omega)
  · obtain ⟨c0, c1, h⟩ := h
    have e : N0 * N1 * z + (N0 * y + x) - N0 - (N0 * N1) = N0 * N1 * (z - 1) + (N0 * (y - 1) + x) := by
      try simp only [Nat.mul_add, Nat.mul_one, Nat.mul_sub_one, Nat.mul_zero]
      omega
    rw [h, e]
    exact radix_lt3 N0 N1 N2 x (y - 1) (z - 1) (by omega) (by omega) (by omega)
  · obtain ⟨c0, h⟩ := h
    have e : N0 * N1 * z + (N0 * y + x) - N0 = N0 * N1 * z + (N0 * (y - 1) + x) := by
      try simp only [Nat.mul_add, Nat.mul_one, Nat.mul_sub_one, Nat.mul_zero]
      omega
    rw [h, e]
    exact radix_lt3 N0 N1 N2 x (y - 1) z (by omega) (by omega) (by omega)
  · obtain ⟨c0, c1, h⟩ := h
    have e : N0 * N1 * z + (N0 * y + x) + 1 + (N0 * N1) = N0 * N1 * (z + 1) + (N0 * y + (x + 1)) := by
      try simp only [Nat.mul_add, Nat.mul_one, Nat.mul_sub_one, Nat.mul_zero]
      omega
    rw [h, e]
    exact radix_lt3 N0 N1 N2 (x + 1) y (z + 1) (by omega) (by omega) (by omega)
  · obtain ⟨c0, c1, h⟩ := h
    have e : N0 * N1 * z + (N0 * y + x) + 1 - (N0 * N1) = N0 * N1 * (z - 1) + (N0 * y + (x + 1)) := by
      try simp only [Nat.mul_add, Nat.mul_one, Nat.mul_sub_one, Nat.mul_zero]
      omega
    rw [h, e]
    exact radix_lt3 N0 N1 N2 (x + 1) y (z - 1) (by omega) (by omega) (by omega)
  · obtain ⟨c0, c1, h⟩ := h
    have e : N0 * N1 * z + (N0 * y + x) + 1 + N0 = N0 * N1 * z + (N0 * (y + 1) + (x + 1)) := by
      try simp only [Nat.mul_add, Nat.mul_one, Nat.mul_sub_one, Nat.mul_zero]
      omega
    rw [h, e]
    exact radix_lt3 N0 N1 N2 (x + 1) (y + 1) z (by omega) (by omega) (by omega)
  · obtain ⟨c0, c1, h⟩ := h
    have e : N0 * N1 * z + (N0 * y + x) + 1 - N0 = N0 * N1 * z + (N0 * (y - 1) + (x + 1)) := by
      try simp only [Nat.mul_add, Nat.mul_one, Nat.mul_sub_one, Nat.mul_zero]
      omega
    rw [h, e]
    exact radix_lt3 N0 N1 N2 (x + 1) (y - 1) z (by omega) (by omega) (by omega)
  · obtain ⟨c0, h⟩ := h
    have e : N0 * N1 * z + (N0 * y + x) + 1 = N0 * N1 * z + (N0 * y + (x + 1)) := by
      try simp only [Nat.mul_add, Nat.mul_one, Nat.mul_sub_one, Nat.mul_zero]
      omega
    rw [h, e]
    exact radix_lt3 N0 N1 N2 (x + 1) y z (by omega) (by omega) (by omega)
  · obtain ⟨c0, c1, h⟩ := h
    have e : N0 * N1 * z + (N0 * y + x) - 1 + (N0 * N1) = N0 * N1 * (z + 1) + (N0 * y + (x - 1)) := by
      try simp only [Nat.mul_add, Nat.mul_one, Nat.mul_sub_one, Nat.mul_zero]
      omega
    rw [h, e]
    exact radix_lt3 N0 N1 N2 (x - 1) y (z + 1) (by omega) (by omega) (by omega)
  · obtain ⟨c0, c1, h⟩ := h
    have e : N0 * N1 * z + (N0 * y + x) - 1 - (N0 * N1) = N0 * N1 * (z - 1) + (N0 * y + (x - 1)) := by
      try simp only [Nat.mul_add, Nat.mul_one, Nat.mul_sub_one, Nat.mul_zero]
      omega
    rw [h, e]
    exact radix_lt3 N0 N1 N2 (x - 1) y (z - 1) (by omega) (by omega) (by omega)
  · obtain ⟨c0, c1, h⟩ := h
    have e : N0 * N1 * z + (N0 * y + x) - 1 + N0 = N0 * N1 * z + (N0 * (y + 1) + (x - 1)) := by
      try simp only [Nat.mul_add, Nat.mul_one, Nat.mul_sub_one, Nat.mul_zero]
      omega
    rw [h, e]
    exact radix_lt3 N0 N1 N2 (x - 1) (y + 1) z (by omega) (by omega) (by omega)
  · obtain ⟨c0, c1, h⟩ := h
    have e : N0 * N1 * z + (N0 * y + x) - 1 - N0 = N0 * N1 * z + (N0 * (y - 1) + (x - 1)) := by
      try simp only [Nat.mul_add, Nat.mul_one, Nat.mul_sub_one, Nat.mul_zero]
      omega
    rw [h, e]
    exact radix_lt3 N0 N1 N2 (x - 1) (y - 1) z (by omega) (by omega) (by omega)
  · obtain ⟨c0, h⟩ := h
    have e : N0 * N1 * z + (N0 * y + x) - 1 = N0 * N1 * z + (N0 * y + (x - 1)) := by
      try simp only [Nat.mul_add, Nat.mul_one, Nat.mul_sub_one, Nat.mul_zero]
      omega
    rw [h, e]
    exact radix_lt3 N0 N1 N2 (x - 1) y z (by omega) (by omega) (by omega)
  · rw [h]; exact radix_lt3 N0 N1 N2 x y z hx hy hz

theorem full3_card_interior (N0 N1 N2 x y z : Nat) (hx : x < N0) (hy : y < N1) (hz : z < N2)
    (hfit : N0 * N1 * N2 < 4294967296) (h0x : 0 < x) (h1x : x + 1 < N0) (h0y : 0 < y)
    (h1y : y + 1 < N1) (h0z : 0 < z) (h1z : z + 1 < N2) :
    (SetupAllLocalBoxes.case3 [N0, N1, N2] (N0 * N1 * z + (N0 * y + x))).card = 27 := by
  have hs : SetupAllLocalBoxes.case3 [N0, N1, N2] (N0 * N1 * z + (N0 * y + x)) =
      insert (N0 * N1 * z + (N0 * y + x) + 1 + N0 + (N0 * N1))
        (insert (N0 * N1 * z + (N0 * y + x) + 1 + N0 - (N0 * N1))
        (insert (N0 * N1 * z + (N0 * y + x) + 1 - N0 + (N0 * N1))
        (insert (N0 * N1 * z + (N0 * y + x) + 1 - N0 - (N0 * N1))
        (insert (N0 * N1 * z + (N0 * y + x) - 1 + N0 + (N0 * N1))
        (insert (N0 * N1 * z + (N0 * y + x) - 1 + N0 - (N0 * N1))
        (insert (N0 * N1 * z + (N0 * y + x) - 1 - N0 + (N0 * N1))
        (insert (N0 * N1 * z + (N0 * y + x) - 1 - N0 - (N0 * N1))
        (insert (N0 * N1 * z + (N0 * y + x) + (N0 * N1))
        (insert (N0 * N1 * z + (N0 * y + x) - (N0 * N1))
        (insert (N0 * N1 * z + (N0 * y + x) + N0 + (N0 * N1))
        (insert (N0 * N1 * z + (N0 * y + x) + N0 - (N0 * N1))
        (insert (N0 * N1 * z + (N0 * y + x) + N0)
        (insert (N0 * N1 * z + (N0 * y + x) - N0 + (N0 * N1))
        (insert (N0 * N1 * z + (N0 * y + x) - N0 - (N0 * N1))
        (insert (N0 * N1 * z + (N0 * y + x) - N0)
        (insert (N0 * N1 * z + (N0 * y + x) + 1 + (N0 * N1))
        (insert (N0 * N1 * z + (N0 * y + x) + 1 - (N0 * N1))
        (insert (N0 * N1 * z + (N0 * y + x) + 1 + N0)
        (insert (N0 * N1 * z + (N0 * y + x) + 1 - N0)
        (insert (N0 * N1 * z + (N0 * y + x) + 1)
        (insert (N0 * N1 * z + (N0 * y + x) - 1 + (N0 * N1))
        (insert (N0 * N1 * z + (N0 * y + x) - 1 - (N0 * N1))
        (insert (N0 * N1 * z + (N0 * y + x) - 1 + N0)
        (insert (N0 * N1 * z + (N0 * y + x) - 1 - N0)
        (insert (N0 * N1 * z + (N0 * y + x) - 1)
        ({N0 * N1 * z + (N0 * y + x)})))))))))))))))))))))))))) := by
    ext b
    rw [full3_flat N0 N1 N2 x y z _ hx hy hz hfit]
    simp only [h0x, h1x, h0y, h1y, h0z, h1z, true_and, not_true_eq_false, false_and, false_or,
      Bool.false_eq_true, Finset.mem_insert, Finset.mem_singleton]
  rw [hs]
  have r3 := (row_facts N0 y N1 hy).2.2.1 h1y
  have r5 := (row_facts N0 y N1 hy).2.2.2.2 h0y
  have s3 := (row_facts (N0 * N1) z N2 hz).2.2.1 h1z
  have s5 := (row_facts (N0 * N1) z N2 hz).2.2.2.2 h0z
  repeat rw [Finset.card_insert_of_not_mem]
  · rfl
  all_goals (simp only [Finset.mem_insert, Finset.mem_singleton, not_or]; omega)

/-- Membership in the 1D half stencil, in closed form. -/
theorem half1_compact (N0 x bx : Nat) (hx : x < N0) (hbx : bx < N0) (hfit : N0 < 4294967296) :
    bx ∈ SetupLocalBoxesHalfOnly.case1 [N0] 0 x ↔ (x ≤ bx ∧ bx ≤ x + 1) := by
  rw [half1_coord N0 x bx hx hbx hfit]
  omega

/-- Membership in the 1D full stencil, in closed form. -/
theorem full1_compact (N0 x bx : Nat) (hx : x < N0) (hbx : bx < N0) (hfit : N0 < 4294967296) :
    bx ∈ SetupAllLocalBoxes.case1 [N0] x ↔ (bx ≤ x + 1 ∧ x ≤ bx + 1) := by
  rw [full1_coord N0 x bx hx hbx hfit]
  omega

/-- Membership in the non-periodic 2D half stencil: the boxes are adjacent and the listed box
is in the row above, or in the same row and not to the left. -/
theorem half2_compact (N0 N1 x y bx by_ : Nat) (hx : x < N0) (hy : y < N1)
    (hbx : bx < N0) (hby : by_ < N1) (hfit : N0 * N1 < 4294967296) :
    N0 * by_ + bx ∈ SetupLocalBoxesHalfOnly.case2 [N0, N1] 0 false (N0 * N1) (N0 * y + x) ↔
      ((bx ≤ x + 1 ∧ x ≤ bx + 1 ∧ by_ ≤ y + 1 ∧ y ≤ by_ + 1)
        ∧ (by_ = y + 1 ∨ (by_ = y ∧ x ≤ bx))) := by
  rw [half2_coord false N0 N1 x y bx by_ hx hy hbx hby hfit]
  simp only [Bool.false_eq_true, false_and, false_or]
  constructor
  · rintro (h | h | h | h | h) <;> omega
  · rintro ⟨⟨a1, a2, a3, a4⟩, f⟩
    have hx3 : bx + 1 = x ∨ bx = x ∨ bx = x + 1 := by omega
    have hy3 : by_ + 1 = y ∨ by_ = y ∨ by_ = y + 1 := by omega
    rcases hx3 with h1 | h1 | h1 <;> rcases hy3 with h2 | h2 | h2 <;>
      ((repeat (first | (refine Or.inl ?_; omega) | refine Or.inr ?_)); all_goals omega)

/-- Membership in the non-periodic 2D full stencil: the boxes are adjacent. -/
theorem full2_compact (N0 N1 x y bx by_ : Nat) (hx : x < N0) (hy : y < N1)
    (hbx : bx < N0) (hby : by_ < N1) (hfit : N0 * N1 < 4294967296) :
    N0 * by_ + bx ∈ SetupAllLocalBoxes.case2 [N0, N1] false (N0 * y + x) ↔
      (bx ≤ x + 1 ∧ x ≤ bx + 1 ∧ by_ ≤ y + 1 ∧ y ≤ by_ + 1) := by
  rw [full2_coord false N0 N1 x y bx by_ hx hy hbx hby hfit]
  simp only [Bool.false_eq_true, false_and, false_or]
  constructor
  · rintro (h | h | h | h | h | h | h | h | h) <;> omega
  · rintro ⟨a1, a2, a3, a4⟩
    have hx3 : bx + 1 = x ∨ bx = x ∨ bx = x + 1 := by omega
    have hy3 : by_ + 1 = y ∨ by_ = y ∨ by_ = y + 1 := by omega
    rcases hx3 with h1 | h1 | h1 <;> rcases hy3 with h2 | h2 | h2 <;>
      ((repeat (first | (refine Or.inl ?_; omega) | refine Or.inr ?_)); all_goals omega)

/-- Membership in the 3D half stencil: the boxes are adjacent and the listed box comes later in
the order that compares rows first, then columns, then planes. -/
theorem half3_compact (N0 N1 N2 x y z bx by_ bz : Nat) (hx : x < N0) (hy : y < N1)
    (hz : z < N2) (hbx : bx < N0) (hby : by_ < N1) (hbz : bz < N2)
    (hfit : N0 * N1 * N2 < 4294967296) :
    N0 * N1 * bz + (N0 * by_ + bx)
        ∈ SetupLocalBoxesHalfOnly.case3 [N0, N1, N2] 0 N2 (N0 * N1 * z + (N0 * y + x)) ↔
      ((bx ≤ x + 1 ∧ x ≤ bx + 1 ∧ by_ ≤ y + 1 ∧ y ≤ by_ + 1 ∧ bz ≤ z + 1 ∧ z ≤ bz + 1)
        ∧ (by_ = y + 1 ∨ (by_ = y ∧ (bx = x + 1 ∨ (bx = x ∧ z ≤ bz))))) := by
  rw [half3_coord N0 N1 N2 x y z bx by_ bz hx hy hz hbx hby hbz hfit]
  constructor
  · rintro (h | h | h | h | h | h | h | h | h | h | h | h | h | h) <;> omega
  · rintro ⟨⟨a1, a2, a3, a4, a5, a6⟩, f⟩
    have hx3 : bx + 1 = x ∨ bx = x ∨ bx = x + 1 := by omega
    have hy3 : by_ + 1 = y ∨ by_ = y ∨ by_ = y + 1 := by omega
    have hz3 : bz + 1 = z ∨ bz = z ∨ bz = z + 1 := by omega
    rcases hx3 with h1 | h1 | h1 <;> rcases hy3 with h2 | h2 | h2 <;>
      rcases hz3 with h3 | h3 | h3 <;>
      ((repeat (first | (refine Or.inl ?_; omega) | refine Or.inr ?_)); all_goals omega)

/-- Membership in the 3D full stencil: the boxes are adjacent. -/
theorem full3_compact (N0 N1 N2 x y z bx by_ bz : Nat) (hx : x < N0) (hy : y < N1)
    (hz : z < N2) (hbx : bx < N0) (hby : by_ < N1) (hbz : bz < N2)
    (hfit : N0 * N1 * N2 < 4294967296) :
    N0 * N1 * bz + (N0 * by_ + bx)
        ∈ SetupAllLocalBoxes.case3 [N0, N1, N2] (N0 * N1 * z + (N0 * y + x)) ↔
      (bx ≤ x + 1 ∧ x ≤ bx + 1 ∧ by_ ≤ y + 1 ∧ y ≤ by_ + 1 ∧ bz ≤ z + 1 ∧ z ≤ bz + 1) := by
  rw [full3_coord N0 N1 N2 x y z bx by_ bz hx hy hz hbx hby hbz hfit]
  constructor
  · rintro (h | h | h | h | h | h | h | h | h | h | h | h | h | h | h | h | h | h | h | h | h
      | h | h | h | h | h | h) <;> omega
  · rintro ⟨a1, a2, a3, a4, a5, a6⟩
    have hx3 : bx + 1 = x ∨ bx = x ∨ bx = x + 1 := by omega
    have hy3 : by_ + 1 = y ∨ by_ = y ∨ by_ = y + 1 := by omega
    have hz3 : bz + 1 = z ∨ bz = z ∨ bz = z + 1 := by omega
    rcases hx3 with h1 | h1 | h1 <;> rcases hy3 with h2 | h2 | h2 <;>
      rcases hz3 with h3 | h3 | h3 <;>
      ((repeat (first | (refine Or.inl ?_; omega) | refine Or.inr ?_)); all_goals omega)

theorem GetLocalBoxes_map (s : DistributedBoxCollection) (f : Nat → Finset Nat) (g : Nat)
    (hL : s.mLocalBoxes = (ownedIndexLoop s).map f)
    (hmin : s.mMinBoxIndex ≤ g) (hmax : g ≤ s.mMaxBoxIndex)
    (hfit : s.mMaxBoxIndex + 1 < 4294967296) :
    GetLocalBoxes s g = .ok (f g) := by
  have h1 : decide (g < s.mMinBoxIndex) = false := by simp; omega
  have h2 : decide (s.mMaxBoxIndex < g) = false := by simp; omega
  have h3 : uadd s.mMaxBoxIndex 1 = s.mMaxBoxIndex + 1 := uadd_eq _ _ hfit
  have h4 : s.mLocalBoxes.get? (g - s.mMinBoxIndex) = some (f g) := by
    rw [hL, ownedIndexLoop, h3, List.get?_eq_getElem?, List.getElem?_map,
      List.getElem?_range' _ _ (by omega)]
    simp only [Option.map_some', Nat.one_mul]
    congr 2
    omega
  simp only [GetLocalBoxes, h1, h2, Bool.not_false, Bool.and_self, if_true, h4]

theorem SetupLocalBoxesHalfOnly_two (s : DistributedBoxCollection) (hdim : s.DIM = .two)
    (hset : s.mAreLocalBoxesSet = false) :
    SetupLocalBoxesHalfOnly s = .ok { s with
      mLocalBoxes := (ownedIndexLoop s).map
        (SetupLocalBoxesHalfOnly.case2 s.mNumBoxesEachDirection s.low s.mIsPeriodicInX
          s.mBoxes.length)
      mAreLocalBoxesSet := true } := by
  cases s
  simp only at hdim hset
  subst hdim hset
  rfl

theorem SetupLocalBoxesHalfOnly_three (s : DistributedBoxCollection) (hdim : s.DIM = .three)
    (hset : s.mAreLocalBoxesSet = false) :
    SetupLocalBoxesHalfOnly s = .ok { s with
      mLocalBoxes := (ownedIndexLoop s).map
        (SetupLocalBoxesHalfOnly.case3 s.mNumBoxesEachDirection s.low s.high)
      mAreLocalBoxesSet := true } := by
  cases s
  simp only at hdim hset
  subst hdim hset
  rfl

theorem div_lt_of_lt_mul2 (N0 N1 A : Nat) (hA : A < N0 * N1) : A % N0 < N0 ∧ A / N0 < N1 := by
  have h0 : 0 < N0 := Nat.pos_of_ne_zero (by rintro rfl; simp at hA)
  exact ⟨Nat.mod_lt A h0, by rw [Nat.div_lt_iff_lt_mul h0, Nat.mul_comm]; exact hA⟩

/-- Coordinates of a box index below the number of boxes of a 3D grid. -/
theorem split3 (N0 N1 N2 A : Nat) (hA : A < N0 * N1 * N2) :
    ∃ x y z, x < N0 ∧ y < N1 ∧ z < N2 ∧ A = N0 * N1 * z + (N0 * y + x)
      ∧ x = A % N0 ∧ y = A / N0 % N1 ∧ z = A / (N0 * N1) := by
  have h01 : 0 < N0 * N1 := Nat.pos_of_ne_zero (by intro h; rw [h] at hA; simp at hA)
  have h0 : 0 < N0 := Nat.pos_of_ne_zero (by rintro rfl; simp at h01)
  have h1 : 0 < N1 := Nat.pos_of_ne_zero (by rintro rfl; simp at h01)
  refine ⟨A % N0, A / N0 % N1, A / (N0 * N1), Nat.mod_lt _ h0, Nat.mod_lt _ h1, ?_, ?_,
    rfl, rfl, rfl⟩
  · rw [Nat.div_lt_iff_lt_mul h01, Nat.mul_comm]; exact hA
  · have := coords_radix N0 N1 A
    have e1 : A / N0 % N1 * N0 = N0 * (A / N0 % N1) := Nat.mul_comm _ _
    have e2 : A / (N0 * N1) * N0 * N1 = N0 * N1 * (A / (N0 * N1)) := by ring
    omega

/-- Membership in the non-periodic 2D half stencil in terms of the coordinates of the two
box indices. -/
theorem half2_mem (N0 N1 A B : Nat) (hfit : N0 * N1 < 4294967296)
    (hA : A < N0 * N1) (hB : B < N0 * N1) :
    B ∈ SetupLocalBoxesHalfOnly.case2 [N0, N1] 0 false (N0 * N1) A ↔
      ((B % N0 ≤ A % N0 + 1 ∧ A % N0 ≤ B % N0 + 1 ∧ B / N0 ≤ A / N0 + 1 ∧ A / N0 ≤ B / N0 + 1)
        ∧ (B / N0 = A / N0 + 1 ∨ (B / N0 = A / N0 ∧ A % N0 ≤ B % N0))) := by
  obtain ⟨hAx, hAy⟩ := div_lt_of_lt_mul2 N0 N1 A hA
  obtain ⟨hBx, hBy⟩ := div_lt_of_lt_mul2 N0 N1 B hB
  have k := half2_compact N0 N1 (A % N0) (A / N0) (B % N0) (B / N0) hAx hAy hBx hBy hfit
  rw [Nat.div_add_mod A N0, Nat.div_add_mod B N0] at k
  exact k

theorem boxesAdjacent_two (N0 N1 A B : Nat) :
    boxesAdjacent .two [N0, N1] A B ↔
      (A % N0 ≤ B % N0 + 1 ∧ B % N0 ≤ A % N0 + 1) ∧ (A / N0 ≤ B / N0 + 1 ∧ B / N0 ≤ A / N0 + 1) := by
  constructor
  · intro h
    have a0 := h 0 (by decide)
    have a1 := h 1 (by decide)
    simp only [CalculateCoordinateIndices, List.getD_cons_zero, List.getD_cons_succ] at a0 a1
    exact ⟨a0, a1⟩
  · rintro ⟨a0, a1⟩ i hi
    have : i = 0 ∨ i = 1 := by simp only [Dim.toNat] at hi; omega
    rcases this with rfl | rfl
    · simpa only [CalculateCoordinateIndices, List.getD_cons_zero, List.getD_cons_succ] using a0
    · simpa only [CalculateCoordinateIndices, List.getD_cons_zero, List.getD_cons_succ] using a1

/-- What `SingleProcessGrid` says about a 2D collection. -/
theorem grid_two (s : DistributedBoxCollection) (hgrid : SingleProcessGrid s)
    (hdim : s.DIM = .two) :
    ∃ N0 N1, s.mNumBoxesEachDirection = [N0, N1] ∧ 1 ≤ N0 ∧ 1 ≤ N1 ∧ s.mNumBoxes = N0 * N1
      ∧ N0 * N1 < 4294967296 ∧ s.low = 0 ∧ s.high = N1 ∧ s.mMinBoxIndex = 0
      ∧ s.mMaxBoxIndex = N0 * N1 - 1 ∧ s.mBoxes.length = N0 * N1 := by
  obtain ⟨hp, hr, hlen, hpos, hnum, hfit, hlow, hhigh, hmin, hmax, hbl, hmap⟩ := hgrid
  rw [hdim] at hlen hpos hhigh
  obtain ⟨N0, N1, hN⟩ := List.length_eq_two.1 hlen
  have p0 := hpos 0 (by decide)
  have p1 := hpos 1 (by decide)
  rw [hN] at p0 p1 hhigh hnum
  simp only [List.getD_cons_zero, List.getD_cons_succ, List.prod_cons, List.prod_nil,
    Nat.mul_one, Dim.toNat] at p0 p1 hhigh hnum
  rw [hnum] at hfit hmax hbl
  exact ⟨N0, N1, hN, p0, p1, hnum, hfit, hlow, hhigh, hmin, hmax, hbl⟩

/-- C2: in a single-process, non-periodic 2D grid of any shape, `SetupLocalBoxesHalfOnly`
succeeds, every box is in its own stencil, and of two distinct boxes whose coordinates differ by
at most one on every axis exactly one lists the other. -/
theorem SetupLocalBoxesHalfOnly_two_exactly_one (s : DistributedBoxCollection)
    (hgrid : SingleProcessGrid s) (hdim : s.DIM = .two) (hper : s.mIsPeriodicInX = false)
    (hset : s.mAreLocalBoxesSet = false) :
    ∃ s', SetupLocalBoxesHalfOnly s = .ok s'
      ∧ (∀ A, A < s.mNumBoxes → ∃ stA, GetLocalBoxes s' A = .ok stA ∧ A ∈ stA)
      ∧ (∀ A B, A < s.mNumBoxes → B < s.mNumBoxes → A ≠ B →
          boxesAdjacent .two s.mNumBoxesEachDirection A B →
          ∃ stA stB, GetLocalBoxes s' A = .ok stA ∧ GetLocalBoxes s' B = .ok stB
            ∧ ((A ∈ stB ∧ B ∉ stA) ∨ (A ∉ stB ∧ B ∈ stA))) := by
  obtain ⟨N0, N1, hN, p0, p1, hnum, hfit, hlow, hhigh, hmin, hmax, hbl⟩ :=
    grid_two s hgrid hdim
  refine ⟨_, SetupLocalBoxesHalfOnly_two s hdim hset, ?_⟩
  have hget : ∀ A, A < N0 * N1 → GetLocalBoxes { s with
      mLocalBoxes := (ownedIndexLoop s).map
        (SetupLocalBoxesHalfOnly.case2 s.mNumBoxesEachDirection s.low s.mIsPeriodicInX
          s.mBoxes.length)
      mAreLocalBoxesSet := true } A
      = .ok (SetupLocalBoxesHalfOnly.case2 [N0, N1] 0 false (N0 * N1) A) := by
    intro A hA
    rw [← hN, ← hlow, ← hper, ← hbl]
    exact GetLocalBoxes_map _ _ A rfl (by show s.mMinBoxIndex ≤ A; omega)
      (by show A ≤ s.mMaxBoxIndex; omega) (by show s.mMaxBoxIndex + 1 < 4294967296; omega)
  constructor
  · intro A hA
    rw [hnum] at hA
    refine ⟨_, hget A hA, ?_⟩
    rw [half2_mem N0 N1 A A hfit hA hA]
    omega
  · intro A B hA hB hne hadj
    rw [hnum] at hA hB
    refine ⟨_, _, hget A hA, hget B hB, ?_⟩
    rw [half2_mem N0 N1 A B hfit hA hB, half2_mem N0 N1 B A hfit hB hA]
    rw [hN, boxesAdjacent_two] at hadj
    have eA := Nat.div_add_mod A N0
    have eB := Nat.div_add_mod B N0
    have hne2 : ¬ (A / N0 = B / N0 ∧ A % N0 = B % N0) := by
      rintro ⟨h1, h2⟩; apply hne; rw [← eA, ← eB, h1, h2]
    omega

theorem coords_two_radix (N0 N1 x y : Nat) (hx : x < N0) :
    CalculateCoordinateIndices .two [N0, N1] (N0 * y + x) = [x, y] := by
  simp only [CalculateCoordinateIndices, List.getD_cons_zero, mul_add_mod_lt N0 y x hx,
    mul_add_div_lt N0 y x hx]

theorem coords_three_radix (N0 N1 N2 x y z : Nat) (hx : x < N0) (hy : y < N1) (hz : z < N2)
    (hfit : N0 * N1 * N2 < 4294967296) :
    CalculateCoordinateIndices .three [N0, N1, N2] (N0 * N1 * z + (N0 * y + x)) = [x, y, z] := by
  have hxy := radix_lt2 N0 N1 x y hx hy
  have hG := radix_lt3 N0 N1 N2 x y z hx hy hz
  have hN01 : N0 * N1 ≤ N0 * N1 * N2 := Nat.le_mul_of_pos_right _ (by omega)
  rw [coords_three N0 N1 N2 _ (by omega) (by omega) (by omega) (by omega)]
  have e1 : (N0 * N1 * z + (N0 * y + x)) % N0 = x := by
    rw [Nat.mul_assoc, ← Nat.add_assoc, ← Nat.mul_add, mul_add_mod_lt _ _ _ hx]
  have e2 : (N0 * N1 * z + (N0 * y + x)) / N0 % N1 = y := by
    rw [Nat.mul_assoc, ← Nat.add_assoc, ← Nat.mul_add, mul_add_div_lt _ _ _ hx,
      mul_add_mod_lt _ _ _ hy]
  rw [e1, e2, mul_add_div_lt _ _ _ hxy]

/-- Coordinates of a box index below the number of boxes of a 2D grid. -/
theorem split2 (N0 N1 A : Nat) (hA : A < N0 * N1) :
    ∃ x y, x < N0 ∧ y < N1 ∧ A = N0 * y + x := by
  obtain ⟨h1, h2⟩ := div_lt_of_lt_mul2 N0 N1 A hA
  exact ⟨A % N0, A / N0, h1, h2, (Nat.div_add_mod A N0).symm⟩

theorem forall_lt_one (P : Nat → Prop) : (∀ i, i < 1 → P i) ↔ P 0 := by
  constructor
  · intro h; exact h 0 (by decide)
  · intro h i hi
    have : i = 0 := by omega
    subst this; exact h

theorem forall_lt_two (P : Nat → Prop) : (∀ i, i < 2 → P i) ↔ P 0 ∧ P 1 := by
  constructor
  · intro h; exact ⟨h 0 (by decide), h 1 (by decide)⟩
  · rintro ⟨h0, h1⟩ i hi
    have : i = 0 ∨ i = 1 := by omega
    rcases this with rfl | rfl
    · exact h0
    · exact h1

theorem forall_lt_three (P : Nat → Prop) : (∀ i, i < 3 → P i) ↔ P 0 ∧ P 1 ∧ P 2 := by
  constructor
  · intro h; exact ⟨h 0 (by decide), h 1 (by decide), h 2 (by decide)⟩
  · rintro ⟨h0, h1, h2⟩ i hi
    have : i = 0 ∨ i = 1 ∨ i = 2 := by omega
    rcases this with rfl | rfl | rfl
    · exact h0
    · exact h1
    · exact h2

theorem adjacent_one (N : List Nat) (x bx : Nat) :
    boxesAdjacent .one N bx x ↔ (bx ≤ x + 1 ∧ x ≤ bx + 1) := by
  simp only [boxesAdjacent, Dim.toNat, forall_lt_one, CalculateCoordinateIndices,
    List.getD_cons_zero]

theorem adjacent_two_radix (N0 N1 x y bx by_ : Nat) (hx : x < N0) (hbx : bx < N0) :
    boxesAdjacent .two [N0, N1] (N0 * by_ + bx) (N0 * y + x) ↔
      (bx ≤ x + 1 ∧ x ≤ bx + 1 ∧ by_ ≤ y + 1 ∧ y ≤ by_ + 1) := by
  simp only [boxesAdjacent, Dim.toNat, forall_lt_two, coords_two_radix N0 N1 x y hx,
    coords_two_radix N0 N1 bx by_ hbx, List.getD_cons_zero, List.getD_cons_succ, and_assoc]

theorem adjacent_three_radix (N0 N1 N2 x y z bx by_ bz : Nat) (hx : x < N0) (hy : y < N1)
    (hz : z < N2) (hbx : bx < N0) (hby : by_ < N1) (hbz : bz < N2)
    (hfit : N0 * N1 * N2 < 4294967296) :
    boxesAdjacent .three [N0, N1, N2] (N0 * N1 * bz + (N0 * by_ + bx))
        (N0 * N1 * z + (N0 * y + x)) ↔
      (bx ≤ x + 1 ∧ x ≤ bx + 1 ∧ by_ ≤ y + 1 ∧ y ≤ by_ + 1 ∧ bz ≤ z + 1 ∧ z ≤ bz + 1) := by
  simp only [boxesAdjacent, Dim.toNat, forall_lt_three,
    coords_three_radix N0 N1 N2 x y z hx hy hz hfit,
    coords_three_radix N0 N1 N2 bx by_ bz hbx hby hbz hfit, List.getD_cons_zero,
    List.getD_cons_succ, and_assoc]

/-- What `SingleProcessGrid` says about a 3D collection. -/
theorem grid_three (s : DistributedBoxCollection) (hgrid : SingleProcessGrid s)
    (hdim : s.DIM = .three) :
    ∃ N0 N1 N2, s.mNumBoxesEachDirection = [N0, N1, N2] ∧ 1 ≤ N0 ∧ 1 ≤ N1 ∧ 1 ≤ N2
      ∧ s.mNumBoxes = N0 * N1 * N2 ∧ N0 * N1 * N2 < 4294967296 ∧ s.low = 0 ∧ s.high = N2
      ∧ s.mMinBoxIndex = 0 ∧ s.mMaxBoxIndex = N0 * N1 * N2 - 1 := by
  obtain ⟨hp, hr, hlen, hpos, hnum, hfit, hlow, hhigh, hmin, hmax, hbl, hmap⟩ := hgrid
  rw [hdim] at hlen hpos hhigh
  obtain ⟨N0, N1, N2, hN⟩ := List.length_eq_three.1 hlen
  have p0 := hpos 0 (by decide)
  have p1 := hpos 1 (by decide)
  have p2 := hpos 2 (by decide)
  rw [hN] at p0 p1 p2 hhigh hnum
  simp only [List.getD_cons_zero, List.getD_cons_succ, List.prod_cons, List.prod_nil,
    Nat.mul_one, Dim.toNat, ← Nat.mul_assoc] at p0 p1 p2 hhigh hnum
  rw [hnum] at hfit hmax
  exact ⟨N0, N1, N2, hN, p0, p1, p2, hnum, hfit, hlow, hhigh, hmin, hmax⟩

/-- C3: in a single-process 3D grid of any shape, `SetupLocalBoxesHalfOnly` succeeds, every box
is in its own stencil, a box that touches no face of the domain has a stencil of exactly 14
boxes (itself and 13 others), and of two distinct boxes whose coordinates differ by at most one
on every axis exactly one lists the other. -/
theorem SetupLocalBoxesHalfOnly_three_exactly_one (s : DistributedBoxCollection)
    (hgrid : SingleProcessGrid s) (hdim : s.DIM = .three)
    (hset : s.mAreLocalBoxesSet = false) :
    ∃ s', SetupLocalBoxesHalfOnly s = .ok s'
      ∧ (∀ A, A < s.mNumBoxes → ∃ stA, GetLocalBoxes s' A = .ok stA ∧ A ∈ stA
          ∧ ((∀ i, i < 3 →
                1 ≤ (CalculateCoordinateIndices .three s.mNumBoxesEachDirection A).getD i 0
                ∧ (CalculateCoordinateIndices .three s.mNumBoxesEachDirection A).getD i 0 + 1
                  < s.mNumBoxesEachDirection.getD i 0) → stA.card = 14))
      ∧ (∀ A B, A < s.mNumBoxes → B < s.mNumBoxes → A ≠ B →
          boxesAdjacent .three s.mNumBoxesEachDirection A B →
          ∃ stA stB, GetLocalBoxes s' A = .ok stA ∧ GetLocalBoxes s' B = .ok stB
            ∧ ((A ∈ stB ∧ B ∉ stA) ∨ (A ∉ stB ∧ B ∈ stA))) := by
  obtain ⟨N0, N1, N2, hN, p0, p1, p2, hnum, hfit, hlow, hhigh, hmin, hmax⟩ :=
    grid_three s hgrid hdim
  refine ⟨_, SetupLocalBoxesHalfOnly_three s hdim hset, ?_⟩
  have hget : ∀ A, A < N0 * N1 * N2 → GetLocalBoxes { s with
      mLocalBoxes := (ownedIndexLoop s).map
        (SetupLocalBoxesHalfOnly.case3 s.mNumBoxesEachDirection s.low s.high)
      mAreLocalBoxesSet := true } A
      = .ok (SetupLocalBoxesHalfOnly.case3 [N0, N1, N2] 0 N2 A) := by
    intro A hA
    rw [← hN, ← hlow, ← hhigh]
    exact GetLocalBoxes_map _ _ A rfl (by show s.mMinBoxIndex ≤ A; omega)
      (by show A ≤ s.mMaxBoxIndex; omega) (by show s.mMaxBoxIndex + 1 < 4294967296; omega)
  constructor
  · intro A hA
    rw [hnum] at hA
    obtain ⟨x, y, z, hx, hy, hz, rfl, -, -, -⟩ := split3 N0 N1 N2 A hA
    refine ⟨_, hget _ hA, ?_, ?_⟩
    · rw [half3_compact N0 N1 N2 x y z x y z hx hy hz hx hy hz hfit]
      omega
    · rw [hN, coords_three_radix N0 N1 N2 x y z hx hy hz hfit]
      intro h
      have h0 := h 0 (by decide)
      have h1 := h 1 (by decide)
      have h2 := h 2 (by decide)
      simp only [List.getD_cons_zero, List.getD_cons_succ] at h0 h1 h2
      exact half3_card_interior N0 N1 N2 x y z hx hy hz hfit (by omega) (by omega) (by omega)
        (by omega) (by omega) (by omega)
  · intro A B hA hB hne hadj
    rw [hnum] at hA hB
    refine ⟨_, _, hget A hA, hget B hB, ?_⟩
    obtain ⟨x, y, z, hx, hy, hz, rfl, -, -, -⟩ := split3 N0 N1 N2 A hA
    obtain ⟨bx, by_, bz, hbx, hby, hbz, rfl, -, -, -⟩ := split3 N0 N1 N2 B hB
    rw [hN, adjacent_three_radix N0 N1 N2 bx by_ bz x y z hbx hby hbz hx hy hz hfit] at hadj
    rw [half3_compact N0 N1 N2 x y z bx by_ bz hx hy hz hbx hby hbz hfit,
      half3_compact N0 N1 N2 bx by_ bz x y z hbx hby hbz hx hy hz hfit]
    have hne2 : ¬ (x = bx ∧ y = by_ ∧ z = bz) := by
      rintro ⟨rfl, rfl, rfl⟩; exact hne rfl
    omega

theorem card_condInsert_le (c : Bool) (v k : Nat) (t : Finset Nat) (h : t.card ≤ k) :
    (condInsert c v t).card ≤ k + 1 := by
  cases c
  · rw [condInsert_false]; omega
  · rw [condInsert_true]; exact (Finset.card_insert_le _ _).trans (by omega)

theorem full1_eq_reference (N0 x : Nat) (hx : x < N0) (hfit : N0 < 4294967296) :
    SetupAllLocalBoxes.case1 [N0] x = referenceStencil .one [N0] x := by
  ext b
  simp only [referenceStencil, Finset.mem_filter, Finset.mem_range, List.prod_cons,
    List.prod_nil, Nat.mul_one]
  constructor
  · intro h
    have hb := full1_lt N0 x b hx hfit h
    exact ⟨hb, (adjacent_one _ _ _).2 ((full1_compact N0 x b hx hb hfit).1 h)⟩
  · rintro ⟨hb, h⟩
    exact (full1_compact N0 x b hx hb hfit).2 ((adjacent_one _ _ _).1 h)

theorem full2_eq_reference (N0 N1 x y : Nat) (hx : x < N0) (hy : y < N1)
    (hfit : N0 * N1 < 4294967296) :
    SetupAllLocalBoxes.case2 [N0, N1] false (N0 * y + x)
      = referenceStencil .two [N0, N1] (N0 * y + x) := by
  ext b
  simp only [referenceStencil, Finset.mem_filter, Finset.mem_range, List.prod_cons,
    List.prod_nil, Nat.mul_one]
  constructor
  · intro h
    have hb := full2_lt false N0 N1 x y b hx hy hfit h
    obtain ⟨bx, by_, hbx, hby, rfl⟩ := split2 N0 N1 b hb
    exact ⟨hb, (adjacent_two_radix N0 N1 x y bx by_ hx hbx).2
      ((full2_compact N0 N1 x y bx by_ hx hy hbx hby hfit).1 h)⟩
  · rintro ⟨hb, h⟩
    obtain ⟨bx, by_, hbx, hby, rfl⟩ := split2 N0 N1 b hb
    exact (full2_compact N0 N1 x y bx by_ hx hy hbx hby hfit).2
      ((adjacent_two_radix N0 N1 x y bx by_ hx hbx).1 h)

theorem full3_eq_reference (N0 N1 N2 x y z : Nat) (hx : x < N0) (hy : y < N1) (hz : z < N2)
    (hfit : N0 * N1 * N2 < 4294967296) :
    SetupAllLocalBoxes.case3 [N0, N1, N2] (N0 * N1 * z + (N0 * y + x))
      = referenceStencil .three [N0, N1, N2] (N0 * N1 * z + (N0 * y + x)) := by
  ext b
  simp only [referenceStencil, Finset.mem_filter, Finset.mem_range, List.prod_cons,
    List.prod_nil, Nat.mul_one, ← Nat.mul_assoc]
  constructor
  · intro h
    have hb := full3_lt N0 N1 N2 x y z b hx hy hz hfit h
    obtain ⟨bx, by_, bz, hbx, hby, hbz, rfl, -, -, -⟩ := split3 N0 N1 N2 b hb
    exact ⟨hb, (adjacent_three_radix N0 N1 N2 x y z bx by_ bz hx hy hz hbx hby hbz hfit).2
      ((full3_compact N0 N1 N2 x y z bx by_ bz hx hy hz hbx hby hbz hfit).1 h)⟩
  · rintro ⟨hb, h⟩
    obtain ⟨bx, by_, bz, hbx, hby, hbz, rfl, -, -, -⟩ := split3 N0 N1 N2 b hb
    exact (full3_compact N0 N1 N2 x y z bx by_ bz hx hy hz hbx hby hbz hfit).2
      ((adjacent_three_radix N0 N1 N2 x y z bx by_ bz hx hy hz hbx hby hbz hfit).1 h)

theorem full1_card_le (N : List Nat) (g : Nat) : (SetupAllLocalBoxes.case1 N g).card ≤ 3 := by
  rw [full1_struct]
  repeat apply card_condInsert_le
  simp

theorem full2_card_le (N : List Nat) (g : Nat) :
    (SetupAllLocalBoxes.case2 N false g).card ≤ 9 := by
  rw [full2_struct]
  simp only [Bool.and_false, Bool.false_and, condInsert_false]
  repeat apply card_condInsert_le
  simp

theorem full3_card_le (N : List Nat) (g : Nat) : (SetupAllLocalBoxes.case3 N g).card ≤ 27 := by
  rw [full3_struct]
  repeat apply card_condInsert_le
  simp

theorem GetLocalBoxes_SetupAllLocalBoxes (s : DistributedBoxCollection) (g : Nat)
    (hfresh : s.mLocalBoxes = []) (hmin : s.mMinBoxIndex ≤ g) (hmax : g ≤ s.mMaxBoxIndex)
    (hfit : s.mMaxBoxIndex + 1 < 4294967296) :
    GetLocalBoxes (SetupAllLocalBoxes s) g = .ok (match s.DIM with
      | .one => SetupAllLocalBoxes.case1 s.mNumBoxesEachDirection g
      | .two => SetupAllLocalBoxes.case2 s.mNumBoxesEachDirection s.mIsPeriodicInX g
      | .three => SetupAllLocalBoxes.case3 s.mNumBoxesEachDirection g) := by
  cases s with
  | mk DIM a1 a2 a3 a4 a5 a6 a7 a8 a9 a10 a11 a12 a13 a14 a15 a16 a17 a18 a19 =>
    simp only at hfresh hmin hmax hfit
    subst hfresh
    cases DIM <;> apply GetLocalBoxes_map <;> first | rfl | assumption

theorem self_mem_referenceStencil (DIM : Dim) (N : List Nat) (g : Nat) (hg : g < N.prod) :
    g ∈ referenceStencil DIM N g := by
  simp only [referenceStencil, Finset.mem_filter, Finset.mem_range]
  exact ⟨hg, fun i _ => ⟨Nat.le_succ _, Nat.le_succ _⟩⟩

/-- On a non-periodic grid of dimension 1, 2 or 3 whose stencil list is still empty, as the
constructor leaves it, after `SetupAllLocalBoxes` the stencil of every owned box `g` is the
reference set of the boxes whose coordinates differ from those of `g` by at most one on every
axis; it contains `g`, has at most `3 ^ DIM` members, and exactly `3 ^ DIM` when `g` touches
no face of the domain. -/
theorem SetupAllLocalBoxes_eq_referenceStencil (s : DistributedBoxCollection) (g : Nat)
    (hlen : s.mNumBoxesEachDirection.length = s.DIM.toNat)
    (hfit : s.mNumBoxesEachDirection.prod < 4294967296)
    (hper : s.mIsPeriodicInX = false) (hfresh : s.mLocalBoxes = [])
    (hmin : s.mMinBoxIndex ≤ g) (hmax : g ≤ s.mMaxBoxIndex)
    (htot : s.mMaxBoxIndex < s.mNumBoxesEachDirection.prod) :
    ∃ st, GetLocalBoxes (SetupAllLocalBoxes s) g = .ok st
      ∧ st = referenceStencil s.DIM s.mNumBoxesEachDirection g
      ∧ g ∈ st ∧ st.card ≤ 3 ^ s.DIM.toNat
      ∧ ((∀ i, i < s.DIM.toNat →
            1 ≤ (CalculateCoordinateIndices s.DIM s.mNumBoxesEachDirection g).getD i 0
            ∧ (CalculateCoordinateIndices s.DIM s.mNumBoxesEachDirection g).getD i 0 + 1
              < s.mNumBoxesEachDirection.getD i 0) → st.card = 3 ^ s.DIM.toNat) := by
  refine ⟨_, GetLocalBoxes_SetupAllLocalBoxes s g hfresh hmin hmax (by omega), ?_⟩
  have hg : g < s.mNumBoxesEachDirection.prod := by omega
  have hself := self_mem_referenceStencil s.DIM s.mNumBoxesEachDirection g hg
  rw [hper]
  generalize s.DIM = D at hlen hself ⊢
  generalize s.mNumBoxesEachDirection = N at hlen hfit hg hself ⊢
  cases D
  · obtain ⟨N0, rfl⟩ := List.length_eq_one.1 hlen
    simp only [List.prod_cons, List.prod_nil, Nat.mul_one] at hfit hg
    have e := full1_eq_reference N0 g hg hfit
    refine ⟨e, e ▸ hself, full1_card_le _ _, ?_⟩
    intro h
    have h0 := h 0 (by decide)
    simp only [CalculateCoordinateIndices, List.getD_cons_zero] at h0
    exact full1_card_interior N0 g hg hfit (by omega) (by omega)
  · obtain ⟨N0, N1, rfl⟩ := List.length_eq_two.1 hlen
    simp only [List.prod_cons, List.prod_nil, Nat.mul_one] at hfit hg
    obtain ⟨x, y, hx, hy, rfl⟩ := split2 N0 N1 g hg
    have e := full2_eq_reference N0 N1 x y hx hy hfit
    refine ⟨e, e ▸ hself, full2_card_le _ _, ?_⟩
    intro h
    have h0 := h 0 (by decide)
    have h1 := h 1 (by decide)
    simp only [coords_two_radix N0 N1 x y hx, List.getD_cons_zero, List.getD_cons_succ]
      at h0 h1
    exact full2_card_interior N0 N1 x y hx hy hfit (by omega) (by omega) (by omega) (by omega)
  · obtain ⟨N0, N1, N2, rfl⟩ := List.length_eq_three.1 hlen
    simp only [List.prod_cons, List.prod_nil, Nat.mul_one, ← Nat.mul_assoc] at hfit hg
    obtain ⟨x, y, z, hx, hy, hz, rfl, -, -, -⟩ := split3 N0 N1 N2 g hg
    have e := full3_eq_reference N0 N1 N2 x y z hx hy hz hfit
    refine ⟨e, e ▸ hself, full3_card_le _ _, ?_⟩
    intro h
    have h0 := h 0 (by decide)
    have h1 := h 1 (by decide)
    have h2 := h 2 (by decide)
    simp only [coords_three_radix N0 N1 N2 x y z hx hy hz hfit, List.getD_cons_zero,
      List.getD_cons_succ] at h0 h1 h2
    exact full3_card_interior N0 N1 N2 x y z hx hy hz hfit (by omega) (by omega) (by omega)
      (by omega) (by omega) (by omega)

theorem scanAxis_steps (w x : ℚ) (hw : 0 < w) :
    ∀ (k : Nat) (c : ℚ) (idx fuel : Nat), c + k * w ≤ x + mFudge →
      x + mFudge < c + (k + 1) * w → k < fuel → idx < 4294967296 →
      scanAxis fuel w x c idx = some ((idx + k) % 4294967296) := by
  intro k
  induction k with
  | zero =>
    intro c idx fuel h1 h2 hf hidx
    obtain ⟨fuel, rfl⟩ : ∃ f, fuel = f + 1 := ⟨fuel - 1, by omega⟩
    have hc : c + w > x + mFudge := by
      simp only [Nat.cast_zero, zero_add, one_mul] at h2; exact h2
    simp only [scanAxis, hc, decide_True, Bool.not_true, Bool.false_eq_true, if_false,
      Nat.add_zero, Nat.mod_eq_of_lt hidx]
  | succ k ih =>
    intro c idx fuel h1 h2 hf hidx
    obtain ⟨fuel, rfl⟩ : ∃ f, fuel = f + 1 := ⟨fuel - 1, by omega⟩
    have hk : (0 : ℚ) ≤ k * w := mul_nonneg (Nat.cast_nonneg k) hw.le
    push_cast at h1 h2
    have hc : ¬ (c + w > x + mFudge) := by
      have : c + w ≤ x + mFudge := by nlinarith
      exact not_lt.2 this
    have hrec := ih (c + w) (uadd idx 1) fuel (by linarith) (by linarith) (by omega)
      (Nat.mod_lt _ (by decide))
    simp only [scanAxis, hc, decide_False, Bool.not_false, if_true, hrec]
    congr 1
    simp only [uadd]
    omega

theorem floorIndex_bounds (s : DistributedBoxCollection) (rLocation : List ℚ) (i : Nat)
    (hw : 0 < s.mBoxWidth)
    (hlow : s.mDomainSize.getD (2 * i) 0 ≤ rLocation.getD i 0) :
    s.mDomainSize.getD (2 * i) 0 + (floorIndex s rLocation i : ℚ) * s.mBoxWidth
        ≤ rLocation.getD i 0 + mFudge
      ∧ rLocation.getD i 0 + mFudge
        < s.mDomainSize.getD (2 * i) 0 + ((floorIndex s rLocation i : ℚ) + 1) * s.mBoxWidth := by
  have hf : (0 : ℚ) < mFudge := by norm_num [mFudge]
  have hnum : 0 ≤ (rLocation.getD i 0 - s.mDomainSize.getD (2 * i) 0 + mFudge) / s.mBoxWidth :=
    div_nonneg (by linarith) hw.le
  have h0 : 0 ≤ ⌊(rLocation.getD i 0 - s.mDomainSize.getD (2 * i) 0 + mFudge) / s.mBoxWidth⌋ :=
    Int.floor_nonneg.2 hnum
  have hcast : ((floorIndex s rLocation i : Nat) : ℚ)
      = ((⌊(rLocation.getD i 0 - s.mDomainSize.getD (2 * i) 0 + mFudge) / s.mBoxWidth⌋ : Int)
          : ℚ) := by
    unfold floorIndex
    rw [← Int.cast_natCast, Int.toNat_of_nonneg h0]
  rw [hcast]
  have a := Int.floor_le
    ((rLocation.getD i 0 - s.mDomainSize.getD (2 * i) 0 + mFudge) / s.mBoxWidth)
  have b := Int.lt_floor_add_one
    ((rLocation.getD i 0 - s.mDomainSize.getD (2 * i) 0 + mFudge) / s.mBoxWidth)
  rw [le_div_iff₀ hw] at a
  rw [div_lt_iff₀ hw] at b
  constructor <;> linarith

theorem scanAxis_floorIndex (s : DistributedBoxCollection) (rLocation : List ℚ) (i fuel : Nat)
    (hw : 0 < s.mBoxWidth)
    (hlow : s.mDomainSize.getD (2 * i) 0 ≤ rLocation.getD i 0)
    (hrep : floorIndex s rLocation i < 4294967296) (hfuel : floorIndex s rLocation i < fuel) :
    scanAxis fuel s.mBoxWidth (rLocation.getD i 0) (s.mDomainSize.getD (2 * i) 0) 0
      = some (floorIndex s rLocation i) := by
  obtain ⟨h1, h2⟩ := floorIndex_bounds s rLocation i hw hlow
  rw [scanAxis_steps s.mBoxWidth _ hw (floorIndex s rLocation i) _ 0 fuel h1 h2 hfuel
    (by decide), Nat.zero_add, Nat.mod_eq_of_lt hrep]

theorem mapM_eq_map_of_forall {α β : Type} (f : α → Option β) (g : α → β) (l : List α)
    (h : ∀ a, a ∈ l → f a = some (g a)) : l.mapM f = some (l.map g) := by
  induction l with
  | nil => rfl
  | cons a l ih =>
    rw [List.mapM_cons, h a (List.mem_cons_self _ _), ih (fun b hb => h b (List.mem_cons_of_mem _ hb))]
    rfl

theorem domain_test_iff (s : DistributedBoxCollection) (rLocation : List ℚ) :
    (List.range s.DIM.toNat).any (fun i =>
        decide (rLocation.getD i 0 < s.mDomainSize.getD (2 * i) 0)
          || !(decide (rLocation.getD i 0 < s.mDomainSize.getD (2 * i + 1) 0))) = true
      ↔ ∃ i, i < s.DIM.toNat ∧ (rLocation.getD i 0 < s.mDomainSize.getD (2 * i) 0
          ∨ s.mDomainSize.getD (2 * i + 1) 0 ≤ rLocation.getD i 0) := by
  simp only [List.any_eq_true, List.mem_range, Bool.or_eq_true, decide_eq_true_eq,
    Bool.not_eq_true', decide_eq_false_iff_not, not_lt]

/-- C10: `CalculateContainingBox` raises the out-of-domain exception exactly when some
coordinate is below the lower bound or not below the upper bound of the domain, whatever the
iteration budget; in that case no index is returned. -/
theorem CalculateContainingBox_exception_iff (s : DistributedBoxCollection) (fuel : Nat)
    (rLocation : List ℚ) :
    (CalculateContainingBox s fuel rLocation
        = .error (.exception "The point provided is outside all of the boxes")
      ↔ ∃ i, i < s.DIM.toNat ∧ (rLocation.getD i 0 < s.mDomainSize.getD (2 * i) 0
          ∨ s.mDomainSize.getD (2 * i + 1) 0 ≤ rLocation.getD i 0))
    ∧ ((∃ i, i < s.DIM.toNat ∧ (rLocation.getD i 0 < s.mDomainSize.getD (2 * i) 0
          ∨ s.mDomainSize.getD (2 * i + 1) 0 ≤ rLocation.getD i 0)) →
        ∀ g, CalculateContainingBox s fuel rLocation ≠ .ok g) := by
  rw [← domain_test_iff]
  unfold CalculateContainingBox
  by_cases h : (List.range s.DIM.toNat).any (fun i =>
        decide (rLocation.getD i 0 < s.mDomainSize.getD (2 * i) 0)
          || !(decide (rLocation.getD i 0 < s.mDomainSize.getD (2 * i + 1) 0))) = true
  · rw [if_pos h]
    exact ⟨⟨fun _ => h, fun _ => rfl⟩, fun _ g hg => by cases hg⟩
  · rw [if_neg h]
    refine ⟨⟨fun hc => ?_, fun hc => absurd hc h⟩, fun hc => absurd hc h⟩
    exfalso
    split at hc
    · cases hc
    · dsimp only at hc
      split at hc <;> cases hc

theorem Dim.toNat_le (DIM : Dim) : DIM.toNat ≤ 3 := by
  cases DIM <;> decide

theorem radix_lt_prod (DIM : Dim) (N c : List Nat)
    (hN : N.length = DIM.toNat) (hc : c.length = DIM.toNat)
    (hlt : ∀ i, i < DIM.toNat → c.getD i 0 < N.getD i 0) :
    c.getD 0 0 + c.getD 1 0 * N.getD 0 0 + c.getD 2 0 * N.getD 0 0 * N.getD 1 0 < N.prod
      ∧ ∀ i, i < DIM.toNat → N.getD i 0 ≤ N.prod := by
  cases DIM
  · obtain ⟨n0, rfl⟩ := List.length_eq_one.1 hN
    obtain ⟨a, rfl⟩ := List.length_eq_one.1 hc
    have ha := hlt 0 (by decide)
    simp only [Dim.toNat, forall_lt_one, List.getD_cons_zero, List.getD_cons_succ,
      List.getD_nil, List.prod_cons, List.prod_nil, Nat.mul_one, Nat.zero_mul, Nat.add_zero,
      le_refl, and_true] at ha ⊢
    exact ha
  · obtain ⟨n0, n1, rfl⟩ := List.length_eq_two.1 hN
    obtain ⟨a, b, rfl⟩ := List.length_eq_two.1 hc
    have ha := hlt 0 (by decide)
    have hb := hlt 1 (by decide)
    simp only [List.getD_cons_zero, List.getD_cons_succ] at ha hb
    have h2 := radix2_lt a b n0 n1 ha hb
    simp only [Dim.toNat, forall_lt_two, List.getD_cons_zero, List.getD_cons_succ,
      List.getD_nil, List.prod_cons, List.prod_nil, Nat.mul_one, Nat.zero_mul, Nat.add_zero]
    exact ⟨h2, Nat.le_mul_of_pos_right _ (by omega), Nat.le_mul_of_pos_left _ (by omega)⟩
  · obtain ⟨n0, n1, n2, rfl⟩ := List.length_eq_three.1 hN
    obtain ⟨a, b, d, rfl⟩ := List.length_eq_three.1 hc
    have ha := hlt 0 (by decide)
    have hb := hlt 1 (by decide)
    have hd := hlt 2 (by decide)
    simp only [List.getD_cons_zero, List.getD_cons_succ] at ha hb hd
    have h3 := radix3_lt a b d n0 n1 n2 ha hb hd
    simp only [Dim.toNat, forall_lt_three, List.getD_cons_zero, List.getD_cons_succ,
      List.prod_cons, List.prod_nil, Nat.mul_one, ← Nat.mul_assoc]
    have e : d * n0 * n1 = d * (n0 * n1) := Nat.mul_assoc _ _ _
    have q1 : n0 ≤ n0 * n1 := Nat.le_mul_of_pos_right _ (by omega)
    have q2 : n0 * n1 ≤ n0 * n1 * n2 := Nat.le_mul_of_pos_right _ (by omega)
    have q3 : n1 ≤ n0 * n1 := Nat.le_mul_of_pos_left _ (by omega)
    have q4 : n2 ≤ n0 * n1 * n2 := Nat.le_mul_of_pos_left _ (Nat.mul_pos (by omega) (by omega))
    exact ⟨by omega, by omega, by omega, q4⟩

theorem getD_map_range (f : Nat → Nat) (n i : Nat) (hi : i < n) :
    ((List.range n).map f).getD i 0 = f i := by
  rw [List.getD_eq_getElem?_getD, List.getElem?_map, List.getElem?_range hi]
  rfl

/-- With enough fuel the scan of every axis returns the floor coordinate and
`CalculateContainingBox` reaches its final assertion. -/
theorem CalculateContainingBox_floor (s : DistributedBoxCollection) (rLocation : List ℚ)
    (hw : 0 < s.mBoxWidth)
    (hin : ∀ i, i < s.DIM.toNat → s.mDomainSize.getD (2 * i) 0 ≤ rLocation.getD i 0
      ∧ rLocation.getD i 0 < s.mDomainSize.getD (2 * i + 1) 0)
    (hrep : ∀ i, i < s.DIM.toNat → floorIndex s rLocation i < 4294967296)
    (fuel : Nat) (hfuel : ∀ i, i < s.DIM.toNat → floorIndex s rLocation i < fuel) :
    (∀ i, i < s.DIM.toNat →
        scanAxis fuel s.mBoxWidth (rLocation.getD i 0) (s.mDomainSize.getD (2 * i) 0) 0
          = some (floorIndex s rLocation i))
      ∧ CalculateContainingBox s fuel rLocation =
          (if CalculateGlobalIndex s.DIM s.mNumBoxesEachDirection
                ((List.range s.DIM.toNat).map (floorIndex s rLocation)) < s.mNumBoxes then
              .ok (CalculateGlobalIndex s.DIM s.mNumBoxesEachDirection
                ((List.range s.DIM.toNat).map (floorIndex s rLocation)))
            else .error .assertion) := by
  have hscan : ∀ i, i < s.DIM.toNat →
      scanAxis fuel s.mBoxWidth (rLocation.getD i 0) (s.mDomainSize.getD (2 * i) 0) 0
        = some (floorIndex s rLocation i) := by
    intro i hi
    exact scanAxis_floorIndex s rLocation i fuel hw (hin i hi).1 (hrep i hi) (hfuel i hi)
  refine ⟨hscan, ?_⟩
  have hdom : ¬ ((List.range s.DIM.toNat).any (fun i =>
        decide (rLocation.getD i 0 < s.mDomainSize.getD (2 * i) 0)
          || !(decide (rLocation.getD i 0 < s.mDomainSize.getD (2 * i + 1) 0))) = true) := by
    rw [domain_test_iff]
    rintro ⟨i, hi, h | h⟩
    · exact absurd h (not_lt.2 (hin i hi).1)
    · exact absurd (hin i hi).2 (not_lt.2 h)
  have hmap := mapM_eq_map_of_forall
    (fun i => scanAxis fuel s.mBoxWidth (rLocation.getD i 0) (s.mDomainSize.getD (2 * i) 0) 0)
    (floorIndex s rLocation) (List.range s.DIM.toNat)
    (fun i hi => hscan i (List.mem_range.1 hi))
  unfold CalculateContainingBox
  rw [if_neg hdom, hmap]

theorem floorIndex_lt (s : DistributedBoxCollection) (rLocation : List ℚ) (i n : Nat)
    (hw : 0 < s.mBoxWidth)
    (hlow : s.mDomainSize.getD (2 * i) 0 ≤ rLocation.getD i 0)
    (hroom : rLocation.getD i 0 + mFudge < s.mDomainSize.getD (2 * i) 0 + n * s.mBoxWidth) :
    floorIndex s rLocation i < n := by
  obtain ⟨h1, -⟩ := floorIndex_bounds s rLocation i hw hlow
  have h : (floorIndex s rLocation i : ℚ) * s.mBoxWidth < n * s.mBoxWidth := by linarith
  have h2 := lt_of_mul_lt_mul_right h hw.le
  exact_mod_cast h2

theorem floorIndex_eq (s : DistributedBoxCollection) (rLocation : List ℚ) (i k : Nat)
    (hw : 0 < s.mBoxWidth)
    (h1 : s.mDomainSize.getD (2 * i) 0 + k * s.mBoxWidth ≤ rLocation.getD i 0 + mFudge)
    (h2 : rLocation.getD i 0 + mFudge < s.mDomainSize.getD (2 * i) 0 + (k + 1) * s.mBoxWidth) :
    floorIndex s rLocation i = k := by
  unfold floorIndex
  have : ⌊(rLocation.getD i 0 - s.mDomainSize.getD (2 * i) 0 + mFudge) / s.mBoxWidth⌋
      = (k : Int) := by
    rw [Int.floor_eq_iff]
    constructor
    · rw [le_div_iff₀ hw]; push_cast; linarith
    · rw [div_lt_iff₀ hw]; push_cast; linarith
  rw [this, Int.toNat_natCast]

/-- For a positive box width and a point inside the domain that stays more than the fudge
below the upper end of the last box on every axis, `CalculateContainingBox` returns, with an
iteration budget of at least the number of boxes, an index whose coordinates bracket the point
up to the fudge. -/
theorem containingBox_ok (s : DistributedBoxCollection)
    (rLocation : List ℚ) (hw : 0 < s.mBoxWidth)
    (hN : s.mNumBoxesEachDirection.length = s.DIM.toNat)
    (hnum : s.mNumBoxes = s.mNumBoxesEachDirection.prod) (hfit : s.mNumBoxes < 4294967296)
    (hin : ∀ i, i < s.DIM.toNat → s.mDomainSize.getD (2 * i) 0 ≤ rLocation.getD i 0
      ∧ rLocation.getD i 0 < s.mDomainSize.getD (2 * i + 1) 0)
    (hroom : ∀ i, i < s.DIM.toNat → rLocation.getD i 0 + mFudge
      < s.mDomainSize.getD (2 * i) 0 + s.mNumBoxesEachDirection.getD i 0 * s.mBoxWidth)
    (fuel : Nat) (hfuel : s.mNumBoxes ≤ fuel) :
    ∃ g, CalculateContainingBox s fuel rLocation = .ok g
      ∧ g < s.mNumBoxes
      ∧ ∀ i, i < s.DIM.toNat →
          s.mDomainSize.getD (2 * i) 0
              + ((CalculateCoordinateIndices s.DIM s.mNumBoxesEachDirection g).getD i 0 : ℚ)
                * s.mBoxWidth - mFudge ≤ rLocation.getD i 0
            ∧ rLocation.getD i 0 < s.mDomainSize.getD (2 * i) 0
              + (((CalculateCoordinateIndices s.DIM s.mNumBoxesEachDirection g).getD i 0 : ℚ)
                  + 1) * s.mBoxWidth - mFudge := by
  have hk : ∀ i, i < s.DIM.toNat →
      floorIndex s rLocation i < s.mNumBoxesEachDirection.getD i 0 :=
    fun i hi => floorIndex_lt s rLocation i _ hw (hin i hi).1 (hroom i hi)
  have hc : ((List.range s.DIM.toNat).map (floorIndex s rLocation)).length = s.DIM.toNat := by
    rw [List.length_map, List.length_range]
  have hlt : ∀ i, i < s.DIM.toNat →
      ((List.range s.DIM.toNat).map (floorIndex s rLocation)).getD i 0
        < s.mNumBoxesEachDirection.getD i 0 := by
    intro i hi
    rw [getD_map_range _ _ _ hi]
    exact hk i hi
  rw [hnum] at hfit hfuel
  obtain ⟨hr, hback⟩ := coords_of_global_index s.DIM s.mNumBoxesEachDirection _ hN hc hlt hfit
  obtain ⟨hlt2, hle⟩ := radix_lt_prod s.DIM s.mNumBoxesEachDirection _ hN hc hlt
  rw [← hr, ← hnum] at hlt2
  obtain ⟨-, hres⟩ := CalculateContainingBox_floor s rLocation hw hin
    (fun i hi => lt_of_lt_of_le (hk i hi) ((hle i hi).trans hfit.le)) fuel
    (fun i hi => lt_of_lt_of_le (hk i hi) ((hle i hi).trans hfuel))
  rw [if_pos hlt2] at hres
  refine ⟨_, hres, hlt2, fun i hi => ?_⟩
  rw [hback, getD_map_range _ _ _ hi]
  obtain ⟨b1, b2⟩ := floorIndex_bounds s rLocation i hw (hin i hi).1
  constructor <;> linarith

theorem floorIndex_nearBoundary : floorIndex twoUnitBoxes nearBoundary 0 = 1 := by
  apply floorIndex_eq <;> norm_num [twoUnitBoxes, nearBoundary, mFudge]

/-- C8 fails as stated: the point `1 - 2.5e-14` lies inside the domain `[0, 2)` of two unit
boxes, `CalculateContainingBox` puts it in box 1, whose coordinate is 1, and
`min + 1 * w ≤ p` does not hold. -/
theorem CalculateContainingBox_lower_bound_fails :
    ((0 : ℚ) < twoUnitBoxes.mBoxWidth
      ∧ twoUnitBoxes.mDomainSize.getD 0 0 ≤ nearBoundary.getD 0 0
      ∧ nearBoundary.getD 0 0 < twoUnitBoxes.mDomainSize.getD 1 0)
    ∧ ∃ g, CalculateContainingBox twoUnitBoxes 2 nearBoundary = .ok g
      ∧ ¬ (twoUnitBoxes.mDomainSize.getD 0 0
          + ((CalculateCoordinateIndices twoUnitBoxes.DIM twoUnitBoxes.mNumBoxesEachDirection
              g).getD 0 0 : ℚ) * twoUnitBoxes.mBoxWidth ≤ nearBoundary.getD 0 0) := by
  refine ⟨by norm_num [twoUnitBoxes, nearBoundary], 1, ?_, ?_⟩
  · have h := (CalculateContainingBox_floor twoUnitBoxes nearBoundary
      (by norm_num [twoUnitBoxes])
      (by
        intro i hi
        have : i = 0 := by simp only [twoUnitBoxes, Dim.toNat] at hi; omega
        subst this
        norm_num [twoUnitBoxes, nearBoundary])
      (by
        intro i hi
        have : i = 0 := by simp only [twoUnitBoxes, Dim.toNat] at hi; omega
        subst this
        rw [floorIndex_nearBoundary]; decide)
      2 (by
        intro i hi
        have : i = 0 := by simp only [twoUnitBoxes, Dim.toNat] at hi; omega
        subst this
        rw [floorIndex_nearBoundary]; decide)).2
    rw [h]
    have e : (List.range twoUnitBoxes.DIM.toNat).map (floorIndex twoUnitBoxes nearBoundary)
        = [1] := by
      show [floorIndex twoUnitBoxes nearBoundary 0] = [1]
      rw [floorIndex_nearBoundary]
    rw [e]
    rfl
  · norm_num [twoUnitBoxes, nearBoundary, CalculateCoordinateIndices]

theorem foldlM_ok {α β ε : Type} (f : β → α → Except ε β) (g : β → α → β) (l : List α)
    (h : ∀ a, a ∈ l → ∀ b, f b a = .ok (g b a)) :
    ∀ init, l.foldlM f init = .ok (l.foldl g init) := by
  induction l with
  | nil => intro init; rfl
  | cons a l ih =>
    intro init
    rw [List.foldlM_cons, h a (List.mem_cons_self _ _) init]
    exact ih (fun b hb => h b (List.mem_cons_of_mem _ hb)) _

theorem foldlM_exists_ok {α β ε : Type} (f : β → α → Except ε β) (l : List α)
    (h : ∀ a, a ∈ l → ∀ b, ∃ b', f b a = .ok b') :
    ∀ init, ∃ r, l.foldlM f init = .ok r := by
  induction l with
  | nil => intro init; exact ⟨init, rfl⟩
  | cons a l ih =>
    intro init
    obtain ⟨b', hb'⟩ := h a (List.mem_cons_self _ _) init
    rw [List.foldlM_cons, hb']
    exact ih (fun b hb => h b (List.mem_cons_of_mem _ hb)) _

theorem inner_fold_fst (s : DistributedBoxCollection) (c : Bool) (q : Node) (l : List Node) :
    ∀ out : List (Node × Node) × NodeNeighbours,
      (l.foldl (fun out node =>
          if c then
            if q.index > node.index then emitPair s out node q else out
          else emitPair s out node q) out).1
        = out.1 ++ l.flatMap (fun p =>
            if c then (if q.index > p.index then [(p, q)] else []) else [(p, q)]) := by
  induction l with
  | nil => intro out; simp
  | cons p l ih =>
    intro out
    rw [List.foldl_cons, ih, List.flatMap_cons]
    cases c
    · simp [emitPair]
    · by_cases h : q.index > p.index <;> simp [emitPair, h]

theorem middle_fold_fst (s : DistributedBoxCollection) (c : Bool) (box : List Node)
    (l : List Node) :
    ∀ out : List (Node × Node) × NodeNeighbours,
      (l.foldl (fun out neighbour_node =>
          box.foldl (fun out node =>
            if c then
              if neighbour_node.index > node.index then emitPair s out node neighbour_node
              else out
            else emitPair s out node neighbour_node) out) out).1
        = out.1 ++ l.flatMap (fun q => box.flatMap (fun p =>
            if c then (if q.index > p.index then [(p, q)] else []) else [(p, q)])) := by
  induction l with
  | nil => intro out; simp
  | cons q l ih =>
    intro out
    rw [List.foldl_cons, ih, inner_fold_fst, List.flatMap_cons, List.append_assoc]

theorem visitBoxes_fold_fst (s : DistributedBoxCollection) (boxIndex : Nat) (box : Box)
    (l : List Nat) :
    ∀ out : List (Node × Node) × NodeNeighbours,
      (l.foldl (visitBoxes s boxIndex box) out).1
        = out.1 ++ l.flatMap (fun b => pairsOfBoxes boxIndex b box (boxAt s b)) := by
  induction l with
  | nil => intro out; simp
  | cons b l ih =>
    intro out
    rw [List.foldl_cons, ih, List.flatMap_cons, ← List.append_assoc]
    congr 1
    exact middle_fold_fst s (b == boxIndex) box.mNodesContained _ out

theorem lookupBox_range (boxes : List Box) (n b : Nat) (hb : b < n) (hlen : boxes.length = n) :
    lookupBox boxes ((List.range n).map (fun i => (i, i))) b
      = .ok ((boxes.get? b).getD {}) := by
  have h1 : ((List.range n).map (fun i => (i, i))).lookup b = some b := by
    clear hlen
    induction n with
    | zero => omega
    | succ n ih =>
      rw [List.range_succ, List.map_append, List.lookup_append]
      by_cases h : b < n
      · rw [ih h]; rfl
      · have : b = n := by omega
        subst this
        have hnone : List.lookup b (List.map (fun i => (i, i)) (List.range b)) = none := by
          rw [List.lookup_eq_none_iff]
          intro p hp
          simp only [List.mem_map, List.mem_range] at hp
          obtain ⟨i, hi, rfl⟩ := hp
          simp only [bne_iff_ne, ne_eq]
          omega
        rw [hnone]
        simp [List.lookup]
  have h2 : ∃ box, boxes.get? b = some box := by
    rw [List.get?_eq_getElem?]
    exact ⟨boxes[b], List.getElem?_eq_getElem (by omega)⟩
  obtain ⟨box, hbox⟩ := h2
  simp only [lookupBox, h1, hbox, Option.getD_some]

theorem rGetBox_boxAt (t : DistributedBoxCollection) (n A : Nat)
    (hmin : t.mMinBoxIndex = 0) (hmax : t.mMaxBoxIndex = n - 1)
    (hlen : t.mBoxes.length = n) (hA : A < n) : rGetBox t A = .ok (boxAt t A) := by
  have h1 : decide (A < t.mMinBoxIndex) = false := by simp; omega
  have h2 : decide (t.mMaxBoxIndex < A) = false := by simp; omega
  have h3 : ∃ box, t.mBoxes.get? A = some box := by
    rw [List.get?_eq_getElem?]
    exact ⟨t.mBoxes[A], List.getElem?_eq_getElem (by omega)⟩
  obtain ⟨box, hbox⟩ := h3
  unfold rGetBox
  rw [h1, h2]
  simp only [Bool.not_false, Bool.and_self, if_true, hmin, Nat.sub_zero, hbox, boxAt,
    Option.getD_some]

theorem AddPairsFromBox_ok (t : DistributedBoxCollection) (st : Nat → Finset Nat) (n A : Nat)
    (hmin : t.mMinBoxIndex = 0) (hmax : t.mMaxBoxIndex = n - 1)
    (hlen : t.mBoxes.length = n)
    (hmap : t.mBoxesMapping = (List.range n).map (fun i => (i, i)))
    (hst : GetLocalBoxes t A = .ok (st A)) (hsub : ∀ b, b ∈ st A → b < n) (hA : A < n)
    (out : List (Node × Node) × NodeNeighbours) :
    AddPairsFromBox t A out
      = .ok (((st A).sort (· ≤ ·)).foldl (visitBoxes t A (boxAt t A)) out) := by
  unfold AddPairsFromBox
  rw [rGetBox_boxAt t n A hmin hmax hlen hA, hst]
  simp only [bind, Except.bind]
  apply foldlM_ok
  intro b hb out
  have hbn : b < n := hsub b ((Finset.mem_sort _).1 hb)
  have hown : GetBoxOwnership t b = true := by
    simp only [GetBoxOwnership, hmin, hmax, Nat.not_lt_zero, decide_False, Bool.not_false,
      Bool.true_and, Bool.not_eq_true', decide_eq_false_iff_not, not_lt]
    omega
  rw [if_pos hown, hmap, lookupBox_range t.mBoxes n b hbn hlen]
  rfl

theorem outer_fold_fst (t : DistributedBoxCollection) (st : Nat → Finset Nat) (l : List Nat) :
    ∀ out : List (Node × Node) × NodeNeighbours,
      (l.foldl (fun out A => ((st A).sort (· ≤ ·)).foldl (visitBoxes t A (boxAt t A)) out)
          out).1
        = out.1 ++ l.flatMap (fun A =>
            ((st A).sort (· ≤ ·)).flatMap fun b => pairsOfBoxes A b (boxAt t A) (boxAt t b)) := by
  induction l with
  | nil => intro out; simp
  | cons A l ih =>
    intro out
    rw [List.foldl_cons, ih, List.flatMap_cons, ← List.append_assoc, visitBoxes_fold_fst]

/-- On one process, once every stencil lookup succeeds and the first loop over the nodes
returns, `CalculateNodePairs` returns the list `allPairs`. -/
theorem CalculateNodePairs_allPairs (t : DistributedBoxCollection) (st : Nat → Finset Nat)
    (n fuel : Nat) (rNodes : List Node)
    (hmin : t.mMinBoxIndex = 0) (hmax : t.mMaxBoxIndex = n - 1)
    (hlen : t.mBoxes.length = n)
    (hmap : t.mBoxesMapping = (List.range n).map (fun i => (i, i)))
    (hst : ∀ A, A < n → GetLocalBoxes t A = .ok (st A))
    (hsub : ∀ A, A < n → ∀ b, b ∈ st A → b < n)
    (hloc : ∀ node, node ∈ rNodes → ∃ g, CalculateContainingBox t fuel node.location = .ok g) :
    ∃ nbrs, CalculateNodePairs t fuel rNodes = .ok (allPairs t st n, nbrs) := by
  unfold CalculateNodePairs
  obtain ⟨nn, hnn⟩ := foldlM_exists_ok
    (fun (m : NodeNeighbours) (node : Node) => do
      let box_index ← CalculateContainingBox t fuel node.location
      pure (if GetBoxOwnership t box_index then Function.update m node.index (some ∅) else m))
    rNodes
    (fun node hnode m => by
      obtain ⟨g, hg⟩ := hloc node hnode
      refine ⟨if GetBoxOwnership t g then Function.update m node.index (some ∅) else m, ?_⟩
      dsimp only
      rw [hg]
      rfl)
    (fun _ => none)
  rw [hnn]
  simp only [bind, Except.bind]
  rw [hmap, List.foldlM_map]
  rw [foldlM_ok _ (fun out A => ((st A).sort (· ≤ ·)).foldl (visitBoxes t A (boxAt t A)) out)
    (List.range n)
    (fun A hA out => AddPairsFromBox_ok t st n A hmin hmax hlen hmap
      (hst A (List.mem_range.1 hA)) (hsub A (List.mem_range.1 hA)) (List.mem_range.1 hA) out)]
  refine ⟨((List.range n).foldl
    (fun out A => ((st A).sort (· ≤ ·)).foldl (visitBoxes t A (boxAt t A)) out) ([], nn)).2, ?_⟩
  congr 1
  apply Prod.ext
  · rw [outer_fold_fst]; rfl
  · rfl

theorem eq_of_mem_guarded (c1 c2 : Prop) [Decidable c1] [Decidable c2] (x pq : Node × Node)
    (h : x ∈ (if c1 then (if c2 then [pq] else []) else [pq])) : x = pq := by
  split_ifs at h <;> simp_all

theorem mem_pairsOfBoxes (A B : Nat) (box nb : Box) (p q : Node) :
    (p, q) ∈ pairsOfBoxes A B box nb ↔
      q ∈ nb.mNodesContained ∧ p ∈ box.mNodesContained ∧ (B = A → q.index > p.index) := by
  simp only [pairsOfBoxes, List.mem_flatMap]
  constructor
  · rintro ⟨q', hq', p', hp', h⟩
    have e := eq_of_mem_guarded _ _ _ _ h
    simp only [Prod.mk.injEq] at e
    obtain ⟨rfl, rfl⟩ := e
    refine ⟨hq', hp', fun hBA => ?_⟩
    subst hBA
    simp only [beq_self_eq_true, if_true] at h
    by_contra hc
    rw [if_neg hc] at h
    exact absurd h (List.not_mem_nil _)
  · rintro ⟨hq, hp, h⟩
    refine ⟨q, hq, p, hp, ?_⟩
    by_cases hBA : B = A
    · subst hBA
      simp only [beq_self_eq_true, if_true, if_pos (h rfl), List.mem_singleton]
    · have : (B == A) = false := by simpa using hBA
      simp only [this, Bool.false_eq_true, if_false, List.mem_singleton]

theorem nodup_pairsOfBoxes (A B : Nat) (box nb : Box) (h1 : box.mNodesContained.Nodup)
    (h2 : nb.mNodesContained.Nodup) : (pairsOfBoxes A B box nb).Nodup := by
  rw [pairsOfBoxes, List.nodup_flatMap]
  constructor
  · intro q _
    rw [List.nodup_flatMap]
    constructor
    · intro p _
      split_ifs <;> simp
    · refine List.Pairwise.imp ?_ h1
      intro a b hne
      show List.Disjoint _ _
      rw [List.disjoint_left]
      intro x hx hx'
      have e1 := eq_of_mem_guarded _ _ _ _ hx
      have e2 := eq_of_mem_guarded _ _ _ _ hx'
      rw [e1] at e2
      simp only [Prod.mk.injEq, and_true] at e2
      exact hne e2
  · refine List.Pairwise.imp ?_ h2
    intro a b hne
    show List.Disjoint _ _
    rw [List.disjoint_left]
    intro x hx hx'
    simp only [List.mem_flatMap] at hx hx'
    obtain ⟨p, _, hp⟩ := hx
    obtain ⟨p', _, hp'⟩ := hx'
    have e1 := eq_of_mem_guarded _ _ _ _ hp
    have e2 := eq_of_mem_guarded _ _ _ _ hp'
    rw [e1] at e2
    simp only [Prod.mk.injEq] at e2
    exact hne e2.2

theorem mem_allPairs (s : DistributedBoxCollection) (st : Nat → Finset Nat) (n : Nat)
    (p q : Node) :
    (p, q) ∈ allPairs s st n ↔
      ∃ A, A < n ∧ ∃ B, B ∈ st A ∧ q ∈ (boxAt s B).mNodesContained
        ∧ p ∈ (boxAt s A).mNodesContained ∧ (B = A → q.index > p.index) := by
  simp only [allPairs, List.mem_flatMap, List.mem_range, Finset.mem_sort, mem_pairsOfBoxes]

/-- What distinct node indices across `mBoxes` give: each box holds a node once, and two
different boxes hold no node in common. -/
theorem boxes_disjoint (s : DistributedBoxCollection)
    (hnodup : ((s.mBoxes.flatMap (fun box => box.mNodesContained)).map
      (fun node => node.index)).Nodup) :
    (∀ A, (boxAt s A).mNodesContained.Nodup)
      ∧ (∀ A B p, A ≠ B → p ∈ (boxAt s A).mNodesContained →
          p ∉ (boxAt s B).mNodesContained)
      ∧ (∀ A B p q, p ∈ (boxAt s A).mNodesContained → q ∈ (boxAt s B).mNodesContained →
          p.index = q.index → p = q) := by
  have hL := List.Nodup.of_map _ hnodup
  obtain ⟨hnd, hpw⟩ := List.nodup_flatMap.1 hL
  rw [List.pairwise_iff_getElem] at hpw
  have hmem : ∀ A p, p ∈ (boxAt s A).mNodesContained →
      ∃ hA : A < s.mBoxes.length, p ∈ (s.mBoxes[A]).mNodesContained := by
    intro A p hp
    by_cases hA : A < s.mBoxes.length
    · refine ⟨hA, ?_⟩
      simpa only [boxAt, List.get?_eq_getElem?, List.getElem?_eq_getElem hA, Option.getD_some]
        using hp
    · exfalso
      simp only [boxAt, List.get?_eq_getElem?, List.getElem?_eq_none (by omega : s.mBoxes.length ≤ A),
        Option.getD_none, List.not_mem_nil] at hp
  refine ⟨?_, ?_, ?_⟩
  · intro A
    by_cases hA : A < s.mBoxes.length
    · simp only [boxAt, List.get?_eq_getElem?, List.getElem?_eq_getElem hA, Option.getD_some]
      exact hnd _ (List.getElem_mem _)
    · simp only [boxAt, List.get?_eq_getElem?,
        List.getElem?_eq_none (by omega : s.mBoxes.length ≤ A), Option.getD_none, List.nodup_nil]
  · intro A B p hne hpA hpB
    obtain ⟨hA, hpA⟩ := hmem A p hpA
    obtain ⟨hB, hpB⟩ := hmem B p hpB
    rcases Nat.lt_or_gt_of_ne hne with h | h
    · exact List.disjoint_left.1 (hpw A B hA hB h) hpA hpB
    · exact List.disjoint_left.1 (hpw B A hB hA h) hpB hpA
  · intro A B p q hp hq hidx
    obtain ⟨hA, hpA⟩ := hmem A p hp
    obtain ⟨hB, hqB⟩ := hmem B q hq
    exact List.inj_on_of_nodup_map hnodup
      (List.mem_flatMap.2 ⟨_, List.getElem_mem hA, hpA⟩)
      (List.mem_flatMap.2 ⟨_, List.getElem_mem hB, hqB⟩) hidx

theorem nodup_allPairs (s : DistributedBoxCollection) (st : Nat → Finset Nat) (n : Nat)
    (hnd : ∀ A, (boxAt s A).mNodesContained.Nodup)
    (hdisj : ∀ A B p, A ≠ B → p ∈ (boxAt s A).mNodesContained →
      p ∉ (boxAt s B).mNodesContained) :
    (allPairs s st n).Nodup := by
  rw [allPairs, List.nodup_flatMap]
  constructor
  · intro A _
    rw [List.nodup_flatMap]
    constructor
    · intro b _
      exact nodup_pairsOfBoxes A b _ _ (hnd A) (hnd b)
    · refine List.Pairwise.imp ?_ (Finset.sort_nodup _ _)
      intro b b' hne
      show List.Disjoint _ _
      rw [List.disjoint_left]
      rintro ⟨p, q⟩ hx hx'
      rw [mem_pairsOfBoxes] at hx hx'
      exact hdisj b b' q hne hx.1 hx'.1
  · refine List.Pairwise.imp ?_ (List.nodup_range n)
    intro A A' hne
    show List.Disjoint _ _
    rw [List.disjoint_left]
    rintro ⟨p, q⟩ hx hx'
    simp only [List.mem_flatMap, mem_pairsOfBoxes] at hx hx'
    obtain ⟨b, _, _, hp, _⟩ := hx
    obtain ⟨b', _, _, hp', _⟩ := hx'
    exact hdisj A A' p hne hp hp'

theorem mem_allPairs_iff (s : DistributedBoxCollection) (st : Nat → Finset Nat) (n : Nat)
    (hdisj : ∀ A B p, A ≠ B → p ∈ (boxAt s A).mNodesContained →
      p ∉ (boxAt s B).mNodesContained)
    (A B : Nat) (hA : A < n) (p q : Node) (hp : p ∈ (boxAt s A).mNodesContained)
    (hq : q ∈ (boxAt s B).mNodesContained) :
    (p, q) ∈ allPairs s st n ↔ (B ∈ st A ∧ (B = A → q.index > p.index)) := by
  rw [mem_allPairs]
  constructor
  · rintro ⟨A', hA', B', hB', hq', hp', h⟩
    have eA : A' = A := by
      by_contra hne
      exact hdisj A' A p hne hp' hp
    have eB : B' = B := by
      by_contra hne
      exact hdisj B' B q hne hq' hq
    subst eA eB
    exact ⟨hB', h⟩
  · rintro ⟨hB, h⟩
    exact ⟨A, hA, B, hB, hq, hp, h⟩

theorem length_filter_pair {α : Type} [DecidableEq α] (l : List α) (hl : l.Nodup) (a b : α)
    (hab : a ≠ b) :
    (l.filter (fun x => decide (x = a ∨ x = b))).length
      = (if a ∈ l then 1 else 0) + (if b ∈ l then 1 else 0) := by
  induction l with
  | nil => simp
  | cons x l ih =>
    obtain ⟨hx, hl⟩ := List.nodup_cons.1 hl
    rw [List.filter_cons]
    by_cases h1 : x = a
    · subst h1
      simp only [true_or, decide_True, if_true, List.length_cons, ih hl, List.mem_cons,
        if_neg hx]
      by_cases hbl : b ∈ l
      · simp [hbl]
      · simp [hbl, Ne.symm hab]
    · by_cases h2 : x = b
      · subst h2
        simp only [or_true, decide_True, if_true, List.length_cons, ih hl, List.mem_cons,
          if_neg hx, true_or]
        by_cases hal : a ∈ l
        · simp [hal]
        · simp [hal, hab]
      · simp only [h1, h2, or_self, decide_False, Bool.false_eq_true, if_false, ih hl,
          List.mem_cons, Ne.symm h1, Ne.symm h2, false_or]

/-- C1: in a single-process, non-periodic 2D grid whose stencils are built by
`SetupLocalBoxesHalfOnly`, where the node indices stored in the boxes are all distinct (so
every point is in exactly one box) and the nodes passed in lie in the domain,
`CalculateNodePairs` returns, given enough iterations, a list of pairs in which, for every two
distinct stored points `p` and `q`, the pairs `(p, q)` and `(q, p)` occur exactly once in total
when their boxes are adjacent and not at all otherwise. -/
theorem CalculateNodePairs_each_pair_once (s : DistributedBoxCollection) (rNodes : List Node)
    (hgrid : SingleProcessGrid s) (hdim : s.DIM = .two) (hper : s.mIsPeriodicInX = false)
    (hset : s.mAreLocalBoxesSet = false) (hw : 0 < s.mBoxWidth)
    (hnodup : ((s.mBoxes.flatMap (fun box => box.mNodesContained)).map
      (fun node => node.index)).Nodup)
    (hplaced : ∀ node, node ∈ rNodes → ∀ i, i < 2 →
      s.mDomainSize.getD (2 * i) 0 ≤ node.location.getD i 0
        ∧ node.location.getD i 0 < s.mDomainSize.getD (2 * i + 1) 0
        ∧ node.location.getD i 0 + mFudge
          < s.mDomainSize.getD (2 * i) 0 + s.mNumBoxesEachDirection.getD i 0 * s.mBoxWidth) :
    ∃ s', SetupLocalBoxesHalfOnly s = .ok s' ∧
      ∃ fuel0, ∀ fuel, fuel0 ≤ fuel →
        ∃ pairs nbrs, CalculateNodePairs s' fuel rNodes = .ok (pairs, nbrs) ∧
          ∀ A B boxA boxB p q, s.mBoxes.get? A = some boxA → s.mBoxes.get? B = some boxB →
            p ∈ boxA.mNodesContained → q ∈ boxB.mNodesContained → p ≠ q →
            (pairs.filter (fun pr => decide (pr = (p, q) ∨ pr = (q, p)))).length
              = if boxesAdjacent .two s.mNumBoxesEachDirection A B then 1 else 0 := by
  obtain ⟨N0, N1, hN, p0, p1, hnum, hfit, hlow, hhigh, hmin, hmax, hbl⟩ :=
    grid_two s hgrid hdim
  have hmap := hgrid.2.2.2.2.2.2.2.2.2.2.2
  have hlen := hgrid.2.2.1
  have hnumprod := hgrid.2.2.2.2.1
  rw [hnum] at hmap
  have hget : ∀ A, A < N0 * N1 → GetLocalBoxes { s with
      mLocalBoxes := (ownedIndexLoop s).map
        (SetupLocalBoxesHalfOnly.case2 s.mNumBoxesEachDirection s.low s.mIsPeriodicInX
          s.mBoxes.length)
      mAreLocalBoxesSet := true } A
      = .ok (SetupLocalBoxesHalfOnly.case2 [N0, N1] 0 false (N0 * N1) A) := by
    intro A hA
    rw [← hN, ← hlow, ← hper, ← hbl]
    exact GetLocalBoxes_map _ _ A rfl (by show s.mMinBoxIndex ≤ A; omega)
      (by show A ≤ s.mMaxBoxIndex; omega) (by show s.mMaxBoxIndex + 1 < 4294967296; omega)
  refine ⟨_, SetupLocalBoxesHalfOnly_two s hdim hset, s.mNumBoxes, fun fuel hfuel => ?_⟩
  generalize hs' : ({ s with
      mLocalBoxes := (ownedIndexLoop s).map
        (SetupLocalBoxesHalfOnly.case2 s.mNumBoxesEachDirection s.low s.mIsPeriodicInX
          s.mBoxes.length)
      mAreLocalBoxesSet := true } : DistributedBoxCollection) = s' at hget
  have f1 : s'.mBoxes = s.mBoxes := by rw [← hs']
  have f2 : s'.mBoxesMapping = s.mBoxesMapping := by rw [← hs']
  have f3 : s'.mMinBoxIndex = s.mMinBoxIndex := by rw [← hs']
  have f4 : s'.mMaxBoxIndex = s.mMaxBoxIndex := by rw [← hs']
  have f5 : s'.DIM = s.DIM := by rw [← hs']
  have f6 : s'.mBoxWidth = s.mBoxWidth := by rw [← hs']
  have f7 : s'.mDomainSize = s.mDomainSize := by rw [← hs']
  have f8 : s'.mNumBoxesEachDirection = s.mNumBoxesEachDirection := by rw [← hs']
  have f9 : s'.mNumBoxes = s.mNumBoxes := by rw [← hs']
  have hsub : ∀ A, A < N0 * N1 → ∀ b,
      b ∈ SetupLocalBoxesHalfOnly.case2 [N0, N1] 0 false (N0 * N1) A → b < N0 * N1 := by
    intro A hA b hb
    obtain ⟨x, y, hx, hy, rfl⟩ := split2 N0 N1 A hA
    exact half2_lt false N0 N1 x y b hx hy hfit hb
  have hloc : ∀ node, node ∈ rNodes →
      ∃ g, CalculateContainingBox s' fuel node.location = .ok g := by
    intro node hnode
    have hpl := hplaced node hnode
    have h2 : s.DIM.toNat = 2 := by rw [hdim]; rfl
    obtain ⟨g, hg, -⟩ := containingBox_ok s' node.location (by rw [f6]; exact hw)
      (by rw [f8, f5]; exact hlen) (by rw [f9, f8]; exact hnumprod) (by rw [f9]; omega)
      (fun i hi => by
        rw [f5, h2] at hi
        rw [f7]
        exact ⟨(hpl i hi).1, (hpl i hi).2.1⟩)
      (fun i hi => by
        rw [f5, h2] at hi
        rw [f7, f8, f6]
        exact (hpl i hi).2.2) fuel (by rw [f9]; exact hfuel)
    exact ⟨g, hg⟩
  obtain ⟨nbrs, hres⟩ := CalculateNodePairs_allPairs s'
    (fun A => SetupLocalBoxesHalfOnly.case2 [N0, N1] 0 false (N0 * N1) A) (N0 * N1) fuel rNodes
    (by rw [f3]; exact hmin) (by rw [f4]; exact hmax) (by rw [f1]; exact hbl)
    (by rw [f2]; exact hmap) hget hsub hloc
  refine ⟨_, nbrs, hres, ?_⟩
  intro A B boxA boxB p q hA hB hp hq hpq
  obtain ⟨hnd, hdisj, hinj⟩ := boxes_disjoint s' (by rw [f1]; exact hnodup)
  have hAn : A < N0 * N1 := by
    have h : A < s.mBoxes.length := by
      by_contra hc
      rw [List.get?_eq_getElem?, List.getElem?_eq_none (by omega)] at hA
      cases hA
    omega
  have hBn : B < N0 * N1 := by
    have h : B < s.mBoxes.length := by
      by_contra hc
      rw [List.get?_eq_getElem?, List.getElem?_eq_none (by omega)] at hB
      cases hB
    omega
  have hp' : p ∈ (boxAt s' A).mNodesContained := by
    rw [boxAt, f1, hA]; exact hp
  have hq' : q ∈ (boxAt s' B).mNodesContained := by
    rw [boxAt, f1, hB]; exact hq
  have hne : (p, q) ≠ (q, p) := by
    intro h
    exact hpq (Prod.mk.inj h).1
  rw [length_filter_pair _ (nodup_allPairs _ _ _ hnd hdisj) (p, q) (q, p) hne]
  have hidx : p.index ≠ q.index := fun h => hpq (hinj A B p q hp' hq' h)
  have eA := Nat.div_add_mod A N0
  have eB := Nat.div_add_mod B N0
  have hcoord : A = B ↔ (A / N0 = B / N0 ∧ A % N0 = B % N0) := by
    constructor
    · rintro rfl; exact ⟨rfl, rfl⟩
    · rintro ⟨h1, h2⟩; rw [← eA, ← eB, h1, h2]
  have hcoord2 : B = A ↔ (A / N0 = B / N0 ∧ A % N0 = B % N0) := by
    rw [eq_comm, hcoord]
  simp only [mem_allPairs_iff _ _ _ hdisj A B hAn p q hp' hq',
    mem_allPairs_iff _ _ _ hdisj B A hBn q p hq' hp',
    half2_mem N0 N1 A B hfit hAn hBn, half2_mem N0 N1 B A hfit hBn hAn, hN,
    boxesAdjacent_two, hcoord, hcoord2, gt_iff_lt]
  split_ifs <;> omega

theorem CalculateNodePairs_each_pair_once_witness :
    SingleProcessGrid exampleGrid ∧
    ∃ s', SetupLocalBoxesHalfOnly exampleGrid = .ok s' ∧
      ∃ fuel0, ∀ fuel, fuel0 ≤ fuel →
        ∃ pairs nbrs, CalculateNodePairs s' fuel exampleNodes = .ok (pairs, nbrs) ∧
          ∀ A B boxA boxB p q, exampleGrid.mBoxes.get? A = some boxA →
            exampleGrid.mBoxes.get? B = some boxB →
            p ∈ boxA.mNodesContained → q ∈ boxB.mNodesContained → p ≠ q →
            (pairs.filter (fun pr => decide (pr = (p, q) ∨ pr = (q, p)))).length
              = if boxesAdjacent .two exampleGrid.mNumBoxesEachDirection A B then 1 else 0 :=
  ⟨by decide, CalculateNodePairs_each_pair_once exampleGrid exampleNodes (by decide) rfl rfl rfl
    (by norm_num [exampleGrid]) (by decide)
    (by
      intro node hnode i hi
      simp only [exampleNodes, List.mem_cons, List.mem_singleton, List.not_mem_nil,
        or_false] at hnode
      have : i = 0 ∨ i = 1 := by omega
      rcases hnode with rfl | rfl | rfl | rfl <;> rcases this with rfl | rfl <;>
        norm_num [exampleGrid, mFudge])⟩

theorem SetupLocalBoxesHalfOnly_two_exactly_one_witness :
    SingleProcessGrid exampleGrid ∧
    ∃ s', SetupLocalBoxesHalfOnly exampleGrid = .ok s'
      ∧ (∀ A, A < exampleGrid.mNumBoxes → ∃ stA, GetLocalBoxes s' A = .ok stA ∧ A ∈ stA)
      ∧ (∀ A B, A < exampleGrid.mNumBoxes → B < exampleGrid.mNumBoxes → A ≠ B →
          boxesAdjacent .two exampleGrid.mNumBoxesEachDirection A B →
          ∃ stA stB, GetLocalBoxes s' A = .ok stA ∧ GetLocalBoxes s' B = .ok stB
            ∧ ((A ∈ stB ∧ B ∉ stA) ∨ (A ∉ stB ∧ B ∈ stA))) :=
  ⟨by decide, SetupLocalBoxesHalfOnly_two_exactly_one exampleGrid (by decide) rfl rfl rfl⟩

theorem SetupLocalBoxesHalfOnly_three_exactly_one_witness :
    SingleProcessGrid exampleGrid3 ∧
    ∃ s', SetupLocalBoxesHalfOnly exampleGrid3 = .ok s'
      ∧ (∀ A, A < exampleGrid3.mNumBoxes → ∃ stA, GetLocalBoxes s' A = .ok stA ∧ A ∈ stA
          ∧ ((∀ i, i < 3 →
                1 ≤ (CalculateCoordinateIndices .three exampleGrid3.mNumBoxesEachDirection
                  A).getD i 0
                ∧ (CalculateCoordinateIndices .three exampleGrid3.mNumBoxesEachDirection
                  A).getD i 0 + 1 < exampleGrid3.mNumBoxesEachDirection.getD i 0) →
              stA.card = 14))
      ∧ (∀ A B, A < exampleGrid3.mNumBoxes → B < exampleGrid3.mNumBoxes → A ≠ B →
          boxesAdjacent .three exampleGrid3.mNumBoxesEachDirection A B →
          ∃ stA stB, GetLocalBoxes s' A = .ok stA ∧ GetLocalBoxes s' B = .ok stB
            ∧ ((A ∈ stB ∧ B ∉ stA) ∨ (A ∉ stB ∧ B ∈ stA))) :=
  ⟨by decide, SetupLocalBoxesHalfOnly_three_exactly_one exampleGrid3 (by decide) rfl rfl⟩

/-- C4 fails on the code: in the 2 by 1 grid that is periodic in x the boxes 0 and 1 are
distinct neighbours and, after `SetupLocalBoxesHalfOnly`, each of them lists the other. -/
theorem SetupLocalBoxesHalfOnly_periodic_two_columns :
    SingleProcessGrid periodicTwoColumns ∧ periodicTwoColumns.mIsPeriodicInX = true
      ∧ boxesAdjacent .two periodicTwoColumns.mNumBoxesEachDirection 0 1
      ∧ ∃ s' st0 st1, SetupLocalBoxesHalfOnly periodicTwoColumns = .ok s'
        ∧ GetLocalBoxes s' 0 = .ok st0 ∧ GetLocalBoxes s' 1 = .ok st1
        ∧ 1 ∈ st0 ∧ 0 ∈ st1 :=
  ⟨by decide, rfl, by decide, _, _, _, rfl, rfl, rfl, by decide, by decide⟩

/-- C6: for DIM in {1,2,3} and every coordinate tuple `c` with `c[i] < num_boxes[i]` on every
axis (the number of boxes fitting in 32 bits), `CalculateGlobalIndex c` is
`c[0] + c[1]*N[0] + c[2]*N[0]*N[1]` and `CalculateCoordinateIndices` maps it back to `c`. -/
theorem CalculateCoordinateIndices_CalculateGlobalIndex (DIM : Dim) (N c : List Nat)
    (hN : N.length = DIM.toNat) (hc : c.length = DIM.toNat)
    (hlt : ∀ i, i < DIM.toNat → c.getD i 0 < N.getD i 0)
    (hfit : N.prod < 4294967296) :
    CalculateGlobalIndex DIM N c
        = c.getD 0 0 + c.getD 1 0 * N.getD 0 0 + c.getD 2 0 * N.getD 0 0 * N.getD 1 0
      ∧ CalculateCoordinateIndices DIM N (CalculateGlobalIndex DIM N c) = c :=
  coords_of_global_index DIM N c hN hc hlt hfit

theorem CalculateCoordinateIndices_CalculateGlobalIndex_witness :
    CalculateGlobalIndex .three [3, 4, 5] [2, 1, 3] = 2 + 1 * 3 + 3 * 3 * 4
      ∧ CalculateCoordinateIndices .three [3, 4, 5]
          (CalculateGlobalIndex .three [3, 4, 5] [2, 1, 3]) = [2, 1, 3] :=
  CalculateCoordinateIndices_CalculateGlobalIndex .three [3, 4, 5] [2, 1, 3] rfl rfl
    (by decide) (by decide)

/-- C7: for DIM in {1,2,3}, `num_boxes[i] ≥ 1` and every global index `g` below the total
number of boxes (which fits in 32 bits), `CalculateCoordinateIndices g` is a tuple of `DIM`
coordinates with `c[i] < num_boxes[i]` on every axis and `CalculateGlobalIndex c = g`. -/
theorem CalculateGlobalIndex_CalculateCoordinateIndices (DIM : Dim) (N : List Nat) (g : Nat)
    (hN : N.length = DIM.toNat)
    (hpos : ∀ i, i < DIM.toNat → 1 ≤ N.getD i 0)
    (hg : g < N.prod) (hfit : N.prod < 4294967296) :
    (CalculateCoordinateIndices DIM N g).length = DIM.toNat
      ∧ (∀ i, i < DIM.toNat → (CalculateCoordinateIndices DIM N g).getD i 0 < N.getD i 0)
      ∧ CalculateGlobalIndex DIM N (CalculateCoordinateIndices DIM N g) = g :=
  global_of_coords_index DIM N g hN hpos hg hfit

theorem CalculateGlobalIndex_CalculateCoordinateIndices_witness :
    (CalculateCoordinateIndices .three [3, 4, 5] 47).length = 3
      ∧ (∀ i, i < 3 → (CalculateCoordinateIndices .three [3, 4, 5] 47).getD i 0
          < ([3, 4, 5] : List Nat).getD i 0)
      ∧ CalculateGlobalIndex .three [3, 4, 5] (CalculateCoordinateIndices .three [3, 4, 5] 47)
          = 47 :=
  CalculateGlobalIndex_CalculateCoordinateIndices .three [3, 4, 5] 47 rfl (by decide)
    (by decide) (by decide)

theorem recordPairs_append (s : DistributedBoxCollection)
    (out : List (Node × Node) × NodeNeighbours) (L1 L2 : List (Node × Node)) :
    recordPairs s out (L1 ++ L2) = recordPairs s (recordPairs s out L1) L2 := by
  simp only [recordPairs, List.foldl_append]

theorem recordPairs_nil (s : DistributedBoxCollection)
    (out : List (Node × Node) × NodeNeighbours) : recordPairs s out [] = out := rfl

theorem recordPairs_fst (s : DistributedBoxCollection) (L : List (Node × Node)) :
    ∀ out : List (Node × Node) × NodeNeighbours, (recordPairs s out L).1 = out.1 ++ L := by
  induction L with
  | nil => intro out; simp [recordPairs]
  | cons pr L ih =>
    intro out
    have := ih (emitPair s out pr.1 pr.2)
    simp only [recordPairs, List.foldl_cons] at this ⊢
    rw [this]
    simp [emitPair]

theorem recordPairs_snd (s : DistributedBoxCollection) (L : List (Node × Node)) :
    ∀ out : List (Node × Node) × NodeNeighbours,
      (recordPairs s out L).2
        = if s.mCalculateNodeNeighbours then L.foldl recordNeighbours out.2 else out.2 := by
  induction L with
  | nil => intro out; simp [recordPairs]
  | cons pr L ih =>
    intro out
    have := ih (emitPair s out pr.1 pr.2)
    simp only [recordPairs, List.foldl_cons] at this ⊢
    rw [this]
    cases h : s.mCalculateNodeNeighbours <;> simp [emitPair, h, recordNeighbours]

theorem inner_fold_eq (s : DistributedBoxCollection) (c : Bool) (q : Node) (l : List Node) :
    ∀ out : List (Node × Node) × NodeNeighbours,
      l.foldl (fun out node =>
          if c then
            if q.index > node.index then emitPair s out node q else out
          else emitPair s out node q) out
        = recordPairs s out (l.flatMap (fun p =>
            if c then (if q.index > p.index then [(p, q)] else []) else [(p, q)])) := by
  induction l with
  | nil => intro out; rfl
  | cons p l ih =>
    intro out
    rw [List.foldl_cons, ih, List.flatMap_cons, recordPairs_append]
    congr 1
    cases c
    · simp [recordPairs]
    · by_cases h : q.index > p.index <;> simp [recordPairs, h]

theorem middle_fold_eq (s : DistributedBoxCollection) (c : Bool) (box : List Node)
    (l : List Node) :
    ∀ out : List (Node × Node) × NodeNeighbours,
      l.foldl (fun out neighbour_node =>
          box.foldl (fun out node =>
            if c then
              if neighbour_node.index > node.index then emitPair s out node neighbour_node
              else out
            else emitPair s out node neighbour_node) out) out
        = recordPairs s out (l.flatMap (fun q => box.flatMap (fun p =>
            if c then (if q.index > p.index then [(p, q)] else []) else [(p, q)]))) := by
  induction l with
  | nil => intro out; rfl
  | cons q l ih =>
    intro out
    rw [List.foldl_cons, ih, inner_fold_eq, List.flatMap_cons, recordPairs_append]

theorem visitBoxM_eq (s : DistributedBoxCollection) (boxIndex : Nat) (box : Box)
    (out : List (Node × Node) × NodeNeighbours) (b : Nat) :
    visitBoxM s boxIndex box out b
      = (match neighbourBox s b with
        | .ok nb => .ok (recordPairs s out (pairsOfBoxes boxIndex b box nb))
        | .error e => .error e) := by
  unfold visitBoxM neighbourBox
  cases hown : GetBoxOwnership s b
  · cases hl : lookupBox s.mHaloBoxes s.mHaloBoxesMapping b with
    | error e => simp [hl, bind, Except.bind]
    | ok nb =>
      simp only [Bool.false_eq_true, if_false, hl, bind, Except.bind, pure, Except.pure]
      rw [middle_fold_eq]
      rfl
  · cases hl : lookupBox s.mBoxes s.mBoxesMapping b with
    | error e => simp [hl, bind, Except.bind]
    | ok nb =>
      simp only [if_true, hl, bind, Except.bind, pure, Except.pure]
      rw [middle_fold_eq]
      rfl

theorem visit_fold_eq (s : DistributedBoxCollection) (boxIndex : Nat) (box : Box)
    (l : List Nat) :
    ∀ out : List (Node × Node) × NodeNeighbours,
      l.foldlM (visitBoxM s boxIndex box) out
      = (match l.mapM (fun box_iter =>
            match neighbourBox s box_iter with
            | .ok nb => Except.ok (pairsOfBoxes boxIndex box_iter box nb)
            | .error e => .error e) with
        | .ok Ls => .ok (recordPairs s out Ls.flatten)
        | .error e => .error e) := by
  induction l with
  | nil => intro out; rfl
  | cons b l ih =>
    intro out
    rw [List.foldlM_cons, List.mapM_cons, visitBoxM_eq]
    cases hb : neighbourBox s b with
    | error e => rfl
    | ok nb =>
      simp only [bind, Except.bind, pure, Except.pure]
      rw [ih]
      cases hm : l.mapM (fun box_iter =>
            match neighbourBox s box_iter with
            | .ok nb => Except.ok (pairsOfBoxes boxIndex box_iter box nb)
            | .error e => .error e) with
      | error e => rfl
      | ok Ls =>
        simp only [List.flatten_cons, recordPairs_append]

/-- The member function `AddPairsFromBox` records the pairs of `boxPairs`, and fails exactly
when `boxPairs` fails. -/
theorem AddPairsFromBox_eq (s : DistributedBoxCollection) (boxIndex : Nat)
    (out : List (Node × Node) × NodeNeighbours) :
    AddPairsFromBox s boxIndex out
      = (match boxPairs s boxIndex with
        | .ok L => .ok (recordPairs s out L)
        | .error e => .error e) := by
  have h : AddPairsFromBox s boxIndex out
      = (match rGetBox s boxIndex with
        | .error e => .error e
        | .ok box =>
          match GetLocalBoxes s boxIndex with
          | .error e => .error e
          | .ok st => (st.sort (· ≤ ·)).foldlM (visitBoxM s boxIndex box) out) := by
    unfold AddPairsFromBox
    cases rGetBox s boxIndex with
    | error e => rfl
    | ok box =>
      cases GetLocalBoxes s boxIndex with
      | error e => rfl
      | ok st => rfl
  rw [h]
  unfold boxPairs
  cases rGetBox s boxIndex with
  | error e => rfl
  | ok box =>
    cases GetLocalBoxes s boxIndex with
    | error e => rfl
    | ok st =>
      simp only
      rw [visit_fold_eq]
      cases (st.sort (· ≤ ·)).mapM (fun box_iter =>
          match neighbourBox s box_iter with
          | .ok nb => Except.ok (pairsOfBoxes boxIndex box_iter box nb)
          | .error e => .error e) with
      | error e => rfl
      | ok Ls => rfl

theorem foldlM_filter {α β ε : Type} (f : β → α → Except ε β) (p : α → Bool) (l : List α) :
    ∀ init, l.foldlM (fun out a => if p a then f out a else pure out) init
      = (l.filter p).foldlM f init := by
  induction l with
  | nil => intro init; rfl
  | cons a l ih =>
    intro init
    rw [List.foldlM_cons, List.filter_cons]
    cases hp : p a
    · simp only [Bool.false_eq_true, if_false, pure_bind]
      exact ih init
    · simp only [if_true, List.foldlM_cons]
      congr 1
      funext b
      exact ih b

/-- Folding `AddPairsFromBox` over a list of boxes records the pairs of the boxes in order when
every `boxPairs` succeeds. -/
theorem foldlM_AddPairsFromBox_ok (s : DistributedBoxCollection) (l : List Nat)
    (h : ∀ b, b ∈ l → ∃ L, boxPairs s b = .ok L) :
    ∀ out, l.foldlM (fun out b => AddPairsFromBox s b out) out
      = .ok (recordPairs s out (l.flatMap (boxPairsOr s))) := by
  induction l with
  | nil => intro out; rfl
  | cons b l ih =>
    intro out
    obtain ⟨L, hL⟩ := h b (List.mem_cons_self _ _)
    rw [List.foldlM_cons, AddPairsFromBox_eq, hL]
    simp only [bind, Except.bind]
    rw [ih (fun c hc => h c (List.mem_cons_of_mem _ hc)), List.flatMap_cons, recordPairs_append]
    simp only [boxPairsOr, hL]

/-- When folding `AddPairsFromBox` over a list of boxes succeeds, `boxPairs` succeeds for each of
them. -/
theorem foldlM_AddPairsFromBox_inv (s : DistributedBoxCollection) (l : List Nat) :
    ∀ out r, l.foldlM (fun out b => AddPairsFromBox s b out) out = .ok r →
      ∀ b, b ∈ l → ∃ L, boxPairs s b = .ok L := by
  induction l with
  | nil => intro out r _ b hb; cases hb
  | cons a l ih =>
    intro out r hr b hb
    rw [List.foldlM_cons, AddPairsFromBox_eq] at hr
    cases hL : boxPairs s a with
    | error e =>
      rw [hL] at hr
      cases hr
    | ok L =>
      rw [hL] at hr
      simp only [bind, Except.bind] at hr
      rcases List.mem_cons.1 hb with rfl | hb'
      · exact ⟨L, hL⟩
      · exact ih _ r hr b hb'

theorem CalculateNodePairs_eq (s : DistributedBoxCollection) (fuel : Nat) (rNodes : List Node) :
    CalculateNodePairs s fuel rNodes
      = (match initNeighbours s fuel rNodes with
        | .error e => .error e
        | .ok nn => (ownedBoxes s).foldlM (fun out b => AddPairsFromBox s b out) ([], nn)) := by
  change (initNeighbours s fuel rNodes >>= fun nn => s.mBoxesMapping.foldlM
    (fun out entry => AddPairsFromBox s entry.1 out) ([], nn)) = _
  cases initNeighbours s fuel rNodes with
  | error e => rfl
  | ok nn =>
    simp only [bind, Except.bind]
    rw [ownedBoxes, List.foldlM_map]

theorem CalculateInteriorNodePairs_eq (s : DistributedBoxCollection) (fuel : Nat)
    (rNodes : List Node) (cleared : List (Node × Node) × NodeNeighbours) :
    CalculateInteriorNodePairs s fuel rNodes cleared
      = (match initNeighbours s fuel rNodes with
        | .error e => .error e
        | .ok nn => ((ownedBoxes s).filter (IsInteriorBox s)).foldlM
            (fun out b => AddPairsFromBox s b out) ([], nn)) := by
  change (initNeighbours s fuel rNodes >>= fun nn => s.mBoxesMapping.foldlM
    (fun out entry =>
      if IsInteriorBox s entry.1 then AddPairsFromBox s entry.1 out else pure out)
    ([], nn)) = _
  cases initNeighbours s fuel rNodes with
  | error e => rfl
  | ok nn =>
    simp only [bind, Except.bind]
    rw [ownedBoxes, ← foldlM_filter (fun out b => AddPairsFromBox s b out) (IsInteriorBox s),
      List.foldlM_map]

theorem CalculateBoundaryNodePairs_eq (s : DistributedBoxCollection) (rNodes : List Node)
    (out : List (Node × Node) × NodeNeighbours) :
    CalculateBoundaryNodePairs s rNodes out
      = ((ownedBoxes s).filter (fun b => !IsInteriorBox s b)).foldlM
          (fun out b => AddPairsFromBox s b out) out := by
  unfold CalculateBoundaryNodePairs ownedBoxes
  rw [← foldlM_filter (fun out b => AddPairsFromBox s b out) (fun b => !IsInteriorBox s b),
    List.foldlM_map]

theorem insertAt_comm (m : NodeNeighbours) (i j k l : Nat) :
    (m.insertAt i j).insertAt k l = (m.insertAt k l).insertAt i j := by
  funext x
  simp only [NodeNeighbours.insertAt, Function.update_apply]
  by_cases h1 : x = k <;> by_cases h2 : x = i <;> by_cases h3 : k = i <;>
    simp_all [Finset.Insert.comm]

theorem recordNeighbours_comm (m : NodeNeighbours) (a b : Node × Node) :
    recordNeighbours (recordNeighbours m a) b = recordNeighbours (recordNeighbours m b) a := by
  simp only [recordNeighbours]
  rw [insertAt_comm (m.insertAt a.1.index a.2.index) a.2.index a.1.index b.1.index b.2.index,
    insertAt_comm m a.1.index a.2.index b.1.index b.2.index,
    insertAt_comm ((m.insertAt b.1.index b.2.index).insertAt a.1.index a.2.index)
      a.2.index a.1.index b.2.index b.1.index,
    insertAt_comm (m.insertAt b.1.index b.2.index) a.1.index a.2.index b.2.index b.1.index]

theorem recordPairs_perm (s : DistributedBoxCollection)
    (out : List (Node × Node) × NodeNeighbours) (L1 L2 : List (Node × Node))
    (h : L1.Perm L2) :
    (recordPairs s out L1).1.Perm (recordPairs s out L2).1
      ∧ (recordPairs s out L1).2 = (recordPairs s out L2).2 := by
  constructor
  · rw [recordPairs_fst, recordPairs_fst]
    exact List.Perm.append_left _ h
  · rw [recordPairs_snd, recordPairs_snd,
      List.Perm.foldl_eq' h (fun x _ y _ z => recordNeighbours_comm z x y)]

theorem IsInteriorBox_sequential (s : DistributedBoxCollection) (h : s.numProcs = 1) (b : Nat) :
    IsInteriorBox s b = true := by
  simp [IsInteriorBox, h]

/-- C13: for any grid state, `CalculateNodePairs` returns exactly when
`CalculateInteriorNodePairs` followed by `CalculateBoundaryNodePairs` on the same containers
returns, and then the combined pair list is a permutation of the list of `CalculateNodePairs`
and the neighbour maps are equal; the interior and the boundary entries of `mBoxesMapping`
together are a rearrangement of `mBoxesMapping`, so every owned box is visited by exactly one of
the two calls; on one process `CalculateInteriorNodePairs` alone equals `CalculateNodePairs`. -/
theorem CalculateInteriorNodePairs_then_Boundary (s : DistributedBoxCollection) (fuel : Nat)
    (rNodes : List Node) (cleared : List (Node × Node) × NodeNeighbours) :
    (∀ r, CalculateNodePairs s fuel rNodes = .ok r →
        ∃ r', (CalculateInteriorNodePairs s fuel rNodes cleared
            >>= CalculateBoundaryNodePairs s rNodes) = .ok r'
          ∧ r'.1.Perm r.1 ∧ r'.2 = r.2)
    ∧ (∀ r', (CalculateInteriorNodePairs s fuel rNodes cleared
            >>= CalculateBoundaryNodePairs s rNodes) = .ok r' →
        ∃ r, CalculateNodePairs s fuel rNodes = .ok r)
    ∧ (s.mBoxesMapping.filter (fun entry => IsInteriorBox s entry.1)
        ++ s.mBoxesMapping.filter (fun entry => !IsInteriorBox s entry.1)).Perm s.mBoxesMapping
    ∧ (s.numProcs = 1 →
        CalculateInteriorNodePairs s fuel rNodes cleared = CalculateNodePairs s fuel rNodes) := by
  refine ⟨?_, ?_, List.filter_append_perm _ _, ?_⟩
  · intro r hr
    rw [CalculateNodePairs_eq] at hr
    rw [CalculateInteriorNodePairs_eq]
    cases hinit : initNeighbours s fuel rNodes with
    | error e => rw [hinit] at hr; cases hr
    | ok nn =>
      rw [hinit] at hr
      simp only at hr ⊢
      have hall := foldlM_AddPairsFromBox_inv s _ _ _ hr
      rw [foldlM_AddPairsFromBox_ok s _ hall] at hr
      rw [foldlM_AddPairsFromBox_ok s _ (fun b hb => hall b (List.mem_filter.1 hb).1)]
      simp only [bind, Except.bind]
      rw [CalculateBoundaryNodePairs_eq,
        foldlM_AddPairsFromBox_ok s _ (fun b hb => hall b (List.mem_filter.1 hb).1),
        ← recordPairs_append, ← List.flatMap_append]
      cases hr
      refine ⟨_, rfl, ?_⟩
      exact recordPairs_perm s _ _ _
        (List.Perm.flatMap_right _ (List.filter_append_perm (IsInteriorBox s) (ownedBoxes s)))
  · intro r' hr'
    rw [CalculateInteriorNodePairs_eq] at hr'
    rw [CalculateNodePairs_eq]
    cases hinit : initNeighbours s fuel rNodes with
    | error e => rw [hinit] at hr'; cases hr'
    | ok nn =>
      rw [hinit] at hr'
      simp only at hr' ⊢
      cases hI : ((ownedBoxes s).filter (IsInteriorBox s)).foldlM
          (fun out b => AddPairsFromBox s b out) ([], nn) with
      | error e => rw [hI] at hr'; cases hr'
      | ok r1 =>
        rw [hI] at hr'
        simp only [bind, Except.bind] at hr'
        rw [CalculateBoundaryNodePairs_eq] at hr'
        have h1 := foldlM_AddPairsFromBox_inv s _ _ _ hI
        have h2 := foldlM_AddPairsFromBox_inv s _ _ _ hr'
        have hall : ∀ b, b ∈ ownedBoxes s → ∃ L, boxPairs s b = .ok L := by
          intro b hb
          cases hint : IsInteriorBox s b
          · exact h2 b (List.mem_filter.2 ⟨hb, by simp [hint]⟩)
          · exact h1 b (List.mem_filter.2 ⟨hb, hint⟩)
        exact ⟨_, foldlM_AddPairsFromBox_ok s _ hall _⟩
  · intro hseq
    rw [CalculateInteriorNodePairs_eq, CalculateNodePairs_eq,
      List.filter_eq_self.2 (fun b _ => IsInteriorBox_sequential s hseq b)]

/-- C14 (as amended): `CalculateInteriorNodePairs` clears the containers it is given, so after
`CalculateBoundaryNodePairs` and then `CalculateInteriorNodePairs` the containers hold what
`CalculateInteriorNodePairs` alone leaves; on one process, where no box is a boundary box, this
is also what the calls in the other order leave. -/
theorem CalculateBoundaryNodePairs_then_Interior (s : DistributedBoxCollection) (fuel : Nat)
    (rNodes : List Node) (out : List (Node × Node) × NodeNeighbours) :
    (∀ r0, CalculateBoundaryNodePairs s rNodes out = .ok r0 →
        (CalculateBoundaryNodePairs s rNodes out
            >>= CalculateInteriorNodePairs s fuel rNodes)
          = CalculateInteriorNodePairs s fuel rNodes out)
    ∧ (s.numProcs = 1 →
        (CalculateBoundaryNodePairs s rNodes out >>= CalculateInteriorNodePairs s fuel rNodes)
          = (CalculateInteriorNodePairs s fuel rNodes out
              >>= CalculateBoundaryNodePairs s rNodes)) := by
  have hnone : s.numProcs = 1 → ∀ out', CalculateBoundaryNodePairs s rNodes out' = .ok out' := by
    intro hseq out'
    rw [CalculateBoundaryNodePairs_eq]
    have : (ownedBoxes s).filter (fun b => !IsInteriorBox s b) = [] := by
      rw [List.filter_eq_nil_iff]
      intro b _
      simp [IsInteriorBox_sequential s hseq b]
    rw [this]
    rfl
  constructor
  · intro r0 h0
    rw [h0]
    rfl
  · intro hseq
    rw [hnone hseq out]
    cases hI : CalculateInteriorNodePairs s fuel rNodes out with
    | error e =>
      show CalculateInteriorNodePairs s fuel rNodes out = _
      rw [hI]; rfl
    | ok r1 =>
      show CalculateInteriorNodePairs s fuel rNodes out = _
      rw [hI]
      exact (hnone hseq r1).symm

theorem mem_insertAt (m : NodeNeighbours) (i j x y : Nat) :
    y ∈ ((m.insertAt i j) x).getD ∅ ↔ y ∈ (m x).getD ∅ ∨ (x = i ∧ y = j) := by
  simp only [NodeNeighbours.insertAt, Function.update_apply]
  by_cases h : x = i
  · subst h
    simp only [if_true, Option.getD_some, Finset.mem_insert, true_and]
    exact or_comm
  · simp only [h, if_false, false_and, or_false]

theorem mem_foldl_recordNeighbours (L : List (Node × Node)) :
    ∀ (m : NodeNeighbours) (i j : Nat),
      j ∈ ((L.foldl recordNeighbours m) i).getD ∅ ↔
        j ∈ (m i).getD ∅ ∨ ∃ pr, pr ∈ L ∧
          ((pr.1.index = i ∧ pr.2.index = j) ∨ (pr.2.index = i ∧ pr.1.index = j)) := by
  induction L with
  | nil => intro m i j; simp
  | cons a L ih =>
    intro m i j
    rw [List.foldl_cons, ih]
    simp only [recordNeighbours, mem_insertAt, List.mem_cons, exists_eq_or_imp]
    constructor
    · rintro ((((h | h) | h)) | h)
      · exact Or.inl h
      · exact Or.inr (Or.inl (Or.inl ⟨h.1.symm, h.2.symm⟩))
      · exact Or.inr (Or.inl (Or.inr ⟨h.1.symm, h.2.symm⟩))
      · exact Or.inr (Or.inr h)
    · rintro (h | (h | h) | h)
      · exact Or.inl (Or.inl (Or.inl h))
      · exact Or.inl (Or.inl (Or.inr ⟨h.1.symm, h.2.symm⟩))
      · exact Or.inl (Or.inr ⟨h.1.symm, h.2.symm⟩)
      · exact Or.inr h

theorem foldlM_invariant {α β ε : Type} (f : β → α → Except ε β) (P : β → Prop) (l : List α)
    (hstep : ∀ b a b', P b → f b a = .ok b' → P b') :
    ∀ init r, P init → l.foldlM f init = .ok r → P r := by
  induction l with
  | nil =>
    intro init r hP h
    cases h
    exact hP
  | cons a l ih =>
    intro init r hP h
    rw [List.foldlM_cons] at h
    cases hfa : f init a with
    | error e => rw [hfa] at h; cases h
    | ok b' =>
      rw [hfa] at h
      exact ih b' r (hstep init a b' hP hfa) h

theorem initNeighbours_empty (s : DistributedBoxCollection) (fuel : Nat) (rNodes : List Node)
    (nn : NodeNeighbours) (h : initNeighbours s fuel rNodes = .ok nn) (i : Nat) :
    (nn i).getD ∅ = ∅ := by
  refine foldlM_invariant _ (fun m : NodeNeighbours => (m i).getD ∅ = ∅) rNodes ?_
    (fun _ => none) nn rfl h
  intro m node m' hm hstep
  cases hc : CalculateContainingBox s fuel node.location with
  | error e =>
    simp only [hc, bind, Except.bind] at hstep
    cases hstep
  | ok g =>
    simp only [hc, bind, Except.bind, pure, Except.pure] at hstep
    cases hstep
    show ((if GetBoxOwnership s g = true then Function.update m node.index (some ∅) else m) i).getD
      ∅ = ∅
    split_ifs
    · simp only [Function.update_apply]
      split_ifs
      · rfl
      · exact hm
    · exact hm

theorem mem_flatten_of_mapM {α β : Type} (g : α → Except Failure (List β)) (l : List α) :
    ∀ Ls, l.mapM g = .ok Ls → ∀ x, x ∈ Ls.flatten → ∃ a, a ∈ l ∧ ∃ c, g a = .ok c ∧ x ∈ c := by
  induction l with
  | nil =>
    intro Ls h x hx
    cases h
    simp at hx
  | cons a l ih =>
    intro Ls h x hx
    rw [List.mapM_cons] at h
    cases hga : g a with
    | error e => rw [hga] at h; cases h
    | ok c =>
      rw [hga] at h
      cases hl : l.mapM g with
      | error e =>
        simp only [hl, bind, Except.bind] at h
        cases h
      | ok Ls' =>
        simp only [hl, bind, Except.bind, pure, Except.pure] at h
        cases h
        rw [List.flatten_cons, List.mem_append] at hx
        rcases hx with hx | hx
        · exact ⟨a, List.mem_cons_self _ _, c, hga, hx⟩
        · obtain ⟨b, hb, c', hc', hx'⟩ := ih Ls' hl x hx
          exact ⟨b, List.mem_cons_of_mem _ hb, c', hc', hx'⟩

/-- Where an emitted pair of a box comes from: a box of its stencil and the two node lists. -/
theorem mem_boxPairs (s : DistributedBoxCollection) (A : Nat) (L : List (Node × Node))
    (h : boxPairs s A = .ok L) (p q : Node) (hpq : (p, q) ∈ L) :
    ∃ box st B nb, rGetBox s A = .ok box ∧ GetLocalBoxes s A = .ok st ∧ B ∈ st
      ∧ neighbourBox s B = .ok nb ∧ q ∈ nb.mNodesContained ∧ p ∈ box.mNodesContained
      ∧ (B = A → q.index > p.index) := by
  unfold boxPairs at h
  cases h1 : rGetBox s A with
  | error e => rw [h1] at h; cases h
  | ok box =>
    cases h2 : GetLocalBoxes s A with
    | error e => rw [h1, h2] at h; cases h
    | ok st =>
      rw [h1, h2] at h
      simp only at h
      split at h
      · cases h
      · rename_i Ls h3
        cases h
        obtain ⟨B, hB, c, hc, hx⟩ := mem_flatten_of_mapM _ _ Ls h3 (p, q) hpq
        cases h4 : neighbourBox s B with
        | error e => rw [h4] at hc; cases hc
        | ok nb =>
          rw [h4] at hc
          cases hc
          rw [mem_pairsOfBoxes] at hx
          exact ⟨box, st, B, nb, rfl, rfl, (Finset.mem_sort _).1 hB, h4, hx⟩

/-- The result of `CalculateNodePairs`, when it returns: the recorded pairs of the owned boxes
on top of the initial neighbour map. -/
theorem CalculateNodePairs_result (s : DistributedBoxCollection) (fuel : Nat)
    (rNodes : List Node) (r : List (Node × Node) × NodeNeighbours)
    (hr : CalculateNodePairs s fuel rNodes = .ok r) :
    ∃ nn, initNeighbours s fuel rNodes = .ok nn
      ∧ (∀ b, b ∈ ownedBoxes s → ∃ L, boxPairs s b = .ok L)
      ∧ r = recordPairs s ([], nn) ((ownedBoxes s).flatMap (boxPairsOr s)) := by
  rw [CalculateNodePairs_eq] at hr
  cases hinit : initNeighbours s fuel rNodes with
  | error e => rw [hinit] at hr; cases hr
  | ok nn =>
    rw [hinit] at hr
    simp only at hr
    have hall := foldlM_AddPairsFromBox_inv s _ _ _ hr
    rw [foldlM_AddPairsFromBox_ok s _ hall] at hr
    cases hr
    exact ⟨nn, rfl, hall, rfl⟩

/-- C20: when `CalculateNodePairs` returns with the neighbour calculation enabled, an index
`j` is in the neighbour set of `i` exactly when a pair with the indices `(i, j)` or `(j, i)` was
emitted; so the relation is symmetric, and no index is its own neighbour when the nodes of a box
and of every other box of its stencil have distinct indices. -/
theorem CalculateNodePairs_neighbours (s : DistributedBoxCollection) (fuel : Nat)
    (rNodes : List Node) (r : List (Node × Node) × NodeNeighbours)
    (hcalc : s.mCalculateNodeNeighbours = true)
    (hr : CalculateNodePairs s fuel rNodes = .ok r) :
    (∀ i j, j ∈ (r.2 i).getD ∅ ↔ ∃ pr, pr ∈ r.1 ∧
        ((pr.1.index = i ∧ pr.2.index = j) ∨ (pr.2.index = i ∧ pr.1.index = j)))
    ∧ (∀ i j, j ∈ (r.2 i).getD ∅ → i ∈ (r.2 j).getD ∅)
    ∧ ((∀ A box st B nb p q, A ∈ ownedBoxes s → rGetBox s A = .ok box →
          GetLocalBoxes s A = .ok st → B ∈ st → B ≠ A → neighbourBox s B = .ok nb →
          p ∈ box.mNodesContained → q ∈ nb.mNodesContained → p.index ≠ q.index) →
        ∀ i, i ∉ (r.2 i).getD ∅) := by
  obtain ⟨nn, hinit, hall, rfl⟩ := CalculateNodePairs_result s fuel rNodes r hr
  have hiff : ∀ i j, j ∈ ((recordPairs s ([], nn)
      ((ownedBoxes s).flatMap (boxPairsOr s))).2 i).getD ∅ ↔ ∃ pr, pr ∈ (recordPairs s ([], nn)
      ((ownedBoxes s).flatMap (boxPairsOr s))).1 ∧
        ((pr.1.index = i ∧ pr.2.index = j) ∨ (pr.2.index = i ∧ pr.1.index = j)) := by
    intro i j
    rw [recordPairs_snd, recordPairs_fst, if_pos hcalc, mem_foldl_recordNeighbours,
      initNeighbours_empty s fuel rNodes nn hinit i]
    simp only [Finset.not_mem_empty, false_or, List.nil_append]
  refine ⟨hiff, ?_, ?_⟩
  · intro i j h
    obtain ⟨pr, hpr, h⟩ := (hiff i j).1 h
    refine (hiff j i).2 ⟨pr, hpr, ?_⟩
    rcases h with h | h
    · exact Or.inr ⟨h.2, h.1⟩
    · exact Or.inl ⟨h.2, h.1⟩
  · intro hdist i hi
    obtain ⟨pr, hpr, h⟩ := (hiff i i).1 hi
    have heq : pr.1.index = pr.2.index := by
      rcases h with h | h
      · rw [h.1, h.2]
      · rw [h.1, h.2]
    rw [recordPairs_fst, List.nil_append, List.mem_flatMap] at hpr
    obtain ⟨A, hA, hprA⟩ := hpr
    obtain ⟨L, hL⟩ := hall A hA
    simp only [boxPairsOr, hL] at hprA
    obtain ⟨box, st, B, nb, h1, h2, hB, h4, hq, hp, hgt⟩ :=
      mem_boxPairs s A L hL pr.1 pr.2 hprA
    by_cases hBA : B = A
    · have := hgt hBA
      omega
    · exact hdist A box st B nb pr.1 pr.2 hA h1 h2 hB hBA h4 hp hq heq

/-- On one process, with every stencil lookup succeeding inside the grid and distinct node
indices across the boxes, `CalculateNodePairs` returns and the number of emitted pairs that join
two given distinct stored points is read off the two stencils. -/
theorem pair_count_of_stencils (t : DistributedBoxCollection) (st : Nat → Finset Nat)
    (n fuel : Nat) (rNodes : List Node)
    (hmin : t.mMinBoxIndex = 0) (hmax : t.mMaxBoxIndex = n - 1)
    (hlen : t.mBoxes.length = n)
    (hmap : t.mBoxesMapping = (List.range n).map (fun i => (i, i)))
    (hst : ∀ A, A < n → GetLocalBoxes t A = .ok (st A))
    (hsub : ∀ A, A < n → ∀ b, b ∈ st A → b < n)
    (hloc : ∀ node, node ∈ rNodes → ∃ g, CalculateContainingBox t fuel node.location = .ok g)
    (hnodup : ((t.mBoxes.flatMap (fun box => box.mNodesContained)).map
      (fun node => node.index)).Nodup) :
    ∃ pairs nbrs, CalculateNodePairs t fuel rNodes = .ok (pairs, nbrs) ∧
      ∀ A B boxA boxB p q, t.mBoxes.get? A = some boxA → t.mBoxes.get? B = some boxB →
        p ∈ boxA.mNodesContained → q ∈ boxB.mNodesContained → p ≠ q →
        (A < n ∧ B < n ∧ p.index ≠ q.index)
          ∧ (pairs.filter (fun pr => decide (pr = (p, q) ∨ pr = (q, p)))).length
            = (if B ∈ st A ∧ (B = A → q.index > p.index) then 1 else 0)
              + (if A ∈ st B ∧ (A = B → p.index > q.index) then 1 else 0) := by
  obtain ⟨nbrs, hres⟩ := CalculateNodePairs_allPairs t st n fuel rNodes hmin hmax hlen hmap hst
    hsub hloc
  refine ⟨_, nbrs, hres, ?_⟩
  intro A B boxA boxB p q hA hB hp hq hpq
  obtain ⟨hnd, hdisj, hinj⟩ := boxes_disjoint t hnodup
  have hAn : A < n := by
    have h : A < t.mBoxes.length := by
      by_contra hc
      rw [List.get?_eq_getElem?, List.getElem?_eq_none (by omega)] at hA
      cases hA
    omega
  have hBn : B < n := by
    have h : B < t.mBoxes.length := by
      by_contra hc
      rw [List.get?_eq_getElem?, List.getElem?_eq_none (by omega)] at hB
      cases hB
    omega
  have hp' : p ∈ (boxAt t A).mNodesContained := by
    rw [boxAt, hA]; exact hp
  have hq' : q ∈ (boxAt t B).mNodesContained := by
    rw [boxAt, hB]; exact hq
  have hne : (p, q) ≠ (q, p) := by
    intro h
    exact hpq (Prod.mk.inj h).1
  refine ⟨⟨hAn, hBn, fun h => hpq (hinj A B p q hp' hq' h)⟩, ?_⟩
  rw [length_filter_pair _ (nodup_allPairs _ _ _ hnd hdisj) (p, q) (q, p) hne]
  simp only [mem_allPairs_iff _ _ _ hdisj A B hAn p q hp' hq',
    mem_allPairs_iff _ _ _ hdisj B A hBn q p hq' hp']

/-- The fields of the collection that `SetupAllLocalBoxes` leaves unchanged. -/
theorem SetupAllLocalBoxes_fields (s : DistributedBoxCollection) :
    (SetupAllLocalBoxes s).mBoxes = s.mBoxes
      ∧ (SetupAllLocalBoxes s).mBoxesMapping = s.mBoxesMapping
      ∧ (SetupAllLocalBoxes s).mMinBoxIndex = s.mMinBoxIndex
      ∧ (SetupAllLocalBoxes s).mMaxBoxIndex = s.mMaxBoxIndex
      ∧ (SetupAllLocalBoxes s).DIM = s.DIM
      ∧ (SetupAllLocalBoxes s).mBoxWidth = s.mBoxWidth
      ∧ (SetupAllLocalBoxes s).mDomainSize = s.mDomainSize
      ∧ (SetupAllLocalBoxes s).mNumBoxesEachDirection = s.mNumBoxesEachDirection
      ∧ (SetupAllLocalBoxes s).mNumBoxes = s.mNumBoxes := by
  unfold SetupAllLocalBoxes
  split <;> simp_all

/-- The stencil `SetupAllLocalBoxes` stores for an owned box of a non-periodic grid, read back
by `GetLocalBoxes`, is the reference set. -/
theorem GetLocalBoxes_SetupAllLocalBoxes_reference (s : DistributedBoxCollection) (g : Nat)
    (hlen : s.mNumBoxesEachDirection.length = s.DIM.toNat)
    (hfit : s.mNumBoxesEachDirection.prod < 4294967296)
    (hper : s.mIsPeriodicInX = false) (hfresh : s.mLocalBoxes = [])
    (hmin : s.mMinBoxIndex ≤ g) (hmax : g ≤ s.mMaxBoxIndex)
    (htot : s.mMaxBoxIndex < s.mNumBoxesEachDirection.prod) :
    GetLocalBoxes (SetupAllLocalBoxes s) g
      = .ok (referenceStencil s.DIM s.mNumBoxesEachDirection g) := by
  rw [GetLocalBoxes_SetupAllLocalBoxes s g hfresh hmin hmax (by omega)]
  congr 1
  have hg : g < s.mNumBoxesEachDirection.prod := by omega
  rw [hper]
  generalize s.DIM = D at hlen ⊢
  generalize s.mNumBoxesEachDirection = N at hlen hfit hg ⊢
  cases D
  · obtain ⟨N0, rfl⟩ := List.length_eq_one.1 hlen
    simp only [List.prod_cons, List.prod_nil, Nat.mul_one] at hfit hg
    exact full1_eq_reference N0 g hg hfit
  · obtain ⟨N0, N1, rfl⟩ := List.length_eq_two.1 hlen
    simp only [List.prod_cons, List.prod_nil, Nat.mul_one] at hfit hg
    obtain ⟨x, y, hx, hy, rfl⟩ := split2 N0 N1 g hg
    exact full2_eq_reference N0 N1 x y hx hy hfit
  · obtain ⟨N0, N1, N2, rfl⟩ := List.length_eq_three.1 hlen
    simp only [List.prod_cons, List.prod_nil, Nat.mul_one, ← Nat.mul_assoc] at hfit hg
    obtain ⟨x, y, z, hx, hy, hz, rfl, -, -, -⟩ := split3 N0 N1 N2 g hg
    exact full3_eq_reference N0 N1 N2 x y z hx hy hz hfit

theorem boxesAdjacent_symm (DIM : Dim) (N : List Nat) (A B : Nat)
    (h : boxesAdjacent DIM N A B) : boxesAdjacent DIM N B A :=
  fun i hi => ⟨(h i hi).2, (h i hi).1⟩

theorem boxesAdjacent_self (DIM : Dim) (N : List Nat) (A : Nat) : boxesAdjacent DIM N A A :=
  fun _ _ => ⟨Nat.le_succ _, Nat.le_succ _⟩

/-- The count of the emitted pairs joining two distinct stored points on a single-process,
non-periodic grid with the full stencil: one for two points of the same box, two for points of
two different adjacent boxes, none otherwise. -/
theorem fullStencil_pair_count (s : DistributedBoxCollection) (rNodes : List Node)
    (hgrid : SingleProcessGrid s) (hper : s.mIsPeriodicInX = false)
    (hfresh : s.mLocalBoxes = []) (hw : 0 < s.mBoxWidth)
    (hnodup : ((s.mBoxes.flatMap (fun box => box.mNodesContained)).map
      (fun node => node.index)).Nodup)
    (hplaced : ∀ node, node ∈ rNodes → ∀ i, i < s.DIM.toNat →
      s.mDomainSize.getD (2 * i) 0 ≤ node.location.getD i 0
        ∧ node.location.getD i 0 < s.mDomainSize.getD (2 * i + 1) 0
        ∧ node.location.getD i 0 + mFudge
          < s.mDomainSize.getD (2 * i) 0 + s.mNumBoxesEachDirection.getD i 0 * s.mBoxWidth)
    (fuel : Nat) (hfuel : s.mNumBoxes ≤ fuel) :
    ∃ pairs nbrs, CalculateNodePairs (SetupAllLocalBoxes s) fuel rNodes = .ok (pairs, nbrs) ∧
      ∀ A B boxA boxB p q, s.mBoxes.get? A = some boxA → s.mBoxes.get? B = some boxB →
        p ∈ boxA.mNodesContained → q ∈ boxB.mNodesContained → p ≠ q →
        (pairs.filter (fun pr => decide (pr = (p, q) ∨ pr = (q, p)))).length
          = if A = B then 1
            else if boxesAdjacent s.DIM s.mNumBoxesEachDirection A B then 2 else 0 := by
  obtain ⟨hp1, hr, hlen, hpos, hnum, hfit, hlow, hhigh, hmin, hmax, hbl, hmap⟩ := hgrid
  obtain ⟨f1, f2, f3, f4, f5, f6, f7, f8, f9⟩ := SetupAllLocalBoxes_fields s
  have hn1 : 1 ≤ s.mNumBoxes := by
    rw [hnum]
    have h3 := Dim.toNat_le s.DIM
    generalize s.DIM = D at hlen hpos
    generalize s.mNumBoxesEachDirection = N at hlen hpos
    cases D
    · obtain ⟨N0, rfl⟩ := List.length_eq_one.1 hlen
      have := hpos 0 (by decide)
      simpa using this
    · obtain ⟨N0, N1, rfl⟩ := List.length_eq_two.1 hlen
      have a := hpos 0 (by decide)
      have b := hpos 1 (by decide)
      simp only [List.getD_cons_zero, List.getD_cons_succ] at a b
      simp only [List.prod_cons, List.prod_nil, Nat.mul_one]
      exact Nat.mul_pos a b
    · obtain ⟨N0, N1, N2, rfl⟩ := List.length_eq_three.1 hlen
      have a := hpos 0 (by decide)
      have b := hpos 1 (by decide)
      have c := hpos 2 (by decide)
      simp only [List.getD_cons_zero, List.getD_cons_succ] at a b c
      simp only [List.prod_cons, List.prod_nil, Nat.mul_one]
      exact Nat.mul_pos a (Nat.mul_pos b c)
  have hst : ∀ A, A < s.mNumBoxes → GetLocalBoxes (SetupAllLocalBoxes s) A
      = .ok (referenceStencil s.DIM s.mNumBoxesEachDirection A) := by
    intro A hA
    exact GetLocalBoxes_SetupAllLocalBoxes_reference s A hlen (by omega) hper hfresh (by omega)
      (by omega) (by omega)
  have hsub : ∀ A, A < s.mNumBoxes → ∀ b,
      b ∈ referenceStencil s.DIM s.mNumBoxesEachDirection A → b < s.mNumBoxes := by
    intro A _ b hb
    simp only [referenceStencil, Finset.mem_filter, Finset.mem_range] at hb
    omega
  have hloc : ∀ node, node ∈ rNodes →
      ∃ g, CalculateContainingBox (SetupAllLocalBoxes s) fuel node.location = .ok g := by
    intro node hnode
    have hpl := hplaced node hnode
    obtain ⟨g, hg, -⟩ := containingBox_ok (SetupAllLocalBoxes s) node.location
      (by rw [f6]; exact hw) (by rw [f8, f5]; exact hlen) (by rw [f9, f8]; exact hnum)
      (by rw [f9]; exact hfit)
      (fun i hi => by
        rw [f5] at hi
        rw [f7]
        exact ⟨(hpl i hi).1, (hpl i hi).2.1⟩)
      (fun i hi => by
        rw [f5] at hi
        rw [f7, f8, f6]
        exact (hpl i hi).2.2) fuel (by rw [f9]; exact hfuel)
    exact ⟨g, hg⟩
  obtain ⟨pairs, nbrs, hres, hcount⟩ := pair_count_of_stencils (SetupAllLocalBoxes s)
    (fun A => referenceStencil s.DIM s.mNumBoxesEachDirection A) s.mNumBoxes fuel rNodes
    (by rw [f3]; exact hmin) (by rw [f4]; exact hmax) (by rw [f1]; exact hbl)
    (by rw [f2]; exact hmap) hst hsub hloc (by rw [f1]; exact hnodup)
  refine ⟨pairs, nbrs, hres, ?_⟩
  intro A B boxA boxB p q hA hB hp hq hpq
  obtain ⟨⟨hAn, hBn, hidx⟩, hc⟩ := hcount A B boxA boxB p q (by rw [f1]; exact hA)
    (by rw [f1]; exact hB) hp hq hpq
  rw [hc]
  have m1 : B ∈ referenceStencil s.DIM s.mNumBoxesEachDirection A
      ↔ boxesAdjacent s.DIM s.mNumBoxesEachDirection A B := by
    simp only [referenceStencil, Finset.mem_filter, Finset.mem_range]
    constructor
    · rintro ⟨-, h⟩; exact boxesAdjacent_symm _ _ _ _ h
    · intro h; exact ⟨by omega, boxesAdjacent_symm _ _ _ _ h⟩
  have m2 : A ∈ referenceStencil s.DIM s.mNumBoxesEachDirection B
      ↔ boxesAdjacent s.DIM s.mNumBoxesEachDirection A B := by
    simp only [referenceStencil, Finset.mem_filter, Finset.mem_range]
    constructor
    · rintro ⟨-, h⟩; exact h
    · intro h; exact ⟨by omega, h⟩
  simp only [m1, m2]
  by_cases hAB : A = B
  · subst hAB
    have hself := boxesAdjacent_self s.DIM s.mNumBoxesEachDirection A
    simp only [hself, true_and, forall_const, if_true, gt_iff_lt]
    split_ifs <;> omega
  · have hBA : ¬ B = A := fun h => hAB h.symm
    simp only [hAB, hBA, false_implies, and_true, if_false]
    split_ifs <;> rfl

theorem sort_eq_of_sorted (l : List Nat) (st : Finset Nat) (h1 : l.Sorted (· ≤ ·))
    (h2 : l.Nodup) (h3 : l.toFinset = st) : st.sort (· ≤ ·) = l := by
  subst h3
  exact List.eq_of_perm_of_sorted
    ((List.perm_ext_iff_of_nodup (Finset.sort_nodup _ _) h2).2 (fun a => by simp))
    (Finset.sort_sorted _ _) h1

/-- The fields of the collection that `SetupLocalBoxesHalfOnly` leaves unchanged. -/
theorem SetupLocalBoxesHalfOnly_fields (s s' : DistributedBoxCollection)
    (h : SetupLocalBoxesHalfOnly s = .ok s') :
    s'.mBoxes = s.mBoxes ∧ s'.mBoxesMapping = s.mBoxesMapping
      ∧ s'.mMinBoxIndex = s.mMinBoxIndex ∧ s'.mMaxBoxIndex = s.mMaxBoxIndex
      ∧ s'.DIM = s.DIM ∧ s'.mBoxWidth = s.mBoxWidth ∧ s'.mDomainSize = s.mDomainSize
      ∧ s'.mNumBoxesEachDirection = s.mNumBoxesEachDirection
      ∧ s'.mNumBoxes = s.mNumBoxes := by
  unfold SetupLocalBoxesHalfOnly at h
  split at h
  · cases h
  · split at h <;> (cases h; simp_all)

theorem SetupLocalBoxesHalfOnly_one (s : DistributedBoxCollection) (hdim : s.DIM = .one)
    (hset : s.mAreLocalBoxesSet = false) :
    SetupLocalBoxesHalfOnly s = .ok { s with
      mLocalBoxes := (ownedIndexLoop s).map
        (SetupLocalBoxesHalfOnly.case1 s.mNumBoxesEachDirection s.low)
      mAreLocalBoxesSet := true } := by
  cases s
  simp only at hdim hset
  subst hdim hset
  rfl

/-- What `SingleProcessGrid` says about a 1D collection. -/
theorem grid_one (s : DistributedBoxCollection) (hgrid : SingleProcessGrid s)
    (hdim : s.DIM = .one) :
    ∃ N0, s.mNumBoxesEachDirection = [N0] ∧ 1 ≤ N0 ∧ s.mNumBoxes = N0
      ∧ N0 < 4294967296 ∧ s.low = 0 ∧ s.high = N0 ∧ s.mMinBoxIndex = 0
      ∧ s.mMaxBoxIndex = N0 - 1 ∧ s.mBoxes.length = N0 := by
  obtain ⟨hp, hr, hlen, hpos, hnum, hfit, hlow, hhigh, hmin, hmax, hbl, hmap⟩ := hgrid
  rw [hdim] at hlen hpos hhigh
  obtain ⟨N0, hN⟩ := List.length_eq_one.1 hlen
  have p0 := hpos 0 (by decide)
  rw [hN] at p0 hhigh hnum
  simp only [List.getD_cons_zero, List.prod_cons, List.prod_nil, Nat.mul_one, Dim.toNat]
    at p0 hhigh hnum
  rw [hnum] at hfit hmax hbl
  exact ⟨N0, hN, p0, hnum, hfit, hlow, hhigh, hmin, hmax, hbl⟩

/-- On a single-process grid every node that lies in the domain, more than the fudge below the
upper end of the last box on every axis, has a containing box once the stencils are set. -/
theorem containingBox_after_setup (s s' : DistributedBoxCollection) (rNodes : List Node)
    (hgrid : SingleProcessGrid s)
    (hf : s'.DIM = s.DIM ∧ s'.mBoxWidth = s.mBoxWidth ∧ s'.mDomainSize = s.mDomainSize
      ∧ s'.mNumBoxesEachDirection = s.mNumBoxesEachDirection ∧ s'.mNumBoxes = s.mNumBoxes)
    (hw : 0 < s.mBoxWidth)
    (hplaced : ∀ node, node ∈ rNodes → ∀ i, i < s.DIM.toNat →
      s.mDomainSize.getD (2 * i) 0 ≤ node.location.getD i 0
        ∧ node.location.getD i 0 < s.mDomainSize.getD (2 * i + 1) 0
        ∧ node.location.getD i 0 + mFudge
          < s.mDomainSize.getD (2 * i) 0 + s.mNumBoxesEachDirection.getD i 0 * s.mBoxWidth)
    (fuel : Nat) (hfuel : s.mNumBoxes ≤ fuel) :
    ∀ node, node ∈ rNodes → ∃ g, CalculateContainingBox s' fuel node.location = .ok g := by
  obtain ⟨hp1, hr, hlen, hpos, hnum, hfit, hlow, hhigh, hmin, hmax, hbl, hmap⟩ := hgrid
  obtain ⟨f5, f6, f7, f8, f9⟩ := hf
  intro node hnode
  have hpl := hplaced node hnode
  obtain ⟨g, hg, -⟩ := containingBox_ok s' node.location
    (by rw [f6]; exact hw) (by rw [f8, f5]; exact hlen) (by rw [f9, f8]; exact hnum)
    (by rw [f9]; exact hfit)
    (fun i hi => by
      rw [f5] at hi
      rw [f7]
      exact ⟨(hpl i hi).1, (hpl i hi).2.1⟩)
    (fun i hi => by
      rw [f5] at hi
      rw [f7, f8, f6]
      exact (hpl i hi).2.2) fuel (by rw [f9]; exact hfuel)
  exact ⟨g, hg⟩

/-- The count of the emitted pairs joining two distinct stored points on a single-process 1D
grid with the half stencil, in terms of the two stencils. -/
theorem halfOnly_one_pair_count (s : DistributedBoxCollection) (rNodes : List Node)
    (hgrid : SingleProcessGrid s) (hdim : s.DIM = .one) (hset : s.mAreLocalBoxesSet = false)
    (hw : 0 < s.mBoxWidth)
    (hnodup : ((s.mBoxes.flatMap (fun box => box.mNodesContained)).map
      (fun node => node.index)).Nodup)
    (hplaced : ∀ node, node ∈ rNodes → ∀ i, i < s.DIM.toNat →
      s.mDomainSize.getD (2 * i) 0 ≤ node.location.getD i 0
        ∧ node.location.getD i 0 < s.mDomainSize.getD (2 * i + 1) 0
        ∧ node.location.getD i 0 + mFudge
          < s.mDomainSize.getD (2 * i) 0 + s.mNumBoxesEachDirection.getD i 0 * s.mBoxWidth)
    (fuel : Nat) (hfuel : s.mNumBoxes ≤ fuel) :
    ∃ s', SetupLocalBoxesHalfOnly s = .ok s' ∧
      ∃ pairs nbrs, CalculateNodePairs s' fuel rNodes = .ok (pairs, nbrs) ∧
        ∀ A B boxA boxB p q, s.mBoxes.get? A = some boxA → s.mBoxes.get? B = some boxB →
          p ∈ boxA.mNodesContained → q ∈ boxB.mNodesContained → p ≠ q →
          (pairs.filter (fun pr => decide (pr = (p, q) ∨ pr = (q, p)))).length
            = if A ≤ B + 1 ∧ B ≤ A + 1 then 1 else 0 := by
  obtain ⟨N0, hN, p0, hnum, hfit, hlow, hhigh, hmin, hmax, hbl⟩ := grid_one s hgrid hdim
  have hmap := hgrid.2.2.2.2.2.2.2.2.2.2.2
  rw [hnum] at hmap
  have hsetup := SetupLocalBoxesHalfOnly_one s hdim hset
  obtain ⟨f1, f2, f3, f4, f5, f6, f7, f8, f9⟩ := SetupLocalBoxesHalfOnly_fields s _ hsetup
  have hloc := containingBox_after_setup s _ rNodes hgrid ⟨f5, f6, f7, f8, f9⟩ hw hplaced fuel
    hfuel
  have hget : ∀ A, A < N0 → GetLocalBoxes { s with
      mLocalBoxes := (ownedIndexLoop s).map
        (SetupLocalBoxesHalfOnly.case1 s.mNumBoxesEachDirection s.low)
      mAreLocalBoxesSet := true } A
      = .ok (SetupLocalBoxesHalfOnly.case1 [N0] 0 A) := by
    intro A hA
    rw [← hN, ← hlow]
    exact GetLocalBoxes_map _ _ A rfl (by show s.mMinBoxIndex ≤ A; omega)
      (by show A ≤ s.mMaxBoxIndex; omega) (by show s.mMaxBoxIndex + 1 < 4294967296; omega)
  refine ⟨_, hsetup, ?_⟩
  obtain ⟨pairs, nbrs, hres, hcount⟩ := pair_count_of_stencils _
    (fun A => SetupLocalBoxesHalfOnly.case1 [N0] 0 A) N0 fuel rNodes
    (by rw [f3]; exact hmin) (by rw [f4]; exact hmax) (by rw [f1]; exact hbl)
    (by rw [f2]; exact hmap) hget (fun A hA b hb => half1_lt N0 A b hA hfit hb) hloc
    (by rw [f1]; exact hnodup)
  refine ⟨pairs, nbrs, hres, ?_⟩
  intro A B boxA boxB p q hA hB hp hq hpq
  obtain ⟨⟨hAn, hBn, hidx⟩, hc⟩ := hcount A B boxA boxB p q (by rw [f1]; exact hA)
    (by rw [f1]; exact hB) hp hq hpq
  rw [hc]
  simp only [half1_compact N0 A B hAn hBn hfit, half1_compact N0 B A hBn hAn hfit, gt_iff_lt]
  split_ifs <;> omega

/-- The count of the emitted pairs joining two distinct stored points on a single-process 2D
grid with the half stencil, periodic in x or not, in terms of the two stencils. -/
theorem halfOnly_two_pair_count (s : DistributedBoxCollection) (rNodes : List Node)
    (hgrid : SingleProcessGrid s) (hdim : s.DIM = .two) (hset : s.mAreLocalBoxesSet = false)
    (hw : 0 < s.mBoxWidth)
    (hnodup : ((s.mBoxes.flatMap (fun box => box.mNodesContained)).map
      (fun node => node.index)).Nodup)
    (hplaced : ∀ node, node ∈ rNodes → ∀ i, i < s.DIM.toNat →
      s.mDomainSize.getD (2 * i) 0 ≤ node.location.getD i 0
        ∧ node.location.getD i 0 < s.mDomainSize.getD (2 * i + 1) 0
        ∧ node.location.getD i 0 + mFudge
          < s.mDomainSize.getD (2 * i) 0 + s.mNumBoxesEachDirection.getD i 0 * s.mBoxWidth)
    (fuel : Nat) (hfuel : s.mNumBoxes ≤ fuel) :
    ∃ s', SetupLocalBoxesHalfOnly s = .ok s' ∧
      ∃ pairs nbrs, CalculateNodePairs s' fuel rNodes = .ok (pairs, nbrs) ∧
        ∀ A B boxA boxB p q, s.mBoxes.get? A = some boxA → s.mBoxes.get? B = some boxB →
          p ∈ boxA.mNodesContained → q ∈ boxB.mNodesContained → p ≠ q →
          (A < s.mNumBoxes ∧ B < s.mNumBoxes ∧ p.index ≠ q.index)
          ∧ (pairs.filter (fun pr => decide (pr = (p, q) ∨ pr = (q, p)))).length
            = (if B ∈ SetupLocalBoxesHalfOnly.case2 s.mNumBoxesEachDirection 0
                  s.mIsPeriodicInX s.mNumBoxes A ∧ (B = A → q.index > p.index) then 1 else 0)
              + (if A ∈ SetupLocalBoxesHalfOnly.case2 s.mNumBoxesEachDirection 0
                  s.mIsPeriodicInX s.mNumBoxes B ∧ (A = B → p.index > q.index)
                then 1 else 0) := by
  obtain ⟨N0, N1, hN, p0, p1, hnum, hfit, hlow, hhigh, hmin, hmax, hbl⟩ :=
    grid_two s hgrid hdim
  have hmap := hgrid.2.2.2.2.2.2.2.2.2.2.2
  have hsetup := SetupLocalBoxesHalfOnly_two s hdim hset
  obtain ⟨f1, f2, f3, f4, f5, f6, f7, f8, f9⟩ := SetupLocalBoxesHalfOnly_fields s _ hsetup
  have hloc := containingBox_after_setup s _ rNodes hgrid ⟨f5, f6, f7, f8, f9⟩ hw hplaced fuel
    hfuel
  have hget : ∀ A, A < s.mNumBoxes → GetLocalBoxes { s with
      mLocalBoxes := (ownedIndexLoop s).map
        (SetupLocalBoxesHalfOnly.case2 s.mNumBoxesEachDirection s.low s.mIsPeriodicInX
          s.mBoxes.length)
      mAreLocalBoxesSet := true } A
      = .ok (SetupLocalBoxesHalfOnly.case2 s.mNumBoxesEachDirection 0 s.mIsPeriodicInX
          s.mNumBoxes A) := by
    intro A hA
    have e : s.mBoxes.length = s.mNumBoxes := by omega
    rw [← hlow, ← e]
    exact GetLocalBoxes_map _ _ A rfl (by show s.mMinBoxIndex ≤ A; omega)
      (by show A ≤ s.mMaxBoxIndex; omega) (by show s.mMaxBoxIndex + 1 < 4294967296; omega)
  have hsub : ∀ A, A < s.mNumBoxes → ∀ b,
      b ∈ SetupLocalBoxesHalfOnly.case2 s.mNumBoxesEachDirection 0 s.mIsPeriodicInX
        s.mNumBoxes A → b < s.mNumBoxes := by
    intro A hA b hb
    rw [hnum] at hA ⊢
    rw [hN, hnum] at hb
    obtain ⟨x, y, hx, hy, rfl⟩ := split2 N0 N1 A hA
    exact half2_lt _ N0 N1 x y b hx hy hfit hb
  refine ⟨_, hsetup, ?_⟩
  exact pair_count_of_stencils _ _ s.mNumBoxes fuel rNodes
    (by rw [f3]; exact hmin) (by rw [f4, hmax, hnum]) (by rw [f1, hbl, hnum])
    (by rw [f2]; exact hmap) hget hsub hloc (by rw [f1]; exact hnodup)

theorem lineNodes_placed : ∀ node, node ∈ lineNodes → ∀ i, i < lineGrid.DIM.toNat →
    lineGrid.mDomainSize.getD (2 * i) 0 ≤ node.location.getD i 0
      ∧ node.location.getD i 0 < lineGrid.mDomainSize.getD (2 * i + 1) 0
      ∧ node.location.getD i 0 + mFudge
        < lineGrid.mDomainSize.getD (2 * i) 0
          + lineGrid.mNumBoxesEachDirection.getD i 0 * lineGrid.mBoxWidth := by
  intro node hnode i hi
  simp only [lineNodes, List.mem_cons, List.mem_singleton, List.not_mem_nil, or_false] at hnode
  have : i = 0 := by simp only [lineGrid, Dim.toNat] at hi; omega
  subst this
  rcases hnode with rfl | rfl | rfl | rfl <;> norm_num [lineGrid, mFudge]

/-- C16 (as amended): in a single-process non-periodic grid whose stencils were built by
`SetupAllLocalBoxes` on a fresh collection, with distinct node indices across the boxes and the
nodes passed in lying in the domain, `CalculateNodePairs` returns, given enough iterations, a
list in which two distinct stored points are joined by exactly one pair when they are in the
same box, by exactly two pairs when they are in two different adjacent boxes, and by none when
their boxes are farther apart. -/
theorem CalculateNodePairs_full_stencil_count (s : DistributedBoxCollection)
    (rNodes : List Node)
    (hgrid : SingleProcessGrid s) (hper : s.mIsPeriodicInX = false)
    (hfresh : s.mLocalBoxes = []) (hw : 0 < s.mBoxWidth)
    (hnodup : ((s.mBoxes.flatMap (fun box => box.mNodesContained)).map
      (fun node => node.index)).Nodup)
    (hplaced : ∀ node, node ∈ rNodes → ∀ i, i < s.DIM.toNat →
      s.mDomainSize.getD (2 * i) 0 ≤ node.location.getD i 0
        ∧ node.location.getD i 0 < s.mDomainSize.getD (2 * i + 1) 0
        ∧ node.location.getD i 0 + mFudge
          < s.mDomainSize.getD (2 * i) 0 + s.mNumBoxesEachDirection.getD i 0 * s.mBoxWidth) :
    ∃ fuel0, ∀ fuel, fuel0 ≤ fuel →
      ∃ pairs nbrs, CalculateNodePairs (SetupAllLocalBoxes s) fuel rNodes = .ok (pairs, nbrs) ∧
        ∀ A B boxA boxB p q, s.mBoxes.get? A = some boxA → s.mBoxes.get? B = some boxB →
          p ∈ boxA.mNodesContained → q ∈ boxB.mNodesContained → p ≠ q →
          (pairs.filter (fun pr => decide (pr = (p, q) ∨ pr = (q, p)))).length
            = if A = B then 1
              else if boxesAdjacent s.DIM s.mNumBoxesEachDirection A B then 2 else 0 :=
  ⟨s.mNumBoxes, fun fuel hfuel =>
    fullStencil_pair_count s rNodes hgrid hper hfresh hw hnodup hplaced fuel hfuel⟩

theorem CalculateNodePairs_full_stencil_count_witness :
    SingleProcessGrid lineGrid ∧
    ∃ fuel0, ∀ fuel, fuel0 ≤ fuel →
      ∃ pairs nbrs,
        CalculateNodePairs (SetupAllLocalBoxes lineGrid) fuel lineNodes = .ok (pairs, nbrs) ∧
        ∀ A B boxA boxB p q, lineGrid.mBoxes.get? A = some boxA →
          lineGrid.mBoxes.get? B = some boxB →
          p ∈ boxA.mNodesContained → q ∈ boxB.mNodesContained → p ≠ q →
          (pairs.filter (fun pr => decide (pr = (p, q) ∨ pr = (q, p)))).length
            = if A = B then 1
              else if boxesAdjacent lineGrid.DIM lineGrid.mNumBoxesEachDirection A B then 2
              else 0 :=
  ⟨by decide, CalculateNodePairs_full_stencil_count lineGrid lineNodes (by decide) rfl rfl
    (by norm_num [lineGrid]) (by decide) lineNodes_placed⟩

/-- C16 fails as stated: the nodes 0 and 1 of `lineGrid` lie in the same box, and with the full
stencil `CalculateNodePairs` emits exactly one pair joining them, not two. -/
theorem CalculateNodePairs_full_stencil_same_box_once :
    ∃ pairs nbrs,
      CalculateNodePairs (SetupAllLocalBoxes lineGrid) 3 lineNodes = .ok (pairs, nbrs) ∧
      (pairs.filter (fun pr => decide (pr = ((⟨0, [1 / 10]⟩ : Node), (⟨1, [1 / 2]⟩ : Node))
        ∨ pr = ((⟨1, [1 / 2]⟩ : Node), (⟨0, [1 / 10]⟩ : Node))))).length = 1 := by
  obtain ⟨pairs, nbrs, hres, hcount⟩ := fullStencil_pair_count lineGrid lineNodes (by decide)
    rfl rfl (by norm_num [lineGrid]) (by decide) lineNodes_placed 3 (by decide)
  refine ⟨pairs, nbrs, hres, ?_⟩
  have h := hcount 0 0 _ _ ⟨0, [1 / 10]⟩ ⟨1, [1 / 2]⟩ rfl rfl (by simp) (by simp)
    (by simp)
  rw [h, if_pos rfl]

/-- C18: in a 1D single-process grid with the half stencil, distinct node indices across the
boxes and the nodes passed in lying in the domain, `CalculateNodePairs` returns, given enough
iterations, a list in which two distinct stored points are joined by exactly one pair when they
are in the same box or in two consecutive boxes and by none otherwise; for box width 1, domain
`[0, 3]` and points 0.1, 0.5, 1.2, 2.7 with indices 0 to 3 the emitted pairs are, by index,
`(0,1), (0,2), (1,2), (2,3)`. -/
theorem CalculateNodePairs_half_stencil_one_dim :
    (∀ (s : DistributedBoxCollection) (rNodes : List Node),
      SingleProcessGrid s → s.DIM = .one → s.mAreLocalBoxesSet = false → 0 < s.mBoxWidth →
      ((s.mBoxes.flatMap (fun box => box.mNodesContained)).map
        (fun node => node.index)).Nodup →
      (∀ node, node ∈ rNodes → ∀ i, i < s.DIM.toNat →
        s.mDomainSize.getD (2 * i) 0 ≤ node.location.getD i 0
          ∧ node.location.getD i 0 < s.mDomainSize.getD (2 * i + 1) 0
          ∧ node.location.getD i 0 + mFudge
            < s.mDomainSize.getD (2 * i) 0
              + s.mNumBoxesEachDirection.getD i 0 * s.mBoxWidth) →
      ∃ s', SetupLocalBoxesHalfOnly s = .ok s' ∧ ∃ fuel0, ∀ fuel, fuel0 ≤ fuel →
        ∃ pairs nbrs, CalculateNodePairs s' fuel rNodes = .ok (pairs, nbrs) ∧
          ∀ A B boxA boxB p q, s.mBoxes.get? A = some boxA → s.mBoxes.get? B = some boxB →
            p ∈ boxA.mNodesContained → q ∈ boxB.mNodesContained → p ≠ q →
            (pairs.filter (fun pr => decide (pr = (p, q) ∨ pr = (q, p)))).length
              = if A ≤ B + 1 ∧ B ≤ A + 1 then 1 else 0)
    ∧ (∃ s', SetupLocalBoxesHalfOnly lineGrid = .ok s' ∧ ∀ fuel, 3 ≤ fuel →
        ∃ pairs nbrs, CalculateNodePairs s' fuel lineNodes = .ok (pairs, nbrs) ∧
          pairs.map (fun pr => (pr.1.index, pr.2.index))
            = [(0, 1), (0, 2), (1, 2), (2, 3)]) := by
  constructor
  · intro s rNodes hgrid hdim hset hw hnodup hplaced
    obtain ⟨s', hs', -⟩ := halfOnly_one_pair_count s rNodes hgrid hdim hset hw hnodup hplaced
      s.mNumBoxes (Nat.le_refl _)
    refine ⟨s', hs', s.mNumBoxes, fun fuel hfuel => ?_⟩
    obtain ⟨s'', hs'', h⟩ := halfOnly_one_pair_count s rNodes hgrid hdim hset hw hnodup hplaced
      fuel hfuel
    rw [hs'] at hs''
    cases hs''
    exact h
  · have hsetup : SetupLocalBoxesHalfOnly lineGrid = .ok lineGridHalf :=
      SetupLocalBoxesHalfOnly_one lineGrid rfl rfl
    refine ⟨_, hsetup, fun fuel hfuel => ?_⟩
    obtain ⟨f1, f2, f3, f4, f5, f6, f7, f8, f9⟩ := SetupLocalBoxesHalfOnly_fields _ _ hsetup
    have hloc := containingBox_after_setup lineGrid lineGridHalf lineNodes (by decide)
      ⟨f5, f6, f7, f8, f9⟩ (by norm_num [lineGrid]) lineNodes_placed fuel hfuel
    obtain ⟨nbrs, hres⟩ := CalculateNodePairs_allPairs lineGridHalf
      (fun A => SetupLocalBoxesHalfOnly.case1 [3] 0 A) 3 fuel lineNodes rfl rfl rfl rfl
      (fun A hA => GetLocalBoxes_map _ _ A rfl (Nat.zero_le _)
        (by show A ≤ 2; omega) (by decide))
      (fun A hA b hb => half1_lt 3 A b hA (by decide) hb) hloc
    refine ⟨_, nbrs, hres, ?_⟩
    have h0 : (SetupLocalBoxesHalfOnly.case1 [3] 0 0).sort (· ≤ ·) = [0, 1] :=
      sort_eq_of_sorted _ _ (by decide) (by decide) (by decide)
    have h1 : (SetupLocalBoxesHalfOnly.case1 [3] 0 1).sort (· ≤ ·) = [1, 2] :=
      sort_eq_of_sorted _ _ (by decide) (by decide) (by decide)
    have h2 : (SetupLocalBoxesHalfOnly.case1 [3] 0 2).sort (· ≤ ·) = [2] :=
      sort_eq_of_sorted _ _ (by decide) (by decide) (by decide)
    have hr : List.range 3 = [0, 1, 2] := by decide
    simp only [allPairs, hr, List.flatMap_cons, List.flatMap_nil, h0, h1, h2]
    decide

theorem CalculateNodePairs_half_stencil_one_dim_witness :
    SingleProcessGrid lineGrid ∧
    ∃ s', SetupLocalBoxesHalfOnly lineGrid = .ok s' ∧ ∃ fuel0, ∀ fuel, fuel0 ≤ fuel →
      ∃ pairs nbrs, CalculateNodePairs s' fuel lineNodes = .ok (pairs, nbrs) ∧
        ∀ A B boxA boxB p q, lineGrid.mBoxes.get? A = some boxA →
          lineGrid.mBoxes.get? B = some boxB →
          p ∈ boxA.mNodesContained → q ∈ boxB.mNodesContained → p ≠ q →
          (pairs.filter (fun pr => decide (pr = (p, q) ∨ pr = (q, p)))).length
            = if A ≤ B + 1 ∧ B ≤ A + 1 then 1 else 0 :=
  ⟨by decide, CalculateNodePairs_half_stencil_one_dim.1 lineGrid lineNodes (by decide) rfl rfl
    (by norm_num [lineGrid]) (by decide) lineNodes_placed⟩

theorem wideNodes_placed (isPeriodicInX : Bool) :
    ∀ node, node ∈ wideNodes → ∀ i, i < (wideGrid isPeriodicInX).DIM.toNat →
    (wideGrid isPeriodicInX).mDomainSize.getD (2 * i) 0 ≤ node.location.getD i 0
      ∧ node.location.getD i 0 < (wideGrid isPeriodicInX).mDomainSize.getD (2 * i + 1) 0
      ∧ node.location.getD i 0 + mFudge
        < (wideGrid isPeriodicInX).mDomainSize.getD (2 * i) 0
          + (wideGrid isPeriodicInX).mNumBoxesEachDirection.getD i 0
            * (wideGrid isPeriodicInX).mBoxWidth := by
  intro node hnode i hi
  simp only [wideNodes, List.mem_cons, List.mem_singleton, List.not_mem_nil, or_false] at hnode
  have : i = 0 ∨ i = 1 := by simp only [wideGrid, Dim.toNat] at hi; omega
  rcases hnode with rfl | rfl <;> rcases this with rfl | rfl <;> norm_num [wideGrid, mFudge]

theorem wideGrid_pairs (isPeriodicInX : Bool) (fuel : Nat) (hfuel : 6 ≤ fuel) :
    ∃ nbrs, CalculateNodePairs (wideGridHalf isPeriodicInX) fuel wideNodes
      = .ok (allPairs (wideGridHalf isPeriodicInX)
          (fun A => SetupLocalBoxesHalfOnly.case2 [3, 2] 0 isPeriodicInX 6 A) 6, nbrs) := by
  have hsetup : SetupLocalBoxesHalfOnly (wideGrid isPeriodicInX)
      = .ok (wideGridHalf isPeriodicInX) :=
    SetupLocalBoxesHalfOnly_two (wideGrid isPeriodicInX) rfl rfl
  obtain ⟨f1, f2, f3, f4, f5, f6, f7, f8, f9⟩ := SetupLocalBoxesHalfOnly_fields _ _ hsetup
  have hgrid : SingleProcessGrid (wideGrid isPeriodicInX) := by cases isPeriodicInX <;> decide
  have hloc := containingBox_after_setup (wideGrid isPeriodicInX) (wideGridHalf isPeriodicInX)
    wideNodes hgrid ⟨f5, f6, f7, f8, f9⟩ (by norm_num [wideGrid])
    (wideNodes_placed isPeriodicInX) fuel hfuel
  exact CalculateNodePairs_allPairs (wideGridHalf isPeriodicInX)
    (fun A => SetupLocalBoxesHalfOnly.case2 [3, 2] 0 isPeriodicInX 6 A) 6 fuel wideNodes
    rfl rfl rfl rfl
    (fun A hA => GetLocalBoxes_map _ _ A rfl (Nat.zero_le _)
      (by show A ≤ 5; omega) (by show 5 + 1 < 4294967296; omega))
    (fun A hA b hb => by
      obtain ⟨x, y, hx, hy, rfl⟩ := split2 3 2 A hA
      exact half2_lt isPeriodicInX 3 2 x y b hx hy (by decide) hb) hloc

/-- C19: in a single-process 2D grid with at least three columns and the half stencil, two
stored points in the same row of boxes, one in column 0 and the other in the last column, are
joined by exactly one emitted pair when the grid is periodic in x and by none when it is not;
for box width 1, domain `[0, 3] x [0, 2]` and the points (0.5, 0.5) and (2.5, 0.5) there is one
pair with periodicity and none without. -/
theorem CalculateNodePairs_periodic_wrap :
    (∀ (s : DistributedBoxCollection) (rNodes : List Node),
      SingleProcessGrid s → s.DIM = .two → s.mAreLocalBoxesSet = false → 0 < s.mBoxWidth →
      3 ≤ s.mNumBoxesEachDirection.getD 0 0 →
      ((s.mBoxes.flatMap (fun box => box.mNodesContained)).map
        (fun node => node.index)).Nodup →
      (∀ node, node ∈ rNodes → ∀ i, i < s.DIM.toNat →
        s.mDomainSize.getD (2 * i) 0 ≤ node.location.getD i 0
          ∧ node.location.getD i 0 < s.mDomainSize.getD (2 * i + 1) 0
          ∧ node.location.getD i 0 + mFudge
            < s.mDomainSize.getD (2 * i) 0
              + s.mNumBoxesEachDirection.getD i 0 * s.mBoxWidth) →
      ∃ s', SetupLocalBoxesHalfOnly s = .ok s' ∧ ∃ fuel0, ∀ fuel, fuel0 ≤ fuel →
        ∃ pairs nbrs, CalculateNodePairs s' fuel rNodes = .ok (pairs, nbrs) ∧
          ∀ A B boxA boxB p q, s.mBoxes.get? A = some boxA → s.mBoxes.get? B = some boxB →
            p ∈ boxA.mNodesContained → q ∈ boxB.mNodesContained →
            (CalculateCoordinateIndices .two s.mNumBoxesEachDirection A).getD 0 0 = 0 →
            (CalculateCoordinateIndices .two s.mNumBoxesEachDirection B).getD 0 0 + 1
              = s.mNumBoxesEachDirection.getD 0 0 →
            (CalculateCoordinateIndices .two s.mNumBoxesEachDirection A).getD 1 0
              = (CalculateCoordinateIndices .two s.mNumBoxesEachDirection B).getD 1 0 →
            (pairs.filter (fun pr => decide (pr = (p, q) ∨ pr = (q, p)))).length
              = if s.mIsPeriodicInX then 1 else 0)
    ∧ (∃ s', SetupLocalBoxesHalfOnly (wideGrid true) = .ok s' ∧ ∀ fuel, 6 ≤ fuel →
        ∃ pairs nbrs, CalculateNodePairs s' fuel wideNodes = .ok (pairs, nbrs) ∧
          pairs.map (fun pr => (pr.1.index, pr.2.index)) = [(1, 0)])
    ∧ (∃ s', SetupLocalBoxesHalfOnly (wideGrid false) = .ok s' ∧ ∀ fuel, 6 ≤ fuel →
        ∃ pairs nbrs, CalculateNodePairs s' fuel wideNodes = .ok (pairs, nbrs) ∧
          pairs = []) := by
  refine ⟨?_, ?_, ?_⟩
  · intro s rNodes hgrid hdim hset hw h3 hnodup hplaced
    obtain ⟨s', hs', -⟩ := halfOnly_two_pair_count s rNodes hgrid hdim hset hw hnodup hplaced
      s.mNumBoxes (Nat.le_refl _)
    refine ⟨s', hs', s.mNumBoxes, fun fuel hfuel => ?_⟩
    obtain ⟨s'', hs'', pairs, nbrs, hres, hcount⟩ := halfOnly_two_pair_count s rNodes hgrid
      hdim hset hw hnodup hplaced fuel hfuel
    rw [hs'] at hs''
    cases hs''
    refine ⟨pairs, nbrs, hres, ?_⟩
    intro A B boxA boxB p q hA hB hp hq hx0 hxl hrow
    obtain ⟨N0, N1, hN, p0, p1, hnum, hfit, hlow, hhigh, hmin, hmax, hbl⟩ :=
      grid_two s hgrid hdim
    rw [hN] at hx0 hxl hrow h3
    simp only [CalculateCoordinateIndices, List.getD_cons_zero, List.getD_cons_succ]
      at hx0 hxl hrow h3
    have hAB : A ≠ B := by
      rintro rfl
      omega
    obtain ⟨hnd, hdisj, hinj⟩ := boxes_disjoint s hnodup
    have hp' : p ∈ (boxAt s A).mNodesContained := by rw [boxAt, hA]; exact hp
    have hq' : q ∈ (boxAt s B).mNodesContained := by rw [boxAt, hB]; exact hq
    have hpq : p ≠ q := by
      rintro rfl
      exact hdisj A B p hAB hp' hq'
    obtain ⟨⟨hAn, hBn, hidx⟩, hc⟩ := hcount A B boxA boxB p q hA hB hp hq hpq
    rw [hc, hN, hnum]
    rw [hnum] at hAn hBn
    obtain ⟨hAx, hAy⟩ := div_lt_of_lt_mul2 N0 N1 A hAn
    obtain ⟨hBx, hBy⟩ := div_lt_of_lt_mul2 N0 N1 B hBn
    have k1 := half2_coord s.mIsPeriodicInX N0 N1 (A % N0) (A / N0) (B % N0) (B / N0)
      hAx hAy hBx hBy hfit
    have k2 := half2_coord s.mIsPeriodicInX N0 N1 (B % N0) (B / N0) (A % N0) (A / N0)
      hBx hBy hAx hAy hfit
    rw [Nat.div_add_mod A N0, Nat.div_add_mod B N0] at k1 k2
    have hBA : ¬ B = A := fun h => hAB h.symm
    simp only [k1, k2, hAB, hBA, false_implies, and_true]
    cases s.mIsPeriodicInX
    · simp only [Bool.false_eq_true, false_and, false_or, if_false]
      split_ifs <;> omega
    · simp only [true_and, if_true]
      split_ifs <;> omega
  · refine ⟨_, SetupLocalBoxesHalfOnly_two (wideGrid true) rfl rfl, fun fuel hfuel => ?_⟩
    obtain ⟨nbrs, hres⟩ := wideGrid_pairs true fuel hfuel
    refine ⟨_, nbrs, hres, ?_⟩
    have h0 : (SetupLocalBoxesHalfOnly.case2 [3, 2] 0 true 6 0).sort (· ≤ ·) = [0, 1, 3, 4, 5] :=
      sort_eq_of_sorted _ _ (by decide) (by decide) (by decide)
    have h1 : (SetupLocalBoxesHalfOnly.case2 [3, 2] 0 true 6 1).sort (· ≤ ·) = [1, 2, 3, 4, 5] :=
      sort_eq_of_sorted _ _ (by decide) (by decide) (by decide)
    have h2 : (SetupLocalBoxesHalfOnly.case2 [3, 2] 0 true 6 2).sort (· ≤ ·) = [0, 2, 3, 4, 5] :=
      sort_eq_of_sorted _ _ (by decide) (by decide) (by decide)
    have h3 : (SetupLocalBoxesHalfOnly.case2 [3, 2] 0 true 6 3).sort (· ≤ ·) = [3, 4] :=
      sort_eq_of_sorted _ _ (by decide) (by decide) (by decide)
    have h4 : (SetupLocalBoxesHalfOnly.case2 [3, 2] 0 true 6 4).sort (· ≤ ·) = [4, 5] :=
      sort_eq_of_sorted _ _ (by decide) (by decide) (by decide)
    have h5 : (SetupLocalBoxesHalfOnly.case2 [3, 2] 0 true 6 5).sort (· ≤ ·) = [3, 5] :=
      sort_eq_of_sorted _ _ (by decide) (by decide) (by decide)
    have hr : List.range 6 = [0, 1, 2, 3, 4, 5] := by decide
    simp only [allPairs, hr, List.flatMap_cons, List.flatMap_nil, h0, h1, h2, h3, h4, h5]
    decide
  · refine ⟨_, SetupLocalBoxesHalfOnly_two (wideGrid false) rfl rfl, fun fuel hfuel => ?_⟩
    obtain ⟨nbrs, hres⟩ := wideGrid_pairs false fuel hfuel
    refine ⟨_, nbrs, hres, ?_⟩
    have h0 : (SetupLocalBoxesHalfOnly.case2 [3, 2] 0 false 6 0).sort (· ≤ ·) = [0, 1, 3, 4] :=
      sort_eq_of_sorted _ _ (by decide) (by decide) (by decide)
    have h1 : (SetupLocalBoxesHalfOnly.case2 [3, 2] 0 false 6 1).sort (· ≤ ·)
        = [1, 2, 3, 4, 5] :=
      sort_eq_of_sorted _ _ (by decide) (by decide) (by decide)
    have h2 : (SetupLocalBoxesHalfOnly.case2 [3, 2] 0 false 6 2).sort (· ≤ ·) = [2, 4, 5] :=
      sort_eq_of_sorted _ _ (by decide) (by decide) (by decide)
    have h3 : (SetupLocalBoxesHalfOnly.case2 [3, 2] 0 false 6 3).sort (· ≤ ·) = [3, 4] :=
      sort_eq_of_sorted _ _ (by decide) (by decide) (by decide)
    have h4 : (SetupLocalBoxesHalfOnly.case2 [3, 2] 0 false 6 4).sort (· ≤ ·) = [4, 5] :=
      sort_eq_of_sorted _ _ (by decide) (by decide) (by decide)
    have h5 : (SetupLocalBoxesHalfOnly.case2 [3, 2] 0 false 6 5).sort (· ≤ ·) = [5] :=
      sort_eq_of_sorted _ _ (by decide) (by decide) (by decide)
    have hr : List.range 6 = [0, 1, 2, 3, 4, 5] := by decide
    simp only [allPairs, hr, List.flatMap_cons, List.flatMap_nil, h0, h1, h2, h3, h4, h5]
    have e : ∀ l : List (Node × Node), l.map (fun pr => (pr.1.index, pr.2.index)) = [] →
        l = [] := fun l h => List.map_eq_nil_iff.1 h
    apply e
    decide

theorem CalculateNodePairs_periodic_wrap_witness :
    SingleProcessGrid (wideGrid true) ∧
    ∃ s', SetupLocalBoxesHalfOnly (wideGrid true) = .ok s' ∧ ∃ fuel0, ∀ fuel, fuel0 ≤ fuel →
      ∃ pairs nbrs, CalculateNodePairs s' fuel wideNodes = .ok (pairs, nbrs) ∧
        ∀ A B boxA boxB p q, (wideGrid true).mBoxes.get? A = some boxA →
          (wideGrid true).mBoxes.get? B = some boxB →
          p ∈ boxA.mNodesContained → q ∈ boxB.mNodesContained →
          (CalculateCoordinateIndices .two (wideGrid true).mNumBoxesEachDirection A).getD 0 0
            = 0 →
          (CalculateCoordinateIndices .two (wideGrid true).mNumBoxesEachDirection B).getD 0 0
            + 1 = (wideGrid true).mNumBoxesEachDirection.getD 0 0 →
          (CalculateCoordinateIndices .two (wideGrid true).mNumBoxesEachDirection A).getD 1 0
            = (CalculateCoordinateIndices .two (wideGrid true).mNumBoxesEachDirection
                B).getD 1 0 →
          (pairs.filter (fun pr => decide (pr = (p, q) ∨ pr = (q, p)))).length
            = if (wideGrid true).mIsPeriodicInX then 1 else 0 :=
  ⟨by decide, CalculateNodePairs_periodic_wrap.1 (wideGrid true) wideNodes (by decide) rfl rfl
    (by norm_num [wideGrid]) (by decide) (by decide) (wideNodes_placed true)⟩

theorem floorIndex_nearUpperEnd : floorIndex twoUnitBoxes nearUpperEnd 0 = 2 := by
  apply floorIndex_eq <;> norm_num [twoUnitBoxes, nearUpperEnd, mFudge]

theorem squareGrid_centre :
    ∃ s', SetupLocalBoxesHalfOnly squareGrid = .ok s'
      ∧ GetLocalBoxes s' 4 = .ok (SetupLocalBoxesHalfOnly.case2 [3, 3] 0 false 9 4) :=
  ⟨_, SetupLocalBoxesHalfOnly_two squareGrid rfl rfl,
    GetLocalBoxes_map _ _ 4 rfl (Nat.zero_le _) (by show 4 ≤ 8; omega)
      (by show 8 + 1 < 4294967296; omega)⟩

theorem lineGridHalf_returns :
    ∃ r, CalculateNodePairs lineGridHalf 3 lineNodes = .ok r := by
  have hsetup : SetupLocalBoxesHalfOnly lineGrid = .ok lineGridHalf :=
    SetupLocalBoxesHalfOnly_one lineGrid rfl rfl
  obtain ⟨f1, f2, f3, f4, f5, f6, f7, f8, f9⟩ := SetupLocalBoxesHalfOnly_fields _ _ hsetup
  have hloc := containingBox_after_setup lineGrid lineGridHalf lineNodes (by decide)
    ⟨f5, f6, f7, f8, f9⟩ (by norm_num [lineGrid]) lineNodes_placed 3 (Nat.le_refl _)
  obtain ⟨nbrs, hres⟩ := CalculateNodePairs_allPairs lineGridHalf
    (fun A => SetupLocalBoxesHalfOnly.case1 [3] 0 A) 3 3 lineNodes rfl rfl rfl rfl
    (fun A hA => GetLocalBoxes_map _ _ A rfl (Nat.zero_le _)
      (by show A ≤ 2; omega) (by decide))
    (fun A hA b hb => half1_lt 3 A b hA (by decide) hb) hloc
  exact ⟨_, hres⟩

/-- C11 fails in the code: the point `2 - 2.5e-14` passes the domain test of two unit boxes on
`[0, 2]`, the scan of `CalculateContainingBox` stops at the coordinate 2, which is the number
of boxes and not the last coordinate 1, and the assertion that the index is below the number
of boxes fails. -/
theorem CalculateContainingBox_assertion_fails :
    ((0 : ℚ) < twoUnitBoxes.mBoxWidth
      ∧ twoUnitBoxes.mDomainSize.getD 0 0 ≤ nearUpperEnd.getD 0 0
      ∧ nearUpperEnd.getD 0 0 < twoUnitBoxes.mDomainSize.getD 1 0
      ∧ twoUnitBoxes.mNumBoxesEachDirection = [2] ∧ twoUnitBoxes.mNumBoxes = 2)
    ∧ ∀ fuel, 3 ≤ fuel →
      scanAxis fuel twoUnitBoxes.mBoxWidth (nearUpperEnd.getD 0 0)
          (twoUnitBoxes.mDomainSize.getD 0 0) 0 = some 2
      ∧ CalculateContainingBox twoUnitBoxes fuel nearUpperEnd = .error .assertion := by
  refine ⟨by norm_num [twoUnitBoxes, nearUpperEnd], fun fuel hfuel => ?_⟩
  have h := CalculateContainingBox_floor twoUnitBoxes nearUpperEnd
    (by norm_num [twoUnitBoxes])
    (by
      intro i hi
      have : i = 0 := by simp only [twoUnitBoxes, Dim.toNat] at hi; omega
      subst this
      norm_num [twoUnitBoxes, nearUpperEnd])
    (by
      intro i hi
      have : i = 0 := by simp only [twoUnitBoxes, Dim.toNat] at hi; omega
      subst this
      rw [floorIndex_nearUpperEnd]; decide)
    fuel (by
      intro i hi
      have : i = 0 := by simp only [twoUnitBoxes, Dim.toNat] at hi; omega
      subst this
      rw [floorIndex_nearUpperEnd]; omega)
  constructor
  · have h0 := h.1 0 (by decide)
    rw [floorIndex_nearUpperEnd] at h0
    exact h0
  · rw [h.2]
    have e : (List.range twoUnitBoxes.DIM.toNat).map (floorIndex twoUnitBoxes nearUpperEnd)
        = [2] := by
      show [floorIndex twoUnitBoxes nearUpperEnd 0] = [2]
      rw [floorIndex_nearUpperEnd]
    rw [e]
    rfl

/-- C12 fails in the code: on rank 0 of two processes owning the rows `[0, 3)` of a
one-dimensional collection, the owned box 1 lies neither in the bottom owned row `[0, 1)` nor
in the top owned row `[2, 3)`, and `IsInteriorBox` returns false for it. -/
theorem IsInteriorBox_row_below_top :
    threeRows.numProcs = 2
    ∧ threeRows.mMinBoxIndex = threeRows.low * threeRows.mNumBoxesInAFace
    ∧ threeRows.mMaxBoxIndex = threeRows.high * threeRows.mNumBoxesInAFace - 1
    ∧ GetBoxOwnership threeRows 1 = true
    ∧ ¬ (threeRows.low * threeRows.mNumBoxesInAFace ≤ 1
        ∧ 1 < (threeRows.low + 1) * threeRows.mNumBoxesInAFace)
    ∧ ¬ ((threeRows.high - 1) * threeRows.mNumBoxesInAFace ≤ 1
        ∧ 1 < threeRows.high * threeRows.mNumBoxesInAFace)
    ∧ IsInteriorBox threeRows 1 = false := by
  decide

/-- C15 fails as stated: for the 3 by 3 grid of unit boxes on one process, not periodic, the
stencil that `SetupLocalBoxesHalfOnly` builds for the centre box 4 is not `{4, 5, 7, 8}`. -/
theorem SetupLocalBoxesHalfOnly_centre_not_four :
    ∃ s' st, SetupLocalBoxesHalfOnly squareGrid = .ok s' ∧ GetLocalBoxes s' 4 = .ok st
      ∧ st ≠ {4, 5, 7, 8} := by
  obtain ⟨s', h1, h2⟩ := squareGrid_centre
  exact ⟨s', _, h1, h2, by decide⟩

/-- C15 (as amended): for the 3 by 3 grid of unit boxes on `[0, 3] x [0, 3]` on one process,
not periodic, the stencil that `SetupLocalBoxesHalfOnly` builds for the centre box 4 is
`{4, 5, 6, 7, 8}`: the box itself, its right neighbour and the three boxes of the row above. -/
theorem SetupLocalBoxesHalfOnly_centre :
    ∃ s', SetupLocalBoxesHalfOnly squareGrid = .ok s'
      ∧ GetLocalBoxes s' 4 = .ok {4, 5, 6, 7, 8} := by
  obtain ⟨s', h1, h2⟩ := squareGrid_centre
  refine ⟨s', h1, ?_⟩
  rw [h2]
  congr 1
  decide

theorem CalculateNodePairs_neighbours_witness :
    ∃ r, lineGridHalf.mCalculateNodeNeighbours = true
      ∧ CalculateNodePairs lineGridHalf 3 lineNodes = .ok r
      ∧ (∀ i j, j ∈ (r.2 i).getD ∅ ↔ ∃ pr, pr ∈ r.1 ∧
          ((pr.1.index = i ∧ pr.2.index = j) ∨ (pr.2.index = i ∧ pr.1.index = j)))
      ∧ (∀ i j, j ∈ (r.2 i).getD ∅ → i ∈ (r.2 j).getD ∅)
      ∧ ((∀ A box st B nb p q, A ∈ ownedBoxes lineGridHalf → rGetBox lineGridHalf A = .ok box →
            GetLocalBoxes lineGridHalf A = .ok st → B ∈ st → B ≠ A →
            neighbourBox lineGridHalf B = .ok nb →
            p ∈ box.mNodesContained → q ∈ nb.mNodesContained → p.index ≠ q.index) →
          ∀ i, i ∉ (r.2 i).getD ∅) :=
  lineGridHalf_returns.elim fun r h =>
    ⟨r, rfl, h, CalculateNodePairs_neighbours lineGridHalf 3 lineNodes r rfl h⟩

theorem CalculateInteriorNodePairs_then_Boundary_witness :
    lineGridHalf.numProcs = 1
      ∧ CalculateInteriorNodePairs lineGridHalf 3 lineNodes ([], fun _ => none)
          = CalculateNodePairs lineGridHalf 3 lineNodes :=
  ⟨rfl, (CalculateInteriorNodePairs_then_Boundary lineGridHalf 3 lineNodes
    ([], fun _ => none)).2.2.2 rfl⟩

theorem CalculateBoundaryNodePairs_then_Interior_witness :
    lineGridHalf.numProcs = 1
      ∧ (CalculateBoundaryNodePairs lineGridHalf lineNodes ([], fun _ => none)
            >>= CalculateInteriorNodePairs lineGridHalf 3 lineNodes)
          = (CalculateInteriorNodePairs lineGridHalf 3 lineNodes ([], fun _ => none)
              >>= CalculateBoundaryNodePairs lineGridHalf lineNodes) :=
  ⟨rfl, (CalculateBoundaryNodePairs_then_Interior lineGridHalf 3 lineNodes
    ([], fun _ => none)).2 rfl⟩

theorem containingBox_two (s : DistributedBoxCollection) (rLocation : List ℚ) (k0 k1 : Nat)
    (hdim : s.DIM = .two) (hw : 0 < s.mBoxWidth)
    (hin : ∀ i, i < 2 → s.mDomainSize.getD (2 * i) 0 ≤ rLocation.getD i 0
      ∧ rLocation.getD i 0 < s.mDomainSize.getD (2 * i + 1) 0)
    (h0 : floorIndex s rLocation 0 = k0) (h1 : floorIndex s rLocation 1 = k1)
    (hk0 : k0 < 4294967296) (hk1 : k1 < 4294967296)
    (fuel : Nat) (hf0 : k0 < fuel) (hf1 : k1 < fuel) :
    CalculateContainingBox s fuel rLocation
      = (if CalculateGlobalIndex .two s.mNumBoxesEachDirection [k0, k1] < s.mNumBoxes then
          .ok (CalculateGlobalIndex .two s.mNumBoxesEachDirection [k0, k1])
        else .error .assertion) := by
  have hall : ∀ (P : Nat → Prop), P 0 → P 1 → ∀ i, i < s.DIM.toNat → P i := by
    intro P p0 p1 i hi
    rw [hdim] at hi
    have : i = 0 ∨ i = 1 := by simp only [Dim.toNat] at hi; omega
    rcases this with rfl | rfl
    · exact p0
    · exact p1
  have h := (CalculateContainingBox_floor s rLocation hw
    (hall _ (hin 0 (by decide)) (hin 1 (by decide)))
    (hall _ (by rw [h0]; exact hk0) (by rw [h1]; exact hk1))
    fuel (hall _ (by rw [h0]; exact hf0) (by rw [h1]; exact hf1))).2
  rw [h]
  have e : (List.range s.DIM.toNat).map (floorIndex s rLocation) = [k0, k1] := by
    rw [hdim]
    show [floorIndex s rLocation 0, floorIndex s rLocation 1] = [k0, k1]
    rw [h0, h1]
  rw [e, hdim]

theorem edgeNodes_box (fuel : Nat) (hfuel : 4 ≤ fuel) :
    ∀ node, node ∈ edgeNodes → CalculateContainingBox edgeGridHalf fuel node.location = .ok 3 := by
  intro node hnode
  simp only [edgeNodes, List.mem_cons, List.mem_singleton, List.not_mem_nil, or_false] at hnode
  rcases hnode with rfl | rfl
  · rw [containingBox_two edgeGridHalf _ 3 0 rfl (by norm_num [edgeGridHalf, edgeGrid])
      (by
        intro i hi
        have : i = 0 ∨ i = 1 := by omega
        rcases this with rfl | rfl <;> norm_num [edgeGridHalf, edgeGrid])
      (by apply floorIndex_eq <;> norm_num [edgeGridHalf, edgeGrid, mFudge])
      (by apply floorIndex_eq <;> norm_num [edgeGridHalf, edgeGrid, mFudge])
      (by decide) (by decide) fuel (by omega) (by omega)]
    rfl
  · rw [containingBox_two edgeGridHalf _ 0 1 rfl (by norm_num [edgeGridHalf, edgeGrid])
      (by
        intro i hi
        have : i = 0 ∨ i = 1 := by omega
        rcases this with rfl | rfl <;> norm_num [edgeGridHalf, edgeGrid])
      (by apply floorIndex_eq <;> norm_num [edgeGridHalf, edgeGrid, mFudge])
      (by apply floorIndex_eq <;> norm_num [edgeGridHalf, edgeGrid, mFudge])
      (by decide) (by decide) fuel (by omega) (by omega)]
    rfl

/-- C17 fails in the code: on the 3 by 2 grid of unit boxes on `[0, 3] x [0, 2]`, not
periodic, `CalculateContainingBox` returns box 3 both for `(3 - 2.5e-14, 0.5)` and for
`(0.5, 1.5)`; with both nodes stored in box 3, `CalculateNodePairs` emits them as a pair, and
their x coordinates differ by more than twice the box width. -/
theorem CalculateNodePairs_distant_pair :
    ((0 : ℚ) < edgeGrid.mBoxWidth ∧ edgeGrid.mIsPeriodicInX = false)
    ∧ SetupLocalBoxesHalfOnly edgeGrid = .ok edgeGridHalf
    ∧ rGetBox edgeGridHalf 3 = .ok ⟨edgeNodes⟩
    ∧ ∀ fuel, 4 ≤ fuel →
      (∀ node, node ∈ edgeNodes →
        CalculateContainingBox edgeGridHalf fuel node.location = .ok 3)
      ∧ ∃ pairs nbrs p q, CalculateNodePairs edgeGridHalf fuel edgeNodes = .ok (pairs, nbrs)
          ∧ (p, q) ∈ pairs
          ∧ ¬ (|p.location.getD 0 0 - q.location.getD 0 0| < 2 * edgeGrid.mBoxWidth) := by
  refine ⟨by norm_num [edgeGrid], SetupLocalBoxesHalfOnly_two edgeGrid rfl rfl, rfl,
    fun fuel hfuel => ⟨edgeNodes_box fuel hfuel, ?_⟩⟩
  obtain ⟨nbrs, hres⟩ := CalculateNodePairs_allPairs edgeGridHalf
    (fun A => SetupLocalBoxesHalfOnly.case2 [3, 2] 0 false 6 A) 6 fuel edgeNodes
    rfl rfl rfl rfl
    (fun A hA => GetLocalBoxes_map _ _ A rfl (Nat.zero_le _)
      (by show A ≤ 5; omega) (by show 5 + 1 < 4294967296; omega))
    (fun A hA b hb => by
      obtain ⟨x, y, hx, hy, rfl⟩ := split2 3 2 A hA
      exact half2_lt false 3 2 x y b hx hy (by decide) hb)
    (fun node hnode => ⟨3, edgeNodes_box fuel hfuel node hnode⟩)
  refine ⟨_, nbrs, ⟨0, [2999999999999975 / 1000000000000000, 1 / 2]⟩, ⟨1, [1 / 2, 3 / 2]⟩,
    hres, ?_, ?_⟩
  · rw [mem_allPairs]
    refine ⟨3, by omega, 3, by decide, ?_, ?_, fun _ => by decide⟩
    · show _ ∈ [_, _]
      simp
    · show _ ∈ [_, _]
      simp
  · rw [abs_lt]
    norm_num [edgeGrid]

theorem lowerNodes_box (fuel : Nat) (hfuel : 1 ≤ fuel) :
    ∀ node, node ∈ lowerNodes →
      ∃ g, CalculateContainingBox lowerRankHalf fuel node.location = .ok g := by
  intro node hnode
  have hi0 : ∀ (P : Nat → Prop), P 0 → ∀ i, i < lowerRankHalf.DIM.toNat → P i := by
    intro P p0 i hi
    have : i = 0 := by simp only [lowerRankHalf, lowerRank, Dim.toNat] at hi; omega
    subst this
    exact p0
  have hfl : floorIndex lowerRankHalf node.location 0 = 0 := by
    simp only [lowerNodes, List.mem_cons, List.mem_singleton, List.not_mem_nil, or_false]
      at hnode
    rcases hnode with rfl | rfl <;>
      (apply floorIndex_eq <;> norm_num [lowerRankHalf, lowerRank, mFudge])
  have hin : lowerRankHalf.mDomainSize.getD (2 * 0) 0 ≤ node.location.getD 0 0
      ∧ node.location.getD 0 0 < lowerRankHalf.mDomainSize.getD (2 * 0 + 1) 0 := by
    simp only [lowerNodes, List.mem_cons, List.mem_singleton, List.not_mem_nil, or_false]
      at hnode
    rcases hnode with rfl | rfl <;> norm_num [lowerRankHalf, lowerRank]
  have h := (CalculateContainingBox_floor lowerRankHalf node.location
    (by norm_num [lowerRankHalf, lowerRank]) (hi0 _ hin)
    (hi0 _ (by rw [hfl]; decide)) fuel (hi0 _ (by rw [hfl]; omega))).2
  have e : (List.range lowerRankHalf.DIM.toNat).map (floorIndex lowerRankHalf node.location)
      = [0] := by
    show [floorIndex lowerRankHalf node.location 0] = [0]
    rw [hfl]
  rw [e] at h
  exact ⟨0, h⟩

theorem lowerRankHalf_boxPairs :
    boxPairs lowerRankHalf 0 = .ok [(⟨0, [1 / 4]⟩, ⟨1, [3 / 4]⟩)] := by
  have h1 : rGetBox lowerRankHalf 0 = .ok ⟨[⟨0, [1 / 4]⟩, ⟨1, [3 / 4]⟩]⟩ := rfl
  have h2 : GetLocalBoxes lowerRankHalf 0 = .ok (SetupLocalBoxesHalfOnly.case1 [2] 0 0) := rfl
  have h3 : (SetupLocalBoxesHalfOnly.case1 [2] 0 0).sort (· ≤ ·) = [0, 1] :=
    sort_eq_of_sorted _ _ (by decide) (by decide) (by decide)
  have h4 : neighbourBox lowerRankHalf 0 = .ok ⟨[⟨0, [1 / 4]⟩, ⟨1, [3 / 4]⟩]⟩ := rfl
  have h5 : neighbourBox lowerRankHalf 1 = .ok {} := rfl
  simp only [boxPairs, h1, h2, h3, List.mapM_cons, List.mapM_nil, h4, h5, bind, Except.bind,
    pure, Except.pure, pairsOfBoxes, List.flatMap_cons, List.flatMap_nil, List.flatten]
  rfl

/-- C14 fails as stated: on rank 0 of two processes owning box 0 of two unit boxes, with the
nodes at 0.25 and 0.75 in box 0, `CalculateInteriorNodePairs` followed by
`CalculateBoundaryNodePairs` leaves the pair of the two nodes after whatever the containers held
is cleared, while `CalculateBoundaryNodePairs` followed by `CalculateInteriorNodePairs` leaves
no pair. -/
theorem CalculateBoundaryNodePairs_then_Interior_differs :
    SetupLocalBoxesHalfOnly lowerRank = .ok lowerRankHalf
    ∧ ∀ fuel, 1 ≤ fuel → ∀ out, ∃ r1 r2,
      (CalculateBoundaryNodePairs lowerRankHalf lowerNodes out
          >>= CalculateInteriorNodePairs lowerRankHalf fuel lowerNodes) = .ok r1
      ∧ (CalculateInteriorNodePairs lowerRankHalf fuel lowerNodes out
          >>= CalculateBoundaryNodePairs lowerRankHalf lowerNodes) = .ok r2
      ∧ r1.1 = [] ∧ r2.1 = [(⟨0, [1 / 4]⟩, ⟨1, [3 / 4]⟩)] := by
  refine ⟨SetupLocalBoxesHalfOnly_one lowerRank rfl rfl, fun fuel hfuel out => ?_⟩
  obtain ⟨nn, hnn⟩ : ∃ nn, initNeighbours lowerRankHalf fuel lowerNodes = .ok nn :=
    foldlM_exists_ok _ lowerNodes
      (fun node hnode m => by
        obtain ⟨g, hg⟩ := lowerNodes_box fuel hfuel node hnode
        refine ⟨if GetBoxOwnership lowerRankHalf g then Function.update m node.index (some ∅)
          else m, ?_⟩
        dsimp only
        rw [hg]
        rfl)
      (fun _ => none)
  have hI : ∀ out', CalculateInteriorNodePairs lowerRankHalf fuel lowerNodes out'
      = .ok ([], nn) := by
    intro out'
    rw [CalculateInteriorNodePairs_eq, hnn]
    have : (ownedBoxes lowerRankHalf).filter (IsInteriorBox lowerRankHalf) = [] := by decide
    simp only [this]
    rfl
  have hB : ∀ out', CalculateBoundaryNodePairs lowerRankHalf lowerNodes out'
      = .ok (recordPairs lowerRankHalf out' [(⟨0, [1 / 4]⟩, ⟨1, [3 / 4]⟩)]) := by
    intro out'
    rw [CalculateBoundaryNodePairs_eq]
    have : (ownedBoxes lowerRankHalf).filter (fun b => !IsInteriorBox lowerRankHalf b) = [0] := by
      decide
    rw [this, foldlM_AddPairsFromBox_ok lowerRankHalf [0]
      (fun b hb => by
        rw [List.mem_singleton] at hb
        subst hb
        exact ⟨_, lowerRankHalf_boxPairs⟩)]
    simp only [List.flatMap_cons, List.flatMap_nil, List.append_nil, boxPairsOr,
      lowerRankHalf_boxPairs]
  refine ⟨([], nn), recordPairs lowerRankHalf ([], nn) [(⟨0, [1 / 4]⟩, ⟨1, [3 / 4]⟩)],
    ?_, ?_, rfl, ?_⟩
  · rw [hB out]
    exact hI (recordPairs lowerRankHalf out [(⟨0, [1 / 4]⟩, ⟨1, [3 / 4]⟩)])
  · rw [hI out]
    exact hB ([], nn)
  · rw [recordPairs_fst]
    rfl

theorem boxPairs_SetCalculateNodeNeighbours (s : DistributedBoxCollection) (c : Bool) (b : Nat) :
    boxPairs (SetCalculateNodeNeighbours s c) b = boxPairs s b := rfl

theorem initNeighbours_SetCalculateNodeNeighbours (s : DistributedBoxCollection) (c : Bool)
    (fuel : Nat) (rNodes : List Node) :
    initNeighbours (SetCalculateNodeNeighbours s c) fuel rNodes = initNeighbours s fuel rNodes :=
  rfl

theorem foldlM_AddPairsFromBox_fst (s t : DistributedBoxCollection)
    (hbox : ∀ b, boxPairs s b = boxPairs t b) (l : List Nat) :
    ∀ out1 out2 : List (Node × Node) × NodeNeighbours, out1.1 = out2.1 →
      Except.map Prod.fst (l.foldlM (fun out b => AddPairsFromBox s b out) out1)
        = Except.map Prod.fst (l.foldlM (fun out b => AddPairsFromBox t b out) out2) := by
  induction l with
  | nil =>
    intro out1 out2 h
    show Except.ok out1.1 = Except.ok out2.1
    rw [h]
  | cons b l ih =>
    intro out1 out2 h
    rw [List.foldlM_cons, List.foldlM_cons, AddPairsFromBox_eq, AddPairsFromBox_eq, hbox b]
    cases boxPairs t b with
    | error e => rfl
    | ok L =>
      exact ih _ _ (by rw [recordPairs_fst, recordPairs_fst, h])

theorem foldlM_AddPairsFromBox_snd (s : DistributedBoxCollection)
    (hcalc : s.mCalculateNodeNeighbours = false) (l : List Nat) :
    ∀ out r : List (Node × Node) × NodeNeighbours,
      l.foldlM (fun out b => AddPairsFromBox s b out) out = .ok r → r.2 = out.2 := by
  induction l with
  | nil =>
    intro out r h
    cases h
    rfl
  | cons b l ih =>
    intro out r h
    rw [List.foldlM_cons, AddPairsFromBox_eq] at h
    cases hL : boxPairs s b with
    | error e => rw [hL] at h; cases h
    | ok L =>
      rw [hL] at h
      rw [ih _ r h, recordPairs_snd, hcalc]
      rfl

theorem ownedBoxes_SetCalculateNodeNeighbours (s : DistributedBoxCollection) (c : Bool) :
    ownedBoxes (SetCalculateNodeNeighbours s c) = ownedBoxes s := rfl

theorem foldlM_initNeighbours (s : DistributedBoxCollection) (fuel : Nat) (l : List Node) :
    ∀ m0 nn : NodeNeighbours,
      l.foldlM
        (fun (m : NodeNeighbours) node => do
          let box_index ← CalculateContainingBox s fuel node.location
          pure (if GetBoxOwnership s box_index then Function.update m node.index (some ∅)
            else m)) m0 = .ok nn →
      ∀ i, ((∃ node, node ∈ l ∧ node.index = i ∧ ∃ g,
            CalculateContainingBox s fuel node.location = .ok g ∧ GetBoxOwnership s g = true) →
          nn i = some ∅)
        ∧ ((¬ ∃ node, node ∈ l ∧ node.index = i ∧ ∃ g,
            CalculateContainingBox s fuel node.location = .ok g ∧ GetBoxOwnership s g = true) →
          nn i = m0 i) := by
  induction l with
  | nil =>
    intro m0 nn h i
    cases h
    constructor
    · rintro ⟨node, hn, -⟩
      cases hn
    · intro _
      rfl
  | cons a l ih =>
    intro m0 nn h i
    rw [List.foldlM_cons] at h
    cases hc : CalculateContainingBox s fuel a.location with
    | error e =>
      simp only [hc, bind, Except.bind] at h
      cases h
    | ok g =>
      simp only [hc, bind, Except.bind, pure, Except.pure] at h
      obtain ⟨ih1, ih2⟩ := ih _ nn h i
      by_cases hl : ∃ node, node ∈ l ∧ node.index = i ∧ ∃ g,
          CalculateContainingBox s fuel node.location = .ok g ∧ GetBoxOwnership s g = true
      · constructor
        · intro _
          exact ih1 hl
        · intro hne
          obtain ⟨node, hn, hrest⟩ := hl
          exact absurd ⟨node, List.mem_cons_of_mem _ hn, hrest⟩ hne
      · have hi := ih2 hl
        constructor
        · rintro ⟨node, hn, hidx, g', hg', ho⟩
          rcases List.mem_cons.1 hn with rfl | hn
          · rw [hc] at hg'
            cases hg'
            rw [hi, if_pos ho, ← hidx, Function.update_same]
          · exact absurd ⟨node, hn, hidx, g', hg', ho⟩ hl
        · intro hne
          rw [hi]
          by_cases ho : GetBoxOwnership s g = true
          · rw [if_pos ho, Function.update_noteq]
            intro h'
            exact hne ⟨a, List.mem_cons_self _ _, h'.symm, g, hc, ho⟩
          · rw [if_neg ho]

/-- C21: for every grid state, `CalculateNodePairs` gives the same list of pairs, or fails
alike, whether `SetCalculateNodeNeighbours` was given true or false; with false the returned
neighbour map is the one built by the first loop: an index is mapped to the empty set when it is
the index of a passed node whose containing box is owned, and is absent otherwise. -/
theorem CalculateNodePairs_SetCalculateNodeNeighbours (s : DistributedBoxCollection)
    (fuel : Nat) (rNodes : List Node) :
    Except.map Prod.fst (CalculateNodePairs (SetCalculateNodeNeighbours s true) fuel rNodes)
        = Except.map Prod.fst
            (CalculateNodePairs (SetCalculateNodeNeighbours s false) fuel rNodes)
    ∧ ∀ r, CalculateNodePairs (SetCalculateNodeNeighbours s false) fuel rNodes = .ok r →
        ∀ i, ((∃ node, node ∈ rNodes ∧ node.index = i ∧ ∃ g,
              CalculateContainingBox s fuel node.location = .ok g
                ∧ GetBoxOwnership s g = true) → r.2 i = some ∅)
          ∧ ((¬ ∃ node, node ∈ rNodes ∧ node.index = i ∧ ∃ g,
              CalculateContainingBox s fuel node.location = .ok g
                ∧ GetBoxOwnership s g = true) → r.2 i = none) := by
  constructor
  · rw [CalculateNodePairs_eq, CalculateNodePairs_eq, initNeighbours_SetCalculateNodeNeighbours,
      initNeighbours_SetCalculateNodeNeighbours, ownedBoxes_SetCalculateNodeNeighbours,
      ownedBoxes_SetCalculateNodeNeighbours]
    cases initNeighbours s fuel rNodes with
    | error e => rfl
    | ok nn =>
      exact foldlM_AddPairsFromBox_fst (SetCalculateNodeNeighbours s true)
        (SetCalculateNodeNeighbours s false)
        (fun b => (boxPairs_SetCalculateNodeNeighbours s true b).trans
          (boxPairs_SetCalculateNodeNeighbours s false b).symm)
        (ownedBoxes s) ([], nn) ([], nn) rfl
  · intro r hr i
    rw [CalculateNodePairs_eq, initNeighbours_SetCalculateNodeNeighbours,
      ownedBoxes_SetCalculateNodeNeighbours] at hr
    cases hinit : initNeighbours s fuel rNodes with
    | error e => rw [hinit] at hr; cases hr
    | ok nn =>
      rw [hinit] at hr
      rw [foldlM_AddPairsFromBox_snd (SetCalculateNodeNeighbours s false) rfl (ownedBoxes s)
        ([], nn) r hr]
      exact foldlM_initNeighbours s fuel rNodes (fun _ => none) nn hinit i

theorem half1_rows (N0 low x b : Nat) (hx : x < N0) (hfit : N0 < 4294967296) :
    b ∈ SetupLocalBoxesHalfOnly.case1 [N0] low x →
      b < N0 ∧ x ≤ b + 1 ∧ b < x + 2 := by
  have e1 : usub N0 1 = N0 - 1 := usub_eq _ _ (by omega) (by omega)
  have e8 : uadd x 1 = x + 1 := uadd_eq _ _ (by omega)
  have hl : x = 0 ↔ ¬ 0 < x := by omega
  have hr : x = N0 - 1 ↔ ¬ x + 1 < N0 := by omega
  have hx1 : x + 1 = N0 ↔ ¬ x + 1 < N0 := by omega
  rw [half1_struct]
  simp only [mem_condInsert, Finset.mem_insert, Finset.not_mem_empty, or_false,
    List.getD_cons_zero, e1, e8, Bool.and_eq_true, Bool.not_eq_true', and_assoc, beq_iff_eq,
    beq_eq_false_iff_ne, bne_iff_ne, ne_eq, hl, hr, hx1, not_not]
  clear e1 e8 hl hr hx1
  rintro (h | h | h)
  all_goals ((try simp only [uadd, usub, umul] at h); omega)

theorem full1_rows (N0 x b : Nat) (hx : x < N0) (hfit : N0 < 4294967296) :
    b ∈ SetupAllLocalBoxes.case1 [N0] x →
      b < N0 ∧ x ≤ b + 1 ∧ b < x + 2 := by
  have e1 : usub N0 1 = N0 - 1 := usub_eq _ _ (by omega) (by omega)
  have e8 : uadd x 1 = x + 1 := uadd_eq _ _ (by omega)
  have hl : x = 0 ↔ ¬ 0 < x := by omega
  have hr : x = N0 - 1 ↔ ¬ x + 1 < N0 := by omega
  have hx1 : x + 1 = N0 ↔ ¬ x + 1 < N0 := by omega
  rw [full1_struct]
  simp only [mem_condInsert, Finset.mem_insert, Finset.not_mem_empty, or_false,
    List.getD_cons_zero, e1, e8, Bool.and_eq_true, Bool.not_eq_true', and_assoc, beq_iff_eq,
    beq_eq_false_iff_ne, bne_iff_ne, ne_eq, hl, hr, hx1, not_not]
  clear e1 e8 hl hr hx1
  rintro (h | h | h)
  all_goals ((try simp only [uadd, usub, umul] at h); omega)

theorem half2_rows (N0 N1 low nl x y b : Nat) (hx : x < N0) (hy : y < N1)
    (hfit : N0 * N1 < 4294967296) :
    b ∈ SetupLocalBoxesHalfOnly.case2 [N0, N1] low false nl (N0 * y + x) →
      b < N0 * N1 ∧ N0 * y ≤ b + N0 ∧ b < N0 * y + 2 * N0 := by
  have hG : N0 * y + x < N0 * N1 := by
    have := mul_succ_le N0 y N1 hy
    omega
  have hN0 : N0 ≤ N0 * N1 := by
    have := mul_succ_le N0 y N1 hy
    omega
  have hN1 : N1 ≤ N0 * N1 := Nat.le_mul_of_pos_left _ (by omega)
  have hm := mul_add_mod_lt N0 y x hx
  have hd := mul_add_div_lt N0 y x hx
  have hmm : (N0 * y + x) % (N0 * N1) = N0 * y + x := Nat.mod_eq_of_lt hG
  have e1 : usub N0 1 = N0 - 1 := usub_eq _ _ (by omega) (by omega)
  have e2 : umul N0 N1 = N0 * N1 := umul_eq _ _ hfit
  have e3 : usub (N0 * N1) N0 = N0 * N1 - N0 := usub_eq _ _ hfit hN0
  have e4 : (N0 * N1 + 18446744073709551616 - N0) % 18446744073709551616 = N0 * N1 - N0 := by
    omega
  have e7 : usub N1 1 = N1 - 1 := usub_eq _ _ (by omega) (by omega)
  have e8 : uadd (N0 * y + x) 1 = N0 * y + x + 1 := uadd_eq _ _ (by omega)
  have e9 : umul (N1 - 1) N0 = N0 * N1 - N0 := by
    rw [umul_eq _ _ (by rw [pred_mul]; omega), pred_mul]
  have hl : x = 0 ↔ ¬ 0 < x := by omega
  have hr : x = N0 - 1 ↔ ¬ x + 1 < N0 := by omega
  have ht := flag_top N0 N1 x y hx hy
  have htg := flag_top_ge N0 N1 x y hx hy
  have hb := flag_bottom N0 x y hx
  have hbp : y = 0 ↔ ¬ 0 < y := by omega
  have hxm := flag_xmax N0 x y hx
  obtain ⟨r1, -, r3, -, r5⟩ := row_facts N0 y N1 hy
  rw [half2_struct]
  simp only [Bool.and_false, Bool.false_and, Bool.and_true, condInsert_false]
  simp only [mem_condInsert, Finset.mem_insert, Finset.not_mem_empty, or_false,
    List.getD_cons_zero, List.getD_cons_succ, CalculateCoordinateIndices, e1, e2, e3, e4, e7, e8,
    e9, hm, hd, hmm, Bool.and_eq_true, Bool.not_eq_true', and_assoc, beq_iff_eq,
    beq_eq_false_iff_ne, ne_eq, ge_iff_le, decide_eq_true_eq, decide_eq_false_iff_not, hl, hr, ht,
    htg, hb, hbp, hxm, not_not]
  clear e1 e2 e3 e4 e7 e8 e9 hm hd hmm hl hr ht htg hb hbp hxm
  rintro (h | h | h | h | h | h | h | h)
  all_goals ((try simp only [uadd, usub, umul] at h); omega)

theorem full2_rows (N0 N1 x y b : Nat) (hx : x < N0) (hy : y < N1)
    (hfit : N0 * N1 < 4294967296) :
    b ∈ SetupAllLocalBoxes.case2 [N0, N1] false (N0 * y + x) →
      b < N0 * N1 ∧ N0 * y ≤ b + N0 ∧ b < N0 * y + 2 * N0 := by
  have hG : N0 * y + x < N0 * N1 := by
    have := mul_succ_le N0 y N1 hy
    omega
  have hN0 : N0 ≤ N0 * N1 := by
    have := mul_succ_le N0 y N1 hy
    omega
  have hN1 : N1 ≤ N0 * N1 := Nat.le_mul_of_pos_left _ (by omega)
  have hm := mul_add_mod_lt N0 y x hx
  have hd := mul_add_div_lt N0 y x hx
  have hmm : (N0 * y + x) % (N0 * N1) = N0 * y + x := Nat.mod_eq_of_lt hG
  have e1 : usub N0 1 = N0 - 1 := usub_eq _ _ (by omega) (by omega)
  have e2 : umul N0 N1 = N0 * N1 := umul_eq _ _ hfit
  have e3 : usub (N0 * N1) N0 = N0 * N1 - N0 := usub_eq _ _ hfit hN0
  have e4 : (N0 * N1 + 18446744073709551616 - N0) % 18446744073709551616 = N0 * N1 - N0 := by
    omega
  have e7 : usub N1 1 = N1 - 1 := usub_eq _ _ (by omega) (by omega)
  have e8 : uadd (N0 * y + x) 1 = N0 * y + x + 1 := uadd_eq _ _ (by omega)
  have e9 : umul (N1 - 1) N0 = N0 * N1 - N0 := by
    rw [umul_eq _ _ (by rw [pred_mul]; omega), pred_mul]
  have hl : x = 0 ↔ ¬ 0 < x := by omega
  have hr : x = N0 - 1 ↔ ¬ x + 1 < N0 := by omega
  have ht := flag_top N0 N1 x y hx hy
  have htg := flag_top_ge N0 N1 x y hx hy
  have hb := flag_bottom N0 x y hx
  have hbp : y = 0 ↔ ¬ 0 < y := by omega
  have hxm := flag_xmax N0 x y hx
  obtain ⟨r1, -, r3, -, r5⟩ := row_facts N0 y N1 hy
  rw [full2_struct]
  simp only [Bool.and_false, Bool.false_and, Bool.and_true, condInsert_false]
  simp only [mem_condInsert, Finset.mem_insert, Finset.not_mem_empty, or_false,
    List.getD_cons_zero, List.getD_cons_succ, CalculateCoordinateIndices, e1, e2, e3, e4, e7, e8,
    e9, hm, hd, hmm, Bool.and_eq_true, Bool.not_eq_true', and_assoc, beq_iff_eq,
    beq_eq_false_iff_ne, ne_eq, ge_iff_le, decide_eq_true_eq, decide_eq_false_iff_not, hl, hr, ht,
    htg, hb, hbp, hxm, not_not]
  clear e1 e2 e3 e4 e7 e8 e9 hm hd hmm hl hr ht htg hb hbp hxm
  rintro (h | h | h | h | h | h | h | h | h)
  all_goals ((try simp only [uadd, usub, umul] at h); omega)

theorem half3_rows (N0 N1 N2 low high x y z b : Nat) (hx : x < N0) (hy : y < N1) (hz : z < N2)
    (hfit : N0 * N1 * N2 < 4294967296) :
    b ∈ SetupLocalBoxesHalfOnly.case3 [N0, N1, N2] low high (N0 * N1 * z + (N0 * y + x)) →
      b < N0 * N1 * N2 ∧ N0 * N1 * z ≤ b + N0 * N1 ∧ b < N0 * N1 * z + 2 * (N0 * N1) := by
  have hxy : N0 * y + x < N0 * N1 := by
    have := mul_succ_le N0 y N1 hy
    omega
  have hG : N0 * N1 * z + (N0 * y + x) < N0 * N1 * N2 := by
    have := mul_succ_le (N0 * N1) z N2 hz
    omega
  have hN0 : N0 ≤ N0 * N1 := by
    have := mul_succ_le N0 y N1 hy
    omega
  have hN01 : N0 * N1 ≤ N0 * N1 * N2 := by
    have := mul_succ_le (N0 * N1) z N2 hz
    omega
  have hN1 : N1 ≤ N0 * N1 := Nat.le_mul_of_pos_left _ (by omega)
  have hN2 : N2 ≤ N0 * N1 * N2 := Nat.le_mul_of_pos_left _ (by omega)
  have hm : (N0 * N1 * z + (N0 * y + x)) % N0 = x := by
    rw [Nat.mul_assoc, ← Nat.add_assoc, ← Nat.mul_add, mul_add_mod_lt _ _ _ hx]
  have hmxy : (N0 * N1 * z + (N0 * y + x)) % (N0 * N1) = N0 * y + x :=
    mul_add_mod_lt _ _ _ hxy
  have hdz : (N0 * N1 * z + (N0 * y + x)) / (N0 * N1) = z := mul_add_div_lt _ _ _ hxy
  have hc := coords_three N0 N1 N2 (N0 * N1 * z + (N0 * y + x)) (by omega) (by omega)
    (by omega) (by omega)
  have e1 : usub N0 1 = N0 - 1 := usub_eq _ _ (by omega) (by omega)
  have e2 : umul N0 N1 = N0 * N1 := umul_eq _ _ (by omega)
  have e2' : umul N1 N0 = N0 * N1 := by
    rw [Nat.mul_comm N0 N1]; exact umul_eq _ _ (by rw [Nat.mul_comm]; omega)
  have e3 : usub (N0 * N1) N0 = N0 * N1 - N0 := usub_eq _ _ (by omega) hN0
  have e4 : umul (N0 * N1) N2 = N0 * N1 * N2 := umul_eq _ _ hfit
  have e5 : usub (N0 * N1 * N2) (N0 * N1) = N0 * N1 * N2 - N0 * N1 := usub_eq _ _ hfit hN01
  have e6 : usub N2 1 = N2 - 1 := usub_eq _ _ (by omega) (by omega)
  have e7 : usub N1 1 = N1 - 1 := usub_eq _ _ (by omega) (by omega)
  have e8 : uadd (N0 * N1 * z + (N0 * y + x)) 1 = N0 * N1 * z + (N0 * y + x) + 1 :=
    uadd_eq _ _ (by omega)
  have e9 : umul (N1 - 1) N0 = N0 * N1 - N0 := by
    rw [umul_eq _ _ (by rw [pred_mul]; omega), pred_mul]
  have e10 : umul (N0 * N1) (N2 - 1) = N0 * N1 * N2 - N0 * N1 := by
    rw [umul_eq _ _ (by rw [Nat.mul_sub_one]; omega), Nat.mul_sub_one]
  have hl : x = 0 ↔ ¬ 0 < x := by omega
  have hr : x = N0 - 1 ↔ ¬ x + 1 < N0 := by omega
  have ht := flag_top N0 N1 x y hx hy
  have htg := flag_top_ge N0 N1 x y hx hy
  have hb := flag_bottom N0 x y hx
  have hf := flag_bottom (N0 * N1) (N0 * y + x) z hxy
  have hk := flag_top (N0 * N1) N2 (N0 * y + x) z hxy hz
  have hkg := flag_top_ge (N0 * N1) N2 (N0 * y + x) z hxy hz
  have hxm : (N0 * N1 * z + (N0 * y + x) + 1) % N0 = 0 ↔ ¬ x + 1 < N0 := by
    have := flag_xmax N0 x (N1 * z + y) hx
    rw [show N0 * N1 * z + (N0 * y + x) + 1 = N0 * (N1 * z + y) + x + 1 by ring]
    exact this
  have hpf : z = 0 ↔ ¬ 0 < z := by omega
  have hpb : z = N2 - 1 ↔ ¬ z + 1 < N2 := by omega
  obtain ⟨r1, -, r3, -, r5⟩ := row_facts N0 y N1 hy
  obtain ⟨s1, -, s3, -, s5⟩ := row_facts (N0 * N1) z N2 hz
  rw [half3_struct]
  simp only [mem_condInsert, Finset.mem_insert, Finset.not_mem_empty, or_false,
    List.getD_cons_zero, List.getD_cons_succ, hc, e1, e2, e2', e3, e4, e5, e6, e7, e8, e9, e10,
    hm, hmxy, hdz, Bool.and_eq_true, Bool.not_eq_true', and_assoc, beq_iff_eq,
    beq_eq_false_iff_ne, ne_eq, ge_iff_le, decide_eq_true_eq, decide_eq_false_iff_not, hl, hr, ht,
    htg, hb, hf, hk, hkg, hxm, hpf, hpb, not_not]
  clear hc e1 e2 e2' e3 e4 e5 e6 e7 e8 e9 e10 hm hmxy hdz hl hr ht htg hb hf hk hkg hxm hpf hpb
  rintro (h | h | h | h | h | h | h | h | h | h | h | h | h | h | h | h | h | h | h | h | h | h | h)
  all_goals ((try simp (disch := omega) only [uadd_usub_eq, usub_uadd_eq, uadd_eq, usub_eq,
    umul_eq] at h); (try simp only [uadd, usub, umul] at h); omega)

theorem full3_rows (N0 N1 N2 x y z b : Nat) (hx : x < N0) (hy : y < N1) (hz : z < N2)
    (hfit : N0 * N1 * N2 < 4294967296) :
    b ∈ SetupAllLocalBoxes.case3 [N0, N1, N2] (N0 * N1 * z + (N0 * y + x)) →
      b < N0 * N1 * N2 ∧ N0 * N1 * z ≤ b + N0 * N1 ∧ b < N0 * N1 * z + 2 * (N0 * N1) := by
  have hxy : N0 * y + x < N0 * N1 := by
    have := mul_succ_le N0 y N1 hy
    omega
  have hN0 : N0 ≤ N0 * N1 := by
    have := mul_succ_le N0 y N1 hy
    omega
  obtain ⟨r1, -, r3, -, r5⟩ := row_facts N0 y N1 hy
  obtain ⟨s1, -, s3, -, s5⟩ := row_facts (N0 * N1) z N2 hz
  rw [full3_flat N0 N1 N2 x y z b hx hy hz hfit]
  rintro (h | h | h | h | h | h | h | h | h | h | h | h | h | h | h | h | h | h | h | h | h | h | h | h | h | h | h)
  all_goals omega

theorem lookup_cons_eq (g k v : Nat) (m : List (Nat × Nat)) :
    List.lookup g ((k, v) :: m) = if g = k then some v else List.lookup g m := by
  by_cases h : g = k
  · subst h
    simp [List.lookup]
  · have : (g == k) = false := by simpa using h
    simp [List.lookup, this, h]

theorem lookup_mapAssign (m : List (Nat × Nat)) (key value g : Nat) :
    (mapAssign m key value).lookup g = if g = key then some value else m.lookup g := by
  induction m with
  | nil =>
    simp only [mapAssign, lookup_cons_eq, List.lookup_nil]
  | cons kv m ih =>
    obtain ⟨k, v⟩ := kv
    simp only [mapAssign]
    by_cases h1 : key < k
    · simp only [h1, if_true, lookup_cons_eq]
    · by_cases h2 : key = k
      · subst h2
        simp only [h1, if_false, if_true, lookup_cons_eq]
        by_cases h : g = key
        · simp only [h, if_true]
        · simp only [h, if_false]
      · simp only [h1, h2, if_false, lookup_cons_eq, ih]
        by_cases h : g = key
        · have : ¬ g = k := by omega
          simp only [h, if_true, h2, if_false]
        · simp only [h, if_false]

theorem lookup_foldl_mapAssign (c v0 : Nat) (m0 : List (Nat × Nat)) (g : Nat) :
    ∀ k, ((List.range k).foldl (fun m i => mapAssign m (c + i) (v0 + i)) m0).lookup g
      = if c ≤ g ∧ g < c + k then some (v0 + (g - c)) else m0.lookup g := by
  intro k
  induction k with
  | zero =>
    have : ¬ (c ≤ g ∧ g < c + 0) := by omega
    simp only [List.range_zero, List.foldl_nil, if_neg this]
  | succ k ih =>
    rw [List.range_succ, List.foldl_append, List.foldl_cons, List.foldl_nil, lookup_mapAssign, ih]
    by_cases h : g = c + k
    · have h2 : c ≤ g ∧ g < c + (k + 1) := by omega
      have h3 : g - c = k := by omega
      rw [if_pos h, if_pos h2, h3]
    · rw [if_neg h]
      by_cases h1 : c ≤ g ∧ g < c + k
      · have h2 : c ≤ g ∧ g < c + (k + 1) := by omega
        rw [if_pos h1, if_pos h2]
      · have h2 : ¬ (c ≤ g ∧ g < c + (k + 1)) := by omega
        rw [if_neg h1, if_neg h2]

/-- The first loop of `SetupHaloBoxes` in closed form, when the indices do not wrap. -/
theorem foldl_right (Hi : Nat) (s : DistributedBoxCollection) (hHi : 1 ≤ Hi)
    (hfit : (Hi + 1) * s.mNumBoxesInAFace < 4294967296) :
    ∀ k, k ≤ s.mNumBoxesInAFace →
      (List.range k).foldl (SetupHaloBoxes.right Hi) s
        = { s with
            mHaloBoxes := s.mHaloBoxes ++ List.replicate k ({} : Box)
            mHaloBoxesMapping := (List.range k).foldl
              (fun m i => mapAssign m (Hi * s.mNumBoxesInAFace + i) (s.mHaloBoxes.length + i))
              s.mHaloBoxesMapping
            mHalosRight := s.mHalosRight
              ++ (List.range k).map (fun i => Hi * s.mNumBoxesInAFace + i - s.mNumBoxesInAFace) } := by
  intro k
  induction k with
  | zero =>
    intro _
    simp
  | succ k ih =>
    intro hk
    have hmul : umul Hi s.mNumBoxesInAFace = Hi * s.mNumBoxesInAFace :=
      umul_eq _ _ (by rw [Nat.add_mul] at hfit; omega)
    have hadd : uadd (Hi * s.mNumBoxesInAFace) k = Hi * s.mNumBoxesInAFace + k :=
      uadd_eq _ _ (by rw [Nat.add_mul] at hfit; omega)
    rw [List.range_succ, List.foldl_append, ih (by omega), List.foldl_cons, List.foldl_nil]
    simp only [SetupHaloBoxes.right, SetupHaloBoxes.addHaloBox, hmul, hadd, List.foldl_append,
      List.foldl_cons, List.foldl_nil, List.map_append, List.map_cons, List.map_nil,
      List.length_append, List.length_replicate, List.length_cons, List.length_nil,
      List.replicate_succ', List.append_assoc, Nat.add_sub_cancel, Nat.zero_add]
    have hle : s.mNumBoxesInAFace ≤ Hi * s.mNumBoxesInAFace :=
      Nat.le_mul_of_pos_left _ hHi
    rw [usub_eq _ _ (by rw [Nat.add_mul] at hfit; omega) (by omega)]
    rfl

/-- The second loop of `SetupHaloBoxes` in closed form, when the indices do not wrap. -/
theorem foldl_left (Lo : Nat) (s : DistributedBoxCollection) (hLo : 1 ≤ Lo)
    (hbpf : 1 ≤ s.mNumBoxesInAFace)
    (hfit : (Lo + 1) * s.mNumBoxesInAFace < 4294967296) :
    ∀ k, k ≤ s.mNumBoxesInAFace →
      (List.range k).foldl (SetupHaloBoxes.left Lo) s
        = { s with
            mHaloBoxes := s.mHaloBoxes ++ List.replicate k ({} : Box)
            mHaloBoxesMapping := (List.range k).foldl
              (fun m i => mapAssign m ((Lo - 1) * s.mNumBoxesInAFace + i)
                (s.mHaloBoxes.length + i))
              s.mHaloBoxesMapping
            mHalosLeft := s.mHalosLeft
              ++ (List.range k).map
                (fun i => (Lo - 1) * s.mNumBoxesInAFace + i + s.mNumBoxesInAFace) } := by
  intro k
  have hsub : usub Lo 1 = Lo - 1 :=
    usub_eq _ _ (by
      have := Nat.le_mul_of_pos_right (Lo + 1) (show 0 < s.mNumBoxesInAFace by omega)
      omega) hLo
  induction k with
  | zero =>
    intro _
    simp
  | succ k ih =>
    intro hk
    have hb : (Lo - 1) * s.mNumBoxesInAFace + s.mNumBoxesInAFace
        = Lo * s.mNumBoxesInAFace := by
      obtain ⟨n, rfl⟩ : ∃ n, Lo = n + 1 := ⟨Lo - 1, by omega⟩
      rw [Nat.add_sub_cancel, Nat.add_mul, Nat.one_mul]
    have hb2 : Lo * s.mNumBoxesInAFace + s.mNumBoxesInAFace < 4294967296 := by
      rw [Nat.add_mul, Nat.one_mul] at hfit
      exact hfit
    have hmul : umul (Lo - 1) s.mNumBoxesInAFace = (Lo - 1) * s.mNumBoxesInAFace :=
      umul_eq _ _ (by omega)
    have hadd : uadd ((Lo - 1) * s.mNumBoxesInAFace) k = (Lo - 1) * s.mNumBoxesInAFace + k :=
      uadd_eq _ _ (by omega)
    rw [List.range_succ, List.foldl_append, ih (by omega), List.foldl_cons, List.foldl_nil]
    simp only [SetupHaloBoxes.left, SetupHaloBoxes.addHaloBox, hsub, hmul, hadd,
      List.foldl_append,
      List.foldl_cons, List.foldl_nil, List.map_append, List.map_cons, List.map_nil,
      List.length_append, List.length_replicate, List.length_cons, List.length_nil,
      List.replicate_succ', List.append_assoc, Nat.add_sub_cancel, Nat.zero_add]
    rw [uadd_eq _ _ (by omega)]
    rfl

theorem get?_all_empty (l : List Box) (h : ∀ b, b ∈ l → b = {}) (i : Nat)
    (hi : i < l.length) : l.get? i = some {} := by
  rw [List.get?_eq_get hi]
  congr 1
  exact h _ (List.get_mem _ _ _)

/-- The first stage of `SetupHaloBoxes`. -/
theorem right_stage (t : DistributedBoxCollection) (hHi : 1 ≤ t.high)
    (hfit : AmTopMost t = false → (t.high + 1) * t.mNumBoxesInAFace < 4294967296) :
    ∀ t1, t1 = (if !(AmTopMost t) then
        (List.range t.mNumBoxesInAFace).foldl (SetupHaloBoxes.right t.high) t else t) →
      t1.mHaloBoxes = t.mHaloBoxes
          ++ List.replicate (if AmTopMost t then 0 else t.mNumBoxesInAFace) ({} : Box)
      ∧ (∀ g, t1.mHaloBoxesMapping.lookup g
          = if AmTopMost t = false ∧ t.high * t.mNumBoxesInAFace ≤ g
              ∧ g < t.high * t.mNumBoxesInAFace + t.mNumBoxesInAFace
            then some (t.mHaloBoxes.length + (g - t.high * t.mNumBoxesInAFace))
            else t.mHaloBoxesMapping.lookup g)
      ∧ t1.mHalosRight = t.mHalosRight ++ (if AmTopMost t then []
          else (List.range t.mNumBoxesInAFace).map
            (fun i => t.high * t.mNumBoxesInAFace + i - t.mNumBoxesInAFace))
      ∧ t1.mHalosLeft = t.mHalosLeft ∧ t1.low = t.low ∧ t1.high = t.high
      ∧ t1.rank = t.rank ∧ t1.numProcs = t.numProcs
      ∧ t1.mNumBoxesInAFace = t.mNumBoxesInAFace ∧ t1.mMinBoxIndex = t.mMinBoxIndex
      ∧ t1.mMaxBoxIndex = t.mMaxBoxIndex ∧ t1.mBoxes = t.mBoxes
      ∧ t1.mBoxesMapping = t.mBoxesMapping := by
  intro t1 ht1
  cases htop : AmTopMost t
  · rw [htop, Bool.not_false, if_pos rfl, foldl_right t.high t hHi (hfit htop) _ (Nat.le_refl _)]
      at ht1
    subst ht1
    refine ⟨rfl, fun g => ?_, rfl, rfl, rfl, rfl, rfl, rfl, rfl, rfl, rfl, rfl, rfl⟩
    show List.lookup g ((List.range t.mNumBoxesInAFace).foldl
      (fun m i => mapAssign m (t.high * t.mNumBoxesInAFace + i) (t.mHaloBoxes.length + i))
      t.mHaloBoxesMapping) = _
    rw [lookup_foldl_mapAssign]
    simp only [true_and]
  · rw [htop, Bool.not_true, if_neg (by decide)] at ht1
    subst ht1
    refine ⟨by simp, fun g => ?_, by simp, rfl, rfl, rfl, rfl, rfl, rfl, rfl, rfl, rfl, rfl⟩
    simp

/-- The second stage of `SetupHaloBoxes`. -/
theorem left_stage (Lo : Nat) (t : DistributedBoxCollection) (hbpf : 1 ≤ t.mNumBoxesInAFace)
    (hLo : AmMaster t = false → 1 ≤ Lo)
    (hfit : (Lo + 1) * t.mNumBoxesInAFace < 4294967296) :
    ∀ t1, t1 = (if !(AmMaster t) then
        (List.range t.mNumBoxesInAFace).foldl (SetupHaloBoxes.left Lo) t else t) →
      t1.mHaloBoxes = t.mHaloBoxes
          ++ List.replicate (if AmMaster t then 0 else t.mNumBoxesInAFace) ({} : Box)
      ∧ (∀ g, t1.mHaloBoxesMapping.lookup g
          = if AmMaster t = false ∧ (Lo - 1) * t.mNumBoxesInAFace ≤ g
              ∧ g < (Lo - 1) * t.mNumBoxesInAFace + t.mNumBoxesInAFace
            then some (t.mHaloBoxes.length + (g - (Lo - 1) * t.mNumBoxesInAFace))
            else t.mHaloBoxesMapping.lookup g)
      ∧ t1.mHalosLeft = t.mHalosLeft ++ (if AmMaster t then []
          else (List.range t.mNumBoxesInAFace).map
            (fun i => (Lo - 1) * t.mNumBoxesInAFace + i + t.mNumBoxesInAFace))
      ∧ t1.mHalosRight = t.mHalosRight ∧ t1.low = t.low ∧ t1.high = t.high
      ∧ t1.rank = t.rank ∧ t1.numProcs = t.numProcs
      ∧ t1.mNumBoxesInAFace = t.mNumBoxesInAFace ∧ t1.mMinBoxIndex = t.mMinBoxIndex
      ∧ t1.mMaxBoxIndex = t.mMaxBoxIndex ∧ t1.mBoxes = t.mBoxes
      ∧ t1.mBoxesMapping = t.mBoxesMapping := by
  intro t1 ht1
  cases hm : AmMaster t
  · rw [hm, Bool.not_false, if_pos rfl, foldl_left Lo t (hLo hm) hbpf hfit _ (Nat.le_refl _)]
      at ht1
    subst ht1
    refine ⟨rfl, fun g => ?_, rfl, rfl, rfl, rfl, rfl, rfl, rfl, rfl, rfl, rfl, rfl⟩
    show List.lookup g ((List.range t.mNumBoxesInAFace).foldl
      (fun m i => mapAssign m ((Lo - 1) * t.mNumBoxesInAFace + i) (t.mHaloBoxes.length + i))
      t.mHaloBoxesMapping) = _
    rw [lookup_foldl_mapAssign]
    simp only [true_and]
  · rw [hm, Bool.not_true, if_neg (by decide)] at ht1
    subst ht1
    refine ⟨by simp, fun g => ?_, by simp, rfl, rfl, rfl, rfl, rfl, rfl, rfl, rfl, rfl, rfl⟩
    simp

/-- What `SetupHaloBoxes` leaves on a collection without halo boxes whose rank owns the rows
`[low, high)`, when the indices of the halo boxes do not wrap. -/
theorem SetupHaloBoxes_spec (s : DistributedBoxCollection)
    (hfresh : s.mHaloBoxes = [] ∧ s.mHaloBoxesMapping = [] ∧ s.mHalosRight = []
      ∧ s.mHalosLeft = [])
    (hrows : s.low < s.high) (hbpf : 1 ≤ s.mNumBoxesInAFace)
    (hmin : s.mMinBoxIndex = s.low * s.mNumBoxesInAFace)
    (hmax : s.mMaxBoxIndex = s.high * s.mNumBoxesInAFace - 1)
    (hfit : s.high * s.mNumBoxesInAFace < 4294967296)
    (htop : AmTopMost s = false → (s.high + 1) * s.mNumBoxesInAFace < 4294967296)
    (hmaster : AmMaster s = false → 1 ≤ s.low) :
    (∀ g, ((AmTopMost s = false ∧ s.high * s.mNumBoxesInAFace ≤ g
            ∧ g < (s.high + 1) * s.mNumBoxesInAFace)
          ∨ (AmMaster s = false ∧ (s.low - 1) * s.mNumBoxesInAFace ≤ g
            ∧ g < s.low * s.mNumBoxesInAFace)) →
        lookupBox (SetupHaloBoxes s).mHaloBoxes (SetupHaloBoxes s).mHaloBoxesMapping g
          = .ok {})
    ∧ (∀ g, ¬ ((AmTopMost s = false ∧ s.high * s.mNumBoxesInAFace ≤ g
            ∧ g < (s.high + 1) * s.mNumBoxesInAFace)
          ∨ (AmMaster s = false ∧ (s.low - 1) * s.mNumBoxesInAFace ≤ g
            ∧ g < s.low * s.mNumBoxesInAFace)) →
        (SetupHaloBoxes s).mHaloBoxesMapping.lookup g = none)
    ∧ (SetupHaloBoxes s).mHaloBoxes.length
        = (if AmTopMost s then 0 else s.mNumBoxesInAFace)
          + (if AmMaster s then 0 else s.mNumBoxesInAFace)
    ∧ (SetupHaloBoxes s).mHalosRight = (if AmTopMost s then []
        else (List.range s.mNumBoxesInAFace).map
          (fun i => (s.high - 1) * s.mNumBoxesInAFace + i))
    ∧ (SetupHaloBoxes s).mHalosLeft = (if AmMaster s then []
        else (List.range s.mNumBoxesInAFace).map (fun i => s.low * s.mNumBoxesInAFace + i))
    ∧ (∀ g, g ∈ (SetupHaloBoxes s).mHalosRight ++ (SetupHaloBoxes s).mHalosLeft →
        GetBoxOwnership (SetupHaloBoxes s) g = true)
    ∧ (SetupHaloBoxes s).mBoxes = s.mBoxes
    ∧ (SetupHaloBoxes s).mBoxesMapping = s.mBoxesMapping := by
  obtain ⟨hf1, hf2, hf3, hf4⟩ := hfresh
  obtain ⟨a1, a2, a3, a4, a5, a6, a7, a8, a9, a10, a11, a12, a13⟩ :=
    right_stage s (by omega) htop _ rfl
  have hm1 : AmMaster (if !(AmTopMost s) then
      (List.range s.mNumBoxesInAFace).foldl (SetupHaloBoxes.right s.high) s else s)
      = AmMaster s := by
    simp only [AmMaster, a7]
  have hlofit : (s.low + 1) * s.mNumBoxesInAFace < 4294967296 := by
    have := Nat.mul_le_mul_right s.mNumBoxesInAFace (show s.low + 1 ≤ s.high by omega)
    omega
  obtain ⟨b1, b2, b3, b4, b5, b6, b7, b8, b9, b10, b11, b12, b13⟩ :=
    left_stage s.low _ (by rw [a9]; exact hbpf) (by rw [hm1]; exact hmaster)
      (by rw [a9]; exact hlofit) (SetupHaloBoxes s) rfl
  rw [hm1, a9] at b1 b2 b3
  rw [a1, hf1] at b1
  rw [a3, hf3] at b4
  rw [a4, hf4] at b3
  rw [a1, hf1] at b2
  simp only [a2, hf1, hf2, List.lookup_nil, List.nil_append, List.length_nil, Nat.zero_add,
    List.length_replicate] at b1 b2 b3 b4
  have hA : (s.high - 1) * s.mNumBoxesInAFace + s.mNumBoxesInAFace
      = s.high * s.mNumBoxesInAFace := by
    obtain ⟨n, hn⟩ : ∃ n, s.high = n + 1 := ⟨s.high - 1, by omega⟩
    rw [hn, Nat.add_sub_cancel, Nat.add_mul, Nat.one_mul]
  have hA' : (s.high + 1) * s.mNumBoxesInAFace
      = s.high * s.mNumBoxesInAFace + s.mNumBoxesInAFace := by
    rw [Nat.add_mul, Nat.one_mul]
  have hC : AmMaster s = false → (s.low - 1) * s.mNumBoxesInAFace + s.mNumBoxesInAFace
      = s.low * s.mNumBoxesInAFace := by
    intro h
    obtain ⟨n, hn⟩ : ∃ n, s.low = n + 1 := ⟨s.low - 1, by have := hmaster h; omega⟩
    rw [hn, Nat.add_sub_cancel, Nat.add_mul, Nat.one_mul]
  have hCB : s.low * s.mNumBoxesInAFace ≤ (s.high - 1) * s.mNumBoxesInAFace :=
    Nat.mul_le_mul_right _ (by omega)
  have hempty : ∀ b, b ∈ (SetupHaloBoxes s).mHaloBoxes → b = {} := by
    intro b hb
    rw [b1, List.mem_append] at hb
    rcases hb with hb | hb
    · exact (List.mem_replicate.1 hb).2
    · exact (List.mem_replicate.1 hb).2
  have hlen : (SetupHaloBoxes s).mHaloBoxes.length
      = (if AmTopMost s then 0 else s.mNumBoxesInAFace)
        + (if AmMaster s then 0 else s.mNumBoxesInAFace) := by
    rw [b1, List.length_append, List.length_replicate, List.length_replicate]
  refine ⟨?_, ?_, hlen, ?_, ?_, ?_, by rw [b12, a12], by rw [b13, a13]⟩
  · intro g hg
    unfold lookupBox
    rw [b2 g]
    by_cases hL : AmMaster s = false ∧ (s.low - 1) * s.mNumBoxesInAFace ≤ g
        ∧ g < (s.low - 1) * s.mNumBoxesInAFace + s.mNumBoxesInAFace
    · rw [if_pos hL]
      have hC' := hC hL.1
      have hidx : (if AmTopMost s = true then 0 else s.mNumBoxesInAFace)
          + (g - (s.low - 1) * s.mNumBoxesInAFace) < (SetupHaloBoxes s).mHaloBoxes.length := by
        rw [hlen, hL.1]
        simp only [Bool.false_eq_true, if_false]
        omega
      simp only [get?_all_empty _ hempty _ hidx]
    · rw [if_neg hL]
      have hR : AmTopMost s = false ∧ s.high * s.mNumBoxesInAFace ≤ g
          ∧ g < s.high * s.mNumBoxesInAFace + s.mNumBoxesInAFace := by
        rcases hg with hg | hg
        · rw [hA'] at hg
          exact hg
        · have hC' := hC hg.1
          exact absurd ⟨hg.1, hg.2.1, by omega⟩ hL
      rw [if_pos hR]
      have hidx : g - s.high * s.mNumBoxesInAFace < (SetupHaloBoxes s).mHaloBoxes.length := by
        rw [hlen, hR.1]
        simp only [Bool.false_eq_true, if_false]
        omega
      simp only [get?_all_empty _ hempty _ hidx]
  · intro g hg
    rw [b2 g]
    have hL : ¬ (AmMaster s = false ∧ (s.low - 1) * s.mNumBoxesInAFace ≤ g
        ∧ g < (s.low - 1) * s.mNumBoxesInAFace + s.mNumBoxesInAFace) := by
      rintro ⟨h1, h2, h3⟩
      have hC' := hC h1
      exact hg (Or.inr ⟨h1, h2, by omega⟩)
    have hR : ¬ (AmTopMost s = false ∧ s.high * s.mNumBoxesInAFace ≤ g
        ∧ g < s.high * s.mNumBoxesInAFace + s.mNumBoxesInAFace) := by
      rintro ⟨h1, h2, h3⟩
      exact hg (Or.inl ⟨h1, h2, by omega⟩)
    rw [if_neg hL, if_neg hR]
  · rw [b4]
    cases AmTopMost s
    · simp only [Bool.false_eq_true, if_false]
      apply List.map_congr_left
      intro i _
      omega
    · simp only [if_true]
  · rw [b3]
    cases hm : AmMaster s
    · simp only [Bool.false_eq_true, if_false]
      have hC' := hC hm
      apply List.map_congr_left
      intro i _
      omega
    · simp only [if_true]
  · intro g hg
    have hown : ∀ g, s.low * s.mNumBoxesInAFace ≤ g → g < s.high * s.mNumBoxesInAFace →
        GetBoxOwnership (SetupHaloBoxes s) g = true := by
      intro g h1 h2
      have e1 : (SetupHaloBoxes s).mMinBoxIndex = s.low * s.mNumBoxesInAFace := by
        rw [b10, a10, hmin]
      have e2 : (SetupHaloBoxes s).mMaxBoxIndex = s.high * s.mNumBoxesInAFace - 1 := by
        rw [b11, a11, hmax]
      simp only [GetBoxOwnership, e1, e2, Bool.and_eq_true, Bool.not_eq_true',
        decide_eq_false_iff_not]
      omega
    rw [List.mem_append, b4, b3] at hg
    rcases hg with hg | hg
    · cases ht : AmTopMost s
      · rw [ht] at hg
        simp only [Bool.false_eq_true, if_false, List.mem_map, List.mem_range] at hg
        obtain ⟨i, hi, rfl⟩ := hg
        exact hown _ (by omega) (by omega)
      · rw [ht] at hg
        simp at hg
    · cases hm : AmMaster s
      · rw [hm] at hg
        simp only [Bool.false_eq_true, if_false, List.mem_map, List.mem_range] at hg
        obtain ⟨i, hi, rfl⟩ := hg
        have hC' := hC hm
        exact hown _ (by omega) (by omega)
      · rw [hm] at hg
        simp at hg

/-- C23: after `SetupHaloBoxes` on a collection without halo boxes whose rank owns the rows
`[low, high)` with `low < high` (a rank that is not top-most having a row above it inside the
32-bit index range, and one that is not the master a row below it), `mHaloBoxesMapping` has an
empty halo box exactly for the indices `[high*bpf, (high+1)*bpf)` when the rank is not top-most
and `[(low-1)*bpf, low*bpf)` when it is not the master; `mHalosRight` lists the top owned row
and `mHalosLeft` the bottom owned row in ascending order, all owned. For rank 1 of three, owning
the rows `[2, 4)` of a 3 by 6 grid, the halo boxes are those of row 1 and of row 4. -/
theorem SetupHaloBoxes_halo_rows :
    (∀ s : DistributedBoxCollection,
      (s.mHaloBoxes = [] ∧ s.mHaloBoxesMapping = [] ∧ s.mHalosRight = []
        ∧ s.mHalosLeft = []) →
      s.low < s.high → 1 ≤ s.mNumBoxesInAFace →
      s.mMinBoxIndex = s.low * s.mNumBoxesInAFace →
      s.mMaxBoxIndex = s.high * s.mNumBoxesInAFace - 1 →
      s.high * s.mNumBoxesInAFace < 4294967296 →
      (AmTopMost s = false → (s.high + 1) * s.mNumBoxesInAFace < 4294967296) →
      (AmMaster s = false → 1 ≤ s.low) →
      (∀ g, ((AmTopMost s = false ∧ s.high * s.mNumBoxesInAFace ≤ g
              ∧ g < (s.high + 1) * s.mNumBoxesInAFace)
            ∨ (AmMaster s = false ∧ (s.low - 1) * s.mNumBoxesInAFace ≤ g
              ∧ g < s.low * s.mNumBoxesInAFace)) →
          lookupBox (SetupHaloBoxes s).mHaloBoxes (SetupHaloBoxes s).mHaloBoxesMapping g
            = .ok {})
      ∧ (∀ g, ¬ ((AmTopMost s = false ∧ s.high * s.mNumBoxesInAFace ≤ g
              ∧ g < (s.high + 1) * s.mNumBoxesInAFace)
            ∨ (AmMaster s = false ∧ (s.low - 1) * s.mNumBoxesInAFace ≤ g
              ∧ g < s.low * s.mNumBoxesInAFace)) →
          (SetupHaloBoxes s).mHaloBoxesMapping.lookup g = none)
      ∧ (SetupHaloBoxes s).mHaloBoxes.length
          = (if AmTopMost s then 0 else s.mNumBoxesInAFace)
            + (if AmMaster s then 0 else s.mNumBoxesInAFace)
      ∧ (SetupHaloBoxes s).mHalosRight = (if AmTopMost s then []
          else (List.range s.mNumBoxesInAFace).map
            (fun i => (s.high - 1) * s.mNumBoxesInAFace + i))
      ∧ (SetupHaloBoxes s).mHalosLeft = (if AmMaster s then []
          else (List.range s.mNumBoxesInAFace).map
            (fun i => s.low * s.mNumBoxesInAFace + i))
      ∧ (∀ g, g ∈ (SetupHaloBoxes s).mHalosRight ++ (SetupHaloBoxes s).mHalosLeft →
          GetBoxOwnership (SetupHaloBoxes s) g = true))
    ∧ ((SetupHaloBoxes middleRank).mHaloBoxesMapping.map Prod.fst = [3, 4, 5, 12, 13, 14]
      ∧ (SetupHaloBoxes middleRank).mHaloBoxes = [{}, {}, {}, {}, {}, {}]
      ∧ (SetupHaloBoxes middleRank).mHalosRight = [9, 10, 11]
      ∧ (SetupHaloBoxes middleRank).mHalosLeft = [6, 7, 8]) := by
  constructor
  · intro s hfresh hrows hbpf hmin hmax hfit htop hmaster
    obtain ⟨h1, h2, h3, h4, h5, h6, -, -⟩ :=
      SetupHaloBoxes_spec s hfresh hrows hbpf hmin hmax hfit htop hmaster
    exact ⟨h1, h2, h3, h4, h5, h6⟩
  · decide

theorem SetupHaloBoxes_halo_rows_witness :
    middleRank.low < middleRank.high
    ∧ (AmTopMost middleRank = false ∧ AmMaster middleRank = false)
    ∧ (SetupHaloBoxes middleRank).mHaloBoxes.length
        = (if AmTopMost middleRank then 0 else middleRank.mNumBoxesInAFace)
          + (if AmMaster middleRank then 0 else middleRank.mNumBoxesInAFace)
    ∧ (∀ g, g ∈ (SetupHaloBoxes middleRank).mHalosRight
          ++ (SetupHaloBoxes middleRank).mHalosLeft →
        GetBoxOwnership (SetupHaloBoxes middleRank) g = true) :=
  ⟨by decide, by decide,
    (SetupHaloBoxes_halo_rows.1 middleRank (by decide) (by decide) (by decide) (by decide)
      (by decide) (by decide) (by decide) (by decide)).2.2.1,
    (SetupHaloBoxes_halo_rows.1 middleRank (by decide) (by decide) (by decide) (by decide)
      (by decide) (by decide) (by decide) (by decide)).2.2.2.2.2⟩

theorem RankRows.products (s : DistributedBoxCollection) (a nlast : Nat)
    (h : RankRows s a nlast) :
    a * s.low + a ≤ a * s.high ∧ a * s.high ≤ a * nlast
      ∧ (s.high < nlast → a * s.high + a ≤ a * nlast)
      ∧ (s.high = nlast → a * s.high = a * nlast)
      ∧ (1 ≤ s.low → a ≤ a * s.low)
      ∧ s.low * a = a * s.low ∧ s.high * a = a * s.high ∧ a ≤ a * s.high := by
  obtain ⟨h1, h2, h3, h4, h5, h6, h7, h8, h9, h10, h11, h12, h13⟩ := h
  refine ⟨mul_succ_le a s.low s.high h5, Nat.mul_le_mul_left _ h6, fun hlt => mul_succ_le a _ _ hlt,
    fun he => by rw [he], fun hl => Nat.le_mul_of_pos_right _ hl, Nat.mul_comm _ _,
    Nat.mul_comm _ _, Nat.le_mul_of_pos_right _ (by omega)⟩

theorem row_between (a x r lo hi : Nat) (hx : x < a) (h1 : a * lo ≤ a * r + x)
    (h2 : a * r + x < a * hi) : lo ≤ r ∧ r < hi := by
  constructor
  · by_contra hc
    have := mul_succ_le a r lo (by omega)
    omega
  · by_contra hc
    have := Nat.mul_le_mul_left a (show hi ≤ r by omega)
    omega

/-- On one process every index below the number of boxes is owned. -/
theorem owned_of_lt (s : DistributedBoxCollection) (a nlast : Nat) (h : RankRows s a nlast)
    (hser : s.numProcs = 1) (b : Nat) (hb : b < s.mNumBoxes) :
    b < s.mNumBoxes ∧ (GetBoxOwnership s b = true ∨ GetHaloBoxOwnership s b = true) := by
  obtain ⟨p1, p2, p3, p4, p5, p6, p7, p8⟩ := RankRows.products s a nlast h
  obtain ⟨h1, h2, h3, h4, h5, h6, h7, h8, h9, h10, h11, h12, h13⟩ := h
  have hlow := h12.1 (by omega)
  have hhigh := h13.1 (by omega)
  refine ⟨hb, Or.inl ?_⟩
  have p4' := p4 hhigh
  rw [hlow] at h7
  simp only [GetBoxOwnership, h7, h8, Bool.and_eq_true, Bool.not_eq_true',
    decide_eq_false_iff_not]
  omega

/-- On several processes an index in the row of an owned box, the row below or the row above
is owned or passes `GetHaloBoxOwnership`. -/
theorem owned_or_halo_of_rows (s : DistributedBoxCollection) (a nlast : Nat)
    (h : RankRows s a nlast) (hpar : s.numProcs ≠ 1) (r b : Nat)
    (hlo : s.low ≤ r) (hhi : r < s.high)
    (hb : b < s.mNumBoxes) (hr1 : a * r ≤ b + a) (hr2 : b < a * r + 2 * a) :
    b < s.mNumBoxes ∧ (GetBoxOwnership s b = true ∨ GetHaloBoxOwnership s b = true) := by
  obtain ⟨p1, p2, p3, p4, p5, p6, p7, p8⟩ := RankRows.products s a nlast h
  obtain ⟨h1, h2, h3, h4, h5, h6, h7, h8, h9, h10, h11, h12, h13⟩ := h
  have q1 : a * s.low ≤ a * r := Nat.mul_le_mul_left _ hlo
  have q2 : a * r + a ≤ a * s.high := mul_succ_le a r s.high hhi
  refine ⟨hb, ?_⟩
  rw [h3] at hb h4
  simp only [GetBoxOwnership, GetHaloBoxOwnership, h1, h7, h8, p6, p7, uadd, usub,
    Bool.and_eq_true, Bool.or_eq_true, Bool.not_eq_true', decide_eq_false_iff_not,
    decide_eq_true_eq]
  rcases Nat.lt_or_ge s.high nlast with hq | hq
  · have p3' := p3 hq
    rcases Nat.eq_zero_or_pos s.low with hl | hl
    · rw [hl] at q1 ⊢
      simp only [Nat.mul_zero] at q1 ⊢
      omega
    · have p5' := p5 hl
      omega
  · have p4' := p4 (by omega)
    rcases Nat.eq_zero_or_pos s.low with hl | hl
    · rw [hl] at q1 ⊢
      simp only [Nat.mul_zero] at q1 ⊢
      omega
    · have p5' := p5 hl
      omega

theorem rank_one (s : DistributedBoxCollection) (hgrid : RankGrid s) (hdim : s.DIM = .one) :
    ∃ N0, s.mNumBoxesEachDirection = [N0] ∧ 1 ≤ N0 ∧ N0 < 4294967296 ∧ RankRows s 1 N0 := by
  obtain ⟨g1, g2, g3, g4, g5, g6, g7, g8, g9, g10, g11, g12, g13, g14, g15⟩ := hgrid
  rw [hdim] at g1 g2 g6 g7 g14
  obtain ⟨N0, hN⟩ := List.length_eq_one.1 g1
  have p0 := g2 0 (by decide)
  rw [hN] at p0 g3 g6 g7 g14
  simp only [List.getD_cons_zero, List.prod_cons, List.prod_nil, Nat.mul_one, Dim.toNat,
    Nat.sub_self, List.take_zero] at p0 g3 g6 g7 g14
  rw [g7] at g8 g9 g10
  exact ⟨N0, hN, p0, by omega, g7, Nat.le_refl _, by omega, g4, g5, g6, g8, g9, g10, g11, g12,
    g13, g14⟩

theorem rank_two (s : DistributedBoxCollection) (hgrid : RankGrid s) (hdim : s.DIM = .two) :
    ∃ N0 N1, s.mNumBoxesEachDirection = [N0, N1] ∧ 1 ≤ N0 ∧ 1 ≤ N1 ∧ N0 * N1 < 4294967296
      ∧ RankRows s N0 N1 := by
  obtain ⟨g1, g2, g3, g4, g5, g6, g7, g8, g9, g10, g11, g12, g13, g14, g15⟩ := hgrid
  rw [hdim] at g1 g2 g6 g7 g14
  obtain ⟨N0, N1, hN⟩ := List.length_eq_two.1 g1
  have p0 := g2 0 (by decide)
  have p1 := g2 1 (by decide)
  rw [hN] at p0 p1 g3 g6 g7 g14
  simp only [List.getD_cons_zero, List.getD_cons_succ, List.prod_cons, List.prod_nil,
    Nat.mul_one, Dim.toNat, Nat.add_sub_cancel, List.take_succ_cons, List.take_zero,
    Nat.reduceSub] at p0 p1 g3 g6 g7 g14
  rw [g7] at g8 g9 g10
  exact ⟨N0, N1, hN, p0, p1, by omega, g7, p0, g3, g4, g5, g6, g8, g9, g10, g11, g12, g13, g14⟩

theorem rank_three (s : DistributedBoxCollection) (hgrid : RankGrid s)
    (hdim : s.DIM = .three) :
    ∃ N0 N1 N2, s.mNumBoxesEachDirection = [N0, N1, N2] ∧ 1 ≤ N0 ∧ 1 ≤ N1 ∧ 1 ≤ N2
      ∧ N0 * N1 * N2 < 4294967296 ∧ RankRows s (N0 * N1) N2 := by
  obtain ⟨g1, g2, g3, g4, g5, g6, g7, g8, g9, g10, g11, g12, g13, g14, g15⟩ := hgrid
  rw [hdim] at g1 g2 g6 g7 g14
  obtain ⟨N0, N1, N2, hN⟩ := List.length_eq_three.1 g1
  have p0 := g2 0 (by decide)
  have p1 := g2 1 (by decide)
  have p2 := g2 2 (by decide)
  rw [hN] at p0 p1 p2 g3 g6 g7 g14
  simp only [List.getD_cons_zero, List.getD_cons_succ, List.prod_cons, List.prod_nil,
    Nat.mul_one, Dim.toNat, Nat.add_sub_cancel, List.take_succ_cons, List.take_zero,
    Nat.reduceSub, ← Nat.mul_assoc] at p0 p1 p2 g3 g6 g7 g14
  rw [g7] at g8 g9 g10
  exact ⟨N0, N1, N2, hN, p0, p1, p2, by omega, g7, Nat.mul_pos p0 p1, g3, g4, g5, g6, g8, g9,
    g10, g11, g12, g13, g14⟩

theorem owned_bounds (s : DistributedBoxCollection) (a nlast : Nat) (h : RankRows s a nlast)
    (b : Nat) (hb : GetBoxOwnership s b = true) :
    a * s.low ≤ b ∧ b < a * s.high ∧ b < a * nlast ∧ s.mMinBoxIndex ≤ b ∧ b ≤ s.mMaxBoxIndex
      ∧ s.mMaxBoxIndex + 1 < 4294967296 := by
  obtain ⟨p1, p2, p3, p4, p5, p6, p7, p8⟩ := RankRows.products s a nlast h
  obtain ⟨h1, h2, h3, h4, h5, h6, h7, h8, h9, h10, h11, h12, h13⟩ := h
  simp only [GetBoxOwnership, Bool.and_eq_true, Bool.not_eq_true',
    decide_eq_false_iff_not] at hb
  omega

theorem members_one (s : DistributedBoxCollection) (hgrid : RankGrid s) (hdim : s.DIM = .one)
    (b : Nat) (hb : GetBoxOwnership s b = true) (b' : Nat)
    (hmem : b' ∈ SetupLocalBoxesHalfOnly.case1 s.mNumBoxesEachDirection s.low b
      ∨ b' ∈ SetupAllLocalBoxes.case1 s.mNumBoxesEachDirection b) :
    b' < s.mNumBoxes ∧ (GetBoxOwnership s b' = true ∨ GetHaloBoxOwnership s b' = true) := by
  obtain ⟨N0, hN, p0, hfit, hrows⟩ := rank_one s hgrid hdim
  obtain ⟨o1, o2, o3, o4, o5, o6⟩ := owned_bounds s 1 N0 hrows b hb
  have htot : s.mNumBoxes = 1 * N0 := hrows.2.2.1
  have hx : b < N0 := by omega
  rw [hN] at hmem
  by_cases hser : s.numProcs = 1
  · have hlow : s.low = 0 := hrows.2.2.2.2.2.2.2.2.2.2.2.1.1 (by
      have := hrows.2.2.2.2.2.2.2.2.2.1
      omega)
    rw [hlow] at hmem
    have hlt : b' < N0 := by
      rcases hmem with hmem | hmem
      · exact half1_lt N0 b b' hx hfit hmem
      · exact full1_lt N0 b b' hx hfit hmem
    exact owned_of_lt s 1 N0 hrows hser b' (by omega)
  · have hr : b' < N0 ∧ b ≤ b' + 1 ∧ b' < b + 2 := by
      rcases hmem with hmem | hmem
      · exact half1_rows N0 s.low b b' hx hfit hmem
      · exact full1_rows N0 b b' hx hfit hmem
    exact owned_or_halo_of_rows s 1 N0 hrows hser b b' (by omega) (by omega) (by omega)
      (by omega) (by omega)

theorem members_two (s : DistributedBoxCollection) (hgrid : RankGrid s) (hdim : s.DIM = .two)
    (b : Nat) (hb : GetBoxOwnership s b = true) (b' : Nat)
    (hmem : b' ∈ SetupLocalBoxesHalfOnly.case2 s.mNumBoxesEachDirection s.low s.mIsPeriodicInX
        s.mBoxes.length b
      ∨ b' ∈ SetupAllLocalBoxes.case2 s.mNumBoxesEachDirection s.mIsPeriodicInX b) :
    b' < s.mNumBoxes ∧ (GetBoxOwnership s b' = true ∨ GetHaloBoxOwnership s b' = true) := by
  have hper := hgrid.2.2.2.2.2.2.2.2.2.2.2.2.2.2
  obtain ⟨N0, N1, hN, p0, p1, hfit, hrows⟩ := rank_two s hgrid hdim
  obtain ⟨o1, o2, o3, o4, o5, o6⟩ := owned_bounds s N0 N1 hrows b hb
  have htot : s.mNumBoxes = N0 * N1 := hrows.2.2.1
  have hlen : s.mBoxes.length = N0 * (s.high - s.low) := hrows.2.2.2.2.2.2.2.2.1
  obtain ⟨x, y, hx, hy, rfl⟩ := split2 N0 N1 b o3
  obtain ⟨hlo, hhi⟩ := row_between N0 x y s.low s.high hx o1 o2
  rw [hN] at hmem
  by_cases hser : s.numProcs = 1
  · have hrk : s.rank = 0 := by
      have := hrows.2.2.2.2.2.2.2.2.2.1
      omega
    have hlow : s.low = 0 := hrows.2.2.2.2.2.2.2.2.2.2.2.1.1 hrk
    have hhigh : s.high = N1 := hrows.2.2.2.2.2.2.2.2.2.2.2.2.1 (by omega)
    rw [hlow, hlen, hlow, hhigh, Nat.sub_zero] at hmem
    have hlt : b' < N0 * N1 := by
      rcases hmem with hmem | hmem
      · exact half2_lt _ N0 N1 x y b' hx hy hfit hmem
      · exact full2_lt _ N0 N1 x y b' hx hy hfit hmem
    exact owned_of_lt s N0 N1 hrows hser b' (by omega)
  · have hp : s.mIsPeriodicInX = false := by
      cases hp : s.mIsPeriodicInX
      · rfl
      · exact absurd (hper hp).2 hser
    rw [hp] at hmem
    have hr : b' < N0 * N1 ∧ N0 * y ≤ b' + N0 ∧ b' < N0 * y + 2 * N0 := by
      rcases hmem with hmem | hmem
      · exact half2_rows N0 N1 s.low _ x y b' hx hy hfit hmem
      · exact full2_rows N0 N1 x y b' hx hy hfit hmem
    exact owned_or_halo_of_rows s N0 N1 hrows hser y b' hlo hhi (by omega) hr.2.1 hr.2.2

theorem members_three (s : DistributedBoxCollection) (hgrid : RankGrid s)
    (hdim : s.DIM = .three) (b : Nat) (hb : GetBoxOwnership s b = true) (b' : Nat)
    (hmem : b' ∈ SetupLocalBoxesHalfOnly.case3 s.mNumBoxesEachDirection s.low s.high b
      ∨ b' ∈ SetupAllLocalBoxes.case3 s.mNumBoxesEachDirection b) :
    b' < s.mNumBoxes ∧ (GetBoxOwnership s b' = true ∨ GetHaloBoxOwnership s b' = true) := by
  obtain ⟨N0, N1, N2, hN, p0, p1, p2, hfit, hrows⟩ := rank_three s hgrid hdim
  obtain ⟨o1, o2, o3, o4, o5, o6⟩ := owned_bounds s (N0 * N1) N2 hrows b hb
  have htot : s.mNumBoxes = N0 * N1 * N2 := hrows.2.2.1
  obtain ⟨x, y, z, hx, hy, hz, rfl, -, -, -⟩ := split3 N0 N1 N2 b o3
  have hxy : N0 * y + x < N0 * N1 := by
    have := mul_succ_le N0 y N1 hy
    omega
  obtain ⟨hlo, hhi⟩ := row_between (N0 * N1) (N0 * y + x) z s.low s.high hxy o1 o2
  rw [hN] at hmem
  by_cases hser : s.numProcs = 1
  · have hrk : s.rank = 0 := by
      have := hrows.2.2.2.2.2.2.2.2.2.1
      omega
    have hlow : s.low = 0 := hrows.2.2.2.2.2.2.2.2.2.2.2.1.1 hrk
    have hhigh : s.high = N2 := hrows.2.2.2.2.2.2.2.2.2.2.2.2.1 (by omega)
    rw [hlow, hhigh] at hmem
    have hlt : b' < N0 * N1 * N2 := by
      rcases hmem with hmem | hmem
      · exact half3_lt N0 N1 N2 x y z b' hx hy hz hfit hmem
      · exact full3_lt N0 N1 N2 x y z b' hx hy hz hfit hmem
    exact owned_of_lt s (N0 * N1) N2 hrows hser b' (by omega)
  · have hr : b' < N0 * N1 * N2 ∧ N0 * N1 * z ≤ b' + N0 * N1
        ∧ b' < N0 * N1 * z + 2 * (N0 * N1) := by
      rcases hmem with hmem | hmem
      · exact half3_rows N0 N1 N2 s.low s.high x y z b' hx hy hz hfit hmem
      · exact full3_rows N0 N1 N2 x y z b' hx hy hz hfit hmem
    exact owned_or_halo_of_rows s (N0 * N1) N2 hrows hser z b' hlo hhi (by omega) hr.2.1
      hr.2.2

theorem exists_rankRows (s : DistributedBoxCollection) (hgrid : RankGrid s) :
    ∃ a nlast, RankRows s a nlast := by
  cases hdim : s.DIM
  · obtain ⟨N0, -, -, -, h⟩ := rank_one s hgrid hdim
    exact ⟨_, _, h⟩
  · obtain ⟨N0, N1, -, -, -, -, h⟩ := rank_two s hgrid hdim
    exact ⟨_, _, h⟩
  · obtain ⟨N0, N1, N2, -, -, -, -, -, h⟩ := rank_three s hgrid hdim
    exact ⟨_, _, h⟩

theorem foldl_right_bounds (Hi : Nat) (l : List Nat) :
    ∀ t : DistributedBoxCollection,
      (l.foldl (SetupHaloBoxes.right Hi) t).mMinBoxIndex = t.mMinBoxIndex
        ∧ (l.foldl (SetupHaloBoxes.right Hi) t).mMaxBoxIndex = t.mMaxBoxIndex
        ∧ (l.foldl (SetupHaloBoxes.right Hi) t).mNumBoxesInAFace = t.mNumBoxesInAFace
        ∧ (l.foldl (SetupHaloBoxes.right Hi) t).rank = t.rank := by
  induction l with
  | nil => intro t; exact ⟨rfl, rfl, rfl, rfl⟩
  | cons i l ih => intro t; rw [List.foldl_cons]; exact ih _

theorem foldl_left_bounds (Lo : Nat) (l : List Nat) :
    ∀ t : DistributedBoxCollection,
      (l.foldl (SetupHaloBoxes.left Lo) t).mMinBoxIndex = t.mMinBoxIndex
        ∧ (l.foldl (SetupHaloBoxes.left Lo) t).mMaxBoxIndex = t.mMaxBoxIndex
        ∧ (l.foldl (SetupHaloBoxes.left Lo) t).mNumBoxesInAFace = t.mNumBoxesInAFace
        ∧ (l.foldl (SetupHaloBoxes.left Lo) t).rank = t.rank := by
  induction l with
  | nil => intro t; exact ⟨rfl, rfl, rfl, rfl⟩
  | cons i l ih => intro t; rw [List.foldl_cons]; exact ih _

/-- The member function `SetupHaloBoxes` leaves the range of owned indices as it is. -/
theorem SetupHaloBoxes_bounds (s : DistributedBoxCollection) :
    (SetupHaloBoxes s).mMinBoxIndex = s.mMinBoxIndex
      ∧ (SetupHaloBoxes s).mMaxBoxIndex = s.mMaxBoxIndex := by
  unfold SetupHaloBoxes
  simp only
  split <;> split <;>
    simp only [(foldl_left_bounds _ _ _).1, (foldl_left_bounds _ _ _).2.1,
      (foldl_right_bounds _ _ _).1, (foldl_right_bounds _ _ _).2.1, and_self]

/-- An index below the number of boxes that passes `GetHaloBoxOwnership` lies in the row above
the owned rows on a rank that is not top-most, or in the row below them on a rank that is not
the master. -/
theorem halo_ranges (s : DistributedBoxCollection) (a nlast : Nat) (h : RankRows s a nlast)
    (b : Nat) (hlt : b < s.mNumBoxes) (hh : GetHaloBoxOwnership s b = true) :
    GetBoxOwnership s b = false
      ∧ ((AmTopMost s = false ∧ s.high * s.mNumBoxesInAFace ≤ b
          ∧ b < (s.high + 1) * s.mNumBoxesInAFace)
        ∨ (AmMaster s = false ∧ (s.low - 1) * s.mNumBoxesInAFace ≤ b
          ∧ b < s.low * s.mNumBoxesInAFace)) := by
  obtain ⟨p1, p2, p3, p4, p5, p6, p7, p8⟩ := RankRows.products s a nlast h
  obtain ⟨h1, h2, h3, h4, h5, h6, h7, h8, h9, h10, h11, h12, h13⟩ := h
  have hA : (s.high + 1) * a = a * s.high + a := by rw [Nat.add_mul, Nat.one_mul, p7]
  have hC : 1 ≤ s.low → (s.low - 1) * a + a = a * s.low := by
    intro hl
    obtain ⟨n, hn⟩ : ∃ n, s.low = n + 1 := ⟨s.low - 1, by omega⟩
    rw [hn, Nat.add_sub_cancel, Nat.mul_add, Nat.mul_one, Nat.mul_comm]
  have hu : usub s.numProcs 1 = s.numProcs - 1 := usub_eq _ _ h11 (by omega)
  rw [h3] at hlt h4
  simp only [GetHaloBoxOwnership, h1, h7, h8, p6, p7, uadd, usub, Bool.and_eq_true,
    Bool.or_eq_true, Bool.not_eq_true', decide_eq_false_iff_not, decide_eq_true_eq] at hh
  simp only [GetBoxOwnership, AmTopMost, AmMaster, h1, h7, h8, p6, p7, hA, hu,
    Bool.and_eq_false_iff, Bool.not_eq_false', beq_eq_false_iff_ne, ne_eq,
    decide_eq_true_eq]
  rcases Nat.lt_or_ge s.high nlast with hq | hq
  · have p3' := p3 hq
    have hnt : ¬ s.rank = s.numProcs - 1 := by
      intro he
      have := h13.1 (by omega)
      omega
    rcases Nat.eq_zero_or_pos s.low with hl | hl
    · rw [hl] at hh ⊢
      simp only [Nat.mul_zero] at hh ⊢
      omega
    · have p5' := p5 hl
      have hC' := hC hl
      have hnm : ¬ s.rank = 0 := by
        intro he
        have := h12.1 he
        omega
      omega
  · have p4' := p4 (by omega)
    rcases Nat.eq_zero_or_pos s.low with hl | hl
    · rw [hl] at hh ⊢
      simp only [Nat.mul_zero] at hh ⊢
      omega
    · have p5' := p5 hl
      have hC' := hC hl
      have hnm : ¬ s.rank = 0 := by
        intro he
        have := h12.1 he
        omega
      omega

/-- C22: on a rank that owns at least one row, every entry `b'` of the stencil that
`SetupLocalBoxesHalfOnly` or `SetupAllLocalBoxes` stores for an owned box `b` (on one process
or several) is below the number of boxes and passes `GetBoxOwnership` or
`GetHaloBoxOwnership`; and once `SetupHaloBoxes` has run on a collection without halo boxes,
the box read for an index below the number of boxes that passes `GetHaloBoxOwnership` is an
existing empty halo box. -/
theorem stencil_owned_or_halo (s : DistributedBoxCollection) (hgrid : RankGrid s) (b : Nat)
    (hb : GetBoxOwnership s b = true) :
    (s.mAreLocalBoxesSet = false →
      ∃ s' st, SetupLocalBoxesHalfOnly s = .ok s' ∧ GetLocalBoxes s' b = .ok st
        ∧ ∀ b', b' ∈ st → b' < s.mNumBoxes
          ∧ (GetBoxOwnership s b' = true ∨ GetHaloBoxOwnership s b' = true))
    ∧ (s.mLocalBoxes = [] →
      ∃ st, GetLocalBoxes (SetupAllLocalBoxes s) b = .ok st
        ∧ ∀ b', b' ∈ st → b' < s.mNumBoxes
          ∧ (GetBoxOwnership s b' = true ∨ GetHaloBoxOwnership s b' = true))
    ∧ ((s.mHaloBoxes = [] ∧ s.mHaloBoxesMapping = [] ∧ s.mHalosRight = []
          ∧ s.mHalosLeft = []) →
      ∀ b', b' < s.mNumBoxes → GetHaloBoxOwnership s b' = true →
        GetBoxOwnership (SetupHaloBoxes s) b' = false
          ∧ neighbourBox (SetupHaloBoxes s) b' = .ok {}) := by
  obtain ⟨a, nlast, hrows⟩ := exists_rankRows s hgrid
  obtain ⟨o1, o2, o3, o4, o5, o6⟩ := owned_bounds s a nlast hrows b hb
  refine ⟨?_, ?_, ?_⟩
  · intro hset
    cases hdim : s.DIM
    · exact ⟨_, _, SetupLocalBoxesHalfOnly_one s hdim hset,
        GetLocalBoxes_map _ _ b rfl o4 o5 o6,
        fun b' hb' => members_one s hgrid hdim b hb b' (Or.inl hb')⟩
    · exact ⟨_, _, SetupLocalBoxesHalfOnly_two s hdim hset,
        GetLocalBoxes_map _ _ b rfl o4 o5 o6,
        fun b' hb' => members_two s hgrid hdim b hb b' (Or.inl hb')⟩
    · exact ⟨_, _, SetupLocalBoxesHalfOnly_three s hdim hset,
        GetLocalBoxes_map _ _ b rfl o4 o5 o6,
        fun b' hb' => members_three s hgrid hdim b hb b' (Or.inl hb')⟩
  · intro hfresh
    refine ⟨_, GetLocalBoxes_SetupAllLocalBoxes s b hfresh o4 o5 o6, ?_⟩
    intro b' hb'
    cases hdim : s.DIM
    · rw [hdim] at hb'
      exact members_one s hgrid hdim b hb b' (Or.inr hb')
    · rw [hdim] at hb'
      exact members_two s hgrid hdim b hb b' (Or.inr hb')
    · rw [hdim] at hb'
      exact members_three s hgrid hdim b hb b' (Or.inr hb')
  · intro hfresh b' hlt hhalo
    obtain ⟨hnot, hrange⟩ := halo_ranges s a nlast hrows b' hlt hhalo
    obtain ⟨p1, p2, p3, p4, p5, p6, p7, p8⟩ := RankRows.products s a nlast hrows
    obtain ⟨h1, h2, h3, h4, h5, h6, h7, h8, h9, h10, h11, h12, h13⟩ := hrows
    have hu : usub s.numProcs 1 = s.numProcs - 1 := usub_eq _ _ h11 (by omega)
    have hspec := (SetupHaloBoxes_spec s hfresh h5 (by rw [h1]; exact h2)
      (by rw [h1]; exact h7) (by rw [h1]; exact h8)
      (by rw [h1, p7]; omega)
      (by
        intro ht
        simp only [AmTopMost, hu, beq_eq_false_iff_ne, ne_eq] at ht
        have hne : ¬ s.high = nlast := fun he => ht (by have := h13.2 he; omega)
        have := p3 (by omega)
        rw [h1, Nat.add_mul, Nat.one_mul, p7]
        omega)
      (by
        intro hm
        simp only [AmMaster, beq_eq_false_iff_ne, ne_eq] at hm
        have hne : ¬ s.low = 0 := fun he => hm (h12.2 he)
        omega)).1 b' hrange
    have hown : GetBoxOwnership (SetupHaloBoxes s) b' = false := by
      have hb1 := SetupHaloBoxes_bounds s
      simp only [GetBoxOwnership, hb1.1, hb1.2] at hnot ⊢
      exact hnot
    refine ⟨hown, ?_⟩
    unfold neighbourBox
    rw [hown]
    exact hspec

/-- The collection `middleRank`, a parallel 2D grid, meets `RankGrid`; the stencils of its
owned box 7 exist and their entries are owned or halo boxes. -/
theorem stencil_owned_or_halo_witness :
    RankGrid middleRank ∧ GetBoxOwnership middleRank 7 = true
    ∧ (∃ s' st, SetupLocalBoxesHalfOnly middleRank = .ok s' ∧ GetLocalBoxes s' 7 = .ok st
        ∧ ∀ b', b' ∈ st → b' < middleRank.mNumBoxes
          ∧ (GetBoxOwnership middleRank b' = true ∨ GetHaloBoxOwnership middleRank b' = true))
    ∧ (∀ b', b' < middleRank.mNumBoxes → GetHaloBoxOwnership middleRank b' = true →
        GetBoxOwnership (SetupHaloBoxes middleRank) b' = false
          ∧ neighbourBox (SetupHaloBoxes middleRank) b' = .ok {}) :=
  ⟨by decide, by decide,
    (stencil_owned_or_halo middleRank (by decide) 7 (by decide)).1 rfl,
    (stencil_owned_or_halo middleRank (by decide) 7 (by decide)).2.2 (by decide)⟩

theorem collect_fold_ok (s : DistributedBoxCollection) (l : List Nat)
    (h : ∀ g, g ∈ l → ∃ box, rGetBox s g = .ok box) :
    ∀ acc : List Nat, l.foldlM (UpdateHaloBoxes.step s) acc = .ok (acc ++ l.flatMap (nodeIndicesOfBox s)) := by
  induction l with
  | nil => intro acc; simp [pure, Except.pure]
  | cons g l ih =>
    intro acc
    obtain ⟨box, hbox⟩ := h g (List.mem_cons_self _ _)
    rw [List.foldlM_cons]
    simp only [UpdateHaloBoxes.step, hbox, bind, Except.bind, pure, Except.pure]
    rw [ih (fun g' hg' => h g' (List.mem_cons_of_mem _ hg'))]
    simp only [List.flatMap_cons, nodeIndicesOfBox, hbox, List.append_assoc]

theorem collect_fold_inv (s : DistributedBoxCollection) (l : List Nat) :
    ∀ acc r : List Nat, l.foldlM (UpdateHaloBoxes.step s) acc = .ok r → ∀ g, g ∈ l → ∃ box, rGetBox s g = .ok box := by
  induction l with
  | nil => intro acc r _ g hg; cases hg
  | cons a l ih =>
    intro acc r h g hg
    rw [List.foldlM_cons] at h
    cases hbox : rGetBox s a with
    | error e =>
      simp only [UpdateHaloBoxes.step, hbox, bind, Except.bind] at h
      cases h
    | ok box =>
      simp only [UpdateHaloBoxes.step, hbox, bind, Except.bind, pure, Except.pure] at h
      rcases List.mem_cons.1 hg with rfl | hg
      · exact ⟨box, hbox⟩
      · exact ih _ r h g hg

theorem collect_eq (s : DistributedBoxCollection) (l : List Nat)
    (h : ∀ g, g ∈ l → ∃ box, rGetBox s g = .ok box) :
    UpdateHaloBoxes.collect s l = .ok (l.flatMap (nodeIndicesOfBox s)) := by
  unfold UpdateHaloBoxes.collect
  rw [collect_fold_ok s l h []]
  rfl

theorem collect_inv (s : DistributedBoxCollection) (l r : List Nat)
    (h : UpdateHaloBoxes.collect s l = .ok r) :
    ∀ g, g ∈ l → ∃ box, rGetBox s g = .ok box :=
  collect_fold_inv s l [] r h

/-- Both loops of `UpdateHaloBoxes` succeed exactly when every listed box is owned. -/
theorem UpdateHaloBoxes_eq (s : DistributedBoxCollection)
    (h : ∀ g, g ∈ s.mHalosLeft ++ s.mHalosRight → ∃ box, rGetBox s g = .ok box) :
    UpdateHaloBoxes s = .ok { s with
      mHaloNodesLeft := s.mHalosLeft.flatMap (nodeIndicesOfBox s)
      mHaloNodesRight := s.mHalosRight.flatMap (nodeIndicesOfBox s) } := by
  unfold UpdateHaloBoxes
  rw [collect_eq s _ (fun g hg => h g (List.mem_append_left _ hg)),
    collect_eq s _ (fun g hg => h g (List.mem_append_right _ hg))]

theorem UpdateHaloBoxes_inv (s s' : DistributedBoxCollection)
    (h : UpdateHaloBoxes s = .ok s') :
    ∀ g, g ∈ s.mHalosLeft ++ s.mHalosRight → ∃ box, rGetBox s g = .ok box := by
  unfold UpdateHaloBoxes at h
  cases hl : UpdateHaloBoxes.collect s s.mHalosLeft with
  | error e => rw [hl] at h; cases h
  | ok l =>
    rw [hl] at h
    cases hr : UpdateHaloBoxes.collect s s.mHalosRight with
    | error e => rw [hr] at h; cases h
    | ok r =>
      intro g hg
      rcases List.mem_append.1 hg with hg | hg
      · exact collect_inv s _ l hl g hg
      · exact collect_inv s _ r hr g hg

/-- C24: `UpdateHaloBoxes` returns when every box listed in `mHalosLeft` and `mHalosRight` is
owned; when it returns, `mHaloNodesLeft` (`mHaloNodesRight`) is the concatenation, over the
boxes listed in `mHalosLeft` (`mHalosRight`) in order, of the indices of the nodes of each box,
whatever the two vectors held before, every other member is unchanged, and a second call
returns the same state. -/
theorem UpdateHaloBoxes_spec (s : DistributedBoxCollection) :
    ((∀ g, g ∈ s.mHalosLeft ++ s.mHalosRight → ∃ box, rGetBox s g = .ok box) →
      ∃ s', UpdateHaloBoxes s = .ok s')
    ∧ (∀ s', UpdateHaloBoxes s = .ok s' →
        (∀ g, g ∈ s.mHalosLeft ++ s.mHalosRight → ∃ box, rGetBox s g = .ok box)
        ∧ s' = { s with
            mHaloNodesLeft := s.mHalosLeft.flatMap (nodeIndicesOfBox s)
            mHaloNodesRight := s.mHalosRight.flatMap (nodeIndicesOfBox s) }
        ∧ s'.mBoxes = s.mBoxes ∧ s'.mHaloBoxes = s.mHaloBoxes
        ∧ UpdateHaloBoxes s' = .ok s'
        ∧ ∀ l r, UpdateHaloBoxes { s with mHaloNodesLeft := l, mHaloNodesRight := r }
            = .ok s') := by
  constructor
  · intro h
    exact ⟨_, UpdateHaloBoxes_eq s h⟩
  · intro s' hs'
    have hall := UpdateHaloBoxes_inv s s' hs'
    have heq := UpdateHaloBoxes_eq s hall
    rw [hs'] at heq
    cases heq
    refine ⟨hall, rfl, rfl, rfl, ?_, ?_⟩
    · exact UpdateHaloBoxes_eq _ hall
    · intro l r
      exact UpdateHaloBoxes_eq _ hall

/-- C25: `SetupLocalBoxesHalfOnly` fails, with the exception "Local Boxes Are Already Set" and
without a new state, exactly when `mAreLocalBoxesSet` is set, which both
`SetupLocalBoxesHalfOnly` and `SetupAllLocalBoxes` do; otherwise it returns a state with the
flag set and one stencil for every index of the loop over the owned boxes, so that a second
call fails. -/
theorem SetupLocalBoxesHalfOnly_already_set (s : DistributedBoxCollection) :
    (SetupLocalBoxesHalfOnly s = .error (.exception "Local Boxes Are Already Set")
        ↔ s.mAreLocalBoxesSet = true)
    ∧ (∀ e, SetupLocalBoxesHalfOnly s = .error e → s.mAreLocalBoxesSet = true)
    ∧ (s.mAreLocalBoxesSet = false →
        ∃ s', SetupLocalBoxesHalfOnly s = .ok s' ∧ s'.mAreLocalBoxesSet = true
          ∧ s'.mLocalBoxes.length = (ownedIndexLoop s).length
          ∧ (s.mMinBoxIndex ≤ s.mMaxBoxIndex → s.mMaxBoxIndex + 1 < 4294967296 →
              s'.mLocalBoxes.length = s.mMaxBoxIndex - s.mMinBoxIndex + 1
                ∧ ∀ g, GetBoxOwnership s g = true → ∃ st, GetLocalBoxes s' g = .ok st)
          ∧ SetupLocalBoxesHalfOnly s'
              = .error (.exception "Local Boxes Are Already Set"))
    ∧ (SetupAllLocalBoxes s).mAreLocalBoxesSet = true
    ∧ SetupLocalBoxesHalfOnly (SetupAllLocalBoxes s)
        = .error (.exception "Local Boxes Are Already Set") := by
  have hraise : ∀ t : DistributedBoxCollection, t.mAreLocalBoxesSet = true →
      SetupLocalBoxesHalfOnly t = .error (.exception "Local Boxes Are Already Set") := by
    intro t ht
    unfold SetupLocalBoxesHalfOnly
    rw [if_pos ht]
  have hall : (SetupAllLocalBoxes s).mAreLocalBoxesSet = true := by
    unfold SetupAllLocalBoxes
    split <;> rfl
  have hok : s.mAreLocalBoxesSet = false →
      ∃ s', SetupLocalBoxesHalfOnly s = .ok s' ∧ s'.mAreLocalBoxesSet = true
        ∧ s'.mLocalBoxes.length = (ownedIndexLoop s).length
        ∧ s'.mMinBoxIndex = s.mMinBoxIndex ∧ s'.mMaxBoxIndex = s.mMaxBoxIndex := by
    intro hset
    cases hdim : s.DIM
    · exact ⟨_, SetupLocalBoxesHalfOnly_one s hdim hset, rfl, List.length_map _ _, rfl, rfl⟩
    · exact ⟨_, SetupLocalBoxesHalfOnly_two s hdim hset, rfl, List.length_map _ _, rfl, rfl⟩
    · exact ⟨_, SetupLocalBoxesHalfOnly_three s hdim hset, rfl, List.length_map _ _, rfl, rfl⟩
  refine ⟨⟨?_, hraise s⟩, ?_, ?_, hall, hraise _ hall⟩
  · intro h
    cases hset : s.mAreLocalBoxesSet
    · obtain ⟨s', hs', -⟩ := hok hset
      rw [hs'] at h
      cases h
    · rfl
  · intro e h
    cases hset : s.mAreLocalBoxesSet
    · obtain ⟨s', hs', -⟩ := hok hset
      rw [hs'] at h
      cases h
    · rfl
  · intro hset
    obtain ⟨s', hs', hflag, hlen, hmin', hmax'⟩ := hok hset
    refine ⟨s', hs', hflag, hlen, ?_, hraise s' hflag⟩
    intro hle hfit
    have hloop : (ownedIndexLoop s).length = s.mMaxBoxIndex - s.mMinBoxIndex + 1 := by
      rw [ownedIndexLoop, List.length_range', uadd_eq _ _ hfit]
      omega
    refine ⟨by rw [hlen, hloop], ?_⟩
    intro g hg
    simp only [GetBoxOwnership, Bool.and_eq_true, Bool.not_eq_true',
      decide_eq_false_iff_not] at hg
    have hget : ∃ st, s'.mLocalBoxes.get? (g - s'.mMinBoxIndex) = some st := by
      rw [List.get?_eq_getElem?]
      exact ⟨_, List.getElem?_eq_getElem (by rw [hlen, hloop, hmin']; omega)⟩
    obtain ⟨st, hst⟩ := hget
    refine ⟨st, ?_⟩
    unfold GetLocalBoxes
    rw [hmin', hmax'] 
    rw [hmin'] at hst
    have h1 : decide (g < s.mMinBoxIndex) = false := by simp; omega
    have h2 : decide (s.mMaxBoxIndex < g) = false := by simp; omega
    rw [h1, h2, hst]
    rfl

theorem fmod_nonneg (a w : ℚ) (ha : 0 ≤ a) (hw : 0 < w) :
    fmod a w = some (a - (⌊a / w⌋ : ℚ) * w) ∧ 0 ≤ a - (⌊a / w⌋ : ℚ) * w
      ∧ a - (⌊a / w⌋ : ℚ) * w < w := by
  have hq : 0 ≤ a / w := div_nonneg ha (le_of_lt hw)
  have e : fmod a w = some (a - (⌊a / w⌋ : ℚ) * w) := by
    unfold fmod
    rw [if_neg (ne_of_gt hw), if_pos hq]
  refine ⟨e, ?_, ?_⟩
  · have := Int.floor_le (a / w)
    have h2 : (⌊a / w⌋ : ℚ) * w ≤ a := by
      rwa [← le_div_iff₀ hw]
    linarith
  · have := Int.lt_floor_add_one (a / w)
    have h2 : a < ((⌊a / w⌋ : ℚ) + 1) * w := by
      rwa [← div_lt_iff₀ hw]
    linarith

/-- What the first loop of the constructor does to one axis of extent `a ≥ 0` with remainder
`r`: the extent becomes `boxesAlong a w * w`, and grows by less than `w`. -/
theorem swell_axis (a w : ℚ) (ha : 0 ≤ a) (hw : 0 < w) :
    (if a - (⌊a / w⌋ : ℚ) * w > 0 then a + (w - (a - (⌊a / w⌋ : ℚ) * w)) else a)
        = (boxesAlong a w : ℚ) * w
      ∧ a ≤ (boxesAlong a w : ℚ) * w ∧ (boxesAlong a w : ℚ) * w < a + w := by
  obtain ⟨-, h0, h1⟩ := fmod_nonneg a w ha hw
  have hq : 0 ≤ a / w := div_nonneg ha (le_of_lt hw)
  have hc0 : 0 ≤ ⌈a / w⌉ := Int.ceil_nonneg hq
  have hcast : ((boxesAlong a w : Nat) : ℚ) = ((⌈a / w⌉ : ℤ) : ℚ) := by
    unfold boxesAlong
    have : ((⌈a / w⌉.toNat : ℤ)) = ⌈a / w⌉ := Int.toNat_of_nonneg hc0
    exact_mod_cast congrArg (fun z : ℤ => (z : ℚ)) this
  have hle : a ≤ ((⌈a / w⌉ : ℤ) : ℚ) * w := by
    rw [← div_le_iff₀ hw]
    exact Int.le_ceil _
  have hlt : ((⌈a / w⌉ : ℤ) : ℚ) * w < a + w := by
    have := Int.ceil_lt_add_one (a / w)
    have h2 : ((⌈a / w⌉ : ℤ) : ℚ) < (a + w) / w := by
      rw [add_div, div_self (ne_of_gt hw)]
      exact this
    rwa [lt_div_iff₀ hw] at h2
  refine ⟨?_, by rw [hcast]; exact hle, by rw [hcast]; exact hlt⟩
  rw [hcast]
  by_cases hr : a - (⌊a / w⌋ : ℚ) * w > 0
  · rw [if_pos hr]
    have hc : ⌈a / w⌉ = ⌊a / w⌋ + 1 := by
      rw [Int.ceil_eq_iff]
      constructor
      · have : (⌊a / w⌋ : ℚ) * w < a := by linarith
        have h3 : (⌊a / w⌋ : ℚ) < a / w := by rwa [lt_div_iff₀ hw]
        push_cast
        linarith
      · push_cast
        exact le_of_lt (Int.lt_floor_add_one _)
    rw [hc]
    push_cast
    ring
  · rw [if_neg hr]
    have hz : a - (⌊a / w⌋ : ℚ) * w = 0 := le_antisymm (not_lt.1 hr) h0
    have h3 : a / w = (⌊a / w⌋ : ℚ) := by
      rw [div_eq_iff (ne_of_gt hw)]
      linarith
    have hc : ⌈a / w⌉ = ⌊a / w⌋ := by
      rw [h3, Int.ceil_intCast, Int.floor_intCast]
    rw [hc]
    linarith

/-- The counting loop of the constructor returns `k` on an axis of extent `k * w`, when the box
width exceeds the fudge and the budget exceeds `k`. -/
theorem countBoxes_steps (w : ℚ) (hw : mFudge < w) :
    ∀ (k : Nat) (c : ℚ) (num fuel : Nat), k < fuel → num + k < 4294967296 →
      countBoxes fuel w (c + k * w) c num = some (num + k) := by
  have hf : (0 : ℚ) < mFudge := by norm_num [mFudge]
  intro k
  induction k with
  | zero =>
    intro c num fuel hfuel hnum
    obtain ⟨fuel, rfl⟩ : ∃ f, fuel = f + 1 := ⟨fuel - 1, by omega⟩
    have : ¬ (c + mFudge < c + ((0 : Nat) : ℚ) * w) := by
      simp only [Nat.cast_zero, zero_mul, add_zero, add_lt_iff_neg_left, not_lt]
      exact le_of_lt hf
    simp only [countBoxes, this, if_false, Nat.add_zero]
  | succ k ih =>
    intro c num fuel hfuel hnum
    obtain ⟨fuel, rfl⟩ : ∃ f, fuel = f + 1 := ⟨fuel - 1, by omega⟩
    have hk : (0 : ℚ) ≤ (k : ℚ) * w := mul_nonneg (Nat.cast_nonneg _) (by linarith)
    have h1 : c + mFudge < c + ((k + 1 : Nat) : ℚ) * w := by
      push_cast
      linarith
    have e : c + ((k + 1 : Nat) : ℚ) * w = (c + w) + (k : ℚ) * w := by
      push_cast
      ring
    simp only [countBoxes, h1, if_true]
    rw [e, uadd_eq _ _ (by omega), ih (c + w) (num + 1) fuel (by omega) (by omega)]
    congr 1
    omega

theorem swell_step (m M w : ℚ) (l : List ℚ) (j : Nat) (h : m ≤ M) (hw : 0 < w) :
    (match fmod (M - m) w with
      | some r => if r > 0 then l.set j (M + (w - r)) else l
      | none => l)
      = if M = m + (boxesAlong (M - m) w : ℚ) * w then l
        else l.set j (m + (boxesAlong (M - m) w : ℚ) * w) := by
  obtain ⟨e, -, hlt⟩ := fmod_nonneg (M - m) w (by linarith) hw
  have e2 := (swell_axis (M - m) w (by linarith) hw).1
  rw [e]
  simp only
  by_cases hr : M - m - (⌊(M - m) / w⌋ : ℚ) * w > 0
  · rw [if_pos hr] at e2 ⊢
    have hne : ¬ (M = m + (boxesAlong (M - m) w : ℚ) * w) := by
      intro hM
      linarith
    rw [if_neg hne]
    congr 1
    linarith
  · rw [if_neg hr] at e2 ⊢
    rw [if_pos (by linarith)]

theorem set_same_cons_one (m M x : ℚ) (t : List ℚ) :
    (if M = x then m :: M :: t else (m :: M :: t).set 1 x) = m :: x :: t := by
  split_ifs with h
  · rw [h]
  · rfl

theorem swellDomain_one (w m0 M0 : ℚ) (hw : 0 < w) (h0 : m0 ≤ M0) :
    swellDomain .one w [m0, M0] = [m0, m0 + (boxesAlong (M0 - m0) w : ℚ) * w] := by
  have hr : List.range 1 = [0] := rfl
  unfold swellDomain
  simp only [Dim.toNat, hr, List.foldl_cons, List.foldl_nil, List.getD_cons_zero,
    List.getD_cons_succ, Nat.mul_zero, Nat.zero_add]
  rw [swell_step m0 M0 w _ 1 h0 hw, set_same_cons_one]

theorem swellDomain_two (w m0 M0 m1 M1 : ℚ) (hw : 0 < w) (h0 : m0 ≤ M0) (h1 : m1 ≤ M1) :
    swellDomain .two w [m0, M0, m1, M1]
      = [m0, m0 + (boxesAlong (M0 - m0) w : ℚ) * w,
         m1, m1 + (boxesAlong (M1 - m1) w : ℚ) * w] := by
  have hr : List.range 2 = [0, 1] := rfl
  unfold swellDomain
  simp only [Dim.toNat, hr, List.foldl_cons, List.foldl_nil, Nat.mul_zero, Nat.zero_add,
    Nat.mul_one, List.getD_cons_zero, List.getD_cons_succ]
  rw [swell_step m0 M0 w _ 1 h0 hw, set_same_cons_one]
  simp only [List.getD_cons_zero, List.getD_cons_succ, Nat.reduceAdd]
  rw [swell_step m1 M1 w _ 3 h1 hw]
  split_ifs with h
  · rw [← h]
  · rfl

theorem swellDomain_three (w m0 M0 m1 M1 m2 M2 : ℚ) (hw : 0 < w) (h0 : m0 ≤ M0)
    (h1 : m1 ≤ M1) (h2 : m2 ≤ M2) :
    swellDomain .three w [m0, M0, m1, M1, m2, M2]
      = [m0, m0 + (boxesAlong (M0 - m0) w : ℚ) * w,
         m1, m1 + (boxesAlong (M1 - m1) w : ℚ) * w,
         m2, m2 + (boxesAlong (M2 - m2) w : ℚ) * w] := by
  have hr : List.range 3 = [0, 1, 2] := rfl
  unfold swellDomain
  simp only [Dim.toNat, hr, List.foldl_cons, List.foldl_nil, Nat.mul_zero, Nat.zero_add,
    Nat.mul_one, List.getD_cons_zero, List.getD_cons_succ]
  rw [swell_step m0 M0 w _ 1 h0 hw, set_same_cons_one]
  simp only [List.getD_cons_zero, List.getD_cons_succ, Nat.reduceAdd]
  rw [swell_step m1 M1 w _ 3 h1 hw]
  have e1 : (if M1 = m1 + (boxesAlong (M1 - m1) w : ℚ) * w then
        [m0, m0 + (boxesAlong (M0 - m0) w : ℚ) * w, m1, M1, m2, M2]
      else [m0, m0 + (boxesAlong (M0 - m0) w : ℚ) * w, m1, M1, m2, M2].set 3
        (m1 + (boxesAlong (M1 - m1) w : ℚ) * w))
      = [m0, m0 + (boxesAlong (M0 - m0) w : ℚ) * w, m1,
          m1 + (boxesAlong (M1 - m1) w : ℚ) * w, m2, M2] := by
    split_ifs with h
    · rw [← h]
    · rfl
  rw [e1]
  simp only [List.getD_cons_zero, List.getD_cons_succ, Nat.reduceMul, Nat.reduceAdd]
  rw [swell_step m2 M2 w _ 5 h2 hw]
  split_ifs with h
  · rw [← h]
  · rfl

theorem length_four {α : Type} (l : List α) (h : l.length = 4) :
    ∃ a b c d, l = [a, b, c, d] := by
  match l, h with
  | [a, b, c, d], _ => exact ⟨a, b, c, d, rfl⟩

theorem length_six {α : Type} (l : List α) (h : l.length = 6) :
    ∃ a b c d e f, l = [a, b, c, d, e, f] := by
  match l, h with
  | [a, b, c, d, e, f], _ => exact ⟨a, b, c, d, e, f, rfl⟩

theorem getD_set {α : Type} (L : List α) (j i : Nat) (x d : α) :
    (L.set j x).getD i d = if j = i ∧ j < L.length then x else L.getD i d := by
  rw [List.getD_eq_getElem?_getD, List.getD_eq_getElem?_getD, List.getElem?_set]
  by_cases h : j = i
  · subst h
    by_cases h2 : j < L.length
    · simp [h2]
    · have h3 : L[j]? = none := List.getElem?_eq_none (by omega)
      simp [h2, h3]
  · simp [h]

/-- The first loop of the constructor, axis by axis. -/
theorem swellDomain_getD (DIM : Dim) (w : ℚ) (d : List ℚ) (hw : 0 < w)
    (hlen : d.length = 2 * DIM.toNat)
    (hdom : ∀ i, i < DIM.toNat → d.getD (2 * i) 0 ≤ d.getD (2 * i + 1) 0) :
    (swellDomain DIM w d).length = 2 * DIM.toNat
      ∧ ∀ i, i < DIM.toNat →
        (swellDomain DIM w d).getD (2 * i) 0 = d.getD (2 * i) 0
          ∧ (swellDomain DIM w d).getD (2 * i + 1) 0
            = d.getD (2 * i) 0
              + (boxesAlong (d.getD (2 * i + 1) 0 - d.getD (2 * i) 0) w : ℚ) * w := by
  cases DIM
  · obtain ⟨m0, M0, rfl⟩ := List.length_eq_two.1 hlen
    simp only [Dim.toNat, forall_lt_one, List.getD_cons_zero, List.getD_cons_succ,
      Nat.mul_zero, Nat.zero_add] at hdom ⊢
    rw [swellDomain_one w m0 M0 hw hdom]
    simp only [List.getD_cons_zero, List.getD_cons_succ, List.length_cons, List.length_nil,
      and_self]
  · obtain ⟨m0, M0, m1, M1, rfl⟩ := length_four d hlen
    simp only [Dim.toNat, forall_lt_two, List.getD_cons_zero, List.getD_cons_succ,
      Nat.mul_zero, Nat.zero_add, Nat.mul_one, Nat.reduceAdd] at hdom ⊢
    rw [swellDomain_two w m0 M0 m1 M1 hw hdom.1 hdom.2]
    simp only [List.getD_cons_zero, List.getD_cons_succ, List.length_cons, List.length_nil,
      and_self]
  · obtain ⟨m0, M0, m1, M1, m2, M2, rfl⟩ := length_six d hlen
    simp only [Dim.toNat, forall_lt_three, List.getD_cons_zero, List.getD_cons_succ,
      Nat.mul_zero, Nat.zero_add, Nat.mul_one, Nat.reduceAdd, Nat.reduceMul] at hdom ⊢
    rw [swellDomain_three w m0 M0 m1 M1 m2 M2 hw hdom.1 hdom.2.1 hdom.2.2]
    simp only [List.getD_cons_zero, List.getD_cons_succ, List.length_cons, List.length_nil,
      and_self]

/-- The counting loops of the constructor return the numbers `boxesAlong` of the axes. -/
theorem count_axes (DIM : Dim) (w : ℚ) (d : List ℚ) (hw : mFudge < w)
    (hlen : d.length = 2 * DIM.toNat)
    (hdom : ∀ i, i < DIM.toNat → d.getD (2 * i) 0 ≤ d.getD (2 * i + 1) 0)
    (fuel : Nat)
    (hfuel : ∀ i, i < DIM.toNat →
      boxesAlong (d.getD (2 * i + 1) 0 - d.getD (2 * i) 0) w < fuel)
    (hrep : ∀ i, i < DIM.toNat →
      boxesAlong (d.getD (2 * i + 1) 0 - d.getD (2 * i) 0) w < 4294967296) :
    (List.range DIM.toNat).mapM (fun i =>
        countBoxes fuel w ((swellDomain DIM w d).getD (2 * i + 1) 0)
          ((swellDomain DIM w d).getD (2 * i) 0) 0)
      = some ((List.range DIM.toNat).map
          (fun i => boxesAlong (d.getD (2 * i + 1) 0 - d.getD (2 * i) 0) w)) := by
  have hw0 : (0 : ℚ) < w := lt_trans (by norm_num [mFudge]) hw
  obtain ⟨-, hs⟩ := swellDomain_getD DIM w d hw0 hlen hdom
  apply mapM_eq_map_of_forall
  intro i hi
  rw [List.mem_range] at hi
  rw [(hs i hi).1, (hs i hi).2,
    countBoxes_steps w hw _ _ 0 fuel (hfuel i hi) (by have := hrep i hi; omega)]
  rw [Nat.zero_add]

/-- What the allocation step of the constructor does to the domain and the box counts on one
process: only an empty last axis is grown, by one box. -/
theorem allocate_axes (DIM : Dim) (w : ℚ) (D : List ℚ) (counted : List Nat) (p : Bool)
    (hlenD : D.length = 2 * DIM.toNat) (hlenC : counted.length = DIM.toNat) :
    (newDistributedBoxCollection.allocate DIM w D counted p 1 0
        (fun n => (0, n))).mNumBoxesEachDirection.length = DIM.toNat
    ∧ ∀ i, i < DIM.toNat →
      (newDistributedBoxCollection.allocate DIM w D counted p 1 0
          (fun n => (0, n))).mDomainSize.getD (2 * i) 0 = D.getD (2 * i) 0
      ∧ (newDistributedBoxCollection.allocate DIM w D counted p 1 0
          (fun n => (0, n))).mDomainSize.getD (2 * i + 1) 0
          = (if counted.getD i 0 = 0 ∧ i + 1 = DIM.toNat then D.getD (2 * i + 1) 0 + w
              else D.getD (2 * i + 1) 0)
      ∧ (newDistributedBoxCollection.allocate DIM w D counted p 1 0
          (fun n => (0, n))).mNumBoxesEachDirection.getD i 0
          = (if counted.getD i 0 = 0 ∧ i + 1 = DIM.toNat then 1 else counted.getD i 0) := by
  have hD : 1 ≤ DIM.toNat := by cases DIM <;> decide
  by_cases hg : counted.getD (DIM.toNat - 1) 0 < 1
  · have h0 : counted.getD (DIM.toNat - 1) 0 = 0 := by omega
    have hu : usub 1 0 = 1 := rfl
    simp only [newDistributedBoxCollection.allocate, hg, decide_True, if_true,
      List.length_set, hlenC, true_and]
    rw [h0, hu, Nat.cast_one, one_mul]
    intro i hi
    rw [getD_set, getD_set, getD_set]
    by_cases hl : i + 1 = DIM.toNat
    · have e : DIM.toNat - 1 = i := by omega
      rw [e] at h0
      have c1 : ¬ (2 * DIM.toNat - 1 = 2 * i ∧ 2 * DIM.toNat - 1 < D.length) := by omega
      have c2 : 2 * DIM.toNat - 1 = 2 * i + 1 ∧ 2 * DIM.toNat - 1 < D.length := by omega
      have c3 : DIM.toNat - 1 = i ∧ DIM.toNat - 1 < counted.length := by omega
      have c4 : counted.getD i 0 = 0 ∧ i + 1 = DIM.toNat := ⟨h0, hl⟩
      rw [if_neg c1, if_pos c2, if_pos c3, if_pos c4, if_pos c4, c2.1]
      exact ⟨rfl, rfl, rfl⟩
    · have c1 : ¬ (2 * DIM.toNat - 1 = 2 * i ∧ 2 * DIM.toNat - 1 < D.length) := by omega
      have c2 : ¬ (2 * DIM.toNat - 1 = 2 * i + 1 ∧ 2 * DIM.toNat - 1 < D.length) := by omega
      have c3 : ¬ (DIM.toNat - 1 = i ∧ DIM.toNat - 1 < counted.length) := by omega
      have c4 : ¬ (counted.getD i 0 = 0 ∧ i + 1 = DIM.toNat) := fun h => hl h.2
      rw [if_neg c1, if_neg c2, if_neg c3, if_neg c4, if_neg c4]
      exact ⟨rfl, rfl, rfl⟩
  · simp only [newDistributedBoxCollection.allocate, hg, decide_False, if_false,
      Bool.false_eq_true, hlenC, true_and]
    intro i hi
    have hne : ¬ (counted.getD i 0 = 0 ∧ i + 1 = DIM.toNat) := by
      rintro ⟨h1, h2⟩
      have e : DIM.toNat - 1 = i := by omega
      rw [e] at hg
      omega
    rw [if_neg hne, if_neg hne]
    exact ⟨rfl, rfl⟩

theorem boxesAlong_pos (a w : ℚ) (ha : 0 < a) (hw : 0 < w) : 1 ≤ boxesAlong a w := by
  unfold boxesAlong
  have : 0 < ⌈a / w⌉ := Int.ceil_pos.2 (div_pos ha hw)
  omega

theorem boxesAlong_zero (w : ℚ) : boxesAlong 0 w = 0 := by
  simp [boxesAlong]

/-- The constructor on one process, axis by axis. -/
theorem newDistributedBoxCollection_axes (DIM : Dim) (boxWidth : ℚ) (domainSize : List ℚ)
    (isPeriodicInX : Bool) (hw : mFudge < boxWidth)
    (hlen : domainSize.length = 2 * DIM.toNat)
    (hdom : ∀ i, i < DIM.toNat → domainSize.getD (2 * i) 0 ≤ domainSize.getD (2 * i + 1) 0)
    (hrep : ∀ i, i < DIM.toNat →
      boxesAlong (domainSize.getD (2 * i + 1) 0 - domainSize.getD (2 * i) 0) boxWidth
        < 4294967296)
    (hper : isPeriodicInX = true → DIM = .two)
    (fuel : Nat)
    (hfuel : ∀ i, i < DIM.toNat →
      boxesAlong (domainSize.getD (2 * i + 1) 0 - domainSize.getD (2 * i) 0) boxWidth
        < fuel) :
    ∃ s, newDistributedBoxCollection DIM fuel boxWidth domainSize isPeriodicInX 1 0
        (fun n => (0, n)) = .ok s
      ∧ s.mNumBoxesEachDirection.length = DIM.toNat
      ∧ ∀ i, i < DIM.toNat →
        s.mDomainSize.getD (2 * i) 0 = domainSize.getD (2 * i) 0
        ∧ s.mDomainSize.getD (2 * i + 1) 0 - s.mDomainSize.getD (2 * i) 0
            = (s.mNumBoxesEachDirection.getD i 0 : ℚ) * boxWidth
        ∧ domainSize.getD (2 * i + 1) 0 ≤ s.mDomainSize.getD (2 * i + 1) 0
        ∧ ((domainSize.getD (2 * i) 0 < domainSize.getD (2 * i + 1) 0 ∨ i + 1 < DIM.toNat) →
            s.mDomainSize.getD (2 * i + 1) 0 < domainSize.getD (2 * i + 1) 0 + boxWidth
            ∧ s.mNumBoxesEachDirection.getD i 0
                = boxesAlong (domainSize.getD (2 * i + 1) 0 - domainSize.getD (2 * i) 0)
                    boxWidth)
        ∧ ((domainSize.getD (2 * i) 0 = domainSize.getD (2 * i + 1) 0
              ∧ i + 1 = DIM.toNat) →
            s.mDomainSize.getD (2 * i + 1) 0 = domainSize.getD (2 * i + 1) 0 + boxWidth
            ∧ s.mNumBoxesEachDirection.getD i 0 = 1) := by
  have hw0 : (0 : ℚ) < boxWidth := lt_trans (by norm_num [mFudge]) hw
  have hassert : (isPeriodicInX && !(DIM == .two && (1 : Nat) == 1)) = false := by
    cases hp : isPeriodicInX
    · rfl
    · rw [hper hp]
      rfl
  obtain ⟨hsl, hs⟩ := swellDomain_getD DIM boxWidth domainSize hw0 hlen hdom
  have hcount := count_axes DIM boxWidth domainSize hw hlen hdom fuel hfuel hrep
  obtain ⟨ha1, ha2⟩ := allocate_axes DIM boxWidth (swellDomain DIM boxWidth domainSize)
    ((List.range DIM.toNat).map (fun i =>
      boxesAlong (domainSize.getD (2 * i + 1) 0 - domainSize.getD (2 * i) 0) boxWidth))
    isPeriodicInX hsl (by rw [List.length_map, List.length_range])
  refine ⟨_, ?_, ha1, ?_⟩
  · unfold newDistributedBoxCollection
    rw [hassert]
    simp only [Bool.false_eq_true, if_false, hcount]
  · intro i hi
    obtain ⟨b1, b2, b3⟩ := ha2 i hi
    obtain ⟨s1, s2⟩ := hs i hi
    have hk : ((List.range DIM.toNat).map (fun i =>
        boxesAlong (domainSize.getD (2 * i + 1) 0 - domainSize.getD (2 * i) 0)
          boxWidth)).getD i 0
        = boxesAlong (domainSize.getD (2 * i + 1) 0 - domainSize.getD (2 * i) 0)
          boxWidth := by
      rw [List.getD_eq_getElem?_getD, List.getElem?_map,
        List.getElem?_range hi]
      rfl
    rw [hk] at b2 b3
    rw [b1, b2, b3, s1, s2]
    have hd := hdom i hi
    obtain ⟨-, a2, a3⟩ := swell_axis
      (domainSize.getD (2 * i + 1) 0 - domainSize.getD (2 * i) 0) boxWidth (by linarith) hw0
    by_cases hc : boxesAlong (domainSize.getD (2 * i + 1) 0 - domainSize.getD (2 * i) 0)
        boxWidth = 0 ∧ i + 1 = DIM.toNat
    · rw [if_pos hc, if_pos hc]
      rw [hc.1] at a2 a3 ⊢
      simp only [Nat.cast_zero, zero_mul, add_zero, Nat.cast_one, one_mul] at a2 a3 ⊢
      have heq : domainSize.getD (2 * i) 0 = domainSize.getD (2 * i + 1) 0 := by linarith
      refine ⟨?_, by ring, by linarith, ?_, ?_⟩
      · first | rfl | trivial
      · rintro (h | h)
        · exact absurd heq (ne_of_lt h)
        · omega
      · intro _
        exact ⟨by rw [heq], trivial⟩
    · rw [if_neg hc, if_neg hc]
      refine ⟨?_, by ring, by linarith, ?_, ?_⟩
      · rfl
      · intro _
        exact ⟨by linarith, rfl⟩
      · rintro ⟨h1, h2⟩
        exfalso
        apply hc
        rw [← h1, sub_self, boxesAlong_zero]
        exact ⟨rfl, h2⟩

theorem boxesAlong_ten : boxesAlong (10 - 0) 1 = 10 := by
  have e : ⌈((10 : ℚ) - 0) / 1⌉ = 10 := by norm_num
  unfold boxesAlong
  rw [e]
  rfl

theorem tenByTen_counts (fuel : Nat) (hfuel : 11 ≤ fuel) :
    newDistributedBoxCollection .two fuel 1 [0, 10, 0, 10] false 1 0 (fun n => (0, n))
      = .ok (newDistributedBoxCollection.allocate .two 1
          (swellDomain .two 1 [0, 10, 0, 10]) [10, 10] false 1 0 (fun n => (0, n))) := by
  have hk : boxesAlong (10 - 0) 1 = 10 := boxesAlong_ten
  have hall : ∀ (P : Nat → Prop), P 0 → P 1 → ∀ i, i < Dim.two.toNat → P i := by
    intro P p0 p1 i hi
    have : i = 0 ∨ i = 1 := by simp only [Dim.toNat] at hi; omega
    rcases this with rfl | rfl
    · exact p0
    · exact p1
  have hcount := count_axes .two 1 [0, 10, 0, 10] (by norm_num [mFudge]) rfl
    (hall _ (by norm_num) (by norm_num)) fuel
    (hall _ (by show boxesAlong (10 - 0) 1 < fuel; rw [hk]; omega)
      (by show boxesAlong (10 - 0) 1 < fuel; rw [hk]; omega))
    (hall _ (by show boxesAlong (10 - 0) 1 < 4294967296; rw [hk]; omega)
      (by show boxesAlong (10 - 0) 1 < 4294967296; rw [hk]; omega))
  have hm : (List.range Dim.two.toNat).map
      (fun i => boxesAlong (([0, 10, 0, 10] : List ℚ).getD (2 * i + 1) 0
        - ([0, 10, 0, 10] : List ℚ).getD (2 * i) 0) 1) = [10, 10] := by
    show [boxesAlong (10 - 0) 1, boxesAlong (10 - 0) 1] = [10, 10]
    rw [hk]
  rw [hm] at hcount
  unfold newDistributedBoxCollection
  simp only [Bool.false_and, Bool.false_eq_true, if_false, hcount]

/-- In exact arithmetic, on one process, for a box width above the fudge and a domain whose
upper ends are not below its lower ends (the box counts fitting 32 bits), the constructor
returns, given enough iterations, a collection in which every axis keeps its lower end and has
the extent
`num_boxes[i] * box_width`; the upper end is not lowered, and it is raised by less than one box
width except on a last axis of extent zero, which is grown to one box. For box width 1 and the
domain `[0, 10] x [0, 10]` the counts are `(10, 10)`, there are 100 boxes, and the collection
is a single-process grid. -/
theorem newDistributedBoxCollection_domain :
    (∀ (DIM : Dim) (boxWidth : ℚ) (domainSize : List ℚ) (isPeriodicInX : Bool),
      mFudge < boxWidth → domainSize.length = 2 * DIM.toNat →
      (∀ i, i < DIM.toNat → domainSize.getD (2 * i) 0 ≤ domainSize.getD (2 * i + 1) 0) →
      (∀ i, i < DIM.toNat →
        boxesAlong (domainSize.getD (2 * i + 1) 0 - domainSize.getD (2 * i) 0) boxWidth
          < 4294967296) →
      (isPeriodicInX = true → DIM = .two) →
      ∃ fuel0, ∀ fuel, fuel0 ≤ fuel →
        ∃ s, newDistributedBoxCollection DIM fuel boxWidth domainSize isPeriodicInX 1 0
            (fun n => (0, n)) = .ok s
          ∧ s.mNumBoxesEachDirection.length = DIM.toNat
          ∧ ∀ i, i < DIM.toNat →
            s.mDomainSize.getD (2 * i) 0 = domainSize.getD (2 * i) 0
            ∧ s.mDomainSize.getD (2 * i + 1) 0 - s.mDomainSize.getD (2 * i) 0
                = (s.mNumBoxesEachDirection.getD i 0 : ℚ) * boxWidth
            ∧ domainSize.getD (2 * i + 1) 0 ≤ s.mDomainSize.getD (2 * i + 1) 0
            ∧ ((domainSize.getD (2 * i) 0 < domainSize.getD (2 * i + 1) 0
                  ∨ i + 1 < DIM.toNat) →
                s.mDomainSize.getD (2 * i + 1) 0 < domainSize.getD (2 * i + 1) 0 + boxWidth
                ∧ s.mNumBoxesEachDirection.getD i 0
                    = boxesAlong
                        (domainSize.getD (2 * i + 1) 0 - domainSize.getD (2 * i) 0) boxWidth)
            ∧ ((domainSize.getD (2 * i) 0 = domainSize.getD (2 * i + 1) 0
                  ∧ i + 1 = DIM.toNat) →
                s.mDomainSize.getD (2 * i + 1) 0 = domainSize.getD (2 * i + 1) 0 + boxWidth
                ∧ s.mNumBoxesEachDirection.getD i 0 = 1))
    ∧ (∀ fuel, 11 ≤ fuel →
        ∃ s, newDistributedBoxCollection .two fuel 1 [0, 10, 0, 10] false 1 0
            (fun n => (0, n)) = .ok s
          ∧ s.mNumBoxesEachDirection = [10, 10] ∧ s.mBoxes.length = 100
          ∧ s.mDomainSize = [0, 10, 0, 10] ∧ SingleProcessGrid s) := by
  constructor
  · intro DIM boxWidth domainSize isPeriodicInX hw hlen hdom hrep hper
    refine ⟨boxesAlong (domainSize.getD 1 0 - domainSize.getD 0 0) boxWidth
      + boxesAlong (domainSize.getD 3 0 - domainSize.getD 2 0) boxWidth
      + boxesAlong (domainSize.getD 5 0 - domainSize.getD 4 0) boxWidth + 1, ?_⟩
    intro fuel hfuel
    apply newDistributedBoxCollection_axes DIM boxWidth domainSize isPeriodicInX hw hlen hdom
      hrep hper fuel
    intro i hi
    have h3 := Dim.toNat_le DIM
    have : i = 0 ∨ i = 1 ∨ i = 2 := by omega
    rcases this with rfl | rfl | rfl
    all_goals simp only [Nat.mul_zero, Nat.zero_add, Nat.mul_one, Nat.reduceMul, Nat.reduceAdd]
    all_goals omega
  · intro fuel hfuel
    refine ⟨_, tenByTen_counts fuel hfuel, rfl, rfl, ?_, by decide⟩
    rw [swellDomain_two 1 0 10 0 10 (by norm_num) (by norm_num) (by norm_num)]
    have hk : boxesAlong (10 - 0) 1 = 10 := boxesAlong_ten
    simp only [newDistributedBoxCollection.allocate, hk]
    norm_num
    intro h
    exact absurd h (by decide)

theorem wrapInt_eq (x : Int) (h1 : -2147483648 ≤ x) (h2 : x < 2147483648) : wrapInt x = x := by
  unfold wrapInt
  omega

/-- The decision of a rank about its bottom boundary is the difference of two tests. -/
theorem localChange_cases (l left : List Int) (c : Int)
    (h : LoadBalance.localChange l left = .ok c) :
    (c = -1 ∨ c = 0 ∨ c = 1) ∧ (c = 1 → 1 < left.length) ∧ (c = -1 → 2 < l.length)
      ∧ (¬ 1 < left.length → c ≤ 0) ∧ (¬ 2 < l.length → 0 ≤ c) := by
  unfold LoadBalance.localChange at h
  split at h
  · simp only [Except.ok.injEq] at h
    subst h
    split_ifs with h1 h2 h2 <;>
      simp only [Bool.and_eq_true, decide_eq_true_eq] at h1 h2 <;>
      refine ⟨by decide, ?_, ?_, ?_, ?_⟩ <;> intro h3 <;> omega
  · cases h

/-- The decision of a rank exists when it and its left neighbour have a row. -/
theorem localChange_ok (l left : List Int) (hl : 1 ≤ l.length) (hleft : 1 ≤ left.length) :
    ∃ c, LoadBalance.localChange l left = .ok c := by
  have h1 : ∃ a, left.get? (left.length - 1) = some a := by
    rw [List.get?_eq_getElem?]
    exact ⟨_, List.getElem?_eq_getElem (by omega)⟩
  have h2 : ∃ b, l.get? 0 = some b := by
    rw [List.get?_eq_getElem?]
    exact ⟨_, List.getElem?_eq_getElem (by omega)⟩
  obtain ⟨a, ha⟩ := h1
  obtain ⟨b, hb⟩ := h2
  unfold LoadBalance.localChange
  rw [ha, hb]
  exact ⟨_, rfl⟩

/-- What `LoadBalance` returns on one rank, when the number of rows is far from the `int`
range and the received change is a decision. -/
theorem LoadBalance_eq (amMaster amTopMost : Bool) (l left : List Int) (recv : Int)
    (hlen : (l.length : Int) + 2 < 2147483648) (hrecv : -1 ≤ recv ∧ recv ≤ 1) :
    (amMaster = true →
      LoadBalance amMaster amTopMost l left recv
        = .ok ((l.length : Int) + 0 - (if amTopMost then 0 else recv), none))
    ∧ (amMaster = false → ∀ c, LoadBalance.localChange l left = .ok c →
      LoadBalance amMaster amTopMost l left recv
        = .ok ((l.length : Int) + c - (if amTopMost then 0 else recv), some c))
    ∧ (amMaster = false → ∀ e, LoadBalance.localChange l left = .error e →
      LoadBalance amMaster amTopMost l left recv = .error e) := by
  have hw : wrapInt (l.length : Int) = l.length := wrapInt_eq _ (by omega) (by omega)
  have hrc : -1 ≤ (if amTopMost then (0 : Int) else recv)
      ∧ (if amTopMost then (0 : Int) else recv) ≤ 1 := by
    split_ifs <;> omega
  refine ⟨?_, ?_, ?_⟩
  · intro hm
    subst hm
    simp only [LoadBalance, hw, Bool.not_true, Bool.false_eq_true, if_false, isub, add_zero]
    rw [wrapInt_eq _ (by omega) (by omega)]
  · intro hm c hc
    subst hm
    obtain ⟨h1, -⟩ := localChange_cases l left c hc
    simp only [LoadBalance, hw, Bool.not_false, if_true, Bool.false_eq_true, if_false, hc,
      isub, iadd]
    rw [wrapInt_eq ((l.length : Int) + c) (by omega) (by omega),
      wrapInt_eq _ (by omega) (by omega)]
  · intro hm e he
    subst hm
    simp only [LoadBalance, Bool.not_false, if_true, Bool.false_eq_true, if_false, he]

theorem getD_mem {α : Type} (l : List α) (r : Nat) (d : α) (hr : r < l.length) :
    l.getD r d ∈ l := by
  rw [List.getD_eq_getElem _ _ hr]
  exact List.getElem_mem _

/-- One collective call of `LoadBalance` when every rank passes at least one row: rank `r`
returns its number of rows plus its own decision minus the decision of rank `r+1`. -/
theorem pass_rows (ds : List (List Int))
    (hall : ∀ d, d ∈ ds → 1 ≤ d.length ∧ (d.length : Int) + 2 < 2147483648)
    (r : Nat) (hr : r < ds.length) :
    ∃ lc rc : Int, LoadBalance.pass ds r = .ok (((ds.getD r []).length : Int) + lc - rc)
      ∧ (r = 0 → lc = 0)
      ∧ (0 < r → LoadBalance.localChange (ds.getD r []) (ds.getD (r - 1) []) = .ok lc)
      ∧ (r + 1 = ds.length → rc = 0)
      ∧ (r + 1 < ds.length →
          LoadBalance.localChange (ds.getD (r + 1) []) (ds.getD r []) = .ok rc) := by
  obtain ⟨hl1, hl2⟩ := hall _ (getD_mem ds r [] hr)
  have hrecv : ∃ rc : Int, (if r + 1 < ds.length then
        LoadBalance.localChange (ds.getD (r + 1) []) (ds.getD r []) else .ok 0) = .ok rc
      ∧ (-1 ≤ rc ∧ rc ≤ 1) ∧ (r + 1 = ds.length → rc = 0)
      ∧ (r + 1 < ds.length →
          LoadBalance.localChange (ds.getD (r + 1) []) (ds.getD r []) = .ok rc) := by
    by_cases h : r + 1 < ds.length
    · obtain ⟨rc, hrc⟩ := localChange_ok (ds.getD (r + 1) []) (ds.getD r [])
        (hall _ (getD_mem ds (r + 1) [] h)).1 hl1
      obtain ⟨h1, -⟩ := localChange_cases _ _ rc hrc
      exact ⟨rc, by rw [if_pos h]; exact hrc, by omega, by omega, fun _ => hrc⟩
    · exact ⟨0, by rw [if_neg h], by omega, fun _ => rfl, fun h' => absurd h' h⟩
  obtain ⟨rc, hrc, hb, hrc0, hrc1⟩ := hrecv
  have hL := LoadBalance_eq (r == 0) (r + 1 == ds.length) (ds.getD r [])
    (if (r == 0) = true then [] else ds.getD (r - 1) []) rc hl2 hb
  have htop : (if (r + 1 == ds.length) = true then (0 : Int) else rc) = rc := by
    by_cases h : r + 1 = ds.length
    · rw [hrc0 h]
      simp
    · have : (r + 1 == ds.length) = false := by simpa using h
      rw [this]
      rfl
  rw [htop] at hL
  by_cases h0 : r = 0
  · subst h0
    refine ⟨0, rc, ?_, fun _ => rfl, fun h => absurd h (by omega), hrc0, hrc1⟩
    unfold LoadBalance.pass
    simp only [hrc]
    rw [hL.1 rfl]
  · have hb0 : (r == 0) = false := by simpa using h0
    rw [hb0] at hL
    simp only [Bool.false_eq_true, if_false] at hL
    obtain ⟨lc, hlc⟩ := localChange_ok (ds.getD r []) (ds.getD (r - 1) []) hl1
      (hall _ (getD_mem ds (r - 1) [] (by omega))).1
    refine ⟨lc, rc, ?_, fun h => absurd h h0, fun _ => hlc, hrc0, hrc1⟩
    unfold LoadBalance.pass
    simp only [hrc, hb0, Bool.false_eq_true, if_false]
    rw [hL.2.1 trivial lc hlc]

/-- C27: on a rank that passes `local_rows` rows (far from the `int` range) and receives a
decision from its right neighbour, `LoadBalance` returns
`local_rows + local_change - remote_change`, where `local_change` is the decision of the rank
about its bottom boundary, 0 on the master and else the value it sends to the left, and
`remote_change` is the received decision, 0 on the top-most rank; every decision is -1, 0 or 1.
In a collective call in which every rank passes at least one row, the `remote_change` of rank
`r` is the `local_change` of rank `r+1`, so the boundary between them moves by at most one
row. -/
theorem LoadBalance_new_rows :
    (∀ (amMaster amTopMost : Bool) (l left : List Int) (recv : Int),
      (l.length : Int) + 2 < 2147483648 → (-1 ≤ recv ∧ recv ≤ 1) →
      (amMaster = true ∨ (1 ≤ l.length ∧ 1 ≤ left.length)) →
      ∃ local_change remote_change : Int,
        LoadBalance amMaster amTopMost l left recv
          = .ok ((l.length : Int) + local_change - remote_change,
              if amMaster then none else some local_change)
        ∧ (local_change = -1 ∨ local_change = 0 ∨ local_change = 1)
        ∧ (amMaster = true → local_change = 0)
        ∧ (amMaster = false → LoadBalance.localChange l left = .ok local_change)
        ∧ remote_change = (if amTopMost then 0 else recv))
    ∧ (∀ ds : List (List Int),
      (∀ d, d ∈ ds → 1 ≤ d.length ∧ (d.length : Int) + 2 < 2147483648) →
      ∀ r, r < ds.length →
        ∃ lc rc : Int,
          LoadBalance.pass ds r = .ok (((ds.getD r []).length : Int) + lc - rc)
          ∧ (lc = -1 ∨ lc = 0 ∨ lc = 1) ∧ (rc = -1 ∨ rc = 0 ∨ rc = 1)
          ∧ (r = 0 → lc = 0)
          ∧ (0 < r → LoadBalance.localChange (ds.getD r []) (ds.getD (r - 1) []) = .ok lc)
          ∧ (r + 1 = ds.length → rc = 0)
          ∧ (r + 1 < ds.length →
              LoadBalance.localChange (ds.getD (r + 1) []) (ds.getD r []) = .ok rc)) := by
  constructor
  · intro amMaster amTopMost l left recv hlen hrecv hdef
    obtain ⟨h1, h2, h3⟩ := LoadBalance_eq amMaster amTopMost l left recv hlen hrecv
    cases hm : amMaster
    · have hne : 1 ≤ l.length ∧ 1 ≤ left.length := by
        rcases hdef with h | h
        · rw [hm] at h
          cases h
        · exact h
      obtain ⟨c, hc⟩ := localChange_ok l left hne.1 hne.2
      refine ⟨c, if amTopMost then 0 else recv, ?_, (localChange_cases l left c hc).1,
        (fun h => by cases h), fun _ => hc, rfl⟩
      rw [← hm, h2 hm c hc, hm]
      rfl
    · refine ⟨0, if amTopMost then 0 else recv, ?_, by decide, fun _ => rfl,
        (fun h => by cases h), rfl⟩
      rw [← hm, h1 hm, hm]
      rfl
  · intro ds hall r hr
    obtain ⟨lc, rc, h1, h2, h3, h4, h5⟩ := pass_rows ds hall r hr
    refine ⟨lc, rc, h1, ?_, ?_, h2, h3, h4, h5⟩
    · rcases Nat.eq_zero_or_pos r with h | h
      · rw [h2 h]
        decide
      · exact (localChange_cases _ _ lc (h3 h)).1
    · rcases Nat.lt_or_ge (r + 1) ds.length with h | h
      · exact (localChange_cases _ _ rc (h5 h)).1
      · rw [h4 (by omega)]
        decide

theorem LoadBalance_new_rows_witness :
    ((([0, 0, 0] : List Int).length : Int) + 2 < 2147483648)
    ∧ ∃ local_change remote_change : Int,
        LoadBalance false true [0, 0, 0] [10, 10] 0
          = .ok ((([0, 0, 0] : List Int).length : Int) + local_change - remote_change,
              if false then none else some local_change)
        ∧ (local_change = -1 ∨ local_change = 0 ∨ local_change = 1)
        ∧ (false = true → local_change = 0)
        ∧ (false = false → LoadBalance.localChange [0, 0, 0] [10, 10] = .ok local_change)
        ∧ remote_change = (if true then 0 else 0) :=
  ⟨by decide, LoadBalance_new_rows.1 false true [0, 0, 0] [10, 10] 0 (by decide) (by decide)
    (Or.inr (by decide))⟩

/-- C28 fails as stated: when the left rank passes the rows `[10, 10]` and the right rank the
rows `[0, 0]`, both owning two rows, the left rank is told to keep one row. -/
theorem LoadBalance_shrinks_to_one_row :
    (∀ d, d ∈ ([[10, 10], [0, 0]] : List (List Int)) → 2 ≤ d.length)
    ∧ LoadBalance.pass [[10, 10], [0, 0]] 0 = .ok 1
    ∧ LoadBalance.pass [[10, 10], [0, 0]] 1 = .ok 3 :=
  ⟨by decide, rfl, rfl⟩

/-- C28 (as amended): in a collective call of `LoadBalance` in which every rank passes at
least one row (the numbers of rows far from the `int` range), every rank is told to keep at
least one row, and at most two fewer or two more than it had. -/
theorem LoadBalance_keeps_a_row (ds : List (List Int))
    (hall : ∀ d, d ∈ ds → 1 ≤ d.length ∧ (d.length : Int) + 2 < 2147483648)
    (r : Nat) (hr : r < ds.length) :
    ∃ rows : Int, LoadBalance.pass ds r = .ok rows ∧ 1 ≤ rows
      ∧ ((ds.getD r []).length : Int) - 2 ≤ rows
      ∧ rows ≤ ((ds.getD r []).length : Int) + 2 := by
  obtain ⟨lc, rc, h1, h2, h3, h4, h5⟩ := pass_rows ds hall r hr
  have hl := (hall _ (getD_mem ds r [] hr)).1
  have hlc : (lc = -1 ∨ lc = 0 ∨ lc = 1) ∧ (¬ 2 < (ds.getD r []).length → 0 ≤ lc) := by
    rcases Nat.eq_zero_or_pos r with h | h
    · rw [h2 h]
      exact ⟨by decide, fun _ => le_refl _⟩
    · obtain ⟨c1, -, -, -, c5⟩ := localChange_cases _ _ lc (h3 h)
      exact ⟨c1, c5⟩
  have hrc : (rc = -1 ∨ rc = 0 ∨ rc = 1) ∧ (¬ 1 < (ds.getD r []).length → rc ≤ 0) := by
    rcases Nat.lt_or_ge (r + 1) ds.length with h | h
    · obtain ⟨c1, -, -, c4, -⟩ := localChange_cases _ _ rc (h5 h)
      exact ⟨c1, c4⟩
    · rw [h4 (by omega)]
      exact ⟨by decide, fun _ => le_refl _⟩
  refine ⟨_, h1, ?_, ?_, ?_⟩ <;> omega

theorem LoadBalance_keeps_a_row_witness :
    (∀ d, d ∈ ([[10, 10], [0, 0]] : List (List Int)) →
      1 ≤ d.length ∧ (d.length : Int) + 2 < 2147483648)
    ∧ ∃ rows : Int, LoadBalance.pass [[10, 10], [0, 0]] 0 = .ok rows ∧ 1 ≤ rows
      ∧ ((([[10, 10], [0, 0]] : List (List Int)).getD 0 []).length : Int) - 2 ≤ rows
      ∧ rows ≤ ((([[10, 10], [0, 0]] : List (List Int)).getD 0 []).length : Int) + 2 :=
  ⟨by decide, LoadBalance_keeps_a_row [[10, 10], [0, 0]] (by decide) 0 (by decide)⟩

/-- C29 fails in the code: with the left rank passing `[10, 10]` and the right rank
`[0, 0, 0]`, the right rank accepts the move of its bottom boundary to the left and, its first
row being empty, also the move to the right, whose delta is 0; the two cancel, so the right
rank is told to keep 3 rows and the left rank 2, not 4 and 1. -/
theorem LoadBalance_moves_cancel :
    LoadBalance.localChange [0, 0, 0] [10, 10] = .ok 0
    ∧ LoadBalance.pass [[10, 10], [0, 0, 0]] 1 = .ok 3
    ∧ LoadBalance.pass [[10, 10], [0, 0, 0]] 0 = .ok 2 :=
  ⟨rfl, rfl, rfl⟩

/-- C30 fails in the code: with the local rows `[5, 5]` and the rows `[5, 0]` on the left, the
rank decides `local_change = +1`, and handing it the empty top row of the left rank leaves the
squared load difference at 25: it is not strictly smaller than before. -/
theorem LoadBalance_accepts_zero_delta :
    LoadBalance.localChange [5, 5] [5, 0] = .ok 1
    ∧ ¬ ((([5, 5] : List Int).sum + ([5, 0] : List Int).getD 1 0
          - (([5, 0] : List Int).sum - ([5, 0] : List Int).getD 1 0)) ^ 2
        < (([5, 5] : List Int).sum - ([5, 0] : List Int).sum) ^ 2) :=
  ⟨rfl, by decide⟩

theorem mapM_except_eq_map {α β : Type} (f : α → Except Failure β) (g : α → β) (l : List α)
    (h : ∀ a, a ∈ l → f a = .ok (g a)) : l.mapM f = .ok (l.map g) := by
  induction l with
  | nil => rfl
  | cons a l ih =>
    rw [List.mapM_cons, h a (List.mem_cons_self _ _),
      ih (fun b hb => h b (List.mem_cons_of_mem _ hb))]
    rfl

theorem map_getD_range {α β : Type} (f : α → β) (d : α) (l : List α) :
    (List.range l.length).map (fun r => f (l.getD r d)) = l.map f := by
  induction l with
  | nil => rfl
  | cons a l ih =>
    rw [List.length_cons, List.range_succ_eq_map, List.map_cons, List.map_map, List.map_cons,
      ← ih]
    rfl

/-- In a collective call rank `r` returns its rows plus its decision minus that of rank
`r+1`. -/
theorem pass_decision (ds : List (List Int))
    (hall : ∀ d, d ∈ ds → 1 ≤ d.length ∧ (d.length : Int) + 2 < 2147483648)
    (r : Nat) (hr : r < ds.length) :
    LoadBalance.pass ds r = .ok (((ds.getD r []).length : Int) + LoadBalance.decision ds r
      - LoadBalance.decision ds (r + 1)) := by
  obtain ⟨lc, rc, h1, h2, h3, h4, h5⟩ := pass_rows ds hall r hr
  have e1 : LoadBalance.decision ds r = lc := by
    unfold LoadBalance.decision
    rcases Nat.eq_zero_or_pos r with h | h
    · rw [if_neg (by omega), h2 h]
    · rw [if_pos ⟨h, hr⟩, h3 h]
  have e2 : LoadBalance.decision ds (r + 1) = rc := by
    unfold LoadBalance.decision
    rcases Nat.lt_or_ge (r + 1) ds.length with h | h
    · rw [if_pos ⟨Nat.succ_pos r, h⟩, Nat.add_sub_cancel, h5 h]
    · rw [if_neg (by omega), h4 (by omega)]
  rw [h1, e1, e2]

theorem decision_sum (ds : List (List Int)) (k : Nat) :
    ((List.range k).map (fun r => ((ds.getD r []).length : Int) + LoadBalance.decision ds r
        - LoadBalance.decision ds (r + 1))).sum
      = ((List.range k).map (fun r => ((ds.getD r []).length : Int))).sum
        + LoadBalance.decision ds 0 - LoadBalance.decision ds k := by
  induction k with
  | zero => simp
  | succ k ih =>
    rw [List.range_succ, List.map_append, List.sum_append, ih, List.map_append, List.sum_append]
    simp only [List.map_cons, List.map_nil, List.sum_cons, List.sum_nil]
    omega

theorem decision_ends (ds : List (List Int)) :
    LoadBalance.decision ds 0 = 0 ∧ LoadBalance.decision ds ds.length = 0 := by
  unfold LoadBalance.decision
  exact ⟨by rw [if_neg (by omega)], by rw [if_neg (by omega)]⟩

/-- A decision is -1, 0 or 1; it is 1 only when the rank on the left has more than one row
and -1 only when the rank itself has more than two. -/
theorem decision_cases (ds : List (List Int))
    (hall : ∀ d, d ∈ ds → 1 ≤ d.length ∧ (d.length : Int) + 2 < 2147483648) (r : Nat) :
    (LoadBalance.decision ds r = -1 ∨ LoadBalance.decision ds r = 0
        ∨ LoadBalance.decision ds r = 1)
      ∧ (LoadBalance.decision ds r = 1 → 1 < (ds.getD (r - 1) []).length)
      ∧ (LoadBalance.decision ds r = -1 → 2 < (ds.getD r []).length) := by
  by_cases h : 0 < r ∧ r < ds.length
  · obtain ⟨c, hc⟩ := localChange_ok (ds.getD r []) (ds.getD (r - 1) [])
      (hall _ (getD_mem ds r [] h.2)).1 (hall _ (getD_mem ds (r - 1) [] (by omega))).1
    have e : LoadBalance.decision ds r = c := by
      unfold LoadBalance.decision
      rw [if_pos h, hc]
    obtain ⟨c1, c2, c3, -, -⟩ := localChange_cases _ _ c hc
    rw [e]
    exact ⟨c1, c2, c3⟩
  · have e : LoadBalance.decision ds r = 0 := by
      unfold LoadBalance.decision
      rw [if_neg h]
    rw [e]
    exact ⟨Or.inr (Or.inl rfl), fun h0 => absurd h0 (by decide), fun h0 => absurd h0 (by decide)⟩

/-- C31: when every rank runs one pass of `LoadBalance` with at least one row (the numbers of
rows far from the `int` range), the call returns on every rank and the returned numbers of rows
add up to the number of rows before the pass; so a partition of `num_boxes[DIM-1]` rows stays
one. -/
theorem LoadBalance_preserves_total (ds : List (List Int))
    (hall : ∀ d, d ∈ ds → 1 ≤ d.length ∧ (d.length : Int) + 2 < 2147483648) :
    ∃ rows : List Int, LoadBalance.passAll ds = .ok rows ∧ rows.length = ds.length
      ∧ (∀ r, r < ds.length → LoadBalance.pass ds r = .ok (rows.getD r 0))
      ∧ rows.sum = (ds.map (fun d => (d.length : Int))).sum
      ∧ ∀ numRows : Int, (ds.map (fun d => (d.length : Int))).sum = numRows →
          rows.sum = numRows := by
  have hmap := mapM_except_eq_map (LoadBalance.pass ds)
    (fun r => ((ds.getD r []).length : Int) + LoadBalance.decision ds r
      - LoadBalance.decision ds (r + 1)) (List.range ds.length)
    (fun r hr => pass_decision ds hall r (List.mem_range.1 hr))
  have hsum := decision_sum ds ds.length
  rw [(decision_ends ds).1, (decision_ends ds).2,
    map_getD_range (fun d : List Int => (d.length : Int)) [] ds] at hsum
  refine ⟨_, hmap, by simp, ?_, by rw [hsum]; omega, fun n hn => by rw [hsum, hn]; omega⟩
  intro r hr
  rw [pass_decision ds hall r hr]
  congr 1
  have hlen : r < ((List.range ds.length).map
      (fun r => ((ds.getD r []).length : Int) + LoadBalance.decision ds r
        - LoadBalance.decision ds (r + 1))).length := by simpa using hr
  rw [List.getD_eq_getElem _ _ hlen, List.getElem_map, List.getElem_range]

theorem LoadBalance_preserves_total_witness :
    (∀ d, d ∈ ([[10, 10], [0, 0, 0]] : List (List Int)) →
      1 ≤ d.length ∧ (d.length : Int) + 2 < 2147483648)
    ∧ ∃ rows : List Int, LoadBalance.passAll [[10, 10], [0, 0, 0]] = .ok rows
      ∧ rows.length = ([[10, 10], [0, 0, 0]] : List (List Int)).length
      ∧ (∀ r, r < ([[10, 10], [0, 0, 0]] : List (List Int)).length →
          LoadBalance.pass [[10, 10], [0, 0, 0]] r = .ok (rows.getD r 0))
      ∧ rows.sum
        = (([[10, 10], [0, 0, 0]] : List (List Int)).map (fun d => (d.length : Int))).sum
      ∧ ∀ numRows : Int,
          (([[10, 10], [0, 0, 0]] : List (List Int)).map (fun d => (d.length : Int))).sum
            = numRows → rows.sum = numRows :=
  ⟨by decide, LoadBalance_preserves_total [[10, 10], [0, 0, 0]] (by decide)⟩

/-- C38: in a collective call of `LoadBalance` in which every rank passes at least one row
(whatever the loads; the numbers of rows far from the `int` range), every rank is told to keep
at least one row: the rank gives up its bottom row (`local_change = -1`) only when it has more
than 2 rows, and its top row (the right neighbour decides `+1`) only when it has more than
1. -/
theorem LoadBalance_never_empties (ds : List (List Int))
    (hall : ∀ d, d ∈ ds → 1 ≤ d.length ∧ (d.length : Int) + 2 < 2147483648)
    (r : Nat) (hr : r < ds.length) :
    ∃ local_change remote_change : Int,
      LoadBalance.pass ds r
        = .ok (((ds.getD r []).length : Int) + local_change - remote_change)
      ∧ local_change = LoadBalance.decision ds r
      ∧ remote_change = LoadBalance.decision ds (r + 1)
      ∧ (local_change = -1 → 2 < (ds.getD r []).length)
      ∧ (remote_change = 1 → 1 < (ds.getD r []).length)
      ∧ -1 ≤ local_change ∧ remote_change ≤ 1
      ∧ 1 ≤ ((ds.getD r []).length : Int) + local_change - remote_change := by
  have hl := (hall _ (getD_mem ds r [] hr)).1
  have hlc := decision_cases ds hall r
  have hrc := decision_cases ds hall (r + 1)
  rw [Nat.add_sub_cancel] at hrc
  obtain ⟨a1, a2, a3⟩ := hlc
  obtain ⟨b1, b2, b3⟩ := hrc
  refine ⟨_, _, pass_decision ds hall r hr, rfl, rfl, a3, b2, by omega, by omega, ?_⟩
  omega

theorem LoadBalance_never_empties_witness :
    (∀ d, d ∈ ([[7], [0, 0]] : List (List Int)) →
      1 ≤ d.length ∧ (d.length : Int) + 2 < 2147483648)
    ∧ ∃ local_change remote_change : Int,
      LoadBalance.pass [[7], [0, 0]] 0
        = .ok (((([[7], [0, 0]] : List (List Int)).getD 0 []).length : Int)
            + local_change - remote_change)
      ∧ local_change = LoadBalance.decision [[7], [0, 0]] 0
      ∧ remote_change = LoadBalance.decision [[7], [0, 0]] (0 + 1)
      ∧ (local_change = -1 → 2 < (([[7], [0, 0]] : List (List Int)).getD 0 []).length)
      ∧ (remote_change = 1 → 1 < (([[7], [0, 0]] : List (List Int)).getD 0 []).length)
      ∧ -1 ≤ local_change ∧ remote_change ≤ 1
      ∧ 1 ≤ ((([[7], [0, 0]] : List (List Int)).getD 0 []).length : Int)
          + local_change - remote_change :=
  ⟨by decide, LoadBalance_never_empties [[7], [0, 0]] (by decide) 0 (by decide)⟩

theorem closure_one (N0 g b : Nat) (hg : g < N0) (hb : b < N0) (hfit : N0 < 4294967296) :
    b ∈ SetupAllLocalBoxes.case1 [N0] g ↔
      (b ∈ SetupLocalBoxesHalfOnly.case1 [N0] 0 g ∨ g ∈ SetupLocalBoxesHalfOnly.case1 [N0] 0 b) := by
  rw [full1_compact N0 g b hg hb hfit, half1_compact N0 g b hg hb hfit,
    half1_compact N0 b g hb hg hfit]
  omega

theorem closure_two (p : Bool) (N0 N1 g b : Nat) (hg : g < N0 * N1) (hb : b < N0 * N1)
    (hfit : N0 * N1 < 4294967296) :
    b ∈ SetupAllLocalBoxes.case2 [N0, N1] p g ↔
      (b ∈ SetupLocalBoxesHalfOnly.case2 [N0, N1] 0 p (N0 * N1) g
        ∨ g ∈ SetupLocalBoxesHalfOnly.case2 [N0, N1] 0 p (N0 * N1) b) := by
  obtain ⟨x, y, hx, hy, rfl⟩ := split2 N0 N1 g hg
  obtain ⟨bx, by_, hbx, hby, rfl⟩ := split2 N0 N1 b hb
  cases p
  · rw [full2_compact N0 N1 x y bx by_ hx hy hbx hby hfit,
      half2_compact N0 N1 x y bx by_ hx hy hbx hby hfit,
      half2_compact N0 N1 bx by_ x y hbx hby hx hy hfit]
    omega
  · rw [full2_coord true N0 N1 x y bx by_ hx hy hbx hby hfit,
      half2_coord true N0 N1 x y bx by_ hx hy hbx hby hfit,
      half2_coord true N0 N1 bx by_ x y hbx hby hx hy hfit]
    simp only [true_and, or_assoc]
    constructor
    · rintro (h | h | h | h | h | h | h | h | h | h | h | h | h | h | h) <;>
        ((repeat (first | (refine Or.inl ?_; omega) | refine Or.inr ?_)); all_goals omega)
    · rintro (h | h | h | h | h | h | h | h | h | h | h | h | h | h | h | h) <;>
        ((repeat (first | (refine Or.inl ?_; omega) | refine Or.inr ?_)); all_goals omega)

theorem closure_three (N0 N1 N2 g b : Nat) (hg : g < N0 * N1 * N2) (hb : b < N0 * N1 * N2)
    (hfit : N0 * N1 * N2 < 4294967296) :
    b ∈ SetupAllLocalBoxes.case3 [N0, N1, N2] g ↔
      (b ∈ SetupLocalBoxesHalfOnly.case3 [N0, N1, N2] 0 N2 g
        ∨ g ∈ SetupLocalBoxesHalfOnly.case3 [N0, N1, N2] 0 N2 b) := by
  obtain ⟨x, y, z, hx, hy, hz, rfl, -, -, -⟩ := split3 N0 N1 N2 g hg
  obtain ⟨bx, by_, bz, hbx, hby, hbz, rfl, -, -, -⟩ := split3 N0 N1 N2 b hb
  rw [full3_compact N0 N1 N2 x y z bx by_ bz hx hy hz hbx hby hbz hfit,
    half3_compact N0 N1 N2 x y z bx by_ bz hx hy hz hbx hby hbz hfit,
    half3_compact N0 N1 N2 bx by_ bz x y z hbx hby hbz hx hy hz hfit]
  omega

theorem GetLocalBoxes_owned (s : DistributedBoxCollection) (b : Nat) (st : Finset Nat)
    (h : GetLocalBoxes s b = .ok st) : s.mMinBoxIndex ≤ b ∧ b ≤ s.mMaxBoxIndex := by
  unfold GetLocalBoxes at h
  split_ifs at h with hc
  simp only [Bool.and_eq_true, Bool.not_eq_true', decide_eq_false_iff_not, not_lt] at hc
  exact hc

/-- When the half and the full stencils are given by two functions of the box index, and the
full one is the symmetric closure of the half one on the indices below the number of boxes,
the stored stencils are related in the same way. -/
theorem closure_of_stencils (sF sH : DistributedBoxCollection) (n : Nat)
    (F H : Nat → Finset Nat)
    (hF : ∀ A, A < n → GetLocalBoxes sF A = .ok (F A))
    (hH : ∀ A, A < n → GetLocalBoxes sH A = .ok (H A))
    (hmax : ∀ b st, GetLocalBoxes sH b = .ok st → b < n)
    (hFlt : ∀ g b, g < n → b ∈ F g → b < n)
    (hHlt : ∀ g b, g < n → b ∈ H g → b < n)
    (hcl : ∀ g b, g < n → b < n → (b ∈ F g ↔ (b ∈ H g ∨ g ∈ H b))) :
    ∀ g, g < n → ∃ full half, GetLocalBoxes sF g = .ok full ∧ GetLocalBoxes sH g = .ok half
      ∧ ∀ b, b ∈ full ↔ (b ∈ half ∨ ∃ st, GetLocalBoxes sH b = .ok st ∧ g ∈ st) := by
  intro g hg
  refine ⟨F g, H g, hF g hg, hH g hg, fun b => ⟨fun hb => ?_, fun hb => ?_⟩⟩
  · have hbn := hFlt g b hg hb
    rcases (hcl g b hg hbn).1 hb with h | h
    · exact Or.inl h
    · exact Or.inr ⟨H b, hH b hbn, h⟩
  · rcases hb with h | ⟨st, hst, h⟩
    · exact (hcl g b hg (hHlt g b hg h)).2 (Or.inl h)
    · have hbn := hmax b st hst
      rw [hH b hbn] at hst
      cases hst
      exact (hcl g b hg hbn).2 (Or.inr h)

/-- C39: on a single process (1D, 2D periodic in x or not, 3D) the full stencil is the symmetric
closure of the half stencil: for every box `g` the set that `SetupAllLocalBoxes` stores is
the set that `SetupLocalBoxesHalfOnly` stores for `g` on the same grid, united with the boxes
`b` whose half stencil lists `g`. -/
theorem SetupAllLocalBoxes_symmetric_closure (s : DistributedBoxCollection)
    (hgrid : SingleProcessGrid s) (hset : s.mAreLocalBoxesSet = false)
    (hfresh : s.mLocalBoxes = []) :
    ∃ sH, SetupLocalBoxesHalfOnly s = .ok sH
      ∧ ∀ g, g < s.mNumBoxes →
        ∃ full half, GetLocalBoxes (SetupAllLocalBoxes s) g = .ok full
          ∧ GetLocalBoxes sH g = .ok half
          ∧ ∀ b, b ∈ full ↔ (b ∈ half ∨ ∃ st, GetLocalBoxes sH b = .ok st ∧ g ∈ st) := by
  cases hdim : s.DIM
  · obtain ⟨N0, hN, h0, hnum, hfit, hlow, hhigh, hmin, hmaxi, hbl⟩ := grid_one s hgrid hdim
    refine ⟨_, SetupLocalBoxesHalfOnly_one s hdim hset, ?_⟩
    rw [hnum]
    apply closure_of_stencils _ _ N0 (SetupAllLocalBoxes.case1 [N0])
      (SetupLocalBoxesHalfOnly.case1 [N0] 0)
    · intro A hA
      rw [GetLocalBoxes_SetupAllLocalBoxes s A hfresh (by omega) (by omega) (by omega), hdim, hN]
    · intro A hA
      rw [← hN, ← hlow]
      exact GetLocalBoxes_map _ _ A rfl (by show s.mMinBoxIndex ≤ A; omega)
        (by show A ≤ s.mMaxBoxIndex; omega) (by show s.mMaxBoxIndex + 1 < 4294967296; omega)
    · intro b st hst
      have hb := (GetLocalBoxes_owned _ b st hst).2
      have hb' : b ≤ s.mMaxBoxIndex := hb
      omega
    · intro g b hg
      exact full1_lt N0 g b hg hfit
    · intro g b hg
      exact half1_lt N0 g b hg hfit
    · intro g b hg hb
      exact closure_one N0 g b hg hb hfit
  · obtain ⟨N0, N1, hN, h0, h1, hnum, hfit, hlow, hhigh, hmin, hmaxi, hbl⟩ :=
      grid_two s hgrid hdim
    refine ⟨_, SetupLocalBoxesHalfOnly_two s hdim hset, ?_⟩
    rw [hnum]
    apply closure_of_stencils _ _ (N0 * N1) (SetupAllLocalBoxes.case2 [N0, N1] s.mIsPeriodicInX)
      (SetupLocalBoxesHalfOnly.case2 [N0, N1] 0 s.mIsPeriodicInX (N0 * N1))
    · intro A hA
      rw [GetLocalBoxes_SetupAllLocalBoxes s A hfresh (by omega) (by omega) (by omega), hdim, hN]
    · intro A hA
      rw [← hN, ← hlow, ← hbl]
      exact GetLocalBoxes_map _ _ A rfl (by show s.mMinBoxIndex ≤ A; omega)
        (by show A ≤ s.mMaxBoxIndex; omega) (by show s.mMaxBoxIndex + 1 < 4294967296; omega)
    · intro b st hst
      have hb := (GetLocalBoxes_owned _ b st hst).2
      have hb' : b ≤ s.mMaxBoxIndex := hb
      have hpos := Nat.mul_pos h0 h1
      omega
    · intro g b hg
      obtain ⟨x, y, hx, hy, rfl⟩ := split2 N0 N1 g hg
      exact full2_lt _ N0 N1 x y b hx hy hfit
    · intro g b hg
      obtain ⟨x, y, hx, hy, rfl⟩ := split2 N0 N1 g hg
      exact half2_lt _ N0 N1 x y b hx hy hfit
    · intro g b hg hb
      exact closure_two _ N0 N1 g b hg hb hfit
  · obtain ⟨N0, N1, N2, hN, h0, h1, h2, hnum, hfit, hlow, hhigh, hmin, hmaxi⟩ :=
      grid_three s hgrid hdim
    refine ⟨_, SetupLocalBoxesHalfOnly_three s hdim hset, ?_⟩
    rw [hnum]
    apply closure_of_stencils _ _ (N0 * N1 * N2) (SetupAllLocalBoxes.case3 [N0, N1, N2])
      (SetupLocalBoxesHalfOnly.case3 [N0, N1, N2] 0 N2)
    · intro A hA
      rw [GetLocalBoxes_SetupAllLocalBoxes s A hfresh (by omega) (by omega) (by omega), hdim, hN]
    · intro A hA
      rw [← hN, ← hlow, ← hhigh]
      exact GetLocalBoxes_map _ _ A rfl (by show s.mMinBoxIndex ≤ A; omega)
        (by show A ≤ s.mMaxBoxIndex; omega) (by show s.mMaxBoxIndex + 1 < 4294967296; omega)
    · intro b st hst
      have hb := (GetLocalBoxes_owned _ b st hst).2
      have hb' : b ≤ s.mMaxBoxIndex := hb
      have hpos := Nat.mul_pos (Nat.mul_pos h0 h1) h2
      omega
    · intro g b hg
      obtain ⟨x, y, z, hx, hy, hz, rfl, -, -, -⟩ := split3 N0 N1 N2 g hg
      exact full3_lt N0 N1 N2 x y z b hx hy hz hfit
    · intro g b hg
      obtain ⟨x, y, z, hx, hy, hz, rfl, -, -, -⟩ := split3 N0 N1 N2 g hg
      exact half3_lt N0 N1 N2 x y z b hx hy hz hfit
    · intro g b hg hb
      exact closure_three N0 N1 N2 g b hg hb hfit

theorem SetupAllLocalBoxes_symmetric_closure_witness :
    SingleProcessGrid periodicTwoColumns ∧ periodicTwoColumns.mIsPeriodicInX = true
    ∧ ∃ sH, SetupLocalBoxesHalfOnly periodicTwoColumns = .ok sH
      ∧ ∀ g, g < periodicTwoColumns.mNumBoxes →
        ∃ full half, GetLocalBoxes (SetupAllLocalBoxes periodicTwoColumns) g = .ok full
          ∧ GetLocalBoxes sH g = .ok half
          ∧ ∀ b, b ∈ full ↔ (b ∈ half ∨ ∃ st, GetLocalBoxes sH b = .ok st ∧ g ∈ st) :=
  ⟨by decide, rfl, SetupAllLocalBoxes_symmetric_closure periodicTwoColumns (by decide) rfl rfl⟩

theorem fromLocator_assertion : Failure.fromLocator .assertion := by
  intro msg h; cases h

theorem fromLocator_badAccess : Failure.fromLocator .badAccess := by
  intro msg h; cases h

theorem fromLocator_outOfFuel : Failure.fromLocator .outOfFuel := by
  intro msg h; cases h

theorem foldlM_error {α β ε : Type} (f : β → α → Except ε β) (P : ε → Prop) (l : List α)
    (hstep : ∀ b a e, f b a = .error e → P e) :
    ∀ init e, l.foldlM f init = .error e → P e := by
  induction l with
  | nil => intro init e h; cases h
  | cons a l ih =>
    intro init e h
    rw [List.foldlM_cons] at h
    cases hfa : f init a with
    | error e' =>
      rw [hfa] at h
      cases h
      exact hstep _ _ _ hfa
    | ok b => rw [hfa] at h; exact ih _ _ h

theorem GetLocalBoxes_error (s : DistributedBoxCollection) (b : Nat) (e : Failure)
    (h : GetLocalBoxes s b = .error e) : Failure.fromLocator e := by
  unfold GetLocalBoxes at h
  split at h
  · split at h
    · cases h
    · cases h; exact fromLocator_badAccess
  · cases h; exact fromLocator_assertion

theorem rGetElementsContained_error (bc : BoxCollection) (b : Nat) (e : Failure)
    (h : bc.rGetElementsContained b = .error e) : Failure.fromLocator e := by
  unfold BoxCollection.rGetElementsContained at h
  split at h
  · split at h
    · cases h
    · cases h; exact fromLocator_badAccess
  · cases h; exact fromLocator_assertion

theorem CalculateContainingBox_error (s : DistributedBoxCollection) (fuel : Nat)
    (rLocation : List ℚ) (e : Failure) (h : CalculateContainingBox s fuel rLocation = .error e) :
    Failure.fromLocator e := by
  unfold CalculateContainingBox at h
  split at h
  · cases h
    intro msg hm
    cases hm
    rfl
  · split at h
    · cases h; exact fromLocator_outOfFuel
    · simp only at h
      split at h
      · cases h
      · cases h; exact fromLocator_assertion

theorem CollectElementsInContainingBox_error (p : Option BoxCollection) (b : Nat)
    (acc : Finset Nat) (e : Failure) (h : CollectElementsInContainingBox p b acc = .error e) :
    Failure.fromLocator e := by
  unfold CollectElementsInContainingBox at h
  split at h
  · cases h; exact fromLocator_badAccess
  · split at h
    · rename_i e' he
      cases h
      exact rGetElementsContained_error _ _ _ he
    · cases h

theorem CollectElementsInLocalBoxes_error (p : Option BoxCollection) (b : Nat)
    (acc : Finset Nat) (e : Failure) (h : CollectElementsInLocalBoxes p b acc = .error e) :
    Failure.fromLocator e := by
  unfold CollectElementsInLocalBoxes at h
  split at h
  · cases h; exact fromLocator_badAccess
  · rename_i bc
    split at h
    · rename_i e' he
      cases h
      exact GetLocalBoxes_error _ _ _ he
    · refine foldlM_error _ Failure.fromLocator _ ?_ _ _ h
      intro acc' b' e' h'
      split at h'
      · rename_i e'' he
        cases h'
        exact rGetElementsContained_error _ _ _ he
      · cases h'

theorem storeElementAndWeight_error (s : FineCoarseMeshPair) (rPoint : List ℚ) (i el : Nat)
    (e : Failure) (h : storeElementAndWeight s rPoint i el = .error e) :
    Failure.fromLocator e := by
  unfold storeElementAndWeight at h
  split at h
  · cases h
  · cases h; exact fromLocator_badAccess

theorem ComputeFineElementAndWeightForGivenPoint_error (s : FineCoarseMeshPair)
    (rPoint : List ℚ) (safeMode : Bool) (b i : Nat) (e : Failure)
    (h : ComputeFineElementAndWeightForGivenPoint s rPoint safeMode b i = .error e) :
    Failure.fromLocator e := by
  unfold ComputeFineElementAndWeightForGivenPoint at h
  split at h
  · rename_i e' he
    cases h
    exact CollectElementsInContainingBox_error _ _ _ _ he
  · split at h
    · exact storeElementAndWeight_error _ _ _ _ _ h
    · split at h
      · rename_i e' he
        cases h
        exact CollectElementsInLocalBoxes_error _ _ _ _ he
      · split at h
        · exact storeElementAndWeight_error _ _ _ _ _ h
        · split at h
          · split at h
            · exact storeElementAndWeight_error _ _ _ _ _ h
            · exact storeElementAndWeight_error _ _ _ _ _ h
          · split at h
            · exact storeElementAndWeight_error _ _ _ _ _ h
            · cases h; exact fromLocator_assertion

theorem ComputeCoarseElementForGivenPoint_error (s : FineCoarseMeshPair)
    (rPoint : List ℚ) (safeMode : Bool) (b : Nat) (e : Failure)
    (h : ComputeCoarseElementForGivenPoint s rPoint safeMode b = .error e) :
    Failure.fromLocator e := by
  unfold ComputeCoarseElementForGivenPoint at h
  split at h
  · rename_i e' he
    cases h
    exact CollectElementsInContainingBox_error _ _ _ _ he
  · split at h
    · cases h
    · split at h
      · rename_i e' he
        cases h
        exact CollectElementsInLocalBoxes_error _ _ _ _ he
      · split at h
        · cases h
        · split at h
          · split at h
            · cases h
            · cases h
          · split at h
            · cases h
            · cases h; exact fromLocator_assertion

theorem fine_loop_failure (fuel : Nat) (safeMode : Bool) (points : List (Nat × List ℚ)) :
    ∀ (s : FineCoarseMeshPair) (e : Failure),
      (ComputeFineElementsAndWeights.loop fuel safeMode s points).failure = some e →
      Failure.fromLocator e := by
  induction points with
  | nil => intro s e h; cases h
  | cons ip points ih =>
    intro s e h
    obtain ⟨i, point⟩ := ip
    unfold ComputeFineElementsAndWeights.loop at h
    split at h
    · cases h; exact fromLocator_badAccess
    · split at h
      · rename_i e' he
        cases h
        exact CalculateContainingBox_error _ _ _ _ he
      · split at h
        · rename_i e' he
          cases h
          exact ComputeFineElementAndWeightForGivenPoint_error _ _ _ _ _ _ he
        · exact ih _ _ h

theorem coarse_loop_failure (fuel : Nat) (safeMode : Bool)
    (assign : FineCoarseMeshPair → Nat → Nat → FineCoarseMeshPair)
    (points : List (Nat × List ℚ)) :
    ∀ (s : FineCoarseMeshPair) (e : Failure),
      (ComputeCoarseElements.loop fuel safeMode assign s points).failure = some e →
      Failure.fromLocator e := by
  induction points with
  | nil => intro s e h; cases h
  | cons ip points ih =>
    intro s e h
    obtain ⟨i, point⟩ := ip
    unfold ComputeCoarseElements.loop at h
    split at h
    · cases h; exact fromLocator_badAccess
    · split at h
      · rename_i e' he
        cases h
        exact CalculateContainingBox_error _ _ _ _ he
      · split at h
        · rename_i e' he
          cases h
          exact ComputeCoarseElementForGivenPoint_error _ _ _ _ _ he
        · exact ih _ _ h

theorem message_ne_of_fromLocator (f : Option Failure) (msg : String)
    (hf : ∀ e, f = some e → Failure.fromLocator e)
    (hmsg : msg ≠ "The point provided is outside all of the boxes") :
    f ≠ some (.exception msg) := by
  intro h
  exact hmsg (hf _ h msg rfl)

/-- C32 fails as stated: with the boxes of the fine mesh set up, a bulk call still fails when a
query point lies outside the domain of the grid (an exception, raised after the result vector
was resized and its first entry written), and in fast mode when neither the box of a point nor
its stencil holds an element (the assertion). -/
theorem bulk_call_fails_with_boxes_set_up :
    (linePairWithBoxes [[1 / 2], [20]]).mpFineMeshBoxCollection.isSome = true
    ∧ (ComputeFineElementsAndWeightsForCoarseNodes (linePairWithBoxes [[1 / 2], [20]]) 20
        true).failure
      = some (.exception "The point provided is outside all of the boxes")
    ∧ (linePairWithBoxes [[1 / 2], [20]]).mFineMeshElementsAndWeights = []
    ∧ (ComputeFineElementsAndWeightsForCoarseNodes (linePairWithBoxes [[1 / 2], [20]]) 20
        true).state.mFineMeshElementsAndWeights
      = [{ ElementNum := 0, Weights := [1 / 2, 1 / 2] }, { ElementNum := 0, Weights := [] }]
    ∧ (ComputeFineElementsAndWeightsForCoarseNodes (linePairWithBoxes [[1 / 2], [20]]) 20
        true).state.mStatisticsCounters = [1, 0]
    ∧ (linePairWithBoxes [[1 / 2], [5]]).mpFineMeshBoxCollection.isSome = true
    ∧ (ComputeFineElementsAndWeightsForCoarseNodes (linePairWithBoxes [[1 / 2], [5]]) 20
        false).failure = some .assertion := by
  decide!

/-- C32 (as amended): each bulk operation raises its exception "Call SetUpBoxesOn...Mesh()
before ..." exactly when the box collection it needs (of the fine mesh for the two
`ComputeFineElementsAndWeights...` operations, of the coarse mesh for the two
`ComputeCoarseElements...` operations) is not currently set up, and then it leaves the whole
state as it was. Deleting a collection un-sets it, and setting up the boxes of one mesh leaves
the collection of the other mesh as it was. -/
theorem bulk_call_unconfigured (s : FineCoarseMeshPair) (fuel : Nat)
    (quad_point_posns : List (List ℚ)) (safeMode : Bool) :
    ((ComputeFineElementsAndWeightsForCoarseQuadPoints s fuel quad_point_posns safeMode).failure
        = some (.exception
          "Call SetUpBoxesOnFineMesh() before ComputeFineElementsAndWeightsForCoarseQuadPoints()")
      ↔ s.mpFineMeshBoxCollection = none)
    ∧ ((ComputeFineElementsAndWeightsForCoarseNodes s fuel safeMode).failure
        = some (.exception
          "Call SetUpBoxesOnFineMesh() before ComputeFineElementsAndWeightsForCoarseNodes()")
      ↔ s.mpFineMeshBoxCollection = none)
    ∧ ((ComputeCoarseElementsForFineNodes s fuel safeMode).failure
        = some (.exception
          "Call SetUpBoxesOnCoarseMesh() before ComputeCoarseElementsForFineNodes()")
      ↔ s.mpCoarseMeshBoxCollection = none)
    ∧ ((ComputeCoarseElementsForFineElementCentroids s fuel safeMode).failure
        = some (.exception
          "Call SetUpBoxesOnCoarseMesh() before ComputeCoarseElementsForFineElementCentroids()")
      ↔ s.mpCoarseMeshBoxCollection = none)
    ∧ (s.mpFineMeshBoxCollection = none →
        (ComputeFineElementsAndWeightsForCoarseQuadPoints s fuel quad_point_posns
            safeMode).state = s
        ∧ (ComputeFineElementsAndWeightsForCoarseNodes s fuel safeMode).state = s)
    ∧ (s.mpCoarseMeshBoxCollection = none →
        (ComputeCoarseElementsForFineNodes s fuel safeMode).state = s
        ∧ (ComputeCoarseElementsForFineElementCentroids s fuel safeMode).state = s)
    ∧ (DeleteFineBoxCollection s).mpFineMeshBoxCollection = none
    ∧ (DeleteCoarseBoxCollection s).mpCoarseMeshBoxCollection = none
    ∧ (∀ boxWidth s', SetUpBoxesOnCoarseMesh s fuel boxWidth = .ok s' →
        s'.mpFineMeshBoxCollection = s.mpFineMeshBoxCollection
        ∧ s'.mpCoarseMeshBoxCollection.isSome = true)
    ∧ (∀ boxWidth s', SetUpBoxesOnFineMesh s fuel boxWidth = .ok s' →
        s'.mpCoarseMeshBoxCollection = s.mpCoarseMeshBoxCollection
        ∧ s'.mpFineMeshBoxCollection.isSome = true) := by
  refine ⟨?_, ?_, ?_, ?_, ?_, ?_, rfl, rfl, ?_, ?_⟩
  · unfold ComputeFineElementsAndWeightsForCoarseQuadPoints
    cases hp : s.mpFineMeshBoxCollection with
    | none => simp
    | some bc =>
      simp only [Option.isNone_some, Bool.false_eq_true, if_false, reduceCtorEq, iff_false]
      exact message_ne_of_fromLocator _ _ (fun e he => fine_loop_failure _ _ _ _ e he)
        (by decide)
  · unfold ComputeFineElementsAndWeightsForCoarseNodes
    cases hp : s.mpFineMeshBoxCollection with
    | none => simp
    | some bc =>
      simp only [Option.isNone_some, Bool.false_eq_true, if_false, reduceCtorEq, iff_false]
      exact message_ne_of_fromLocator _ _ (fun e he => fine_loop_failure _ _ _ _ e he)
        (by decide)
  · unfold ComputeCoarseElementsForFineNodes
    cases hp : s.mpCoarseMeshBoxCollection with
    | none => simp
    | some bc =>
      simp only [Option.isNone_some, Bool.false_eq_true, if_false, reduceCtorEq, iff_false]
      exact message_ne_of_fromLocator _ _ (fun e he => coarse_loop_failure _ _ _ _ _ e he)
        (by decide)
  · unfold ComputeCoarseElementsForFineElementCentroids
    cases hp : s.mpCoarseMeshBoxCollection with
    | none => simp
    | some bc =>
      simp only [Option.isNone_some, Bool.false_eq_true, if_false, reduceCtorEq, iff_false]
      exact message_ne_of_fromLocator _ _ (fun e he => coarse_loop_failure _ _ _ _ _ e he)
        (by decide)
  · intro h
    unfold ComputeFineElementsAndWeightsForCoarseQuadPoints
      ComputeFineElementsAndWeightsForCoarseNodes
    rw [h]
    exact ⟨rfl, rfl⟩
  · intro h
    unfold ComputeCoarseElementsForFineNodes ComputeCoarseElementsForFineElementCentroids
    rw [h]
    exact ⟨rfl, rfl⟩
  · intro boxWidth s' h
    unfold SetUpBoxesOnCoarseMesh at h
    split at h
    · cases h
    · cases h
      exact ⟨rfl, rfl⟩
  · intro boxWidth s' h
    unfold SetUpBoxesOnFineMesh at h
    split at h
    · cases h
    · cases h
      exact ⟨rfl, rfl⟩

theorem AddElement_holds (bc bc' : BoxCollection) (b e : Nat)
    (h : bc.AddElement b e = .ok bc') :
    bc'.grid = bc.grid
      ∧ ∀ b' e', bc'.holds b' e' ↔ (bc.holds b' e' ∨ (b' = b ∧ e' = e)) := by
  unfold BoxCollection.AddElement at h
  split at h
  · rename_i hown
    split at h
    · rename_i E0 hE0
      cases h
      refine ⟨rfl, fun b' e' => ?_⟩
      unfold BoxCollection.holds BoxCollection.rGetElementsContained
      simp only
      by_cases hown' : GetBoxOwnership bc.grid b' = true
      · simp only [hown', if_true]
        have o1 : bc.grid.mMinBoxIndex ≤ b := by
          simp only [GetBoxOwnership, Bool.and_eq_true, Bool.not_eq_true',
            decide_eq_false_iff_not, not_lt] at hown
          exact hown.1
        have o2 : bc.grid.mMinBoxIndex ≤ b' := by
          simp only [GetBoxOwnership, Bool.and_eq_true, Bool.not_eq_true',
            decide_eq_false_iff_not, not_lt] at hown'
          exact hown'.1
        have hlen : b - bc.grid.mMinBoxIndex < bc.mElementsContained.length := by
          rw [List.get?_eq_some] at hE0
          exact hE0.1
        by_cases hb : b' = b
        · subst hb
          simp only [List.get?_eq_getElem?] at hE0 ⊢
          simp only [List.getElem?_set_self hlen, hE0, Except.ok.injEq, exists_eq_left',
            Finset.mem_insert, and_true, true_and]
          exact or_comm
        · have hne : b - bc.grid.mMinBoxIndex ≠ b' - bc.grid.mMinBoxIndex := by omega
          simp only [List.get?_eq_getElem?]
          simp only [List.getElem?_set_ne hne, hb, false_and, or_false]
      · simp only [hown', Bool.false_eq_true, if_false, reduceCtorEq, false_and, exists_false,
          false_or, false_iff, not_and]
        intro hb
        rw [hb] at hown'
        exact absurd hown hown'
    · cases h
  · cases h

theorem AddElement_fold_holds (e : Nat) (l : List Nat) :
    ∀ bc bc' : BoxCollection,
      l.foldlM (fun bc box_index => bc.AddElement box_index e) bc = .ok bc' →
      bc'.grid = bc.grid
        ∧ ∀ b' e', bc'.holds b' e' ↔ (bc.holds b' e' ∨ (b' ∈ l ∧ e' = e)) := by
  induction l with
  | nil =>
    intro bc bc' h
    cases h
    exact ⟨rfl, fun b' e' => by simp⟩
  | cons a l ih =>
    intro bc bc' h
    rw [List.foldlM_cons] at h
    cases ha : bc.AddElement a e with
    | error err => rw [ha] at h; cases h
    | ok bc1 =>
      rw [ha] at h
      obtain ⟨g1, m1⟩ := AddElement_holds bc bc1 a e ha
      obtain ⟨g2, m2⟩ := ih bc1 bc' h
      refine ⟨g2.trans g1, fun b' e' => ?_⟩
      rw [m2, m1, List.mem_cons]
      tauto

theorem boxIndices_fold (grid : DistributedBoxCollection) (fuel : Nat)
    (vertices : List (List ℚ)) (l : List Nat) :
    ∀ init S : Finset Nat,
      l.foldlM
        (fun (acc : Finset Nat) j =>
          match vertices.get? j with
          | none => (.error .badAccess : Except Failure (Finset Nat))
          | some location =>
            match CalculateContainingBox grid fuel location with
            | .error e => .error e
            | .ok box_index => .ok (insert box_index acc))
        init = .ok S →
      ∀ b, b ∈ S ↔ (b ∈ init ∨ ∃ j, j ∈ l ∧ ∃ location, vertices.get? j = some location
        ∧ CalculateContainingBox grid fuel location = .ok b) := by
  induction l with
  | nil =>
    intro init S h b
    cases h
    simp
  | cons a l ih =>
    intro init S h b
    rw [List.foldlM_cons] at h
    cases hv : vertices.get? a with
    | none => simp only [hv] at h; cases h
    | some location =>
      cases hc : CalculateContainingBox grid fuel location with
      | error err => simp only [hv, hc] at h; cases h
      | ok box_index =>
        simp only [hv, hc] at h
        rw [ih _ _ h b, Finset.mem_insert]
        constructor
        · rintro ((h1 | h1) | ⟨j, hj, loc, h2, h3⟩)
          · exact Or.inr ⟨a, List.mem_cons_self _ _, location, hv, by rw [hc, h1]⟩
          · exact Or.inl h1
          · exact Or.inr ⟨j, List.mem_cons_of_mem _ hj, loc, h2, h3⟩
        · rintro (h1 | ⟨j, hj, loc, h2, h3⟩)
          · exact Or.inl (Or.inr h1)
          · rcases List.mem_cons.1 hj with rfl | hj
            · rw [hv] at h2
              cases h2
              rw [hc] at h3
              cases h3
              exact Or.inl (Or.inl rfl)
            · exact Or.inr ⟨j, hj, loc, h2, h3⟩

/-- The set that `SetUpBoxes` collects for an element holds exactly the containing boxes of its
`DIM+1` vertices. -/
theorem boxIndices_mem (grid : DistributedBoxCollection) (fuel : Nat)
    (vertices : List (List ℚ)) (S : Finset Nat)
    (h : SetUpBoxes.boxIndices grid fuel vertices = .ok S) (b : Nat) :
    b ∈ S ↔ ∃ j, j < grid.DIM.toNat + 1 ∧ ∃ location, vertices.get? j = some location
      ∧ CalculateContainingBox grid fuel location = .ok b := by
  unfold SetUpBoxes.boxIndices at h
  rw [boxIndices_fold grid fuel vertices _ ∅ S h b]
  simp only [Finset.not_mem_empty, false_or, List.mem_range]

/-- The effect of the body of the loop of `SetUpBoxes` for element `i`. -/
theorem element_holds (fuel : Nat) (rMesh : Mesh) (bc bc' : BoxCollection) (i : Nat)
    (h : SetUpBoxes.element fuel rMesh bc i = .ok bc') :
    bc'.grid = bc.grid
      ∧ ∀ b' e', bc'.holds b' e' ↔ (bc.holds b' e' ∨ (e' = i ∧ ∃ vertices,
          rMesh.elements.get? i = some vertices ∧ ∃ j, j < bc.grid.DIM.toNat + 1
            ∧ ∃ location, vertices.get? j = some location
              ∧ CalculateContainingBox bc.grid fuel location = .ok b')) := by
  unfold SetUpBoxes.element at h
  split at h
  · cases h
  · rename_i vertices hv
    split at h
    · cases h
    · rename_i S hS
      obtain ⟨g, m⟩ := AddElement_fold_holds i _ bc bc' h
      refine ⟨g, fun b' e' => ?_⟩
      rw [m, Finset.mem_sort, boxIndices_mem _ _ _ _ hS]
      constructor
      · rintro (h1 | ⟨h1, h2⟩)
        · exact Or.inl h1
        · exact Or.inr ⟨h2, vertices, hv, h1⟩
      · rintro (h1 | ⟨h2, vs, hvs, h1⟩)
        · exact Or.inl h1
        · rw [hv] at hvs
          cases hvs
          exact Or.inr ⟨h1, h2⟩

theorem element_fold_holds (fuel : Nat) (rMesh : Mesh) (l : List Nat) :
    ∀ bc bc' : BoxCollection,
      l.foldlM (SetUpBoxes.element fuel rMesh) bc = .ok bc' →
      bc'.grid = bc.grid
        ∧ ∀ b' e', bc'.holds b' e' ↔ (bc.holds b' e' ∨ (e' ∈ l ∧ ∃ vertices,
          rMesh.elements.get? e' = some vertices ∧ ∃ j, j < bc.grid.DIM.toNat + 1
            ∧ ∃ location, vertices.get? j = some location
              ∧ CalculateContainingBox bc.grid fuel location = .ok b')) := by
  induction l with
  | nil =>
    intro bc bc' h
    cases h
    exact ⟨rfl, fun b' e' => by simp⟩
  | cons a l ih =>
    intro bc bc' h
    rw [List.foldlM_cons] at h
    cases ha : SetUpBoxes.element fuel rMesh bc a with
    | error err => rw [ha] at h; cases h
    | ok bc1 =>
      rw [ha] at h
      obtain ⟨g1, m1⟩ := element_holds fuel rMesh bc bc1 a ha
      obtain ⟨g2, m2⟩ := ih bc1 bc' h
      refine ⟨g2.trans g1, fun b' e' => ?_⟩
      rw [m2, m1, g1, List.mem_cons]
      constructor
      · rintro ((h1 | ⟨h1, h2⟩) | ⟨h1, h2⟩)
        · exact Or.inl h1
        · subst h1
          exact Or.inr ⟨Or.inl rfl, h2⟩
        · exact Or.inr ⟨Or.inr h1, h2⟩
      · rintro (h1 | ⟨h1 | h1, h2⟩)
        · exact Or.inl (Or.inl h1)
        · subst h1
          exact Or.inl (Or.inr ⟨rfl, h2⟩)
        · exact Or.inr ⟨h1, h2⟩

/-- A new collection holds no element. -/
theorem newBoxCollection_holds (DIM : Dim) (fuel : Nat) (boxWidth : ℚ) (domainSize : List ℚ)
    (bc : BoxCollection) (h : newBoxCollection DIM fuel boxWidth domainSize = .ok bc) :
    (newDistributedBoxCollection DIM fuel boxWidth domainSize false 1 0 (fun n => (0, n))
        = .ok bc.grid)
      ∧ ∀ grid', grid'.mMinBoxIndex = bc.grid.mMinBoxIndex →
          grid'.mMaxBoxIndex = bc.grid.mMaxBoxIndex →
          ∀ b e, ¬ BoxCollection.holds { bc with grid := grid' } b e := by
  unfold newBoxCollection at h
  split at h
  · cases h
  · rename_i grid hgrid
    cases h
    refine ⟨hgrid, fun grid' h1 h2 b e => ?_⟩
    rintro ⟨E, hE, he⟩
    unfold BoxCollection.rGetElementsContained at hE
    simp only at hE
    split at hE
    · split at hE
      · rename_i E' hE'
        cases hE
        rw [List.get?_eq_some] at hE'
        obtain ⟨hlt, hval⟩ := hE'
        simp only [List.get_eq_getElem, List.getElem_replicate] at hval
        rw [← hval] at he
        exact absurd he (Finset.not_mem_empty _)
      · cases hE
    · cases hE

theorem lineBoxes_eq : SetUpBoxes .one 20 twoLineElements 2 = .ok lineBoxes := by
  have h : (SetUpBoxes .one 20 twoLineElements 2).toBool = true := by decide!
  unfold lineBoxes
  cases hs : SetUpBoxes .one 20 twoLineElements 2 with
  | error e => rw [hs] at h; cases h
  | ok bc => rfl

theorem newDistributedBoxCollection_DIM (DIM : Dim) (fuel : Nat) (boxWidth : ℚ)
    (domainSize : List ℚ) (p : Bool) (numProcs rank : Nat) (rows : Nat → Nat × Nat)
    (grid : DistributedBoxCollection)
    (h : newDistributedBoxCollection DIM fuel boxWidth domainSize p numProcs rank rows
      = .ok grid) : grid.DIM = DIM ∧ grid.mBoxWidth = boxWidth := by
  unfold newDistributedBoxCollection at h
  split at h
  · cases h
  · simp only at h
    split at h
    · cases h
    · cases h
      exact ⟨rfl, rfl⟩

/-- While `SetUpBoxes` runs over the elements, the set of containing boxes is computed for
every element. -/
theorem element_fold_indices (fuel : Nat) (rMesh : Mesh) (l : List Nat) :
    ∀ bc bc' : BoxCollection,
      l.foldlM (SetUpBoxes.element fuel rMesh) bc = .ok bc' →
      ∀ e, e ∈ l → ∃ vertices S, rMesh.elements.get? e = some vertices
        ∧ SetUpBoxes.boxIndices bc.grid fuel vertices = .ok S := by
  induction l with
  | nil => intro bc bc' h e he; cases he
  | cons a l ih =>
    intro bc bc' h e he
    rw [List.foldlM_cons] at h
    cases ha : SetUpBoxes.element fuel rMesh bc a with
    | error err => rw [ha] at h; cases h
    | ok bc1 =>
      rw [ha] at h
      rcases List.mem_cons.1 he with rfl | he
      · unfold SetUpBoxes.element at ha
        split at ha
        · cases ha
        · rename_i vertices hv
          split at ha
          · cases ha
          · rename_i S hS
            exact ⟨vertices, S, hv, hS⟩
      · rw [← (element_holds fuel rMesh bc bc1 a ha).1]
        exact ih bc1 bc' h e he

/-- C34: after `SetUpBoxes` on a mesh the grid is the one the constructor builds for the
extended bounding box, with the full stencils of `SetupAllLocalBoxes`; an element `e` is in the
element set of a box `b` if and only if one of the `DIM+1` vertices of `e` has containing box
`b`; and the boxes that element `e` is added to form a list without repetition, the sorted set
of the containing boxes of its vertices. -/
theorem SetUpBoxes_element_sets (DIM : Dim) (fuel : Nat) (rMesh : Mesh) (boxWidth : ℚ)
    (bc : BoxCollection) (h : SetUpBoxes DIM fuel rMesh boxWidth = .ok bc) :
    (∃ grid, newDistributedBoxCollection DIM fuel (SetUpBoxes.boxWidth DIM rMesh boxWidth)
          (SetUpBoxes.extended DIM rMesh) false 1 0 (fun n => (0, n)) = .ok grid
        ∧ bc.grid = SetupAllLocalBoxes grid)
      ∧ (∀ b e, bc.holds b e ↔ ∃ vertices, rMesh.elements.get? e = some vertices
          ∧ ∃ j, j < DIM.toNat + 1 ∧ ∃ location, vertices.get? j = some location
            ∧ CalculateContainingBox bc.grid fuel location = .ok b)
      ∧ (∀ e vertices, rMesh.elements.get? e = some vertices →
          ∃ S, SetUpBoxes.boxIndices bc.grid fuel vertices = .ok S
            ∧ (S.sort (· ≤ ·)).Nodup ∧ ∀ b, b ∈ S.sort (· ≤ ·) ↔ bc.holds b e) := by
  unfold SetUpBoxes at h
  split at h
  · cases h
  · rename_i bc0 hbc0
    obtain ⟨hgrid, hempty⟩ := newBoxCollection_holds _ _ _ _ bc0 hbc0
    obtain ⟨hDIM, -⟩ := newDistributedBoxCollection_DIM _ _ _ _ _ _ _ _ _ hgrid
    obtain ⟨f1, f2, f3, f4, f5, -⟩ := SetupAllLocalBoxes_fields bc0.grid
    obtain ⟨g, m⟩ := element_fold_holds fuel rMesh _ _ bc h
    have hidx := element_fold_indices fuel rMesh _ _ bc h
    have gDIM : bc.grid.DIM = DIM := by rw [g]; exact f5.trans hDIM
    have key : ∀ b e, bc.holds b e ↔ ∃ vertices, rMesh.elements.get? e = some vertices
          ∧ ∃ j, j < DIM.toNat + 1 ∧ ∃ location, vertices.get? j = some location
            ∧ CalculateContainingBox bc.grid fuel location = .ok b := by
      intro b e
      rw [m, g]
      simp only [f5, hDIM]
      constructor
      · rintro (h1 | ⟨-, h2⟩)
        · exact absurd h1 (hempty _ f3 f4 b e)
        · exact h2
      · rintro ⟨vertices, hv, h2⟩
        refine Or.inr ⟨?_, vertices, hv, h2⟩
        rw [List.mem_range]
        rw [List.get?_eq_some] at hv
        exact hv.1
    refine ⟨⟨bc0.grid, hgrid, g⟩, key, ?_⟩
    intro e vertices hv
    have he : e ∈ List.range rMesh.elements.length := by
      rw [List.mem_range]
      rw [List.get?_eq_some] at hv
      exact hv.1
    obtain ⟨vs, S, hvs, hS⟩ := hidx e he
    rw [hv] at hvs
    cases hvs
    rw [← g] at hS
    refine ⟨S, hS, Finset.sort_nodup _ _, fun b => ?_⟩
    rw [Finset.mem_sort, boxIndices_mem _ _ _ _ hS, key, gDIM]
    constructor
    · intro h2
      exact ⟨vertices, hv, h2⟩
    · rintro ⟨vs, hvs, h2⟩
      rw [hv] at hvs
      cases hvs
      exact h2

theorem SetUpBoxes_element_sets_witness :
    SetUpBoxes .one 20 twoLineElements 2 = .ok lineBoxes
    ∧ lineBoxes.mElementsContained = [{0, 1}, ∅, ∅, ∅, ∅, {1}]
    ∧ (∃ grid, newDistributedBoxCollection .one 20 (SetUpBoxes.boxWidth .one twoLineElements 2)
          (SetUpBoxes.extended .one twoLineElements) false 1 0 (fun n => (0, n)) = .ok grid
        ∧ lineBoxes.grid = SetupAllLocalBoxes grid)
      ∧ (∀ b e, lineBoxes.holds b e ↔ ∃ vertices, twoLineElements.elements.get? e = some vertices
          ∧ ∃ j, j < Dim.one.toNat + 1 ∧ ∃ location, vertices.get? j = some location
            ∧ CalculateContainingBox lineBoxes.grid 20 location = .ok b)
      ∧ (∀ e vertices, twoLineElements.elements.get? e = some vertices →
          ∃ S, SetUpBoxes.boxIndices lineBoxes.grid 20 vertices = .ok S
            ∧ (S.sort (· ≤ ·)).Nodup ∧ ∀ b, b ∈ S.sort (· ≤ ·) ↔ lineBoxes.holds b e) :=
  ⟨lineBoxes_eq, by decide!,
    SetUpBoxes_element_sets .one 20 twoLineElements 2 lineBoxes lineBoxes_eq⟩

theorem extended_width (DIM : Dim) (rMesh : Mesh) :
    (SetUpBoxes.extended DIM rMesh).getD 1 0 - (SetUpBoxes.extended DIM rMesh).getD 0 0
      = 11 / 10 * (rMesh.CalculateBoundingBox.2.getD 0 0
          - rMesh.CalculateBoundingBox.1.getD 0 0) := by
  cases DIM <;>
    simp only [SetUpBoxes.extended, Dim.toNat, List.range_succ_eq_map, List.range_zero,
      List.map_nil, List.flatMap_cons, List.cons_append, List.nil_append, List.getD_cons_succ,
      List.getD_cons_zero] <;> ring

/-- The grid that `SetUpBoxes` returns has the box width that was passed to its
constructor. -/
theorem SetUpBoxes_mBoxWidth (DIM : Dim) (fuel : Nat) (rMesh : Mesh) (boxWidth : ℚ)
    (bc : BoxCollection) (h : SetUpBoxes DIM fuel rMesh boxWidth = .ok bc) :
    bc.grid.mBoxWidth = SetUpBoxes.boxWidth DIM rMesh boxWidth := by
  unfold SetUpBoxes at h
  split at h
  · cases h
  · rename_i bc0 hbc0
    obtain ⟨hgrid, -⟩ := newBoxCollection_holds _ _ _ _ bc0 hbc0
    obtain ⟨-, hw⟩ := newDistributedBoxCollection_DIM _ _ _ _ _ _ _ _ _ hgrid
    obtain ⟨-, -, -, -, -, f6, -⟩ := SetupAllLocalBoxes_fields bc0.grid
    obtain ⟨g, -⟩ := element_fold_holds fuel rMesh _ _ bc h
    rw [g]
    exact f6.trans hw

/-- C33 fails as stated: a box width of zero is used unchanged, where the stated default would
be 9.9; and for eighteen unit elements on `[0, 18]` a negative box width gives
`19.8 / 19.000000001`, which is not below the longest edge, where the stated maximum is 1.1. -/
theorem SetUpBoxes_width_differs :
    SetUpBoxes.boxWidth .one twoLineElements 0 = 0
    ∧ SetUpBoxes.specifiedWidth .one twoLineElements 0 = 99 / 10
    ∧ SetUpBoxes.boxWidth .one eighteenLineElements (-1) = 19800000000 / 19000000001
    ∧ SetUpBoxes.specifiedWidth .one eighteenLineElements (-1) = 11 / 10 := by
  decide!

/-- C33 (as amended): `SetUpBoxes` uses a box width that is not negative unchanged, zero
included. For a negative box width it uses `width_x / 19.000000001`, where `width_x` is the
x-extent of the bounding box extended by 5% on both sides, unless that is below the longest
edge, in which case it uses 1.1 times the longest edge. This is the stated maximum except when
`width_x / 19.000000001` lies between the longest edge and 1.1 times it. The grid is built with
this width. -/
theorem SetUpBoxes_width (DIM : Dim) (rMesh : Mesh) (boxWidth : ℚ) :
    (0 ≤ boxWidth → SetUpBoxes.boxWidth DIM rMesh boxWidth = boxWidth)
    ∧ (boxWidth < 0 →
        11 / 10 * (rMesh.CalculateBoundingBox.2.getD 0 0 - rMesh.CalculateBoundingBox.1.getD 0 0)
            / (19000000001 / 1000000000) < rMesh.CalculateMinMaxEdgeLengths.2 →
        SetUpBoxes.boxWidth DIM rMesh boxWidth = 11 / 10 * rMesh.CalculateMinMaxEdgeLengths.2)
    ∧ (boxWidth < 0 →
        rMesh.CalculateMinMaxEdgeLengths.2
          ≤ 11 / 10 * (rMesh.CalculateBoundingBox.2.getD 0 0
              - rMesh.CalculateBoundingBox.1.getD 0 0) / (19000000001 / 1000000000) →
        SetUpBoxes.boxWidth DIM rMesh boxWidth
          = 11 / 10 * (rMesh.CalculateBoundingBox.2.getD 0 0
              - rMesh.CalculateBoundingBox.1.getD 0 0) / (19000000001 / 1000000000))
    ∧ (boxWidth < 0 → 0 ≤ rMesh.CalculateMinMaxEdgeLengths.2 →
        (11 / 10 * (rMesh.CalculateBoundingBox.2.getD 0 0
              - rMesh.CalculateBoundingBox.1.getD 0 0) / (19000000001 / 1000000000)
            < rMesh.CalculateMinMaxEdgeLengths.2
          ∨ 11 / 10 * rMesh.CalculateMinMaxEdgeLengths.2
            ≤ 11 / 10 * (rMesh.CalculateBoundingBox.2.getD 0 0
              - rMesh.CalculateBoundingBox.1.getD 0 0) / (19000000001 / 1000000000)) →
        SetUpBoxes.boxWidth DIM rMesh boxWidth = SetUpBoxes.specifiedWidth DIM rMesh boxWidth)
    ∧ (∀ fuel bc, SetUpBoxes DIM fuel rMesh boxWidth = .ok bc →
        bc.grid.mBoxWidth = SetUpBoxes.boxWidth DIM rMesh boxWidth) := by
  have hw := extended_width DIM rMesh
  refine ⟨?_, ?_, ?_, ?_, fun fuel bc h => SetUpBoxes_mBoxWidth DIM fuel rMesh boxWidth bc h⟩
  · intro h
    unfold SetUpBoxes.boxWidth
    simp only
    rw [if_neg (not_lt.2 h)]
  · intro h h2
    unfold SetUpBoxes.boxWidth
    simp only
    rw [if_pos h, hw, if_pos h2]
  · intro h h2
    unfold SetUpBoxes.boxWidth
    simp only
    rw [if_pos h, hw, if_neg (not_lt.2 h2)]
  · intro h he h2
    unfold SetUpBoxes.boxWidth SetUpBoxes.specifiedWidth
    simp only
    rw [if_pos h, if_pos (le_of_lt h), hw]
    rcases h2 with h2 | h2
    · rw [if_pos h2, max_eq_left]
      · ring
      · linarith
    · rw [if_neg (not_lt.2 (by linarith)), max_eq_right]
      linarith

theorem collect_fold_mem (bc : BoxCollection) (l : List Nat) :
    ∀ acc r : Finset Nat,
      l.foldlM
        (fun (rElementIndices : Finset Nat) local_box =>
          match bc.rGetElementsContained local_box with
          | .error e => (.error e : Except Failure (Finset Nat))
          | .ok elements => .ok (rElementIndices ∪ elements))
        acc = .ok r →
      ∀ e, e ∈ r ↔ (e ∈ acc ∨ ∃ b', b' ∈ l ∧ bc.holds b' e) := by
  induction l with
  | nil =>
    intro acc r h e
    cases h
    simp
  | cons a l ih =>
    intro acc r h e
    rw [List.foldlM_cons] at h
    cases ha : bc.rGetElementsContained a with
    | error err => simp only [ha] at h; cases h
    | ok elements =>
      simp only [ha] at h
      rw [ih _ _ h e, Finset.mem_union]
      constructor
      · rintro ((h1 | h1) | ⟨b', hb', h2⟩)
        · exact Or.inl h1
        · exact Or.inr ⟨a, List.mem_cons_self _ _, elements, ha, h1⟩
        · exact Or.inr ⟨b', List.mem_cons_of_mem _ hb', h2⟩
      · rintro (h1 | ⟨b', hb', h2⟩)
        · exact Or.inl (Or.inl h1)
        · rcases List.mem_cons.1 hb' with rfl | hb'
          · obtain ⟨E, hE, he⟩ := h2
            rw [ha] at hE
            cases hE
            exact Or.inl (Or.inr he)
          · exact Or.inr ⟨b', hb', h2⟩

/-- C35 fails as stated: in the collection built over `twoLineElements`, element 0 is
registered in box 0 only; for the point -1/4, whose containing box is box 0, the search in the
containing box fails, and the candidate set of the second search, collected over the stencil
`{0, 1}` of box 0, holds element 0 again. -/
theorem tier_two_holds_containing_box :
    lineBoxes.mElementsContained = [{0, 1}, ∅, ∅, ∅, ∅, {1}]
    ∧ CalculateContainingBox lineBoxes.grid 20 [-1 / 4] = .ok 0
    ∧ CollectElementsInContainingBox (some lineBoxes) 0 ∅ = .ok {0, 1}
    ∧ twoLineElements.GetContainingElementIndex [-1 / 4] false {0, 1} true = none
    ∧ GetLocalBoxes lineBoxes.grid 0 = .ok {0, 1}
    ∧ CollectElementsInLocalBoxes (some lineBoxes) 0 ∅ = .ok {0, 1} := by
  decide!

/-- C35 (as amended): the candidate set of the second search is built from all the boxes of the
stencil of the containing box: it holds exactly the elements registered in some box of the
stencil. A stencil built by `SetupAllLocalBoxes` contains the box itself, so the candidates
of the first search are candidates of the second search again. -/
theorem CollectElementsInLocalBoxes_stencil (bc : BoxCollection) (boxIndex : Nat)
    (rElementIndices candidates : Finset Nat)
    (h : CollectElementsInLocalBoxes (some bc) boxIndex rElementIndices = .ok candidates) :
    ∃ local_boxes, GetLocalBoxes bc.grid boxIndex = .ok local_boxes
      ∧ (∀ e, e ∈ candidates ↔
          (e ∈ rElementIndices ∨ ∃ b', b' ∈ local_boxes ∧ bc.holds b' e))
      ∧ (boxIndex ∈ local_boxes →
          ∀ first, CollectElementsInContainingBox (some bc) boxIndex ∅ = .ok first →
            first ⊆ candidates)
      ∧ (∀ grid, bc.grid = SetupAllLocalBoxes grid →
          grid.mNumBoxesEachDirection.length = grid.DIM.toNat →
          grid.mNumBoxesEachDirection.prod < 4294967296 →
          grid.mIsPeriodicInX = false → grid.mLocalBoxes = [] →
          grid.mMaxBoxIndex < grid.mNumBoxesEachDirection.prod →
          boxIndex ∈ local_boxes) := by
  unfold CollectElementsInLocalBoxes at h
  simp only at h
  split at h
  · cases h
  · rename_i local_boxes hst
    have hmem := collect_fold_mem bc _ _ _ h
    simp only [Finset.mem_sort] at hmem
    refine ⟨local_boxes, hst, hmem, ?_, ?_⟩
    · intro hself first hfirst e he
      unfold CollectElementsInContainingBox at hfirst
      simp only at hfirst
      split at hfirst
      · cases hfirst
      · rename_i elements hel
        cases hfirst
        rw [Finset.empty_union] at he
        exact (hmem e).2 (Or.inr ⟨boxIndex, hself, elements, hel, he⟩)
    · intro grid hg hlen hfit hper hfresh htot
      rw [hg] at hst
      obtain ⟨o1, o2⟩ := GetLocalBoxes_owned _ _ _ hst
      obtain ⟨-, -, f3, f4, -⟩ := SetupAllLocalBoxes_fields grid
      rw [f3] at o1
      rw [f4] at o2
      rw [GetLocalBoxes_SetupAllLocalBoxes_reference grid boxIndex hlen hfit hper hfresh o1 o2
        htot] at hst
      cases hst
      exact self_mem_referenceStencil _ _ _ (by omega)

theorem CollectElementsInLocalBoxes_stencil_witness :
    CollectElementsInLocalBoxes (some lineBoxes) 5 ∅ = .ok {1}
    ∧ ∃ local_boxes, GetLocalBoxes lineBoxes.grid 5 = .ok local_boxes
      ∧ (∀ e, e ∈ ({1} : Finset Nat) ↔
          (e ∈ (∅ : Finset Nat) ∨ ∃ b', b' ∈ local_boxes ∧ lineBoxes.holds b' e))
      ∧ (5 ∈ local_boxes →
          ∀ first, CollectElementsInContainingBox (some lineBoxes) 5 ∅ = .ok first →
            first ⊆ ({1} : Finset Nat))
      ∧ (∀ grid, lineBoxes.grid = SetupAllLocalBoxes grid →
          grid.mNumBoxesEachDirection.length = grid.DIM.toNat →
          grid.mNumBoxesEachDirection.prod < 4294967296 →
          grid.mIsPeriodicInX = false → grid.mLocalBoxes = [] →
          grid.mMaxBoxIndex < grid.mNumBoxesEachDirection.prod →
          5 ∈ local_boxes) :=
  ⟨by decide!, CollectElementsInLocalBoxes_stencil lineBoxes 5 ∅ {1} (by decide!)⟩

theorem store_found (s : FineCoarseMeshPair) (rPoint : List ℚ) (index elem_index : Nat)
    (hidx : index < s.mFineMeshElementsAndWeights.length) :
    ∃ s', storeElementAndWeight (incrementCounter s 0) rPoint index elem_index = .ok s'
      ∧ RecordsFound s s' rPoint index elem_index := by
  unfold storeElementAndWeight
  rw [if_pos (by exact hidx)]
  exact ⟨_, rfl, rfl, rfl, rfl, rfl⟩

theorem store_notInMesh (s : FineCoarseMeshPair) (rPoint : List ℚ) (index elem_index : Nat)
    (hidx : index < s.mFineMeshElementsAndWeights.length) :
    ∃ s', storeElementAndWeight (recordNotInMesh s rPoint index elem_index) rPoint index
        elem_index = .ok s'
      ∧ RecordsNotInMesh s s' rPoint index elem_index := by
  unfold storeElementAndWeight
  rw [if_pos (by exact hidx)]
  exact ⟨_, rfl, rfl, rfl, rfl, rfl⟩

theorem append_singleton_ne {α : Type} (l : List α) (a : α) : l ≠ l ++ [a] := by
  intro h
  have := congrArg List.length h
  simp at this

/-- C36: for a query point whose two candidate sets can be collected, and whose entry of the
result vector exists, `ComputeFineElementAndWeightForGivenPoint` stores the element of the first
search that succeeds (in the containing box, then in its stencil, then, in safe mode only, in
the whole mesh) and counts the point as found. When these searches all fail it stores the
nearest element among the candidates of the stencil, appends the index and the weights to the
not-in-mesh vectors and counts the point as not found; in fast mode this needs a candidate,
else the assertion fails. So the index is appended if and only if the searches in the box and
in the stencil fail and, in safe mode, the search in the whole mesh fails too. -/
theorem ComputeFineElementAndWeightForGivenPoint_tiers (s : FineCoarseMeshPair)
    (rPoint : List ℚ) (safeMode : Bool) (boxForThisPoint index : Nat)
    (first second : Finset Nat)
    (h1 : CollectElementsInContainingBox s.mpFineMeshBoxCollection boxForThisPoint ∅
      = .ok first)
    (h2 : CollectElementsInLocalBoxes s.mpFineMeshBoxCollection boxForThisPoint ∅ = .ok second)
    (hidx : index < s.mFineMeshElementsAndWeights.length) :
    (∀ el, s.mrFineMesh.GetContainingElementIndex rPoint false first true = some el →
      ∃ s', ComputeFineElementAndWeightForGivenPoint s rPoint safeMode boxForThisPoint index
          = .ok s' ∧ RecordsFound s s' rPoint index el)
    ∧ (s.mrFineMesh.GetContainingElementIndex rPoint false first true = none →
      ∀ el, s.mrFineMesh.GetContainingElementIndex rPoint false second true = some el →
      ∃ s', ComputeFineElementAndWeightForGivenPoint s rPoint safeMode boxForThisPoint index
          = .ok s' ∧ RecordsFound s s' rPoint index el)
    ∧ (s.mrFineMesh.GetContainingElementIndex rPoint false first true = none →
      s.mrFineMesh.GetContainingElementIndex rPoint false second true = none →
      safeMode = true →
      ∀ el, s.mrFineMesh.GetContainingElementIndex rPoint false ∅ false = some el →
      ∃ s', ComputeFineElementAndWeightForGivenPoint s rPoint safeMode boxForThisPoint index
          = .ok s' ∧ RecordsFound s s' rPoint index el)
    ∧ (s.mrFineMesh.GetContainingElementIndex rPoint false first true = none →
      s.mrFineMesh.GetContainingElementIndex rPoint false second true = none →
      ((safeMode = true ∧ s.mrFineMesh.GetContainingElementIndex rPoint false ∅ false = none)
        ∨ (safeMode = false ∧ 0 < second.card)) →
      ∃ s', ComputeFineElementAndWeightForGivenPoint s rPoint safeMode boxForThisPoint index
          = .ok s'
        ∧ RecordsNotInMesh s s' rPoint index
            (s.mrFineMesh.GetNearestElementIndexFromTestElements rPoint second))
    ∧ (s.mrFineMesh.GetContainingElementIndex rPoint false first true = none →
      s.mrFineMesh.GetContainingElementIndex rPoint false second true = none →
      safeMode = false → second.card = 0 →
      ComputeFineElementAndWeightForGivenPoint s rPoint safeMode boxForThisPoint index
        = .error .assertion)
    ∧ (∀ s', ComputeFineElementAndWeightForGivenPoint s rPoint safeMode boxForThisPoint index
          = .ok s' →
        (s'.mNotInMesh = s.mNotInMesh ++ [index] ↔
          (s.mrFineMesh.GetContainingElementIndex rPoint false first true = none
            ∧ s.mrFineMesh.GetContainingElementIndex rPoint false second true = none
            ∧ (safeMode = true →
                s.mrFineMesh.GetContainingElementIndex rPoint false ∅ false = none)))) := by
  have hA : ∀ el, s.mrFineMesh.GetContainingElementIndex rPoint false first true = some el →
      ComputeFineElementAndWeightForGivenPoint s rPoint safeMode boxForThisPoint index
        = storeElementAndWeight (incrementCounter s 0) rPoint index el := by
    intro el h
    unfold ComputeFineElementAndWeightForGivenPoint
    simp only [h1, h]
  have hB : s.mrFineMesh.GetContainingElementIndex rPoint false first true = none →
      ∀ el, s.mrFineMesh.GetContainingElementIndex rPoint false second true = some el →
      ComputeFineElementAndWeightForGivenPoint s rPoint safeMode boxForThisPoint index
        = storeElementAndWeight (incrementCounter s 0) rPoint index el := by
    intro h el h'
    unfold ComputeFineElementAndWeightForGivenPoint
    simp only [h1, h, h2, h']
  have hC : s.mrFineMesh.GetContainingElementIndex rPoint false first true = none →
      s.mrFineMesh.GetContainingElementIndex rPoint false second true = none →
      safeMode = true →
      ∀ el, s.mrFineMesh.GetContainingElementIndex rPoint false ∅ false = some el →
      ComputeFineElementAndWeightForGivenPoint s rPoint safeMode boxForThisPoint index
        = storeElementAndWeight (incrementCounter s 0) rPoint index el := by
    intro h h' hs el h''
    unfold ComputeFineElementAndWeightForGivenPoint
    simp only [h1, h, h2, h', hs, h'', if_true]
  have hD : s.mrFineMesh.GetContainingElementIndex rPoint false first true = none →
      s.mrFineMesh.GetContainingElementIndex rPoint false second true = none →
      ((safeMode = true ∧ s.mrFineMesh.GetContainingElementIndex rPoint false ∅ false = none)
        ∨ (safeMode = false ∧ 0 < second.card)) →
      ComputeFineElementAndWeightForGivenPoint s rPoint safeMode boxForThisPoint index
        = storeElementAndWeight
            (recordNotInMesh s rPoint index
              (s.mrFineMesh.GetNearestElementIndexFromTestElements rPoint second))
            rPoint index (s.mrFineMesh.GetNearestElementIndexFromTestElements rPoint second) := by
    intro h h' hs
    unfold ComputeFineElementAndWeightForGivenPoint
    rcases hs with ⟨hs, h''⟩ | ⟨hs, hc⟩
    · simp only [h1, h, h2, h', hs, h'', if_true]
    · simp only [h1, h, h2, h', hs, Bool.false_eq_true, if_false, gt_iff_lt, hc, if_true]
  have hF : s.mrFineMesh.GetContainingElementIndex rPoint false first true = none →
      s.mrFineMesh.GetContainingElementIndex rPoint false second true = none →
      safeMode = false → second.card = 0 →
      ComputeFineElementAndWeightForGivenPoint s rPoint safeMode boxForThisPoint index
        = .error .assertion := by
    intro h h' hs hc
    unfold ComputeFineElementAndWeightForGivenPoint
    simp only [h1, h, h2, h', hs, Bool.false_eq_true, if_false, gt_iff_lt, hc, lt_self_iff_false]
  refine ⟨?_, ?_, ?_, ?_, hF, ?_⟩
  · intro el h
    rw [hA el h]
    exact store_found s rPoint index el hidx
  · intro h el h'
    rw [hB h el h']
    exact store_found s rPoint index el hidx
  · intro h h' hs el h''
    rw [hC h h' hs el h'']
    exact store_found s rPoint index el hidx
  · intro h h' hs
    rw [hD h h' hs]
    exact store_notInMesh s rPoint index _ hidx
  · intro s' hs'
    have found : ∀ el, storeElementAndWeight (incrementCounter s 0) rPoint index el = .ok s' →
        s'.mNotInMesh ≠ s.mNotInMesh ++ [index] := by
      intro el he
      obtain ⟨s'', e1, e2, -⟩ := store_found s rPoint index el hidx
      rw [he] at e1
      cases e1
      rw [e2]
      exact append_singleton_ne _ _
    have missing : ∀ el, storeElementAndWeight (recordNotInMesh s rPoint index el) rPoint index
        el = .ok s' → s'.mNotInMesh = s.mNotInMesh ++ [index] := by
      intro el he
      obtain ⟨s'', e1, e2, -⟩ := store_notInMesh s rPoint index el hidx
      rw [he] at e1
      cases e1
      exact e2
    cases t1 : s.mrFineMesh.GetContainingElementIndex rPoint false first true with
    | some el =>
      rw [hA el t1] at hs'
      simp only [reduceCtorEq, false_and, iff_false]
      exact found el hs'
    | none =>
      cases t2 : s.mrFineMesh.GetContainingElementIndex rPoint false second true with
      | some el =>
        rw [hB t1 el t2] at hs'
        simp only [reduceCtorEq, false_and, and_false, iff_false]
        exact found el hs'
      | none =>
        cases hs : safeMode with
        | true =>
          cases t3 : s.mrFineMesh.GetContainingElementIndex rPoint false ∅ false with
          | some el =>
            rw [hC t1 t2 hs el t3] at hs'
            simp only [reduceCtorEq, imp_false, not_true_eq_false, and_false, iff_false]
            exact found el hs'
          | none =>
            rw [hD t1 t2 (Or.inl ⟨hs, t3⟩)] at hs'
            simp only [true_and, imp_self, iff_true]
            exact missing _ hs'
        | false =>
          rcases Nat.eq_zero_or_pos second.card with hc | hc
          · rw [hF t1 t2 hs hc] at hs'
            cases hs'
          · rw [hD t1 t2 (Or.inr ⟨hs, hc⟩)] at hs'
            simp only [true_and, Bool.false_eq_true, false_imp_iff, iff_true]
            exact missing _ hs'

theorem ComputeFineElementAndWeightForGivenPoint_tiers_witness :
    CollectElementsInContainingBox lineQuery.mpFineMeshBoxCollection 5 ∅ = .ok {1}
    ∧ CollectElementsInLocalBoxes lineQuery.mpFineMeshBoxCollection 5 ∅ = .ok {1}
    ∧ 0 < lineQuery.mFineMeshElementsAndWeights.length
    ∧ (lineQuery.mrFineMesh.GetContainingElementIndex [21 / 2] false {1} true = none →
      lineQuery.mrFineMesh.GetContainingElementIndex [21 / 2] false {1} true = none →
      ((true = true
          ∧ lineQuery.mrFineMesh.GetContainingElementIndex [21 / 2] false ∅ false = none)
        ∨ (true = false ∧ 0 < ({1} : Finset Nat).card)) →
      ∃ s', ComputeFineElementAndWeightForGivenPoint lineQuery [21 / 2] true 5 0 = .ok s'
        ∧ RecordsNotInMesh lineQuery s' [21 / 2] 0
            (lineQuery.mrFineMesh.GetNearestElementIndexFromTestElements [21 / 2] {1})) :=
  ⟨by decide!, by decide!, by decide!,
    (ComputeFineElementAndWeightForGivenPoint_tiers lineQuery [21 / 2] true 5 0 {1} {1}
      (by decide!) (by decide!) (by decide!)).2.2.2.1⟩

/-- The two modes of `ComputeFineElementAndWeightForGivenPoint` agree unless both candidate
sets are collected and both searches in them fail. -/
theorem fine_modes (s : FineCoarseMeshPair) (rPoint : List ℚ) (boxForThisPoint index : Nat) :
    ComputeFineElementAndWeightForGivenPoint s rPoint true boxForThisPoint index
        = ComputeFineElementAndWeightForGivenPoint s rPoint false boxForThisPoint index
      ∨ ∃ first second,
          CollectElementsInContainingBox s.mpFineMeshBoxCollection boxForThisPoint ∅ = .ok first
          ∧ CollectElementsInLocalBoxes s.mpFineMeshBoxCollection boxForThisPoint ∅
            = .ok second
          ∧ s.mrFineMesh.GetContainingElementIndex rPoint false first true = none
          ∧ s.mrFineMesh.GetContainingElementIndex rPoint false second true = none := by
  unfold ComputeFineElementAndWeightForGivenPoint
  cases h1 : CollectElementsInContainingBox s.mpFineMeshBoxCollection boxForThisPoint ∅ with
  | error e => exact Or.inl rfl
  | ok first =>
    cases t1 : s.mrFineMesh.GetContainingElementIndex rPoint false first true with
    | some el => simp only [t1, true_or]
    | none =>
      cases h2 : CollectElementsInLocalBoxes s.mpFineMeshBoxCollection boxForThisPoint ∅ with
      | error e => simp only [t1, true_or]
      | ok second =>
        cases t2 : s.mrFineMesh.GetContainingElementIndex rPoint false second true with
        | some el => simp only [t1, t2, true_or]
        | none => exact Or.inr ⟨first, second, rfl, rfl, t1, t2⟩

/-- The two modes of `ComputeCoarseElementForGivenPoint` agree unless both candidate sets are
collected and both searches in them fail. -/
theorem coarse_modes (s : FineCoarseMeshPair) (rPoint : List ℚ) (boxForThisPoint : Nat) :
    ComputeCoarseElementForGivenPoint s rPoint true boxForThisPoint
        = ComputeCoarseElementForGivenPoint s rPoint false boxForThisPoint
      ∨ ∃ first second,
          CollectElementsInContainingBox s.mpCoarseMeshBoxCollection boxForThisPoint ∅
            = .ok first
          ∧ CollectElementsInLocalBoxes s.mpCoarseMeshBoxCollection boxForThisPoint ∅
            = .ok second
          ∧ s.mrCoarseMesh.GetContainingElementIndex rPoint false first true = none
          ∧ s.mrCoarseMesh.GetContainingElementIndex rPoint false second true = none := by
  unfold ComputeCoarseElementForGivenPoint
  cases h1 : CollectElementsInContainingBox s.mpCoarseMeshBoxCollection boxForThisPoint ∅ with
  | error e => exact Or.inl rfl
  | ok first =>
    cases t1 : s.mrCoarseMesh.GetContainingElementIndex rPoint false first true with
    | some el => simp only [t1, true_or]
    | none =>
      cases h2 : CollectElementsInLocalBoxes s.mpCoarseMeshBoxCollection boxForThisPoint ∅ with
      | error e => simp only [t1, true_or]
      | ok second =>
        cases t2 : s.mrCoarseMesh.GetContainingElementIndex rPoint false second true with
        | some el => simp only [t1, t2, true_or]
        | none => exact Or.inr ⟨first, second, rfl, rfl, t1, t2⟩

/-- C40: for a query point for which the search in the containing box, or else the search in
its stencil, finds an element, `ComputeFineElementAndWeightForGivenPoint` returns the same
state (element, weights, counters, not-in-mesh vectors) in safe mode and in fast mode, and so
does `ComputeCoarseElementForGivenPoint` for the element and the state. The results of the
two modes differ only for points for which both searches fail. -/
theorem safeMode_agrees_when_found (s : FineCoarseMeshPair) (rPoint : List ℚ)
    (boxForThisPoint index : Nat) (first : Finset Nat)
    (h1 : CollectElementsInContainingBox s.mpFineMeshBoxCollection boxForThisPoint ∅
      = .ok first)
    (hfound : (s.mrFineMesh.GetContainingElementIndex rPoint false first true).isSome = true
      ∨ ∃ second,
          CollectElementsInLocalBoxes s.mpFineMeshBoxCollection boxForThisPoint ∅ = .ok second
          ∧ (s.mrFineMesh.GetContainingElementIndex rPoint false second true).isSome = true) :
    ComputeFineElementAndWeightForGivenPoint s rPoint true boxForThisPoint index
        = ComputeFineElementAndWeightForGivenPoint s rPoint false boxForThisPoint index
    ∧ (∀ firstC,
        CollectElementsInContainingBox s.mpCoarseMeshBoxCollection boxForThisPoint ∅
          = .ok firstC →
        ((s.mrCoarseMesh.GetContainingElementIndex rPoint false firstC true).isSome = true
          ∨ ∃ secondC,
              CollectElementsInLocalBoxes s.mpCoarseMeshBoxCollection boxForThisPoint ∅
                = .ok secondC
              ∧ (s.mrCoarseMesh.GetContainingElementIndex rPoint false secondC true).isSome
                = true) →
        ComputeCoarseElementForGivenPoint s rPoint true boxForThisPoint
          = ComputeCoarseElementForGivenPoint s rPoint false boxForThisPoint)
    ∧ (∀ box' index',
        ComputeFineElementAndWeightForGivenPoint s rPoint true box' index'
          ≠ ComputeFineElementAndWeightForGivenPoint s rPoint false box' index' →
        ∃ f2 s2,
          CollectElementsInContainingBox s.mpFineMeshBoxCollection box' ∅ = .ok f2
          ∧ CollectElementsInLocalBoxes s.mpFineMeshBoxCollection box' ∅ = .ok s2
          ∧ s.mrFineMesh.GetContainingElementIndex rPoint false f2 true = none
          ∧ s.mrFineMesh.GetContainingElementIndex rPoint false s2 true = none)
    ∧ (∀ box',
        ComputeCoarseElementForGivenPoint s rPoint true box'
          ≠ ComputeCoarseElementForGivenPoint s rPoint false box' →
        ∃ f2 s2,
          CollectElementsInContainingBox s.mpCoarseMeshBoxCollection box' ∅ = .ok f2
          ∧ CollectElementsInLocalBoxes s.mpCoarseMeshBoxCollection box' ∅ = .ok s2
          ∧ s.mrCoarseMesh.GetContainingElementIndex rPoint false f2 true = none
          ∧ s.mrCoarseMesh.GetContainingElementIndex rPoint false s2 true = none) := by
  refine ⟨?_, ?_, ?_, ?_⟩
  · rcases fine_modes s rPoint boxForThisPoint index with h | ⟨f2, s2, e1, e2, t1, t2⟩
    · exact h
    · rw [h1] at e1
      cases e1
      rcases hfound with hf | ⟨second, hs, hf⟩
      · rw [t1] at hf
        cases hf
      · rw [e2] at hs
        cases hs
        rw [t2] at hf
        cases hf
  · intro firstC hC hfoundC
    rcases coarse_modes s rPoint boxForThisPoint with h | ⟨f2, s2, e1, e2, t1, t2⟩
    · exact h
    · rw [hC] at e1
      cases e1
      rcases hfoundC with hf | ⟨second, hs, hf⟩
      · rw [t1] at hf
        cases hf
      · rw [e2] at hs
        cases hs
        rw [t2] at hf
        cases hf
  · intro box' index' hne
    rcases fine_modes s rPoint box' index' with h | h
    · exact absurd h hne
    · exact h
  · intro box' hne
    rcases coarse_modes s rPoint box' with h | h
    · exact absurd h hne
    · exact h

theorem safeMode_agrees_when_found_witness :
    CollectElementsInContainingBox lineQueryInside.mpFineMeshBoxCollection 0 ∅ = .ok {0, 1}
    ∧ (lineQueryInside.mrFineMesh.GetContainingElementIndex [1 / 2] false {0, 1} true).isSome
      = true
    ∧ ComputeFineElementAndWeightForGivenPoint lineQueryInside [1 / 2] true 0 0
        = ComputeFineElementAndWeightForGivenPoint lineQueryInside [1 / 2] false 0 0 :=
  ⟨by decide!, by decide!,
    (safeMode_agrees_when_found lineQueryInside [1 / 2] 0 0 {0, 1} (by decide!)
      (Or.inl (by decide!))).1⟩

/-- C37 fails in the code: `ResetStatisticsVariables` calls `resize(2, 0u)` on the counters,
which leaves a vector that already has two entries as it is. On a mesh pair with two coarse
nodes the first call of `ComputeFineElementsAndWeightsForCoarseNodes` leaves the counters
`[2, 0]`, and a second call leaves `[4, 0]`: their sum is 4 for 2 query points. -/
theorem statistics_not_reset :
    (linePairWithBoxes [[1 / 2], [5]]).mStatisticsCounters = [0, 0]
    ∧ (ComputeFineElementsAndWeightsForCoarseNodes (linePairWithBoxes [[1 / 2], [5]]) 20
        true).failure = none
    ∧ (ComputeFineElementsAndWeightsForCoarseNodes (linePairWithBoxes [[1 / 2], [5]]) 20
        true).state.mStatisticsCounters = [2, 0]
    ∧ (ComputeFineElementsAndWeightsForCoarseNodes
        (ComputeFineElementsAndWeightsForCoarseNodes (linePairWithBoxes [[1 / 2], [5]]) 20
          true).state 20 true).failure = none
    ∧ (ComputeFineElementsAndWeightsForCoarseNodes
        (ComputeFineElementsAndWeightsForCoarseNodes (linePairWithBoxes [[1 / 2], [5]]) 20
          true).state 20 true).state.mStatisticsCounters = [4, 0]
    ∧ ∀ (s : FineCoarseMeshPair) (a b : Nat),
        (ResetStatisticsVariables { s with mStatisticsCounters := [a, b] }).mStatisticsCounters
          = [a, b] :=
  ⟨by decide!, by decide!, by decide!, by decide!, by decide!, fun _ _ _ => rfl⟩

theorem twoPow_eq (k : ℤ) : twoPow k = (2 : ℚ) ^ k := by
  unfold twoPow
  split_ifs with h
  · obtain ⟨n, rfl⟩ := Int.eq_ofNat_of_zero_le h
    simp
  · obtain ⟨n, hn⟩ := Int.eq_ofNat_of_zero_le (show 0 ≤ -k by omega)
    have hk : k = -(n : ℤ) := by omega
    subst hk
    simp

theorem scanAxisDouble_steps (w x c0 : ℚ) (hw : 0 < w)
    (hexact : ∀ t : Nat, c0 + t * w ≤ dadd x mFudgeDouble
      → dadd (c0 + t * w) w = c0 + ((t : ℚ) + 1) * w) :
    ∀ (k j : Nat) (c : ℚ) (idx fuel : Nat), c = c0 + j * w →
      c0 + ((j + k : Nat) : ℚ) * w ≤ dadd x mFudgeDouble →
      dadd x mFudgeDouble < c0 + (((j + k : Nat) : ℚ) + 1) * w → k < fuel →
      idx < 4294967296 →
      scanAxisDouble fuel w x c idx = some ((idx + k) % 4294967296) := by
  intro k
  induction k with
  | zero =>
    intro j c idx fuel hc h1 h2 hf hidx
    obtain ⟨fuel, rfl⟩ : ∃ f, fuel = f + 1 := ⟨fuel - 1, by omega⟩
    simp only [Nat.add_zero] at h1 h2
    have he := hexact j h1
    rw [← hc] at he
    have hgt : dadd c w > dadd x mFudgeDouble := by rw [he]; exact h2
    simp only [scanAxisDouble, hgt, decide_True, Bool.not_true, Bool.false_eq_true, if_false,
      Nat.add_zero, Nat.mod_eq_of_lt hidx]
  | succ k ih =>
    intro j c idx fuel hc h1 h2 hf hidx
    obtain ⟨fuel, rfl⟩ : ∃ f, fuel = f + 1 := ⟨fuel - 1, by omega⟩
    have hk : (0 : ℚ) ≤ k * w := mul_nonneg (Nat.cast_nonneg k) hw.le
    push_cast at h1 h2
    have hj : c0 + (j : ℚ) * w ≤ dadd x mFudgeDouble := by nlinarith
    have he := hexact j hj
    rw [← hc] at he
    have hle : ¬ (dadd c w > dadd x mFudgeDouble) := by
      rw [he]
      apply not_lt.2
      nlinarith
    have hrec := ih (j + 1) (dadd c w) (uadd idx 1) fuel (by rw [he]; push_cast; ring)
      (by push_cast; linarith) (by push_cast; linarith) (by omega)
      (Nat.mod_lt _ (by decide))
    simp only [scanAxisDouble, hle, decide_False, Bool.not_false, if_true, hrec]
    congr 1
    simp only [uadd]
    omega

theorem floorIndexDouble_bounds (s : DistributedBoxCollection) (rLocation : List ℚ) (i : Nat)
    (hw : 0 < s.mBoxWidth)
    (hlow : s.mDomainSize.getD (2 * i) 0 ≤ dadd (rLocation.getD i 0) mFudgeDouble) :
    s.mDomainSize.getD (2 * i) 0 + (floorIndexDouble s rLocation i : ℚ) * s.mBoxWidth
        ≤ dadd (rLocation.getD i 0) mFudgeDouble
      ∧ dadd (rLocation.getD i 0) mFudgeDouble
        < s.mDomainSize.getD (2 * i) 0
          + ((floorIndexDouble s rLocation i : ℚ) + 1) * s.mBoxWidth := by
  have hnum : 0 ≤ (dadd (rLocation.getD i 0) mFudgeDouble - s.mDomainSize.getD (2 * i) 0)
      / s.mBoxWidth := div_nonneg (by linarith) hw.le
  have h0 : 0 ≤ ⌊(dadd (rLocation.getD i 0) mFudgeDouble - s.mDomainSize.getD (2 * i) 0)
      / s.mBoxWidth⌋ := Int.floor_nonneg.2 hnum
  have hcast : ((floorIndexDouble s rLocation i : Nat) : ℚ)
      = ((⌊(dadd (rLocation.getD i 0) mFudgeDouble - s.mDomainSize.getD (2 * i) 0)
          / s.mBoxWidth⌋ : Int) : ℚ) := by
    unfold floorIndexDouble
    rw [← Int.cast_natCast, Int.toNat_of_nonneg h0]
  rw [hcast]
  have a := Int.floor_le
    ((dadd (rLocation.getD i 0) mFudgeDouble - s.mDomainSize.getD (2 * i) 0) / s.mBoxWidth)
  have b := Int.lt_floor_add_one
    ((dadd (rLocation.getD i 0) mFudgeDouble - s.mDomainSize.getD (2 * i) 0) / s.mBoxWidth)
  rw [le_div_iff₀ hw] at a
  rw [div_lt_iff₀ hw] at b
  constructor <;> linarith

theorem floorIndexDouble_lt (s : DistributedBoxCollection) (rLocation : List ℚ) (i n : Nat)
    (hw : 0 < s.mBoxWidth)
    (hlow : s.mDomainSize.getD (2 * i) 0 ≤ dadd (rLocation.getD i 0) mFudgeDouble)
    (hroom : dadd (rLocation.getD i 0) mFudgeDouble
      < s.mDomainSize.getD (2 * i) 0 + n * s.mBoxWidth) :
    floorIndexDouble s rLocation i < n := by
  obtain ⟨h1, -⟩ := floorIndexDouble_bounds s rLocation i hw hlow
  have h : (floorIndexDouble s rLocation i : ℚ) * s.mBoxWidth < n * s.mBoxWidth := by linarith
  have h2 := lt_of_mul_lt_mul_right h hw.le
  exact_mod_cast h2

theorem scanAxisDouble_floorIndex (s : DistributedBoxCollection) (rLocation : List ℚ)
    (i fuel : Nat) (hw : 0 < s.mBoxWidth)
    (hlow : s.mDomainSize.getD (2 * i) 0 ≤ dadd (rLocation.getD i 0) mFudgeDouble)
    (hexact : ∀ t : Nat,
      s.mDomainSize.getD (2 * i) 0 + t * s.mBoxWidth ≤ dadd (rLocation.getD i 0) mFudgeDouble
      → dadd (s.mDomainSize.getD (2 * i) 0 + t * s.mBoxWidth) s.mBoxWidth
          = s.mDomainSize.getD (2 * i) 0 + ((t : ℚ) + 1) * s.mBoxWidth)
    (hrep : floorIndexDouble s rLocation i < 4294967296)
    (hfuel : floorIndexDouble s rLocation i < fuel) :
    scanAxisDouble fuel s.mBoxWidth (rLocation.getD i 0) (s.mDomainSize.getD (2 * i) 0) 0
      = some (floorIndexDouble s rLocation i) := by
  obtain ⟨h1, h2⟩ := floorIndexDouble_bounds s rLocation i hw hlow
  rw [scanAxisDouble_steps s.mBoxWidth _ (s.mDomainSize.getD (2 * i) 0) hw hexact
    (floorIndexDouble s rLocation i) 0 _ 0 fuel (by push_cast; ring)
    (by rw [Nat.zero_add]; exact h1) (by rw [Nat.zero_add]; exact h2) hfuel (by decide),
    Nat.zero_add, Nat.mod_eq_of_lt hrep]

/-- With enough fuel the scan of every axis in `double` arithmetic returns the floor coordinate
of the rounded sum and `CalculateContainingBoxDouble` reaches its final assertion, when the
box boundaries up to the point are accumulated without rounding error. -/
theorem CalculateContainingBoxDouble_floor (s : DistributedBoxCollection) (rLocation : List ℚ)
    (hw : 0 < s.mBoxWidth)
    (hin : ∀ i, i < s.DIM.toNat → s.mDomainSize.getD (2 * i) 0 ≤ rLocation.getD i 0
      ∧ rLocation.getD i 0 < s.mDomainSize.getD (2 * i + 1) 0)
    (hlow : ∀ i, i < s.DIM.toNat →
      s.mDomainSize.getD (2 * i) 0 ≤ dadd (rLocation.getD i 0) mFudgeDouble)
    (hexact : ∀ i, i < s.DIM.toNat → ∀ t : Nat,
      s.mDomainSize.getD (2 * i) 0 + t * s.mBoxWidth ≤ dadd (rLocation.getD i 0) mFudgeDouble
      → dadd (s.mDomainSize.getD (2 * i) 0 + t * s.mBoxWidth) s.mBoxWidth
          = s.mDomainSize.getD (2 * i) 0 + ((t : ℚ) + 1) * s.mBoxWidth)
    (hrep : ∀ i, i < s.DIM.toNat → floorIndexDouble s rLocation i < 4294967296)
    (fuel : Nat) (hfuel : ∀ i, i < s.DIM.toNat → floorIndexDouble s rLocation i < fuel) :
    (∀ i, i < s.DIM.toNat →
        scanAxisDouble fuel s.mBoxWidth (rLocation.getD i 0) (s.mDomainSize.getD (2 * i) 0) 0
          = some (floorIndexDouble s rLocation i))
      ∧ CalculateContainingBoxDouble s fuel rLocation =
          (if CalculateGlobalIndex s.DIM s.mNumBoxesEachDirection
                ((List.range s.DIM.toNat).map (floorIndexDouble s rLocation)) < s.mNumBoxes then
              .ok (CalculateGlobalIndex s.DIM s.mNumBoxesEachDirection
                ((List.range s.DIM.toNat).map (floorIndexDouble s rLocation)))
            else .error .assertion) := by
  have hscan : ∀ i, i < s.DIM.toNat →
      scanAxisDouble fuel s.mBoxWidth (rLocation.getD i 0) (s.mDomainSize.getD (2 * i) 0) 0
        = some (floorIndexDouble s rLocation i) := by
    intro i hi
    exact scanAxisDouble_floorIndex s rLocation i fuel hw (hlow i hi) (hexact i hi)
      (hrep i hi) (hfuel i hi)
  refine ⟨hscan, ?_⟩
  have hdom : ¬ ((List.range s.DIM.toNat).any (fun i =>
        decide (rLocation.getD i 0 < s.mDomainSize.getD (2 * i) 0)
          || !(decide (rLocation.getD i 0 < s.mDomainSize.getD (2 * i + 1) 0))) = true) := by
    rw [domain_test_iff]
    rintro ⟨i, hi, h | h⟩
    · exact absurd h (not_lt.2 (hin i hi).1)
    · exact absurd (hin i hi).2 (not_lt.2 h)
  have hmap := mapM_eq_map_of_forall
    (fun i => scanAxisDouble fuel s.mBoxWidth (rLocation.getD i 0)
      (s.mDomainSize.getD (2 * i) 0) 0)
    (floorIndexDouble s rLocation) (List.range s.DIM.toNat)
    (fun i hi => hscan i (List.mem_range.1 hi))
  unfold CalculateContainingBoxDouble
  rw [if_neg hdom, hmap]

/-- In `double` arithmetic, on a grid whose box boundaries are accumulated without rounding
error, a point inside the domain whose rounded sum with the fudge lies between the lower
domain bound and the upper end of the last box is given, with an iteration budget of at least
the number of boxes, a box whose coordinates bracket that rounded sum. -/
theorem containingBoxDouble_ok (s : DistributedBoxCollection)
    (rLocation : List ℚ) (hw : 0 < s.mBoxWidth)
    (hN : s.mNumBoxesEachDirection.length = s.DIM.toNat)
    (hnum : s.mNumBoxes = s.mNumBoxesEachDirection.prod) (hfit : s.mNumBoxes < 4294967296)
    (hexact : ∀ i, i < s.DIM.toNat → ∀ k, k < s.mNumBoxesEachDirection.getD i 0 →
      dadd (s.mDomainSize.getD (2 * i) 0 + (k : ℚ) * s.mBoxWidth) s.mBoxWidth
        = s.mDomainSize.getD (2 * i) 0 + ((k : ℚ) + 1) * s.mBoxWidth)
    (hin : ∀ i, i < s.DIM.toNat → s.mDomainSize.getD (2 * i) 0 ≤ rLocation.getD i 0
      ∧ rLocation.getD i 0 < s.mDomainSize.getD (2 * i + 1) 0)
    (hshift : ∀ i, i < s.DIM.toNat →
      s.mDomainSize.getD (2 * i) 0 ≤ dadd (rLocation.getD i 0) mFudgeDouble
      ∧ dadd (rLocation.getD i 0) mFudgeDouble
        < s.mDomainSize.getD (2 * i) 0 + s.mNumBoxesEachDirection.getD i 0 * s.mBoxWidth)
    (fuel : Nat) (hfuel : s.mNumBoxes ≤ fuel) :
    ∃ g, CalculateContainingBoxDouble s fuel rLocation = .ok g
      ∧ g < s.mNumBoxes
      ∧ ∀ i, i < s.DIM.toNat →
          s.mDomainSize.getD (2 * i) 0
              + ((CalculateCoordinateIndices s.DIM s.mNumBoxesEachDirection g).getD i 0 : ℚ)
                * s.mBoxWidth ≤ dadd (rLocation.getD i 0) mFudgeDouble
            ∧ dadd (rLocation.getD i 0) mFudgeDouble < s.mDomainSize.getD (2 * i) 0
              + (((CalculateCoordinateIndices s.DIM s.mNumBoxesEachDirection g).getD i 0 : ℚ)
                  + 1) * s.mBoxWidth := by
  have hk : ∀ i, i < s.DIM.toNat →
      floorIndexDouble s rLocation i < s.mNumBoxesEachDirection.getD i 0 :=
    fun i hi => floorIndexDouble_lt s rLocation i _ hw (hshift i hi).1 (hshift i hi).2
  have hex : ∀ i, i < s.DIM.toNat → ∀ t : Nat,
      s.mDomainSize.getD (2 * i) 0 + t * s.mBoxWidth ≤ dadd (rLocation.getD i 0) mFudgeDouble
      → dadd (s.mDomainSize.getD (2 * i) 0 + t * s.mBoxWidth) s.mBoxWidth
          = s.mDomainSize.getD (2 * i) 0 + ((t : ℚ) + 1) * s.mBoxWidth := by
    intro i hi t ht
    apply hexact i hi t
    have h : (t : ℚ) * s.mBoxWidth
        < (s.mNumBoxesEachDirection.getD i 0 : ℚ) * s.mBoxWidth := by
      have := (hshift i hi).2
      linarith
    have h2 := lt_of_mul_lt_mul_right h hw.le
    exact_mod_cast h2
  have hc : ((List.range s.DIM.toNat).map (floorIndexDouble s rLocation)).length
      = s.DIM.toNat := by
    rw [List.length_map, List.length_range]
  have hlt : ∀ i, i < s.DIM.toNat →
      ((List.range s.DIM.toNat).map (floorIndexDouble s rLocation)).getD i 0
        < s.mNumBoxesEachDirection.getD i 0 := by
    intro i hi
    rw [getD_map_range _ _ _ hi]
    exact hk i hi
  rw [hnum] at hfit hfuel
  obtain ⟨hr, hback⟩ := coords_of_global_index s.DIM s.mNumBoxesEachDirection _ hN hc hlt hfit
  obtain ⟨hlt2, hle⟩ := radix_lt_prod s.DIM s.mNumBoxesEachDirection _ hN hc hlt
  rw [← hr, ← hnum] at hlt2
  obtain ⟨-, hres⟩ := CalculateContainingBoxDouble_floor s rLocation hw hin
    (fun i hi => (hshift i hi).1) hex
    (fun i hi => lt_of_lt_of_le (hk i hi) ((hle i hi).trans hfit.le)) fuel
    (fun i hi => lt_of_lt_of_le (hk i hi) ((hle i hi).trans hfuel))
  rw [if_pos hlt2] at hres
  refine ⟨_, hres, hlt2, fun i hi => ?_⟩
  rw [hback, getD_map_range _ _ _ hi]
  exact floorIndexDouble_bounds s rLocation i hw (hshift i hi).1

/-- C8 (as amended): in `double` arithmetic, for a positive box width on a grid whose box
boundaries `min_i + k*w` are accumulated without rounding error, and a point `p` inside the
domain whose rounded sums `fl(p_i + 5e-14)` lie in `[min_i, min_i + num_boxes[i]*w)`,
`CalculateContainingBox` returns, given enough iterations, an index whose coordinates `c`
satisfy `min_i + c[i]*w ≤ fl(p_i + 5e-14) < min_i + (c[i]+1)*w` on every axis. -/
theorem CalculateContainingBoxDouble_coordinate_bounds (s : DistributedBoxCollection)
    (rLocation : List ℚ) (hw : 0 < s.mBoxWidth)
    (hN : s.mNumBoxesEachDirection.length = s.DIM.toNat)
    (hnum : s.mNumBoxes = s.mNumBoxesEachDirection.prod) (hfit : s.mNumBoxes < 4294967296)
    (hexact : ∀ i, i < s.DIM.toNat → ∀ k, k < s.mNumBoxesEachDirection.getD i 0 →
      dadd (s.mDomainSize.getD (2 * i) 0 + (k : ℚ) * s.mBoxWidth) s.mBoxWidth
        = s.mDomainSize.getD (2 * i) 0 + ((k : ℚ) + 1) * s.mBoxWidth)
    (hin : ∀ i, i < s.DIM.toNat → s.mDomainSize.getD (2 * i) 0 ≤ rLocation.getD i 0
      ∧ rLocation.getD i 0 < s.mDomainSize.getD (2 * i + 1) 0)
    (hshift : ∀ i, i < s.DIM.toNat →
      s.mDomainSize.getD (2 * i) 0 ≤ dadd (rLocation.getD i 0) mFudgeDouble
      ∧ dadd (rLocation.getD i 0) mFudgeDouble
        < s.mDomainSize.getD (2 * i) 0 + s.mNumBoxesEachDirection.getD i 0 * s.mBoxWidth) :
    ∃ fuel0, ∀ fuel, fuel0 ≤ fuel → ∃ g, CalculateContainingBoxDouble s fuel rLocation = .ok g
      ∧ g < s.mNumBoxes
      ∧ ∀ i, i < s.DIM.toNat →
          s.mDomainSize.getD (2 * i) 0
              + ((CalculateCoordinateIndices s.DIM s.mNumBoxesEachDirection g).getD i 0 : ℚ)
                * s.mBoxWidth ≤ dadd (rLocation.getD i 0) mFudgeDouble
            ∧ dadd (rLocation.getD i 0) mFudgeDouble < s.mDomainSize.getD (2 * i) 0
              + (((CalculateCoordinateIndices s.DIM s.mNumBoxesEachDirection g).getD i 0 : ℚ)
                  + 1) * s.mBoxWidth :=
  ⟨s.mNumBoxes, fun fuel hfuel =>
    containingBoxDouble_ok s rLocation hw hN hnum hfit hexact hin hshift fuel hfuel⟩

theorem belowBoundary_shifted : dadd (257 - 1 / 17592186044416) mFudgeDouble = 257 := by
  decide!

/-- In `double` arithmetic too a point less than the fudge below a box boundary is put in
the next box: on two unit boxes on `[0, 2]` the `double` nearest to `1 - 2.5e-14` gets
coordinate 1. -/
theorem CalculateContainingBoxDouble_nearBoundary :
    roundDouble (nearBoundary.getD 0 0) < 1
      ∧ CalculateContainingBoxDouble twoUnitBoxes 2 [roundDouble (nearBoundary.getD 0 0)]
        = .ok 1 := by
  constructor <;> decide!

theorem CalculateContainingBoxDouble_coordinate_bounds_witness :
    ∃ fuel0, ∀ fuel, fuel0 ≤ fuel →
      ∃ g, CalculateContainingBoxDouble unitBoxesFrom256 fuel belowBoundary = .ok g
      ∧ g < unitBoxesFrom256.mNumBoxes
      ∧ ∀ i, i < unitBoxesFrom256.DIM.toNat →
          unitBoxesFrom256.mDomainSize.getD (2 * i) 0
              + ((CalculateCoordinateIndices unitBoxesFrom256.DIM
                  unitBoxesFrom256.mNumBoxesEachDirection g).getD i 0 : ℚ)
                * unitBoxesFrom256.mBoxWidth ≤ dadd (belowBoundary.getD i 0) mFudgeDouble
            ∧ dadd (belowBoundary.getD i 0) mFudgeDouble
              < unitBoxesFrom256.mDomainSize.getD (2 * i) 0
                + (((CalculateCoordinateIndices unitBoxesFrom256.DIM
                    unitBoxesFrom256.mNumBoxesEachDirection g).getD i 0 : ℚ)
                    + 1) * unitBoxesFrom256.mBoxWidth :=
  CalculateContainingBoxDouble_coordinate_bounds unitBoxesFrom256 belowBoundary
    (by decide!) rfl rfl (by decide) (by decide!) (by decide!) (by decide!)

/-- C9 fails as stated, in two ways. On two unit boxes from 256 the largest `double` below
257 passes the domain test; its sum with the fudge rounds to 257, so the scan returns
coordinate 1, where `floor((x - min + 5e-14) / w)` is 0. On the 250 boxes of width `0.1` on
`[0, 25]` the point 23 passes the domain test and gets coordinate 229, because the accumulated
boundary of box 230 has drifted above `23 + 5e-14`, where the floor is 230, with or without
rounding of the sum `23 + 5e-14`. -/
theorem CalculateContainingBoxDouble_floor_differs :
    (((0 : ℚ) < unitBoxesFrom256.mBoxWidth
        ∧ unitBoxesFrom256.mDomainSize.getD 0 0 ≤ belowBoundary.getD 0 0
        ∧ belowBoundary.getD 0 0 < unitBoxesFrom256.mDomainSize.getD 1 0)
      ∧ CalculateContainingBoxDouble unitBoxesFrom256 2 belowBoundary = .ok 1
      ∧ scanAxisDouble 2 unitBoxesFrom256.mBoxWidth (belowBoundary.getD 0 0)
          (unitBoxesFrom256.mDomainSize.getD 0 0) 0 = some 1
      ∧ ⌊(belowBoundary.getD 0 0 - unitBoxesFrom256.mDomainSize.getD 0 0 + mFudge)
          / unitBoxesFrom256.mBoxWidth⌋ = 0)
    ∧ (((0 : ℚ) < tenthBoxes.mBoxWidth
        ∧ tenthBoxes.mDomainSize.getD 0 0 ≤ (23 : ℚ)
        ∧ (23 : ℚ) < tenthBoxes.mDomainSize.getD 1 0)
      ∧ CalculateContainingBoxDouble tenthBoxes 230 [23] = .ok 229
      ∧ ⌊((23 : ℚ) - tenthBoxes.mDomainSize.getD 0 0 + mFudge) / tenthBoxes.mBoxWidth⌋ = 230
      ∧ ⌊(dadd 23 mFudgeDouble - tenthBoxes.mDomainSize.getD 0 0) / tenthBoxes.mBoxWidth⌋
          = 230) := by
  refine ⟨⟨by decide!, by decide!, by decide!, by decide!⟩,
    by decide!, by decide!, by decide!, by decide!⟩

/-- C9 (as amended): in `double` arithmetic, for a positive box width and a point that passes
the domain test of `CalculateContainingBox`, when the rounded sums `fl(x_i + 5e-14)` are not
below `min_i`, every box boundary `min_i + k*w` up to the one above `fl(x_i + 5e-14)` is
accumulated without rounding error and the coordinates are representable in 32 bits, there is
an iteration budget from which on the scan of every axis terminates with
`floor((fl(x_i + 5e-14) - min_i) / w)` and the call returns the `CalculateGlobalIndex` of
these coordinates, or fails its final assertion when that index is not below the number of
boxes. -/
theorem CalculateContainingBoxDouble_scan_floor (s : DistributedBoxCollection)
    (rLocation : List ℚ) (hw : 0 < s.mBoxWidth)
    (hin : ∀ i, i < s.DIM.toNat → s.mDomainSize.getD (2 * i) 0 ≤ rLocation.getD i 0
      ∧ rLocation.getD i 0 < s.mDomainSize.getD (2 * i + 1) 0)
    (hlow : ∀ i, i < s.DIM.toNat →
      s.mDomainSize.getD (2 * i) 0 ≤ dadd (rLocation.getD i 0) mFudgeDouble)
    (hexact : ∀ i, i < s.DIM.toNat → ∀ k : Nat,
      s.mDomainSize.getD (2 * i) 0 + k * s.mBoxWidth ≤ dadd (rLocation.getD i 0) mFudgeDouble
      → dadd (s.mDomainSize.getD (2 * i) 0 + k * s.mBoxWidth) s.mBoxWidth
          = s.mDomainSize.getD (2 * i) 0 + ((k : ℚ) + 1) * s.mBoxWidth)
    (hrep : ∀ i, i < s.DIM.toNat →
      dadd (rLocation.getD i 0) mFudgeDouble
        < s.mDomainSize.getD (2 * i) 0 + 4294967296 * s.mBoxWidth) :
    ∃ fuel0, ∀ fuel, fuel0 ≤ fuel →
      (∀ i, i < s.DIM.toNat →
          scanAxisDouble fuel s.mBoxWidth (rLocation.getD i 0)
              (s.mDomainSize.getD (2 * i) 0) 0
            = some ⌊(dadd (rLocation.getD i 0) mFudgeDouble - s.mDomainSize.getD (2 * i) 0)
                / s.mBoxWidth⌋.toNat)
        ∧ CalculateContainingBoxDouble s fuel rLocation =
            (if CalculateGlobalIndex s.DIM s.mNumBoxesEachDirection
                  ((List.range s.DIM.toNat).map (floorIndexDouble s rLocation))
                  < s.mNumBoxes then
                .ok (CalculateGlobalIndex s.DIM s.mNumBoxesEachDirection
                  ((List.range s.DIM.toNat).map (floorIndexDouble s rLocation)))
              else .error .assertion) := by
  refine ⟨floorIndexDouble s rLocation 0 + floorIndexDouble s rLocation 1
    + floorIndexDouble s rLocation 2 + 1, fun fuel hfuel => ?_⟩
  refine CalculateContainingBoxDouble_floor s rLocation hw hin hlow hexact
    (fun i hi => floorIndexDouble_lt s rLocation i 4294967296 hw (hlow i hi)
      (by exact_mod_cast hrep i hi)) fuel (fun i hi => ?_)
  have h3 := Dim.toNat_le s.DIM
  have : i = 0 ∨ i = 1 ∨ i = 2 := by omega
  rcases this with rfl | rfl | rfl <;> omega

theorem CalculateContainingBoxDouble_scan_floor_witness :
    ∃ fuel0, ∀ fuel, fuel0 ≤ fuel →
      (∀ i, i < unitBoxesFrom256.DIM.toNat →
          scanAxisDouble fuel unitBoxesFrom256.mBoxWidth (belowBoundary.getD i 0)
              (unitBoxesFrom256.mDomainSize.getD (2 * i) 0) 0
            = some ⌊(dadd (belowBoundary.getD i 0) mFudgeDouble
                  - unitBoxesFrom256.mDomainSize.getD (2 * i) 0)
                / unitBoxesFrom256.mBoxWidth⌋.toNat)
        ∧ CalculateContainingBoxDouble unitBoxesFrom256 fuel belowBoundary =
            (if CalculateGlobalIndex unitBoxesFrom256.DIM
                  unitBoxesFrom256.mNumBoxesEachDirection
                  ((List.range unitBoxesFrom256.DIM.toNat).map
                    (floorIndexDouble unitBoxesFrom256 belowBoundary))
                  < unitBoxesFrom256.mNumBoxes then
                .ok (CalculateGlobalIndex unitBoxesFrom256.DIM
                  unitBoxesFrom256.mNumBoxesEachDirection
                  ((List.range unitBoxesFrom256.DIM.toNat).map
                    (floorIndexDouble unitBoxesFrom256 belowBoundary)))
              else .error .assertion) :=
  CalculateContainingBoxDouble_scan_floor unitBoxesFrom256 belowBoundary (by decide!)
    (by decide!) (by decide!)
    (by
      intro i hi k hk
      have hi0 : i = 0 := by simp only [unitBoxesFrom256, Dim.toNat] at hi; omega
      subst hi0
      have hfx : dadd (belowBoundary.getD 0 0) mFudgeDouble = 257 := belowBoundary_shifted
      rw [hfx] at hk
      have hk1 : k ≤ 1 := by
        have h : (256 : ℚ) + k * 1 ≤ 257 := hk
        have h2 : (k : ℚ) ≤ 1 := by linarith
        exact_mod_cast h2
      interval_cases k
      · decide!
      · decide!)
    (by decide!)

theorem countBoxesDouble_no_progress (w upper c : ℚ)
    (hlt : dadd c mFudgeDouble < upper) (hsame : dadd c w = c) :
    ∀ (fuel num : Nat), countBoxesDouble fuel w upper c num = none := by
  intro fuel
  induction fuel with
  | zero => intro num; rfl
  | succ fuel ih =>
    intro num
    simp only [countBoxesDouble, hlt, if_true, hsame]
    exact ih _

theorem scanAxisDouble_no_progress (w x c : ℚ)
    (hle : ¬ (dadd c w > dadd x mFudgeDouble)) (hsame : dadd c w = c) :
    ∀ (fuel idx : Nat), scanAxisDouble fuel w x c idx = none := by
  intro fuel
  induction fuel with
  | zero => intro idx; rfl
  | succ fuel ih =>
    intro idx
    have hle2 : ¬ (c > dadd x mFudgeDouble) := by rw [hsame] at hle; exact hle
    simp only [scanAxisDouble, hsame, hle2, decide_False, Bool.not_false, if_true]
    exact ih _

/-- In `double` arithmetic the constructor builds the 10 by 10 grid of the worked example:
box width 1 on `[0, 10] x [0, 10]` gives the counts `(10, 10)`, 100 boxes and an unchanged
domain. -/
theorem newDistributedBoxCollectionDouble_ten_by_ten :
    (newDistributedBoxCollectionDouble .two 11 1 [0, 10, 0, 10] false 1 0
        (fun n => (0, n))).map
      (fun s => (s.mNumBoxesEachDirection, s.mDomainSize, s.mBoxes.length))
      = .ok ([10, 10], [0, 10, 0, 10], 100) := by
  decide!

/-- The collections `tenthBoxes` and `unitBoxesFrom256` are what the constructor builds in
`double` arithmetic on one process for the box width `0.1` on `[0, 25]` and for the box width 1
on `[256, 258]`. -/
theorem newDistributedBoxCollectionDouble_examples :
    (newDistributedBoxCollectionDouble .one 251 (roundDouble (1 / 10)) [0, 25] false 1 0
        (fun n => (0, n))).map
      (fun s => (s.mBoxWidth, s.mDomainSize, s.mNumBoxesEachDirection, s.mNumBoxes))
      = .ok (tenthBoxes.mBoxWidth, tenthBoxes.mDomainSize, tenthBoxes.mNumBoxesEachDirection,
          tenthBoxes.mNumBoxes)
    ∧ (newDistributedBoxCollectionDouble .one 3 1 [256, 258] false 1 0
        (fun n => (0, n))).map
      (fun s => (s.mBoxWidth, s.mDomainSize, s.mNumBoxesEachDirection, s.mNumBoxes))
      = .ok (unitBoxesFrom256.mBoxWidth, unitBoxesFrom256.mDomainSize,
          unitBoxesFrom256.mNumBoxesEachDirection, unitBoxesFrom256.mNumBoxes) := by
  constructor <;> decide!

/-- C26 does not hold of the constructor in `double` arithmetic. For the box width `0.1` and
the domain `[100, 103]` on one process the remainder `fmod(3, 0.1)` is positive, the sum that
should swell the domain rounds back to 103, and the counting loop, whose counter has drifted
below 103 by more than the fudge after 30 additions, counts 31 boxes: the extent 3 of the
domain is not `31 * box_width`. For the box width `5e-5` and the domain `[1e12, 1e12 + 1]`
the sum `counter + mBoxWidth` rounds back to `counter`, so the counting loop makes no progress
and the constructor does not return within any iteration budget. -/
theorem newDistributedBoxCollectionDouble_extra_box :
    ((mFudge < roundDouble (1 / 10) ∧ (100 : ℚ) ≤ 103)
      ∧ (newDistributedBoxCollectionDouble .one 32 (roundDouble (1 / 10)) [100, 103] false 1 0
            (fun n => (0, n))).map
          (fun s => (s.mNumBoxesEachDirection, s.mDomainSize, s.mBoxes.length))
          = .ok ([31], [100, 103], 31)
      ∧ (103 : ℚ) - 100 ≠ ((31 : Nat) : ℚ) * roundDouble (1 / 10))
    ∧ ((mFudge < roundDouble (5 / 100000) ∧ (1000000000000 : ℚ) ≤ 1000000000001)
      ∧ ∀ fuel, newDistributedBoxCollectionDouble .one fuel (roundDouble (5 / 100000))
          [1000000000000, 1000000000001] false 1 0 (fun n => (0, n)) = .error .outOfFuel) := by
  refine ⟨⟨by decide!, by decide!, by decide!⟩, by decide!, fun fuel => ?_⟩
  have hs : swellDomainDouble .one (roundDouble (5 / 100000)) [1000000000000, 1000000000001]
      = [1000000000000, (swellDomainDouble .one (roundDouble (5 / 100000))
          [1000000000000, 1000000000001]).getD 1 0] := by decide!
  have hc := countBoxesDouble_no_progress (roundDouble (5 / 100000))
    ((swellDomainDouble .one (roundDouble (5 / 100000))
      [1000000000000, 1000000000001]).getD 1 0) 1000000000000 (by decide!) (by decide!) fuel 0
  unfold newDistributedBoxCollectionDouble
  simp only [Bool.false_and, Bool.false_eq_true, if_false]
  have hr : List.range Dim.one.toNat = [0] := rfl
  rw [hr, hs]
  simp only [List.mapM_cons, List.mapM_nil, Nat.mul_zero, Nat.zero_add, List.getD_cons_zero,
    List.getD_cons_succ, hc]
  rfl

/-- C5 does not hold in one dimension for a collection that already holds stencils:
`SetupAllLocalBoxes` appends the new stencils in `case 1` without the `mLocalBoxes.clear()` of
`case 2` and `case 3`, and `GetLocalBoxes` reads the old ones. On three unit boxes,
`SetupLocalBoxesHalfOnly` followed by `SetupAllLocalBoxes` leaves box 1 with the stencil
`{1, 2}`, where the reference set is `{0, 1, 2}`. In two dimensions the same two calls on 2 by
2 boxes leave box 3 with the reference set. -/
theorem SetupAllLocalBoxes_keeps_old_stencils :
    (SetupLocalBoxesHalfOnly lineGrid = .ok lineGridHalf
      ∧ lineGridHalf.DIM = .one ∧ lineGridHalf.mIsPeriodicInX = false
      ∧ GetBoxOwnership lineGridHalf 1 = true
      ∧ GetLocalBoxes (SetupAllLocalBoxes lineGridHalf) 1 = .ok {1, 2}
      ∧ referenceStencil .one lineGridHalf.mNumBoxesEachDirection 1 = {0, 1, 2}
      ∧ (SetupAllLocalBoxes lineGridHalf).mLocalBoxes
          = [{0, 1}, {1, 2}, {2}, {0, 1}, {0, 1, 2}, {1, 2}])
    ∧ ((SetupLocalBoxesHalfOnly exampleGrid).map
          (fun s => (GetLocalBoxes s 3, GetLocalBoxes (SetupAllLocalBoxes s) 3))
        = .ok (.ok {3}, .ok (referenceStencil .two exampleGrid.mNumBoxesEachDirection 3))) := by
  refine ⟨⟨rfl, rfl, rfl, rfl, by decide, by decide, by decide⟩, by decide⟩

end Chaste
